import Mathlib

/-!
# TFTP client and server: packet codec and transfer engine

A shallow embedding of `tftp-packet-structures.cpp` and `tftp-communication.cpp`, and of
the parts of `tftp-client.cpp` and `tftp-server.cpp` that receive a request or a file.

Conventions of the embedding:

* a `char` is the natural number of its byte (`0 .. 255`); a C++ `string` and a
  `char *` buffer are lists of such bytes;
* a list handed to a decoder stands for the memory from the pointer on: the receive
  buffer and, where a statement names it, the memory behind the buffer (appended to the
  buffer, or the parameter `beyond` that the NETASCII branch of `receive_data` reaches).
  The transfer loops zero their buffer (`bzero`) before a datagram is stored in it, and
  the buffer of `start_listen`, zeroed once, is passed on from datagram to datagram, so a
  datagram shorter than the buffer is followed by NUL bytes of the buffer. Reading past
  the bytes a list carries yields NUL; a datagram that fills its buffer is followed in
  the source by whatever lies behind the buffer, and the statements about such a datagram
  append those bytes to the list;
* `unsigned short` values are naturals reduced modulo `2 ^ 16` where the source converts;
* the socket is a finite list of outcomes of the successive `select`/`recvfrom` calls;
  when the list is used up the line stays silent and every further wait times out.
-/

namespace Tftp

/-! ## Constants of the two headers -/

def RRQ_OPCODE : Nat := 1
def WRQ_OPCODE : Nat := 2
def DATA_OPCODE : Nat := 3
def ACK_OPCODE : Nat := 4
def ERROR_OPCODE : Nat := 5
def OACK_OPCODE : Nat := 6

def DATA_PACKET_OFFSET : Nat := 4

def DUPLICATED_PACKET : Int := -2
def PACKET_OK_CODE : Int := -1
def ERR_CODE_DISK_FULL : Int := 3
def ERR_CODE_ILLEGAL_OPERATION : Int := 4
def ERR_CODE_UNKNOWN_TID : Int := 5
def ERR_CODE_OPTIONS_FAILED : Int := 8

def PROG_RET_CODE_ERR : Int := 1
def PROG_RET_CODE_OK : Int := 0

def DEFAULT_BLOCK_SIZE : Nat := 512
def DEFAULT_TIMEOUT : Nat := 5
def SUPPORTED_OPTIONS_NUMBER : Nat := 3

def MIN_BLKSIZE_VALUE : Nat := 8
def MAX_BLKSIZE_VALUE : Nat := 65464
def MIN_TIMEOUT_VALUE : Nat := 1
def MAX_TIMEOUT_VALUE : Nat := 255

def ERR_CODE_SELECT : Int := -3
def ERR_CODE_TIMEOUT : Int := -2
def MAX_RETRANSMIT_ATTEMPTS : Nat := 3

def CR_VALUE : Nat := 13
def LF_VALUE : Nat := 10

def TID_NOT_SET_YET : Int := -1

/-- The bytes of an ASCII string literal of the source. -/
def ascii (s : String) : List Nat := s.toList.map Char.toNat

def MODE_OCTET : List Nat := ascii "octet"
def MODE_NETASCII : List Nat := ascii "netascii"

/-! ## Characters and 16-bit numbers -/

/-- The value of a byte as a (signed) `char` promoted to `int`. -/
def schar (b : Nat) : Int :=
  if b % 256 < 128 then ((b % 256 : Nat) : Int) else ((b % 256 : Nat) : Int) - 256

/-- The function `short_to_chars`: `number_chars[0] = short_number >> 8`,
`number_chars[1] = short_number & 0xFF`, each stored into a `char`. -/
def short_to_chars (short_number : Nat) : List Nat :=
  [(short_number >>> 8) % 256, (short_number &&& 0xFF) % 256]

/-- The function `chars_to_short`: `number_chars[0] << 8` converted to `ushort`, then
or-ed with `number_chars[1] & 0xFF`. -/
def chars_to_short (c0 c1 : Nat) : Nat :=
  ((schar c0 * 256) % 65536).toNat ||| ((schar c1) % 256).toNat

/-- The function `tolower` of the C locale on a byte. -/
def tolower (c : Nat) : Nat := if 65 ≤ c ∧ c ≤ 90 then c + 32 else c

/-- The byte `sequence[i]` of the memory at `sequence`; NUL past the bytes the list
carries. The source has no bound here: behind a buffer that holds no NUL it reads the
memory that follows, which a caller of the decoders appends to the list. -/
def charAt (sequence : List Nat) (i : Nat) : Nat := sequence.getD i 0

/-- The loop `while (sequence[i] != 0) out += sequence[i++]` started at the head of
`sequence`: the bytes before the first NUL. -/
def read_cstr : List Nat → List Nat
  | [] => []
  | c :: cs => if c = 0 then [] else c :: read_cstr cs

/-! ## Decimal conversions of the C++ library -/

/-- Worker of `to_string`: the decimal digits of `n`, most significant first, put in
front of `acc`. -/
def to_string_aux : Nat → Nat → List Nat → List Nat
  | 0, _, acc => acc
  | fuel + 1, n, acc =>
      if n < 10 then (48 + n) :: acc
      else to_string_aux fuel (n / 10) ((48 + n % 10) :: acc)

/-- The function `std::to_string` on an `unsigned int`. -/
def to_string (n : Nat) : List Nat := to_string_aux (n + 1) n []

def isspace (c : Nat) : Bool := c = 32 || (9 ≤ c && c ≤ 13)

def isdigit (c : Nat) : Bool := 48 ≤ c && c ≤ 57

/-- The value of the leading decimal digits of a string, continuing from `acc`. -/
def digits_value : List Nat → Nat → Nat
  | [], acc => acc
  | c :: cs, acc => if isdigit c then digits_value cs (acc * 10 + (c - 48)) else acc

/-- The function `std::stoi`: leading white space is skipped, an optional sign and the
leading decimal digits are read; `none` stands for a thrown exception
(`invalid_argument` without a digit, `out_of_range` outside the range of `int`). -/
def stoi (s : List Nat) : Option Int :=
  let s1 := s.dropWhile isspace
  let signed : Bool × List Nat :=
    match s1 with
    | 45 :: r => (true, r)
    | 43 :: r => (false, r)
    | _ => (false, s1)
  match signed.2 with
  | [] => none
  | c :: _ =>
      if isdigit c then
        let v : Int := if signed.1 then -((digits_value signed.2 0 : Nat) : Int)
                       else ((digits_value signed.2 0 : Nat) : Int)
        if -2147483648 ≤ v ∧ v ≤ 2147483647 then some v else none
      else none

/-! ## Packet structures -/

/-- The enumeration `options`. -/
inductive options where
  | NONE
  | BLOCKSIZE
  | TRANSFER_SIZE
  | TIMEOUT
deriving DecidableEq, Repr

/-- The structure `option_info_t`. The two fields without an initialiser hold whatever
the caller stored; a fresh structure is modelled with zero there. -/
structure option_info_t where
  blocksize : Nat := DEFAULT_BLOCK_SIZE
  transfer_size : Nat := 0
  timeout_interval : Nat := 0
  option_blocksize : Bool := false
  option_transfer_size : Bool := false
  option_timeout_interval : Bool := false
  option_order : List options := [options.NONE, options.NONE, options.NONE]
deriving DecidableEq, Repr

structure tftp_rrq_wrq_packet_t where
  opcode : Nat := 0
  filename : List Nat := []
  mode : List Nat := []
  options : option_info_t := {}
deriving DecidableEq, Repr

/-- The structure `tftp_data_packet_t`; `data` is the memory `char *data` points at. -/
structure tftp_data_packet_t where
  opcode : Nat := DATA_OPCODE
  block_number : Nat := 0
  data : List Nat := []
deriving DecidableEq, Repr

structure tftp_ack_packet_t where
  opcode : Nat := ACK_OPCODE
  block_number : Nat := 0
deriving DecidableEq, Repr

structure tftp_error_packet_t where
  opcode : Nat := ERROR_OPCODE
  error_code : Nat := 0
  error_message : List Nat := []
deriving DecidableEq, Repr

structure tftp_oack_packet_t where
  opcode : Nat := OACK_OPCODE
  options : option_info_t := {}
deriving DecidableEq, Repr

/-! ## Serialisation -/

/-- The function `serialize_option_info`. -/
def serialize_option_info (option_information : option_info_t) : List Nat :=
  let s0 : List Nat := []
  let s1 := if option_information.option_transfer_size then
      s0 ++ ascii "tsize" ++ ([0] ++ to_string option_information.transfer_size ++ [0])
    else s0
  let s2 := if option_information.option_timeout_interval then
      s1 ++ ascii "timeout" ++ ([0] ++ to_string option_information.timeout_interval ++ [0])
    else s1
  let s3 := if option_information.option_blocksize then
      s2 ++ ascii "blksize" ++ ([0] ++ to_string option_information.blocksize ++ [0])
    else s2
  s3

/-- The overload `serialize_packet_struct(tftp_rrq_wrq_packet_t*)`. -/
def serialize_packet_struct_rrq_wrq (packet_struct : tftp_rrq_wrq_packet_t) : List Nat :=
  let opcode_char := short_to_chars packet_struct.opcode
  let sequence_build :=
    [charAt opcode_char 1] ++ packet_struct.filename ++ [0] ++ packet_struct.mode ++ [0]
  let sequence_build := [charAt opcode_char 0] ++ sequence_build
  sequence_build ++ serialize_option_info packet_struct.options

/-- The overload `serialize_packet_struct(tftp_data_packet_t*, int)`. -/
def serialize_packet_struct_data (packet_struct : tftp_data_packet_t)
    (loaded_data_number : Nat) : List Nat :=
  short_to_chars packet_struct.opcode ++ short_to_chars packet_struct.block_number ++
    packet_struct.data.take loaded_data_number

/-- The overload `serialize_packet_struct(tftp_ack_packet_t*)`. -/
def serialize_packet_struct_ack (packet_struct : tftp_ack_packet_t) : List Nat :=
  short_to_chars packet_struct.opcode ++ short_to_chars packet_struct.block_number

/-- The overload `serialize_packet_struct(tftp_error_packet_t*)`. -/
def serialize_packet_struct_error (packet_struct : tftp_error_packet_t) : List Nat :=
  short_to_chars packet_struct.opcode ++ short_to_chars packet_struct.error_code ++
    (packet_struct.error_message ++ [0])

/-- The overload `serialize_packet_struct(tftp_oack_packet_t*)`. -/
def serialize_packet_struct_oack (packet_struct : tftp_oack_packet_t) : List Nat :=
  short_to_chars packet_struct.opcode ++ serialize_option_info packet_struct.options

/-! ## Deserialisation -/

/-- Conversion of an `int` to `unsigned int`. -/
def to_unsigned (v : Int) : Nat := (v % 4294967296).toNat

/-- The `for` loop of `deserialize_option_info`, one round per option; `i` is the index
into `sequence`. A round moves `i` forward by at least two, so `sequence.length` rounds
always reach the closing NUL. A write to `option_order` past its three entries is
dropped. -/
def deserialize_option_info_loop :
    Nat → option_info_t → List Nat → Nat → Nat → option_info_t
  | 0, option_information, _, _, _ => option_information
  | fuel + 1, option_information, sequence, i, order_number =>
      if charAt sequence i = 0 then option_information
      else
        let option := (read_cstr (sequence.drop i)).map tolower
        let i := i + option.length
        let i := i + 1
        let value := read_cstr (sequence.drop i)
        let i := i + value.length
        let i := i + 1
        match stoi value with
        | none => deserialize_option_info_loop fuel option_information sequence i order_number
        | some value_int =>
            if option = ascii "blksize" then
              deserialize_option_info_loop fuel
                { option_information with
                  option_blocksize := true
                  blocksize := to_unsigned value_int
                  option_order := option_information.option_order.set order_number
                    options.BLOCKSIZE }
                sequence i (order_number + 1)
            else if option = ascii "timeout" then
              deserialize_option_info_loop fuel
                { option_information with
                  option_timeout_interval := true
                  timeout_interval := to_unsigned value_int
                  option_order := option_information.option_order.set order_number
                    options.TIMEOUT }
                sequence i (order_number + 1)
            else if option = ascii "tsize" then
              deserialize_option_info_loop fuel
                { option_information with
                  option_transfer_size := true
                  transfer_size := to_unsigned value_int
                  option_order := option_information.option_order.set order_number
                    options.TRANSFER_SIZE }
                sequence i (order_number + 1)
            else deserialize_option_info_loop fuel option_information sequence i order_number

/-- The function `deserialize_option_info`. -/
def deserialize_option_info (option_information : option_info_t) (sequence : List Nat)
    (options_start_index : Nat) : option_info_t :=
  deserialize_option_info_loop sequence.length option_information sequence
    options_start_index 0

/-- The overload `deserialize_packet_struct(tftp_rrq_wrq_packet_t*, char*)`. -/
def deserialize_packet_struct_rrq_wrq (packet_struct : tftp_rrq_wrq_packet_t)
    (sequence : List Nat) : tftp_rrq_wrq_packet_t :=
  let i := 2
  let filename := read_cstr (sequence.drop i)
  let i := i + filename.length
  let i := i + 1
  let mode := (read_cstr (sequence.drop i)).map tolower
  let i := i + mode.length
  { opcode := chars_to_short (charAt sequence 0) (charAt sequence 1)
    filename := filename
    mode := mode
    options := deserialize_option_info packet_struct.options sequence (i + 1) }

/-- The overload `deserialize_packet_struct(tftp_data_packet_t*, char*)`; the payload
view starts `DATA_PACKET_OFFSET` bytes into the buffer. -/
def deserialize_packet_struct_data (sequence : List Nat) : tftp_data_packet_t :=
  { opcode := chars_to_short (charAt sequence 0) (charAt sequence 1)
    block_number := chars_to_short (charAt sequence 2) (charAt sequence 3)
    data := sequence.drop DATA_PACKET_OFFSET }

/-- The overload `deserialize_packet_struct(tftp_ack_packet_t*, char*)`. -/
def deserialize_packet_struct_ack (sequence : List Nat) : tftp_ack_packet_t :=
  { opcode := chars_to_short (charAt sequence 0) (charAt sequence 1)
    block_number := chars_to_short (charAt sequence 2) (charAt sequence 3) }

/-- The overload `deserialize_packet_struct(tftp_error_packet_t*, char*)`. -/
def deserialize_packet_struct_error (sequence : List Nat) : tftp_error_packet_t :=
  { opcode := chars_to_short (charAt sequence 0) (charAt sequence 1)
    error_code := chars_to_short (charAt sequence 2) (charAt sequence 3)
    error_message := read_cstr (sequence.drop 4) }

/-- The overload `deserialize_packet_struct(tftp_oack_packet_t*, char*)`. -/
def deserialize_packet_struct_oack (packet_struct : tftp_oack_packet_t)
    (sequence : List Nat) : tftp_oack_packet_t :=
  { opcode := chars_to_short (charAt sequence 0) (charAt sequence 1)
    options := deserialize_option_info packet_struct.options sequence 2 }

/-! ## Content checks

Each check returns its code together with the text left in `*error_message`. -/

/-- The overload `check_packet_content(tftp_rrq_wrq_packet_t*, string*)`. -/
def check_packet_content_rrq_wrq (packet_struct : tftp_rrq_wrq_packet_t) :
    Int × List Nat :=
  if packet_struct.opcode ≠ RRQ_OPCODE ∧ packet_struct.opcode ≠ WRQ_OPCODE then
    (ERR_CODE_ILLEGAL_OPERATION, ascii "Expected RRQ or WRQ packet")
  else if packet_struct.mode ≠ ascii "octet" ∧ packet_struct.mode ≠ ascii "netascii" then
    (ERR_CODE_ILLEGAL_OPERATION, ascii "Expected \x27octed\x27 or \x27netascii\x27")
  else (PACKET_OK_CODE, [])

/-- The overload `check_packet_content(tftp_ack_packet_t*, ushort, string*)`. -/
def check_packet_content_ack (packet_struct : tftp_ack_packet_t)
    (expected_block_number : Nat) : Int × List Nat :=
  if packet_struct.opcode ≠ ACK_OPCODE then
    (ERR_CODE_ILLEGAL_OPERATION, ascii "Expected ACK packet")
  else if packet_struct.block_number > expected_block_number then
    (ERR_CODE_ILLEGAL_OPERATION, ascii
      "Inconsistent acknowledgement - Expected block number is bigger than recieved.")
  else if packet_struct.block_number < expected_block_number then
    (DUPLICATED_PACKET, [])
  else (PACKET_OK_CODE, [])

/-- The overload `check_packet_content(tftp_data_packet_t*, ushort, string*)`. -/
def check_packet_content_data (packet_struct : tftp_data_packet_t)
    (expected_block_number : Nat) : Int × List Nat :=
  if packet_struct.opcode ≠ DATA_OPCODE then
    (ERR_CODE_ILLEGAL_OPERATION, ascii "Expected DATA packet")
  else if packet_struct.block_number < 1 then
    (ERR_CODE_ILLEGAL_OPERATION, ascii "DATA packet block number has to be greater than 0 ")
  else if packet_struct.block_number > expected_block_number then
    (ERR_CODE_ILLEGAL_OPERATION, ascii
      "DATA packet block number cannot be higher than the expected block number")
  else if packet_struct.block_number < expected_block_number then
    (DUPLICATED_PACKET, [])
  else (PACKET_OK_CODE, [])

end Tftp

namespace Tftp

/-! ## The socket and its environment

`log_wrq_rrq`, `log_data`, `log_ack`, `log_error`, `log_oack`, `log_options` and
`log_stranger_packet` only print to the error stream; they have no part in the embedding. -/

/-- The content of a `struct sockaddr_in`: an IP address and a UDP port. -/
structure Endpoint where
  ip : Nat
  port : Nat
deriving DecidableEq, Repr

/-- The outcome of one wait on the socket (`select` followed by `recvfrom`). -/
inductive NetEvent where
  | timeout
  | selectError
  | recvError
  | datagram (src : Endpoint) (bytes : List Nat)
deriving DecidableEq, Repr

/-- One `sendto` call: destination, bytes and the `flags` argument. Whether the socket
carries the call out depends on the flags (`udp_carries_out`). -/
structure Sent where
  dest : Endpoint
  bytes : List Nat
  flags : Nat
deriving DecidableEq, Repr

/-- The structure `connection_info_t` together with what the socket is connected to:
`address` is the content of `*connection_information->address`, `events` the outcomes of
the waits still to come, `sent` the `sendto` calls made so far, oldest first. -/
structure Net where
  address : Endpoint
  events : List NetEvent
  sent : List Sent
deriving DecidableEq, Repr

/-- A call `sendto(socket, packet, size, flags, connection_information->address, ...)`: the
call is put on the log with its flags. Every call of the source but one passes the flags
0; the datagrams that reach the wire are `packets_sent` of the log. -/
def sendto (conn : Net) (packet : List Nat) (flags : Nat) : Net :=
  { conn with sent := conn.sent ++ [⟨conn.address, packet, flags⟩] }

/-- What `recvfrom` leaves in a buffer of `cap` bytes: the datagram, cut to `cap` bytes,
over the old content. -/
def store (buffer bytes : List Nat) (cap : Nat) : List Nat :=
  bytes.take cap ++ buffer.drop (min bytes.length cap)

/-- The body of `recvfrom_timeout` for one outcome of the wait: the returned value, the
content of `*connection_information->address` and the buffer afterwards. -/
def recv_outcome (blocksize : Nat) (e : NetEvent) (address : Endpoint) (buffer : List Nat) :
    Int × Endpoint × List Nat :=
  match e with
  | .timeout => (ERR_CODE_TIMEOUT, address, buffer)
  | .selectError => (ERR_CODE_SELECT, address, buffer)
  | .recvError => (-1, address, buffer)
  | .datagram src bytes =>
      (((min bytes.length (blocksize + 4) : Nat) : Int), src, store buffer bytes (blocksize + 4))

/-- The function `recvfrom_timeout`. The length of the wait is not modelled. -/
def recvfrom_timeout (conn : Net) (blocksize : Nat) (buffer : List Nat) :
    Int × Net × List Nat :=
  match conn.events with
  | [] => (ERR_CODE_TIMEOUT, conn, buffer)
  | e :: rest =>
      let r := recv_outcome blocksize e conn.address buffer
      (r.1, { conn with address := r.2.1, events := rest }, r.2.2)

/-- The for loop of `send_error_packet` with `k` rounds left. -/
def send_error_packet_loop (error_packet : List Nat) : Nat → Net → Net
  | 0, conn => conn
  | k + 1, conn =>
      let conn := sendto conn error_packet 0
      let r := recvfrom_timeout conn DEFAULT_BLOCK_SIZE
        (List.replicate (DEFAULT_BLOCK_SIZE + DATA_PACKET_OFFSET) 0)
      if r.1 = ERR_CODE_TIMEOUT then r.2.1 else send_error_packet_loop error_packet k r.2.1

/-- The function `send_error_packet`. -/
def send_error_packet (conn : Net) (error_code : Int) (error_message : List Nat)
    (timeout_enable : Bool) : Net :=
  let error_packet := serialize_packet_struct_error
    { error_code := (error_code % 65536).toNat, error_message := error_message }
  if timeout_enable then send_error_packet_loop error_packet MAX_RETRANSMIT_ATTEMPTS conn
  else sendto conn error_packet 0

/-- The ERROR packet `recvfrom_retransmit` answers a stranger with. -/
def unknown_tid_packet : List Nat :=
  serialize_packet_struct_error
    { error_code := 5
      error_message :=
        ascii "Invalid TID - Transfer ID doesn\x27t match established communication" }

/-- The for loop of `recvfrom_retransmit` at index `i`, by recursion on the outcomes of
the waits. With no outcome left every remaining wait times out: the packet is re-sent
until `i` reaches `MAX_RETRANSMIT_ATTEMPTS`. -/
def recvfrom_retransmit_loop (blocksize : Nat) (packet : List Nat) (tid_expected : Int) :
    List NetEvent → Nat → Endpoint → List Sent → List Nat → Int × Net × List Nat
  | [], i, address, sent, buffer =>
      (-1, ⟨address, [],
        sent ++ List.replicate (MAX_RETRANSMIT_ATTEMPTS - i) ⟨address, packet, 0⟩⟩, buffer)
  | e :: events, i, address, sent, buffer =>
      if i = MAX_RETRANSMIT_ATTEMPTS then (-1, ⟨address, e :: events, sent⟩, buffer)
      else
        let r := recv_outcome blocksize e address buffer
        if r.1 = ERR_CODE_TIMEOUT then
          recvfrom_retransmit_loop blocksize packet tid_expected events (i + 1) address
            (sent ++ [⟨address, packet, 0⟩]) buffer
        else if r.1 < 0 then (-1, ⟨address, events, sent⟩, buffer)
        else if ((r.2.1.port : Nat) : Int) ≠ tid_expected ∧ tid_expected ≠ TID_NOT_SET_YET then
          recvfrom_retransmit_loop blocksize packet tid_expected events i r.2.1
            (sent ++ [⟨r.2.1, unknown_tid_packet, 0⟩]) r.2.2
        else (r.1, ⟨r.2.1, events, sent⟩, r.2.2)

/-- The function `recvfrom_retransmit`. -/
def recvfrom_retransmit (conn : Net) (blocksize : Nat) (buffer : List Nat)
    (packet : List Nat) (tid_expected : Int) : Int × Net × List Nat :=
  recvfrom_retransmit_loop blocksize packet tid_expected conn.events 0 conn.address
    conn.sent buffer

/-- The function `send_ack`: the packet sent, and the connection afterwards. -/
def send_ack (conn : Net) (block_number : Nat) : List Nat × Net :=
  let ack_packet := serialize_packet_struct_ack { block_number := block_number % 65536 }
  (ack_packet, sendto conn ack_packet 0)

/-- The function `send_data`. -/
def send_data (conn : Net) (block_number : Nat) (data_block : List Nat)
    (loaded_actual : Nat) : List Nat × Net :=
  let data_packet := serialize_packet_struct_data
    { block_number := block_number % 65536, data := data_block } loaded_actual
  (data_packet, sendto conn data_packet 0)

/-- The function `receive_ack`. -/
def receive_ack (conn : Net) (buffer : List Nat) (expected_block_number : Nat) :
    Int × Net :=
  let ack_packet_init := deserialize_packet_struct_ack buffer
  let r := check_packet_content_ack ack_packet_init (expected_block_number % 65536)
  if r.1 = ERR_CODE_ILLEGAL_OPERATION then (r.1, send_error_packet conn r.1 r.2 true)
  else (r.1, conn)

/-! ## Receiving side -/

/-- A call `memmove(&data[dst], &data[src], n)` on the memory `data`. -/
def memmove (data : List Nat) (dst src n : Nat) : List Nat :=
  (List.range (max data.length (dst + n))).map fun j =>
    if dst ≤ j ∧ j < dst + n then charAt data (j - dst + src) else charAt data j

/-- The for loop of the NETASCII branch of `receive_data` at index `i`: the memory behind
`data_packet.data` and `bytes_read` after the loop. Each round raises `i` or lowers
`bytes_read`, so `bytes_read` rounds are enough. -/
def netascii_to_linux_loop : Nat → List Nat → Nat → Nat → List Nat × Nat
  | 0, data, bytes_read, _ => (data, bytes_read)
  | fuel + 1, data, bytes_read, i =>
      if i + DATA_PACKET_OFFSET < bytes_read then
        if charAt data i = CR_VALUE then
          if charAt data (i + 1) = LF_VALUE then
            netascii_to_linux_loop fuel (memmove data i (i + 1) (bytes_read - i - 1))
              (bytes_read - 1) i
          else if charAt data (i + 1) = 0 then
            netascii_to_linux_loop fuel (memmove data (i + 1) (i + 2) (bytes_read - i - 2))
              (bytes_read - 1) (i + 1)
          else netascii_to_linux_loop fuel data bytes_read (i + 1)
        else netascii_to_linux_loop fuel data bytes_read (i + 1)
      else (data, bytes_read)

/-- The function `receive_data`. `buffer` is the receive buffer of the caller and `beyond`
the memory that lies behind it, which the NETASCII branch reads when a full block ends
in CR. Returns the code, the connection and the content of the file afterwards. -/
def receive_data (conn : Net) (buffer beyond : List Nat) (bytes_read : Nat)
    (file_write : List Nat) (mode : List Nat) (expected_block_number : Nat) :
    Int × Net × List Nat :=
  let data_packet := deserialize_packet_struct_data (buffer ++ beyond)
  let r := check_packet_content_data data_packet (expected_block_number % 65536)
  if r.1 = ERR_CODE_ILLEGAL_OPERATION then
    (r.1, send_error_packet conn r.1 r.2 true, file_write)
  else if r.1 = DUPLICATED_PACKET then (r.1, conn, file_write)
  else
    let d := if mode = MODE_NETASCII then
        netascii_to_linux_loop bytes_read data_packet.data bytes_read 0
      else (data_packet.data, bytes_read)
    (PACKET_OK_CODE, conn, file_write ++ d.1.take (d.2 - DATA_PACKET_OFFSET))

/-- The for loop that ends `write_to_file` after the last block, with `k` rounds left and
`i` the loop index, which the source passes to `sendto` as its flags. -/
def final_ack_loop (blocksize : Nat) (packet_to_be_send : List Nat) :
    Nat → Nat → Net → List Nat → Net
  | 0, _, conn, _ => conn
  | k + 1, i, conn, buffer =>
      let r := recvfrom_timeout conn blocksize buffer
      if r.1 = ERR_CODE_TIMEOUT then r.2.1
      else final_ack_loop blocksize packet_to_be_send k (i + 1)
        (sendto r.2.1 packet_to_be_send i) r.2.2

/-- The loops of `write_to_file`, one unit of fuel per call of `recvfrom_retransmit`;
`none` only when the fuel is used up. Returns the code, the connection and the content
of the file. -/
def write_to_file_loop (options : option_info_t) (mode : List Nat) (tid_expected : Int)
    (beyond : List Nat) :
    Nat → Net → List Nat → List Nat → Nat → Option (Int × Net × List Nat)
  | 0, _, _, _, _ => none
  | fuel + 1, conn, file_write, packet_to_be_send, expected_block_number =>
      let datagram_size := options.blocksize + DATA_PACKET_OFFSET
      let buffer := List.replicate datagram_size 0
      let rx := recvfrom_retransmit conn options.blocksize buffer packet_to_be_send
        tid_expected
      if rx.1 < 0 then some (PROG_RET_CODE_ERR, rx.2.1, file_write)
      else if chars_to_short (charAt rx.2.2 0) (charAt rx.2.2 1) = ERROR_OPCODE then
        some (PROG_RET_CODE_ERR, rx.2.1, file_write)
      else
        let rd := receive_data rx.2.1 rx.2.2 beyond rx.1.toNat file_write mode
          expected_block_number
        if rd.1 = ERR_CODE_ILLEGAL_OPERATION then some (PROG_RET_CODE_ERR, rd.2.1, rd.2.2)
        else
          let dup := if rd.1 = PACKET_OK_CODE then rd.2.1
            else sendto rd.2.1 packet_to_be_send 0
          if rd.1 ≠ PACKET_OK_CODE ∧ rd.1 ≠ 0 then
            write_to_file_loop options mode tid_expected beyond fuel dup rd.2.2
              packet_to_be_send expected_block_number
          else
            let ack := send_ack dup expected_block_number
            if rx.1 < datagram_size then
              some (PROG_RET_CODE_OK,
                final_ack_loop options.blocksize ack.1 MAX_RETRANSMIT_ATTEMPTS 0 ack.2 rx.2.2,
                rd.2.2)
            else
              write_to_file_loop options mode tid_expected beyond fuel ack.2 rd.2.2 ack.1
                (expected_block_number + 1)

/-- The function `write_to_file`. Every call of `recvfrom_retransmit` uses up an outcome
of the socket or fails, so one unit of fuel more than there are outcomes is enough. -/
def write_to_file (conn : Net) (options : option_info_t) (file_write : List Nat)
    (packet_to_be_send : List Nat) (mode : List Nat) (tid_expected : Int)
    (expected_block_number : Nat) (beyond : List Nat) : Option (Int × Net × List Nat) :=
  write_to_file_loop options mode tid_expected beyond (conn.events.length + 1) conn
    file_write packet_to_be_send expected_block_number

/-! ## Sending side -/

/-- The variables `read_from_file` keeps from one block to the next; `file` is what the
stream has not yet delivered. -/
structure reader_t where
  file : List Nat
  data_block : List Nat := []
  lf_on_new : Bool := false
  null_on_new : Bool := false
deriving DecidableEq, Repr

/-- The loop `while (loaded_actual < options->blocksize)` of `read_from_file`;
`loaded_actual` is the length of `data_block`. -/
def load_block_loop (blocksize : Nat) (mode : List Nat) :
    List Nat → List Nat → Bool → Bool → reader_t
  | [], data_block, lf_on_new, null_on_new => ⟨[], data_block, lf_on_new, null_on_new⟩
  | c :: file, data_block, lf_on_new, null_on_new =>
      if data_block.length < blocksize then
        if c = LF_VALUE ∧ mode = MODE_NETASCII then
          if (data_block ++ [CR_VALUE]).length = blocksize then
            load_block_loop blocksize mode file (data_block ++ [CR_VALUE]) true null_on_new
          else
            load_block_loop blocksize mode file (data_block ++ [CR_VALUE] ++ [c]) lf_on_new
              null_on_new
        else if c = CR_VALUE ∧ mode = MODE_NETASCII then
          if (data_block ++ [CR_VALUE]).length = blocksize then
            load_block_loop blocksize mode file (data_block ++ [CR_VALUE]) lf_on_new true
          else
            load_block_loop blocksize mode file (data_block ++ [CR_VALUE] ++ [0]) lf_on_new
              null_on_new
        else load_block_loop blocksize mode file (data_block ++ [c]) lf_on_new null_on_new
      else ⟨c :: file, data_block, lf_on_new, null_on_new⟩

/-- The part of the do loop of `read_from_file` that fills `data_block` (the byte carried
over from the previous block first). -/
def load_block (blocksize : Nat) (mode : List Nat) (r : reader_t) : reader_t :=
  if r.lf_on_new then load_block_loop blocksize mode r.file [LF_VALUE] false r.null_on_new
  else if r.null_on_new then load_block_loop blocksize mode r.file [0] r.lf_on_new false
  else load_block_loop blocksize mode r.file [] r.lf_on_new r.null_on_new

/-- The loops of `read_from_file` from the wait for the acknowledgement of the block
just sent, one unit of fuel per call of `recvfrom_retransmit`; `none` only when the fuel
is used up. `r.data_block` is the block just sent. -/
def read_from_file_loop (options : option_info_t) (mode : List Nat) (tid_expected : Int) :
    Nat → Net → reader_t → List Nat → Nat → Option (Int × Net)
  | 0, _, _, _, _ => none
  | fuel + 1, conn, r, packet_to_be_send, current_block_number =>
      let datagram_size := options.blocksize + DATA_PACKET_OFFSET
      let buffer := List.replicate datagram_size 0
      let rx := recvfrom_retransmit conn options.blocksize buffer packet_to_be_send
        tid_expected
      if rx.1 < 0 then some (1, rx.2.1)
      else if chars_to_short (charAt rx.2.2 0) (charAt rx.2.2 1) = ERROR_OPCODE then
        some (1, rx.2.1)
      else
        let ra := receive_ack rx.2.1 rx.2.2 current_block_number
        if ra.1 = ERR_CODE_ILLEGAL_OPERATION then some (1, ra.2)
        else if ra.1 ≠ PACKET_OK_CODE ∧ ra.1 = DUPLICATED_PACKET then
          read_from_file_loop options mode tid_expected fuel ra.2 r packet_to_be_send
            current_block_number
        else
          let current_block_number := (current_block_number + 1) % 65536
          if r.data_block.length ≥ options.blocksize then
            let r := load_block options.blocksize mode r
            let sd := send_data ra.2 current_block_number r.data_block r.data_block.length
            read_from_file_loop options mode tid_expected fuel sd.2 r sd.1
              current_block_number
          else some (0, ra.2)

/-- The function `read_from_file` on a file with the given content. -/
def read_from_file (conn : Net) (file : List Nat) (options : option_info_t)
    (mode : List Nat) (tid_expected : Int) : Option (Int × Net) :=
  let r := load_block options.blocksize mode { file := file }
  let sd := send_data conn 1 r.data_block r.data_block.length
  read_from_file_loop options mode tid_expected (conn.events.length + 1) sd.2 r sd.1 1

end Tftp

namespace Tftp

/-! ## Traces used in the statements -/

/-- The acknowledgements ACK(c), ACK(c + 1), ... (`n` of them) arriving from `src`. -/
def ack_datagrams (src : Endpoint) (c n : Nat) : List NetEvent :=
  (List.range' c n).map fun b =>
    NetEvent.datagram src (serialize_packet_struct_ack { block_number := b })

/-- The packets DATA(c), DATA(c + 1), ... carrying the payloads `ps`, arriving from `src`. -/
def data_datagrams (src : Endpoint) (c : Nat) (ps : List (List Nat)) : List NetEvent :=
  List.zipWith (fun b p => NetEvent.datagram src
      (serialize_packet_struct_data { block_number := b, data := p } p.length))
    (List.range' c ps.length) ps

/-- The packets DATA(c), DATA(c + 1), ... carrying the payloads `ps`. -/
def data_packets (c : Nat) (ps : List (List Nat)) : List (List Nat) :=
  List.zipWith (fun b p => serialize_packet_struct_data { block_number := b, data := p } p.length)
    (List.range' c ps.length) ps

/-- The `sendto` calls that carry ACK(c), ACK(c + 1), ... (`n` of them) to `dest`. -/
def ack_sends (dest : Endpoint) (c n : Nat) : List Sent :=
  (List.range' c n).map fun b =>
    ⟨dest, serialize_packet_struct_ack { block_number := b }, 0⟩

/-- The datagrams of a trace that pass the TID check of `recvfrom_retransmit`, in order. -/
def accepted_datagrams (tid_expected : Int) (events : List NetEvent) : List (List Nat) :=
  events.filterMap fun e =>
    match e with
    | .datagram src bytes =>
        if ((src.port : Nat) : Int) ≠ tid_expected ∧ tid_expected ≠ TID_NOT_SET_YET then none
        else some bytes
    | _ => none

/-- Whether a packet starts with the given opcode and block number. -/
def has_header (opcode block_number : Nat) (bytes : List Nat) : Bool :=
  bytes.take 4 == short_to_chars opcode ++ short_to_chars block_number

/-- How often a packet with the given opcode and block number was handed to `sendto`. -/
def transmissions (opcode block_number : Nat) (sent : List Sent) : Nat :=
  sent.countP fun x => has_header opcode block_number x.bytes

/-- The `sendto` calls that carry `file` to `dest` in `n` blocks of `B` bytes numbered from
`c`: block `c + k` holds the bytes `k * B ..` of the file. -/
def data_sends (dest : Endpoint) (B : Nat) (file : List Nat) (c n : Nat) : List Sent :=
  (List.range n).map fun k =>
    ⟨dest, serialize_packet_struct_data
      { block_number := c + k, data := (file.drop (k * B)).take B }
      ((file.drop (k * B)).take B).length, 0⟩

end Tftp

namespace Tftp

/-! ## Option negotiation

Both negotiation functions return their code, the option set they update and the text
in `*error_message` afterwards (the text the caller passed when it is not written). -/

/-- The function `negotiate_option_client`; the option set returned is `*client_options`
afterwards. -/
def negotiate_option_client (client_options server_options : option_info_t)
    (error_message : List Nat) : Int × option_info_t × List Nat :=
  if (server_options.option_blocksize && !client_options.option_blocksize) ||
      (server_options.option_timeout_interval && !client_options.option_timeout_interval) ||
      (server_options.option_transfer_size && !client_options.option_transfer_size) then
    (ERR_CODE_OPTIONS_FAILED, client_options, error_message)
  else
    let blocksize_step : Option option_info_t :=
      if client_options.option_blocksize && server_options.option_blocksize then
        if client_options.blocksize < server_options.blocksize ∨
            server_options.blocksize < MIN_BLKSIZE_VALUE ∨
            server_options.blocksize > MAX_BLKSIZE_VALUE then none
        else some { client_options with blocksize := server_options.blocksize }
      else some { client_options with blocksize := DEFAULT_BLOCK_SIZE }
    match blocksize_step with
    | none =>
        (ERR_CODE_OPTIONS_FAILED, client_options,
          ascii "Block size - offered value was not accepted")
    | some client_options =>
        if client_options.option_timeout_interval && server_options.option_timeout_interval then
          if client_options.timeout_interval ≠ server_options.timeout_interval ∨
              server_options.timeout_interval < MIN_TIMEOUT_VALUE ∨
              server_options.timeout_interval > MAX_TIMEOUT_VALUE then
            (ERR_CODE_OPTIONS_FAILED, client_options,
              ascii "Timeout interval - offered value was not accepted")
          else (PACKET_OK_CODE, client_options, error_message)
        else
          (PACKET_OK_CODE, { client_options with timeout_interval := DEFAULT_TIMEOUT },
            error_message)

/-- The function `negotiate_option_server`; the option set returned is `*server_options`
afterwards. -/
def negotiate_option_server (client_options server_options : option_info_t)
    (error_message : List Nat) : Int × option_info_t × List Nat :=
  let blocksize_step : Option option_info_t :=
    if client_options.option_blocksize && server_options.option_blocksize then
      if client_options.blocksize < MIN_BLKSIZE_VALUE ∨
          client_options.blocksize > MAX_BLKSIZE_VALUE then none
      else some { server_options with blocksize := client_options.blocksize }
    else some { server_options with blocksize := DEFAULT_BLOCK_SIZE }
  match blocksize_step with
  | none =>
      (ERR_CODE_OPTIONS_FAILED, server_options, ascii
        "Block size - offered value is outside of range of alloved values <8, 65464>")
  | some server_options =>
      if client_options.option_timeout_interval && server_options.option_timeout_interval then
        if client_options.timeout_interval < MIN_TIMEOUT_VALUE ∨
            client_options.timeout_interval > MAX_TIMEOUT_VALUE then
          (ERR_CODE_OPTIONS_FAILED, server_options, ascii
            "Timeout interval - offered value is outside of range of alloved values <1, 255>")
        else
          (PACKET_OK_CODE,
            { server_options with timeout_interval := client_options.timeout_interval },
            error_message)
      else
        (PACKET_OK_CODE, { server_options with timeout_interval := DEFAULT_TIMEOUT },
          error_message)

/-- The function `send_oack`: the packet sent, the connection and `*server_options`
afterwards. `file_size` is what `fs::file_size(path)` returns; the cast to
`unsigned int` keeps its low 32 bits. -/
def send_oack (conn : Net) (init_options server_options : option_info_t) (file_size : Nat)
    (is_rrq : Bool) : List Nat × Net × option_info_t :=
  let server_options :=
    if !init_options.option_blocksize then { server_options with option_blocksize := false }
    else server_options
  let server_options :=
    if !init_options.option_timeout_interval then
      { server_options with option_timeout_interval := false }
    else server_options
  let server_options :=
    if !init_options.option_transfer_size then
      { server_options with option_transfer_size := false }
    else
      { server_options with
        transfer_size := if is_rrq then file_size % 4294967296
          else init_options.transfer_size }
  let oack_packet := serialize_packet_struct_oack { options := server_options }
  (oack_packet, sendto conn oack_packet 0, server_options)

/-! ## Option trailers and block numbers used in the statements -/

/-- An option trailer with one `name NUL value NUL` group per entry, in the given order;
an option may be listed more than once. -/
def option_trailer : List (List Nat × List Nat) → List Nat
  | [] => []
  | e :: es => e.1 ++ 0 :: (e.2 ++ 0 :: option_trailer es)

/-- What one group of a trailer means to `deserialize_option_info`: the option its name
stands for and the value, or nothing when `stoi` throws on the value or the name is not
one of the three supported ones. -/
def option_of_group (e : List Nat × List Nat) : Option (options × Nat) :=
  match stoi e.2 with
  | none => none
  | some value_int =>
      if e.1.map tolower = ascii "blksize" then some (options.BLOCKSIZE, to_unsigned value_int)
      else if e.1.map tolower = ascii "timeout" then
        some (options.TIMEOUT, to_unsigned value_int)
      else if e.1.map tolower = ascii "tsize" then
        some (options.TRANSFER_SIZE, to_unsigned value_int)
      else none

/-- The value of the last entry of a list of options that names the given option. -/
def last_value (o : options) (es : List (options × Nat)) : Option Nat :=
  ((es.filter fun e => e.1 = o).map Prod.snd).getLast?

/-- The value of the first entry of a list of options that names the given option. -/
def first_value (o : options) (es : List (options × Nat)) : Option Nat :=
  ((es.filter fun e => e.1 = o).map Prod.snd).head?

/-- The block numbers of the packets with the given opcode in a log of `sendto` calls,
oldest first. -/
def block_numbers (opcode : Nat) (sent : List Sent) : List Nat :=
  sent.filterMap fun x =>
    if x.bytes.take 2 = short_to_chars opcode then
      some (chars_to_short (charAt x.bytes 2) (charAt x.bytes 3))
    else none

end Tftp

namespace Tftp

/-! ## Deadlines of the waits -/

/-- The function `receive_wrq_rrq`: the code, the connection and the packet structure
afterwards. -/
def receive_wrq_rrq (conn : Net) (init_communication_packet : tftp_rrq_wrq_packet_t)
    (buffer : List Nat) : Int × Net × tftp_rrq_wrq_packet_t :=
  let packet := deserialize_packet_struct_rrq_wrq init_communication_packet buffer
  let r := check_packet_content_rrq_wrq packet
  if r.1 ≠ PACKET_OK_CODE then (r.1, send_error_packet conn r.1 r.2 true, packet)
  else (PACKET_OK_CODE, conn, packet)

/-- One round of the `while (true)` of `start_listen` up to the point where the child
process creates its transfer socket. `recvfrom` stores the datagram in the buffer of
`DEFAULT_BLOCK_SIZE + DATA_PACKET_OFFSET` bytes and its source in the address; the child
ends at once on an ERROR packet and on a packet that `receive_wrq_rrq` rejects (result
`none`: no transfer is started), else it goes on with the request. Returns the
connection of the main socket, the buffer and the request. -/
def start_listen_request (conn : Net) (buffer : List Nat) (src : Endpoint)
    (bytes : List Nat) : Net × List Nat × Option tftp_rrq_wrq_packet_t :=
  let buffer := store buffer bytes (DEFAULT_BLOCK_SIZE + DATA_PACKET_OFFSET)
  let conn := { conn with address := src }
  if chars_to_short (charAt buffer 0) (charAt buffer 1) = ERROR_OPCODE then
    (conn, buffer, none)
  else
    let r := receive_wrq_rrq conn {} buffer
    if r.1 ≠ PACKET_OK_CODE then (r.2.1, buffer, none)
    else (r.2.1, buffer, some r.2.2)

/-! ## NETASCII as the statements describe it -/

/-- The NETASCII form of a byte sequence: LF becomes CR LF, CR becomes CR NUL, every other
byte stays. -/
def to_netascii : List Nat → List Nat
  | [] => []
  | c :: s =>
      if c = LF_VALUE then CR_VALUE :: LF_VALUE :: to_netascii s
      else if c = CR_VALUE then CR_VALUE :: 0 :: to_netascii s
      else c :: to_netascii s

/-- The byte that `read_from_file` has still to put at the head of the next block: the LF
of a CR LF pair or the NUL of a CR NUL pair that did not fit into the block just filled. -/
def carried_byte (r : reader_t) : List Nat :=
  if r.lf_on_new then [LF_VALUE] else if r.null_on_new then [0] else []

/-! ## Letter case as the statements describe it -/

/-- Whether two bytes are the same character up to the case of an ASCII letter: equal, or
an upper-case letter `A .. Z` and its lower-case form. -/
def same_letter (c d : Nat) : Bool :=
  c == d || (65 ≤ c && c ≤ 90 && d == c + 32) || (65 ≤ d && d ≤ 90 && c == d + 32)

/-- Whether two strings differ at most in the case of ASCII letters. -/
def same_letters : List Nat → List Nat → Bool
  | [], [] => true
  | c :: cs, d :: ds => same_letter c d && same_letters cs ds
  | _, _ => false

/-- Whether two lists of option groups have the same values and names that differ at most
in the case of ASCII letters, group by group. -/
def same_groups : List (List Nat × List Nat) → List (List Nat × List Nat) → Bool
  | [], [] => true
  | e :: es, f :: fs => same_letters e.1 f.1 && e.2 == f.2 && same_groups es fs
  | _, _ => false

/-! ## The files of the host

The client and the server create, close and remove files by their path. -/

/-- The files of a host: the content stored under a path, if the path exists. -/
abbrev Files := List Nat → Option (List Nat)

/-- The constructor `ofstream file_write(path)`. `opens` says whether the open succeeds:
then the file exists from this moment on, empty; when the open fails no file is made and
whatever is written to the stream is lost. -/
def open_file (files : Files) (path : List Nat) (opens : Bool) : Files :=
  if opens then fun p => if p = path then some [] else files p else files

/-- The call `file_write.close()` (or the destructor) on a stream that was opened on `path`
and to which `content` was written: the file holds the content; on a stream whose open
failed nothing happens. -/
def close_file (files : Files) (path content : List Nat) (opens : Bool) : Files :=
  if opens then fun p => if p = path then some content else files p else files

/-- The function `remove` of the C library. -/
def remove (files : Files) (path : List Nat) : Files :=
  fun p => if p = path then none else files p

/-- The function `close_remove_file`; `file_stream` is the content written to the stream,
which both callers opened on `file_to_be_remove`, and `opens` whether that open had
succeeded. -/
def close_remove_file (files : Files) (file_stream file_to_be_remove : List Nat)
    (opens : Bool) : Files :=
  remove (close_file files file_to_be_remove file_stream opens) file_to_be_remove

/-- The function `get_cin_size`: the standard input is written to the temporary file and
its size is returned as an `unsigned int`. The open of the temporary file is taken to
succeed (`fs::file_size` throws when the file is not there). -/
def get_cin_size (files : Files) (stdin temp_path : List Nat) : Nat × Files :=
  (stdin.length % 4294967296,
    close_file (open_file files temp_path true) temp_path stdin true)

/-! ## The client -/

def ERR_CODE_FILE_EXISTS : Int := 6

/-- The structure `communication_info_t`. -/
structure communication_info_t where
  path_was_given : Bool
  mode : List Nat := MODE_OCTET
  file_path_source : List Nat
  file_path_dest : List Nat
deriving DecidableEq, Repr

/-- The function `send_wrq_rrq`: the packet sent, the connection, the files and
`*init_communication_packet` afterwards. `get_cin_size` is called for a WRQ only. -/
def send_wrq_rrq (conn : Net) (files : Files) (stdin : List Nat)
    (communication_information : communication_info_t) (option_information : option_info_t)
    (is_rrq : Bool) (temp_path : List Nat) :
    List Nat × Net × Files × tftp_rrq_wrq_packet_t :=
  let cin := get_cin_size files stdin temp_path
  let init_communication_packet : tftp_rrq_wrq_packet_t :=
    if is_rrq then
      { opcode := RRQ_OPCODE
        filename := communication_information.file_path_source
        mode := communication_information.mode
        options := { option_information with transfer_size := 0 } }
    else
      { opcode := WRQ_OPCODE
        filename := communication_information.file_path_dest
        mode := communication_information.mode
        options := { option_information with transfer_size := cin.1 } }
  let files := if is_rrq then files else cin.2
  let packet := serialize_packet_struct_rrq_wrq init_communication_packet
  (packet, sendto conn packet 0, files, init_communication_packet)

/-- The function `receive_oack`: the code, the connection and `*init_options` afterwards.
`available` is what `fs::space("./").available` returns. -/
def receive_oack (conn : Net) (init_options : option_info_t) (buffer : List Nat)
    (available : Nat) : Int × Net × option_info_t :=
  let oack_packet_struct := deserialize_packet_struct_oack {} buffer
  let r := negotiate_option_client init_options oack_packet_struct.options []
  if r.1 ≠ PACKET_OK_CODE then (r.1, send_error_packet conn r.1 r.2.2 true, r.2.1)
  else if r.2.1.option_transfer_size ∧ r.2.1.transfer_size = 0 ∧
      available < oack_packet_struct.options.transfer_size then
    (ERR_CODE_DISK_FULL,
      send_error_packet conn ERR_CODE_DISK_FULL
        (ascii "Transfer size - not enough space on disk to download the file") true,
      r.2.1)
  else (PACKET_OK_CODE, conn, r.2.1)

/-- The `return` by which the RRQ branch of `execute_transfer` ends, in the order of the
source; `engine` is the end of the branch, reached with `write_to_file_ret_code`. -/
inductive execute_transfer_exit where
  | file_exists
  | no_reply
  | peer_error
  | oack_rejected
  | data_rejected
  | single_block
  | engine (write_to_file_ret_code : Int)
deriving DecidableEq, Repr

/-- The branch `if (communication_information->path_was_given)` of `execute_transfer`, the
read of a file from the server: the `return` taken, the connection and the files
afterwards. `opens` says whether the open of the destination by
`ofstream file_write(...)` succeeds; `files` from that line on has the file the
constructor made. `none` only when `write_to_file` runs out of fuel. -/
def execute_transfer_rrq (conn : Net) (files : Files)
    (communication_information : communication_info_t) (option_information : option_info_t)
    (available : Nat) (opens : Bool) (beyond : List Nat) :
    Option (execute_transfer_exit × Net × Files) :=
  let default_options : option_info_t :=
    { blocksize := DEFAULT_BLOCK_SIZE, timeout_interval := DEFAULT_TIMEOUT }
  let buffer := List.replicate (DEFAULT_BLOCK_SIZE + DATA_PACKET_OFFSET) 0
  let file_path_dest := communication_information.file_path_dest
  if (files file_path_dest).isSome then some (.file_exists, conn, files)
  else
    let sq := send_wrq_rrq conn files [] communication_information option_information true []
    let rx := recvfrom_retransmit sq.2.1 option_information.blocksize buffer sq.1
      TID_NOT_SET_YET
    if rx.1 < 0 then some (.no_reply, rx.2.1, files)
    else
      let tid_server : Int := ((rx.2.1.address.port : Nat) : Int)
      let files := open_file files file_path_dest opens
      let file_write : List Nat := []
      if chars_to_short (charAt rx.2.2 0) (charAt rx.2.2 1) = ERROR_OPCODE then
        some (.peer_error, rx.2.1, close_remove_file files file_write file_path_dest opens)
      else if chars_to_short (charAt rx.2.2 0) (charAt rx.2.2 1) = OACK_OPCODE then
        let ro := receive_oack rx.2.1 sq.2.2.2.options rx.2.2 available
        if ro.1 ≠ PACKET_OK_CODE then
          some (.oack_rejected, ro.2.1,
            close_remove_file files file_write file_path_dest opens)
        else
          let ack := send_ack ro.2.1 0
          (write_to_file ack.2 ro.2.2 file_write ack.1 communication_information.mode
            tid_server 1 beyond).map fun w =>
              (.engine w.1, w.2.1,
                if w.1 = PROG_RET_CODE_ERR then
                  remove (close_file files file_path_dest w.2.2 opens) file_path_dest
                else close_file files file_path_dest w.2.2 opens)
      else
        let rd := receive_data rx.2.1 rx.2.2 beyond rx.1.toNat file_write
          communication_information.mode 1
        if rd.1 ≠ PACKET_OK_CODE then
          some (.data_rejected, rd.2.1, close_remove_file files rd.2.2 file_path_dest opens)
        else
          let ack := send_ack rd.2.1 1
          if rx.1 < ((DEFAULT_BLOCK_SIZE + DATA_PACKET_OFFSET : Nat) : Int) then
            some (.single_block, ack.2, close_file files file_path_dest rd.2.2 opens)
          else
            (write_to_file ack.2 default_options rd.2.2 ack.1 communication_information.mode
              tid_server 2 beyond).map fun w =>
                (.engine w.1, w.2.1,
                  if w.1 = PROG_RET_CODE_ERR then
                    remove (close_file files file_path_dest w.2.2 opens) file_path_dest
                  else close_file files file_path_dest w.2.2 opens)

/-! ## The server -/

/-- The function `are_options_used`. -/
def are_options_used (options : option_info_t) : Bool :=
  options.option_blocksize || options.option_timeout_interval || options.option_transfer_size

/-- The way the branch of `start_listen` for a WRQ ends, in the order of the source;
`engine` is the end of the branch, reached with `write_to_file_ret_code`. -/
inductive start_listen_exit where
  | file_exists
  | disk_full
  | options_rejected
  | engine (write_to_file_ret_code : Int)
deriving DecidableEq, Repr

/-- The branch `else if (init_communication_packet.opcode == WRQ_OPCODE)` of the child
process in `start_listen`, the write of a file to the server; `conn` is the connection of
the transfer socket, `available` what `fs::space("./").available` returns, `opens`
whether the open of the destination by `ofstream file_write(...)` succeeds; `files` from
that line on has the file the constructor made. `none` only when `write_to_file` runs out
of fuel. -/
def start_listen_wrq (conn : Net) (files : Files) (root_dirpath : List Nat)
    (init_communication_packet : tftp_rrq_wrq_packet_t) (option_information : option_info_t)
    (available : Nat) (opens : Bool) (tid_client : Int) (beyond : List Nat) :
    Option (start_listen_exit × Net × Files) :=
  let default_options : option_info_t :=
    { blocksize := DEFAULT_BLOCK_SIZE, timeout_interval := DEFAULT_TIMEOUT }
  let full_path_file := root_dirpath ++ ascii "/" ++ init_communication_packet.filename
  if (files full_path_file).isSome then
    some (.file_exists,
      send_error_packet conn ERR_CODE_FILE_EXISTS
        (ascii "File - file to write to already exists") true, files)
  else if init_communication_packet.options.option_transfer_size ∧
      available < init_communication_packet.options.transfer_size then
    some (.disk_full,
      send_error_packet conn ERR_CODE_DISK_FULL
        (ascii "Transfer size - not enough space on disk to download the file") true, files)
  else
    let files := open_file files full_path_file opens
    let file_write : List Nat := []
    if are_options_used init_communication_packet.options then
      let n := negotiate_option_server init_communication_packet.options option_information []
      if n.1 ≠ PACKET_OK_CODE then
        some (.options_rejected, send_error_packet conn n.1 n.2.2 true,
          close_remove_file files file_write full_path_file opens)
      else
        let so := send_oack conn init_communication_packet.options n.2.1 0 false
        (write_to_file so.2.1 so.2.2 file_write so.1 init_communication_packet.mode
          tid_client 1 beyond).map fun w =>
            (.engine w.1, w.2.1,
              if w.1 = PROG_RET_CODE_ERR then
                remove (close_file files full_path_file w.2.2 opens) full_path_file
              else close_file files full_path_file w.2.2 opens)
    else
      let ack := send_ack conn 0
      (write_to_file ack.2 default_options file_write ack.1 init_communication_packet.mode
        tid_client 1 beyond).map fun w =>
          (.engine w.1, w.2.1,
            if w.1 = PROG_RET_CODE_ERR then
              remove (close_file files full_path_file w.2.2 opens) full_path_file
            else close_file files full_path_file w.2.2 opens)

/-! ## What a UDP socket does with a `sendto` call -/

/-- The flag `MSG_OOB` of `<sys/socket.h>`. -/
def MSG_OOB : Nat := 1

/-- Whether a UDP socket carries out a `sendto` call with these flags: a call with
`MSG_OOB` among its flags is refused (`EOPNOTSUPP`) and puts nothing on the wire. -/
def udp_carries_out (flags : Nat) : Bool := flags &&& MSG_OOB == 0

/-- The calls of a log of `sendto` calls that put a datagram on the wire. -/
def packets_sent (sent : List Sent) : List Sent :=
  sent.filter fun x => udp_carries_out x.flags

end Tftp

namespace Tftp

/-! ## Basic facts about bytes and strings -/

theorem chars_to_short_of_bytes (a b : Nat) (ha : a < 256) (hb : b < 256) :
    chars_to_short a b = a * 256 + b := by
  have h1 : ((schar a * 256) % 65536).toNat = 2 ^ 8 * a := by
    unfold schar
    split <;> omega
  have h2 : ((schar b) % 256).toNat = b := by
    unfold schar
    split <;> omega
  unfold chars_to_short
  rw [h1, h2, ← Nat.mul_add_lt_is_or (by simpa using hb)]
  omega

theorem short_to_chars_eq (n : Nat) : short_to_chars n = [n / 256 % 256, n % 256] := by
  have h1 : n >>> 8 = n / 256 := by simp [Nat.shiftRight_eq_div_pow]
  have h2 : n &&& 0xFF = n % 256 := by
    simpa using Nat.and_pow_two_sub_one_eq_mod n 8
  simp [short_to_chars, h1, h2]

theorem chars_to_short_short_to_chars (n : Nat) (hn : n < 65536) :
    chars_to_short (n / 256 % 256) (n % 256) = n := by
  rw [chars_to_short_of_bytes _ _ (Nat.mod_lt _ (by decide)) (Nat.mod_lt _ (by decide))]
  omega

theorem read_cstr_append_nul (m rest : List Nat) (hm : ∀ c ∈ m, c ≠ 0) :
    read_cstr (m ++ 0 :: rest) = m := by
  induction m with
  | nil => simp [read_cstr]
  | cons c cs ih =>
      have hc : c ≠ 0 := hm c (by simp)
      have hcs : ∀ x ∈ cs, x ≠ 0 := fun x hx => hm x (by simp [hx])
      simp [read_cstr, hc, ih hcs]

end Tftp

namespace Tftp

/-! ## Codec round trips -/

/-- C4. DATA and ACK round trip: for a 16-bit block number `b` and `n` payload bytes taken
from `data`, the serialised DATA packet has `n + 4` bytes and deserialises (from a buffer
with anything behind the packet) to opcode 3, block `b` and a payload view whose first
`n` bytes are the payload; the serialised ACK deserialises to opcode 4 and block `b`. -/
theorem data_ack_round_trip (b n : Nat) (data pad : List Nat) (hb : b < 65536)
    (hn : n ≤ data.length) :
    (serialize_packet_struct_data { block_number := b, data := data } n).length = n + 4 ∧
    (deserialize_packet_struct_data
      (serialize_packet_struct_data { block_number := b, data := data } n ++ pad)).opcode
        = 3 ∧
    (deserialize_packet_struct_data
      (serialize_packet_struct_data { block_number := b, data := data } n ++ pad)).block_number
        = b ∧
    (deserialize_packet_struct_data
      (serialize_packet_struct_data { block_number := b, data := data } n ++ pad)).data.take n
        = data.take n ∧
    deserialize_packet_struct_ack (serialize_packet_struct_ack { block_number := b } ++ pad)
      = { opcode := 4, block_number := b } := by
  have hblock := chars_to_short_short_to_chars b hb
  refine ⟨?_, ?_, ?_, ?_, ?_⟩
  · simp [serialize_packet_struct_data, short_to_chars_eq, Nat.min_eq_left hn]
  · simp [serialize_packet_struct_data, deserialize_packet_struct_data, short_to_chars_eq,
      charAt, DATA_OPCODE]
    decide
  · simpa [serialize_packet_struct_data, deserialize_packet_struct_data, short_to_chars_eq,
      charAt] using hblock
  · simp [serialize_packet_struct_data, deserialize_packet_struct_data, short_to_chars_eq,
      DATA_PACKET_OFFSET, List.take_append_eq_append_take, Nat.min_eq_left hn]
  · simp only [serialize_packet_struct_ack, deserialize_packet_struct_ack, short_to_chars_eq,
      charAt, ACK_OPCODE]
    simp only [List.cons_append, List.nil_append, List.getD_cons_zero, List.getD_cons_succ,
      tftp_ack_packet_t.mk.injEq]
    exact ⟨by decide, hblock⟩

theorem data_ack_round_trip_witness :
    (serialize_packet_struct_data { block_number := 65535, data := [0, 200, 13] } 3).length
        = 3 + 4 ∧
    (deserialize_packet_struct_data
      (serialize_packet_struct_data { block_number := 65535, data := [0, 200, 13] } 3
        ++ [7])).opcode = 3 ∧
    (deserialize_packet_struct_data
      (serialize_packet_struct_data { block_number := 65535, data := [0, 200, 13] } 3
        ++ [7])).block_number = 65535 ∧
    (deserialize_packet_struct_data
      (serialize_packet_struct_data { block_number := 65535, data := [0, 200, 13] } 3
        ++ [7])).data.take 3 = [0, 200, 13].take 3 ∧
    deserialize_packet_struct_ack (serialize_packet_struct_ack { block_number := 65535 } ++ [7])
      = { opcode := 4, block_number := 65535 } :=
  data_ack_round_trip 65535 3 [0, 200, 13] [7] (by decide) (by decide)

/-- C5. ERROR round trip: for a 16-bit error code `c` and a message `m` without a NUL byte
(the empty message included), the serialised ERROR packet deserialises, whatever follows
it in the buffer, to opcode 5, error code `c` and message `m`. -/
theorem error_round_trip (c : Nat) (m pad : List Nat) (hc : c < 65536)
    (hm : ∀ x ∈ m, x ≠ 0) :
    deserialize_packet_struct_error
        (serialize_packet_struct_error { error_code := c, error_message := m } ++ pad)
      = { opcode := 5, error_code := c, error_message := m } := by
  have hcode := chars_to_short_short_to_chars c hc
  have hmsg := read_cstr_append_nul m pad hm
  simp only [serialize_packet_struct_error, deserialize_packet_struct_error,
    short_to_chars_eq, charAt, ERROR_OPCODE]
  simp only [List.cons_append, List.nil_append, List.getD_cons_zero, List.getD_cons_succ,
    List.drop_succ_cons, List.drop_zero, List.append_assoc, tftp_error_packet_t.mk.injEq]
  exact ⟨by decide, hcode, hmsg⟩

theorem error_round_trip_witness :
    deserialize_packet_struct_error
        (serialize_packet_struct_error { error_code := 65535, error_message := [] } ++ [9])
      = { opcode := 5, error_code := 65535, error_message := [] } :=
  error_round_trip 65535 [] [9] (by decide) (by simp)

/-- The bytes of a serialised request, laid out field by field. -/
theorem serialize_packet_struct_rrq_wrq_eq (P : tftp_rrq_wrq_packet_t) :
    serialize_packet_struct_rrq_wrq P =
      [P.opcode / 256 % 256, P.opcode % 256] ++
        (P.filename ++ 0 :: (P.mode ++ 0 :: serialize_option_info P.options)) := by
  simp [serialize_packet_struct_rrq_wrq, short_to_chars_eq, charAt]

/-- C3. Request round trip: for an RRQ or WRQ packet `P` (opcode 1 or 2) whose filename and
mode contain no NUL byte, with any option set, deserialising the serialised packet (from
a buffer with anything behind it) yields the same opcode, the same filename and the mode
in lower case, and option decoding starts at the index right after the NUL that ends the
mode, where the serialised options begin. -/
theorem request_round_trip (P q : tftp_rrq_wrq_packet_t) (pad : List Nat)
    (hop : P.opcode = 1 ∨ P.opcode = 2)
    (hf : ∀ c ∈ P.filename, c ≠ 0) (hm : ∀ c ∈ P.mode, c ≠ 0) :
    deserialize_packet_struct_rrq_wrq q (serialize_packet_struct_rrq_wrq P ++ pad) =
      { opcode := P.opcode
        filename := P.filename
        mode := P.mode.map tolower
        options := deserialize_option_info q.options
          (serialize_packet_struct_rrq_wrq P ++ pad)
          (P.filename.length + P.mode.length + 4) } ∧
    charAt (serialize_packet_struct_rrq_wrq P ++ pad)
      (P.filename.length + P.mode.length + 3) = 0 ∧
    (serialize_packet_struct_rrq_wrq P ++ pad).drop
      (P.filename.length + P.mode.length + 4) = serialize_option_info P.options ++ pad := by
  have hopc : chars_to_short (P.opcode / 256 % 256) (P.opcode % 256) = P.opcode :=
    chars_to_short_short_to_chars _ (by omega)
  have hseq : serialize_packet_struct_rrq_wrq P ++ pad =
      [P.opcode / 256 % 256, P.opcode % 256] ++
        (P.filename ++ 0 :: (P.mode ++ 0 :: (serialize_option_info P.options ++ pad))) := by
    simp [serialize_packet_struct_rrq_wrq_eq]
  have hdrop2 : (serialize_packet_struct_rrq_wrq P ++ pad).drop 2 =
      P.filename ++ 0 :: (P.mode ++ 0 :: (serialize_option_info P.options ++ pad)) := by
    rw [hseq]; rfl
  have hname : read_cstr ((serialize_packet_struct_rrq_wrq P ++ pad).drop 2) = P.filename := by
    rw [hdrop2]; exact read_cstr_append_nul _ _ hf
  have hdropm : (serialize_packet_struct_rrq_wrq P ++ pad).drop (2 + P.filename.length + 1) =
      P.mode ++ 0 :: (serialize_option_info P.options ++ pad) := by
    rw [show 2 + P.filename.length + 1 = 2 + (P.filename.length + 1) by omega,
      ← List.drop_drop, hdrop2, ← List.drop_drop, List.drop_left]
    rfl
  have hmode : read_cstr ((serialize_packet_struct_rrq_wrq P ++ pad).drop
      (2 + P.filename.length + 1)) = P.mode := by
    rw [hdropm]; exact read_cstr_append_nul _ _ hm
  have hdropo : (serialize_packet_struct_rrq_wrq P ++ pad).drop
      (P.filename.length + P.mode.length + 4) = serialize_option_info P.options ++ pad := by
    rw [show P.filename.length + P.mode.length + 4
        = (2 + P.filename.length + 1) + (P.mode.length + 1) by omega,
      ← List.drop_drop, hdropm, ← List.drop_drop, List.drop_left]
    rfl
  refine ⟨?_, ?_, hdropo⟩
  · simp only [deserialize_packet_struct_rrq_wrq, hname, hmode, List.length_map]
    have h0 : charAt (serialize_packet_struct_rrq_wrq P ++ pad) 0 = P.opcode / 256 % 256 := by
      rw [hseq]; rfl
    have h1 : charAt (serialize_packet_struct_rrq_wrq P ++ pad) 1 = P.opcode % 256 := by
      rw [hseq]; rfl
    rw [h0, h1, hopc,
      show 2 + P.filename.length + 1 + P.mode.length + 1
        = P.filename.length + P.mode.length + 4 by omega]
  · have h3 : (serialize_packet_struct_rrq_wrq P ++ pad).drop
        (P.filename.length + P.mode.length + 3) =
          0 :: (serialize_option_info P.options ++ pad) := by
      rw [show P.filename.length + P.mode.length + 3
          = (2 + P.filename.length + 1) + P.mode.length by omega,
        ← List.drop_drop, hdropm, List.drop_left]
    have := congrArg (fun l => l.getD 0 0) h3
    simpa [charAt, List.getD_eq_getElem?_getD, List.getElem?_drop] using this

theorem request_round_trip_witness :
    deserialize_packet_struct_rrq_wrq {}
        (serialize_packet_struct_rrq_wrq
          { opcode := 2, filename := [97], mode := [79, 67, 84, 69, 84],
            options := { option_blocksize := true, blocksize := 1024 } } ++ [0, 0]) =
      { opcode := 2
        filename := [97]
        mode := [79, 67, 84, 69, 84].map tolower
        options := deserialize_option_info {}
          (serialize_packet_struct_rrq_wrq
            { opcode := 2, filename := [97], mode := [79, 67, 84, 69, 84],
              options := { option_blocksize := true, blocksize := 1024 } } ++ [0, 0])
          ([97].length + [79, 67, 84, 69, 84].length + 4) } ∧
    charAt (serialize_packet_struct_rrq_wrq
        { opcode := 2, filename := [97], mode := [79, 67, 84, 69, 84],
          options := { option_blocksize := true, blocksize := 1024 } } ++ [0, 0])
      ([97].length + [79, 67, 84, 69, 84].length + 3) = 0 ∧
    (serialize_packet_struct_rrq_wrq
        { opcode := 2, filename := [97], mode := [79, 67, 84, 69, 84],
          options := { option_blocksize := true, blocksize := 1024 } } ++ [0, 0]).drop
      ([97].length + [79, 67, 84, 69, 84].length + 4) =
        serialize_option_info { option_blocksize := true, blocksize := 1024 } ++ [0, 0] :=
  request_round_trip
    { opcode := 2, filename := [97], mode := [79, 67, 84, 69, 84],
      options := { option_blocksize := true, blocksize := 1024 } } {} [0, 0]
    (Or.inr rfl) (by decide) (by decide)

/-- C2. Option trailer at a transfer size the 32-bit unsigned field holds but `int` does
not: `tsize` 2147483648 is serialised as the ten digits, `stoi` throws on them, so the
deserialised option set has no `tsize` at all (flag clear, value and order untouched). -/
theorem option_round_trip_tsize_lost :
    serialize_option_info { option_transfer_size := true, transfer_size := 2147483648 }
      = ascii "tsize" ++ [0] ++ ascii "2147483648" ++ [0] ∧
    stoi (ascii "2147483648") = none ∧
    deserialize_option_info {}
        (serialize_option_info
          { option_transfer_size := true, transfer_size := 2147483648 } ++ [0]) 0
      = {} ∧
    (deserialize_option_info {}
        (serialize_option_info
          { option_transfer_size := true, transfer_size := 2147483648 } ++ [0])
      0).option_transfer_size = false := by
  refine ⟨by decide, by decide, by decide, by decide⟩

/-! ## The timed receiver -/

/-- C6. A stranger datagram changes the peer endpoint: with the TID 5000 established and
the peer at 1:5000, a DATA(7) from 2:6000 is answered with ERROR 5, but `recvfrom` has
stored the stranger in `connection_information->address`, so the retransmission after
the next timeout is sent to 2:6000, not to the peer; when the line then stays silent all
three retransmissions go to the stranger and the address is still the stranger. -/
theorem stranger_datagram_redirects_retransmission :
    (recvfrom_retransmit
        ⟨⟨1, 5000⟩,
          [.datagram ⟨2, 6000⟩ [0, 3, 0, 7], .timeout, .datagram ⟨1, 5000⟩ [0, 4, 0, 1]], []⟩
        8 (List.replicate 12 0) [0, 3, 0, 1, 1, 2, 3] 5000).2.1 =
      ⟨⟨1, 5000⟩, [],
        [⟨⟨2, 6000⟩, unknown_tid_packet, 0⟩, ⟨⟨2, 6000⟩, [0, 3, 0, 1, 1, 2, 3], 0⟩]⟩ ∧
    (recvfrom_retransmit ⟨⟨1, 5000⟩, [.datagram ⟨2, 6000⟩ [0, 3, 0, 7]], []⟩
        8 (List.replicate 12 0) [0, 3, 0, 1, 1, 2, 3] 5000).2.1 =
      ⟨⟨2, 6000⟩, [],
        [⟨⟨2, 6000⟩, unknown_tid_packet, 0⟩, ⟨⟨2, 6000⟩, [0, 3, 0, 1, 1, 2, 3], 0⟩,
         ⟨⟨2, 6000⟩, [0, 3, 0, 1, 1, 2, 3], 0⟩, ⟨⟨2, 6000⟩, [0, 3, 0, 1, 1, 2, 3], 0⟩]⟩ ∧
    read_from_file
        ⟨⟨1, 5000⟩,
          [.datagram ⟨2, 6000⟩ [0, 3, 0, 7], .timeout, .datagram ⟨1, 5000⟩ [0, 4, 0, 1]], []⟩
        [1, 2, 3] { blocksize := 8 } MODE_OCTET 5000 =
      some (0, ⟨⟨1, 5000⟩, [],
        [⟨⟨1, 5000⟩, [0, 3, 0, 1, 1, 2, 3], 0⟩, ⟨⟨2, 6000⟩, unknown_tid_packet, 0⟩,
         ⟨⟨2, 6000⟩, [0, 3, 0, 1, 1, 2, 3], 0⟩]⟩) := by
  refine ⟨by decide, by decide, by decide⟩

/-- C7, counterexample. Duplicates raise the number of transmissions: with two timeouts,
the duplicate ACK(0), two more timeouts and then ACK(1), `read_from_file` puts DATA(1) on
the wire five times; with two timeouts, the duplicate DATA(1), two more timeouts and then
the last block DATA(2), `write_to_file` sends the ACK(1) it was handed five more times. -/
theorem retransmit_bound_broken_by_duplicates :
    read_from_file
        ⟨⟨1, 5000⟩,
          [.timeout, .timeout, .datagram ⟨1, 5000⟩ [0, 4, 0, 0], .timeout, .timeout,
           .datagram ⟨1, 5000⟩ [0, 4, 0, 1]], []⟩
        [1, 2, 3] { blocksize := 8 } MODE_OCTET 5000 =
      some (0, ⟨⟨1, 5000⟩, [], List.replicate 5 ⟨⟨1, 5000⟩, [0, 3, 0, 1, 1, 2, 3], 0⟩⟩) ∧
    1 + MAX_RETRANSMIT_ATTEMPTS < 5 ∧
    write_to_file
        ⟨⟨1, 5000⟩,
          [.timeout, .timeout, .datagram ⟨1, 5000⟩ [0, 3, 0, 1, 9], .timeout, .timeout,
           .datagram ⟨1, 5000⟩ [0, 3, 0, 2, 7]], []⟩
        { blocksize := 8 } [] [0, 4, 0, 1] MODE_OCTET 5000 2 [] =
      some (0, ⟨⟨1, 5000⟩, [],
        List.replicate 5 ⟨⟨1, 5000⟩, [0, 4, 0, 1], 0⟩ ++ [⟨⟨1, 5000⟩, [0, 4, 0, 2], 0⟩]⟩,
        [7]) := by
  refine ⟨by decide, by decide, by decide⟩

end Tftp

namespace Tftp

/-! ## One step of the waits -/

/-- A datagram from the expected TID (or from anyone while no TID is set) at the head of
the socket is handed to the caller at once: nothing is sent, the address is its source. -/
theorem recvfrom_retransmit_datagram (a src : Endpoint) (bytes : List Nat)
    (rest : List NetEvent) (s : List Sent) (B : Nat) (buffer packet : List Nat) (tid : Int)
    (hacc : ((src.port : Nat) : Int) = tid ∨ tid = TID_NOT_SET_YET) :
    recvfrom_retransmit ⟨a, .datagram src bytes :: rest, s⟩ B buffer packet tid =
      (((min bytes.length (B + 4) : Nat) : Int), ⟨src, rest, s⟩, store buffer bytes (B + 4)) := by
  have h1 : ¬ (((min bytes.length (B + 4) : Nat) : Int) = ERR_CODE_TIMEOUT) := by
    unfold ERR_CODE_TIMEOUT; omega
  have h2 : ¬ (((min bytes.length (B + 4) : Nat) : Int) < 0) := by omega
  have h3 : ¬ (((src.port : Nat) : Int) ≠ tid ∧ tid ≠ TID_NOT_SET_YET) := by
    rcases hacc with h | h
    · exact fun hh => hh.1 h
    · exact fun hh => hh.2 h
  simp only [recvfrom_retransmit, recvfrom_retransmit_loop, recv_outcome, h1, h2, h3,
    MAX_RETRANSMIT_ATTEMPTS, if_false]
  simp

/-- The receive buffer after a datagram that fits was stored over zeroes. -/
theorem store_zeroes (bytes : List Nat) (cap : Nat) (h : bytes.length ≤ cap) :
    store (List.replicate cap 0) bytes cap = bytes ++ List.replicate (cap - bytes.length) 0 := by
  simp [store, List.take_of_length_le h, Nat.min_eq_left h]

end Tftp

namespace Tftp

/-- One round of `write_to_file` on a datagram that `receive_data` accepts: the block is
acknowledged, and the transfer goes on exactly when the datagram fills the buffer. -/
theorem write_to_file_loop_accept (options : option_info_t) (mode : List Nat) (tid : Int)
    (beyond : List Nat) (fuel : Nat) (a src : Endpoint) (D : List Nat)
    (rest : List NetEvent) (s : List Sent) (fw fw2 pkt : List Nat) (e : Nat)
    (hacc : ((src.port : Nat) : Int) = tid ∨ tid = TID_NOT_SET_YET)
    (hop : chars_to_short
        (charAt (store (List.replicate (options.blocksize + 4) 0) D (options.blocksize + 4)) 0)
        (charAt (store (List.replicate (options.blocksize + 4) 0) D (options.blocksize + 4)) 1)
        ≠ ERROR_OPCODE)
    (hrd : receive_data ⟨src, rest, s⟩
        (store (List.replicate (options.blocksize + 4) 0) D (options.blocksize + 4)) beyond
        (min D.length (options.blocksize + 4)) fw mode e = (PACKET_OK_CODE, ⟨src, rest, s⟩, fw2)) :
    write_to_file_loop options mode tid beyond (fuel + 1) ⟨a, .datagram src D :: rest, s⟩ fw
        pkt e =
      if min D.length (options.blocksize + 4) < options.blocksize + 4 then
        some (PROG_RET_CODE_OK,
          final_ack_loop options.blocksize (serialize_packet_struct_ack { block_number := e % 65536 })
            MAX_RETRANSMIT_ATTEMPTS 0
            ⟨src, rest, s ++ [⟨src, serialize_packet_struct_ack { block_number := e % 65536 }, 0⟩]⟩
            (store (List.replicate (options.blocksize + 4) 0) D (options.blocksize + 4)),
          fw2)
      else
        write_to_file_loop options mode tid beyond fuel
          ⟨src, rest, s ++ [⟨src, serialize_packet_struct_ack { block_number := e % 65536 }, 0⟩]⟩
          fw2 (serialize_packet_struct_ack { block_number := e % 65536 }) (e + 1) := by
  have h2 : ¬ (((min D.length (options.blocksize + 4) : Nat) : Int) < 0) := by omega
  rw [write_to_file_loop]
  simp only [DATA_PACKET_OFFSET, recvfrom_retransmit_datagram a src D rest s options.blocksize
    _ pkt tid hacc, h2, if_false, hop, Int.toNat_ofNat, hrd]
  simp [PACKET_OK_CODE, ERR_CODE_ILLEGAL_OPERATION, send_ack, sendto]
  split <;> rename_i h
  · rw [if_pos (by omega)]
  · rw [if_neg (by omega)]

end Tftp

namespace Tftp

/-- The function `receive_data` on the DATA packet of the expected block: the packet is
accepted and its payload, decoded in NETASCII mode, is appended to the file. -/
theorem receive_data_expected (conn : Net) (payload pad beyond fw mode : List Nat)
    (e n : Nat) (he1 : 1 ≤ e) (he2 : e < 65536) :
    receive_data conn ([0, 3, e / 256 % 256, e % 256] ++ payload ++ pad) beyond n fw mode e =
      (PACKET_OK_CODE, conn,
        fw ++ (if mode = MODE_NETASCII then
            netascii_to_linux_loop n (payload ++ pad ++ beyond) n 0
          else (payload ++ pad ++ beyond, n)).1.take
          ((if mode = MODE_NETASCII then
            netascii_to_linux_loop n (payload ++ pad ++ beyond) n 0
          else (payload ++ pad ++ beyond, n)).2 - DATA_PACKET_OFFSET)) := by
  have hb := chars_to_short_short_to_chars e he2
  have h3 : chars_to_short 0 3 = 3 := by decide
  have hmod : e % 65536 = e := Nat.mod_eq_of_lt he2
  have hd : deserialize_packet_struct_data
      ([0, 3, e / 256 % 256, e % 256] ++ payload ++ pad ++ beyond) =
        { opcode := 3, block_number := e, data := payload ++ pad ++ beyond } := by
    simp [deserialize_packet_struct_data, charAt, h3, hb, DATA_PACKET_OFFSET]
  have hc : check_packet_content_data
      { opcode := 3, block_number := e, data := payload ++ pad ++ beyond } e
        = (PACKET_OK_CODE, []) := by
    simp [check_packet_content_data, DATA_OPCODE]
    omega
  unfold receive_data
  simp only [hd, hmod, hc]
  simp [PACKET_OK_CODE, ERR_CODE_ILLEGAL_OPERATION, DUPLICATED_PACKET]

end Tftp

namespace Tftp

/-- One round of `write_to_file` in octet mode on the DATA packet of the expected block. -/
theorem write_to_file_loop_octet (options : option_info_t) (mode : List Nat) (tid : Int)
    (beyond : List Nat) (fuel : Nat) (a src : Endpoint) (payload : List Nat)
    (rest : List NetEvent) (s : List Sent) (fw pkt : List Nat) (e : Nat)
    (hmode : mode ≠ MODE_NETASCII)
    (hacc : ((src.port : Nat) : Int) = tid ∨ tid = TID_NOT_SET_YET)
    (he1 : 1 ≤ e) (he2 : e < 65536) (hlen : payload.length ≤ options.blocksize) :
    write_to_file_loop options mode tid beyond (fuel + 1)
        ⟨a, .datagram src (serialize_packet_struct_data
          { block_number := e, data := payload } payload.length) :: rest, s⟩ fw pkt e =
      if payload.length < options.blocksize then
        some (PROG_RET_CODE_OK,
          final_ack_loop options.blocksize (serialize_packet_struct_ack { block_number := e })
            MAX_RETRANSMIT_ATTEMPTS 0
            ⟨src, rest, s ++ [⟨src, serialize_packet_struct_ack { block_number := e }, 0⟩]⟩
            (store (List.replicate (options.blocksize + 4) 0)
              (serialize_packet_struct_data { block_number := e, data := payload }
                payload.length) (options.blocksize + 4)),
          fw ++ payload)
      else
        write_to_file_loop options mode tid beyond fuel
          ⟨src, rest, s ++ [⟨src, serialize_packet_struct_ack { block_number := e }, 0⟩]⟩
          (fw ++ payload) (serialize_packet_struct_ack { block_number := e }) (e + 1) := by
  have hD : serialize_packet_struct_data { block_number := e, data := payload } payload.length
      = [0, 3, e / 256 % 256, e % 256] ++ payload := by
    simp [serialize_packet_struct_data, short_to_chars_eq, DATA_OPCODE]
  have hDlen : (serialize_packet_struct_data { block_number := e, data := payload }
      payload.length).length = payload.length + 4 := by
    rw [hD]; simp
  have hst : store (List.replicate (options.blocksize + 4) 0)
      (serialize_packet_struct_data { block_number := e, data := payload } payload.length)
      (options.blocksize + 4) =
        [0, 3, e / 256 % 256, e % 256] ++ payload ++
          List.replicate (options.blocksize - payload.length) 0 := by
    rw [store_zeroes _ _ (by omega), hDlen, hD]
    congr 2
    omega
  have hmin : min (serialize_packet_struct_data { block_number := e, data := payload }
      payload.length).length (options.blocksize + 4) = payload.length + 4 := by
    rw [hDlen]; omega
  have hmod : e % 65536 = e := Nat.mod_eq_of_lt he2
  have hstep := write_to_file_loop_accept options mode tid beyond fuel a src
    (serialize_packet_struct_data { block_number := e, data := payload } payload.length)
    rest s fw (fw ++ payload) pkt e hacc
    (by rw [hst]; simp only [charAt, List.cons_append, List.getD_cons_zero,
          List.getD_cons_succ]; decide)
    (by rw [hst, hmin, receive_data_expected _ _ _ _ _ _ _ _ he1 he2]
        simp [hmode, DATA_PACKET_OFFSET, List.take_append_eq_append_take])
  rw [hstep, hmin, hmod]
  split <;> rename_i h
  · rw [if_pos (by omega)]
  · rw [if_neg (by omega)]

end Tftp

namespace Tftp

/-- The loop that ends `write_to_file` stops without sending when its first wait times
out, be it on an explicit timeout or on a silent line. -/
theorem final_ack_loop_quiet (B : Nat) (pkt buffer : List Nat) (k i : Nat) (a : Endpoint)
    (s : List Sent) (tail : List NetEvent)
    (htail : tail = [] ∨ ∃ r, tail = NetEvent.timeout :: r) :
    final_ack_loop B pkt (k + 1) i ⟨a, tail, s⟩ buffer = ⟨a, tail.tail, s⟩ := by
  rcases htail with h | ⟨r, h⟩ <;> subst h <;>
    simp [final_ack_loop, recvfrom_timeout, recv_outcome]

/-- In-order reception in octet mode, from any expected block `c` on. -/
theorem write_to_file_loop_in_order (options : option_info_t) (mode : List Nat) (tid : Int)
    (beyond : List Nat) (src : Endpoint) (last : List Nat) (tail : List NetEvent)
    (hmode : mode ≠ MODE_NETASCII)
    (hacc : ((src.port : Nat) : Int) = tid ∨ tid = TID_NOT_SET_YET)
    (hlast : last.length < options.blocksize)
    (htail : tail = [] ∨ ∃ r, tail = NetEvent.timeout :: r) :
    ∀ (ps : List (List Nat)) (c fuel : Nat) (a : Endpoint) (s : List Sent) (fw pkt : List Nat),
      (∀ p ∈ ps, p.length = options.blocksize) → 1 ≤ c → c + ps.length < 65536 →
      ps.length + 1 ≤ fuel →
      write_to_file_loop options mode tid beyond fuel
          ⟨a, data_datagrams src c (ps ++ [last]) ++ tail, s⟩ fw pkt c =
        some (PROG_RET_CODE_OK, ⟨src, tail.tail, s ++ ack_sends src c (ps.length + 1)⟩,
          fw ++ (ps ++ [last]).flatten) := by
  intro ps
  simp only [data_datagrams, ack_sends, List.length_append, List.length_singleton]
  induction ps with
  | nil =>
      intro c fuel a s fw pkt _ hc1 hc2 hfuel
      obtain ⟨f, rfl⟩ : ∃ f, fuel = f + 1 := ⟨fuel - 1, by omega⟩
      simp only [List.length_nil, Nat.zero_add, List.range'_one, List.nil_append,
        List.zipWith_cons_cons, List.zipWith_nil_right, List.cons_append, List.map_cons,
        List.map_nil, List.flatten_cons, List.flatten_nil, List.append_nil]
      rw [write_to_file_loop_octet options mode tid beyond f a src last tail s fw pkt c hmode
        hacc hc1 (by simpa using hc2) (by omega), if_pos hlast]
      rw [show MAX_RETRANSMIT_ATTEMPTS = 2 + 1 from rfl, final_ack_loop_quiet _ _ _ _ _ _ _ _ htail]
  | cons p ps ih =>
      intro c fuel a s fw pkt hfull hc1 hc2 hfuel
      obtain ⟨f, rfl⟩ : ∃ f, fuel = f + 1 := ⟨fuel - 1, by omega⟩
      have hp : p.length = options.blocksize := hfull p (by simp)
      have hps : ∀ q ∈ ps, q.length = options.blocksize := fun q hq => hfull q (by simp [hq])
      simp only [List.length_cons] at hc2 hfuel
      rw [show (p :: ps).length + 1 = (ps.length + 1) + 1 by simp, List.range'_succ]
      simp only [List.cons_append, List.zipWith_cons_cons, List.map_cons, List.flatten_cons]
      rw [write_to_file_loop_octet options mode tid beyond f a src p _ s fw pkt c hmode
        hacc hc1 (by omega) (by omega), if_neg (by omega)]
      rw [ih (c + 1) f src _ (fw ++ p) _ hps (by omega) (by omega) (by omega)]
      simp

end Tftp

namespace Tftp

theorem load_block_loop_octet (B : Nat) (mode : List Nat) (hmode : mode ≠ MODE_NETASCII) :
    ∀ (file block : List Nat) (lf nul : Bool), block.length ≤ B →
      load_block_loop B mode file block lf nul =
        ⟨file.drop (B - block.length), block ++ file.take (B - block.length), lf, nul⟩ := by
  intro file
  induction file with
  | nil => intro block lf nul _; simp [load_block_loop]
  | cons c file ih =>
      intro block lf nul hlen
      rw [load_block_loop]
      by_cases h : block.length < B
      · simp only [h, if_true, hmode, and_false, if_false]
        rw [ih (block ++ [c]) lf nul (by simp; omega)]
        obtain ⟨d, hd⟩ : ∃ d, B - block.length = d + 1 := ⟨B - block.length - 1, by omega⟩
        have hd2 : B - (block ++ [c]).length = d := by simp; omega
        rw [hd, hd2]
        simp
      · have h0 : B - block.length = 0 := by omega
        simp [h, h0]

theorem load_block_octet (B : Nat) (mode : List Nat) (hmode : mode ≠ MODE_NETASCII)
    (file db : List Nat) :
    load_block B mode ⟨file, db, false, false⟩ = ⟨file.drop B, file.take B, false, false⟩ := by
  simp [load_block, load_block_loop_octet B mode hmode]

/-- The function `receive_ack` on the ACK of the expected block. -/
theorem receive_ack_expected (conn : Net) (pad : List Nat) (e : Nat) (he : e < 65536) :
    receive_ack conn ([0, 4, e / 256 % 256, e % 256] ++ pad) e = (PACKET_OK_CODE, conn) := by
  have hb := chars_to_short_short_to_chars e he
  have h4 : chars_to_short 0 4 = 4 := by decide
  have hmod : e % 65536 = e := Nat.mod_eq_of_lt he
  have hd : deserialize_packet_struct_ack ([0, 4, e / 256 % 256, e % 256] ++ pad) =
      { opcode := 4, block_number := e } := by
    simp [deserialize_packet_struct_ack, charAt, h4, hb]
  unfold receive_ack
  simp only [hd, hmod]
  simp [check_packet_content_ack, ACK_OPCODE, PACKET_OK_CODE, ERR_CODE_ILLEGAL_OPERATION]

/-- One round of `read_from_file` on the ACK of the current block. -/
theorem read_from_file_loop_ack (options : option_info_t) (mode : List Nat) (tid : Int)
    (fuel : Nat) (a src : Endpoint) (rest : List NetEvent) (s : List Sent) (r : reader_t)
    (pkt : List Nat) (c : Nat)
    (hacc : ((src.port : Nat) : Int) = tid ∨ tid = TID_NOT_SET_YET) (hc : c < 65536) :
    read_from_file_loop options mode tid (fuel + 1)
        ⟨a, .datagram src (serialize_packet_struct_ack { block_number := c }) :: rest, s⟩ r
        pkt c =
      if r.data_block.length ≥ options.blocksize then
        read_from_file_loop options mode tid fuel
          (send_data ⟨src, rest, s⟩ ((c + 1) % 65536)
            (load_block options.blocksize mode r).data_block
            (load_block options.blocksize mode r).data_block.length).2
          (load_block options.blocksize mode r)
          (send_data ⟨src, rest, s⟩ ((c + 1) % 65536)
            (load_block options.blocksize mode r).data_block
            (load_block options.blocksize mode r).data_block.length).1
          ((c + 1) % 65536)
      else some (0, ⟨src, rest, s⟩) := by
  have hA : serialize_packet_struct_ack { block_number := c } =
      [0, 4, c / 256 % 256, c % 256] := by
    simp [serialize_packet_struct_ack, short_to_chars_eq, ACK_OPCODE]
  have hst : store (List.replicate (options.blocksize + 4) 0)
      (serialize_packet_struct_ack { block_number := c }) (options.blocksize + 4) =
        [0, 4, c / 256 % 256, c % 256] ++ List.replicate options.blocksize 0 := by
    rw [store_zeroes _ _ (by rw [hA]; simp), hA]
    simp
  have h2 : ¬ (((min (serialize_packet_struct_ack { block_number := c }).length
      (options.blocksize + 4) : Nat) : Int) < 0) := by omega
  have hop : chars_to_short 0 4 ≠ ERROR_OPCODE := by decide
  rw [read_from_file_loop]
  simp only [DATA_PACKET_OFFSET, recvfrom_retransmit_datagram a src _ rest s options.blocksize
    _ pkt tid hacc, h2, if_false, hst, receive_ack_expected _ _ c hc]
  simp [charAt, hop, PACKET_OK_CODE, ERR_CODE_ILLEGAL_OPERATION]

end Tftp

namespace Tftp

theorem data_sends_succ (dest : Endpoint) (B : Nat) (file : List Nat) (c n : Nat) :
    data_sends dest B file c (n + 1) =
      ⟨dest, serialize_packet_struct_data { block_number := c, data := file.take B }
        (file.take B).length, 0⟩ :: data_sends dest B (file.drop B) (c + 1) n := by
  simp only [data_sends, List.range_succ_eq_map, List.map_cons, List.map_map]
  congr 1
  · simp
  · apply List.map_congr_left
    intro k _
    simp only [Function.comp, List.drop_drop]
    rw [show B + k * B = (k + 1) * B by ring, show c + 1 + k = c + (k + 1) by omega]

/-- Octet-mode sending from any block `c` on, once DATA(c) has been sent: every
acknowledgement releases the next block until a block shorter than the block size. -/
theorem read_from_file_loop_octet (options : option_info_t) (mode : List Nat) (tid : Int)
    (src : Endpoint) (rest : List NetEvent) (hmode : mode ≠ MODE_NETASCII)
    (hacc : ((src.port : Nat) : Int) = tid ∨ tid = TID_NOT_SET_YET)
    (hB : 1 ≤ options.blocksize) :
    ∀ (m : Nat) (file : List Nat) (c fuel : Nat) (a : Endpoint) (s : List Sent)
      (pkt : List Nat),
      file.length / options.blocksize = m → c + m < 65536 → m + 1 ≤ fuel →
      read_from_file_loop options mode tid fuel
          ⟨a, ack_datagrams src c (m + 1) ++ rest, s⟩
          ⟨file.drop options.blocksize, file.take options.blocksize, false, false⟩ pkt c =
        some (0, ⟨src, rest,
          s ++ data_sends src options.blocksize (file.drop options.blocksize) (c + 1) m⟩) := by
  intro m
  induction m with
  | zero =>
      intro file c fuel a s pkt hm hc hfuel
      obtain ⟨f, rfl⟩ : ∃ f, fuel = f + 1 := ⟨fuel - 1, by omega⟩
      have hlen : file.length < options.blocksize := by
        exact (Nat.div_eq_zero_iff (by omega)).mp hm
      simp only [ack_datagrams, Nat.zero_add, List.range'_one, List.map_cons, List.map_nil,
        List.cons_append, List.nil_append]
      rw [read_from_file_loop_ack options mode tid f a src rest s _ pkt c hacc (by omega)]
      simp [data_sends, List.length_take, hlen]
  | succ m ih =>
      intro file c fuel a s pkt hm hc hfuel
      obtain ⟨f, rfl⟩ : ∃ f, fuel = f + 1 := ⟨fuel - 1, by omega⟩
      have hlen : options.blocksize ≤ file.length := by
        by_contra h
        have : file.length / options.blocksize = 0 := Nat.div_eq_of_lt (by omega)
        omega
      have hm2 : (file.drop options.blocksize).length / options.blocksize = m := by
        rw [List.length_drop]
        have := Nat.sub_mul_div file.length options.blocksize 1 (by simpa using hlen)
        simp only [Nat.mul_one] at this
        omega
      simp only [ack_datagrams, List.range'_succ c, List.map_cons, List.cons_append]
      rw [read_from_file_loop_ack options mode tid f a src _ s _ pkt c hacc (by omega)]
      have htake : (file.take options.blocksize).length = options.blocksize := by
        simp [List.length_take, hlen]
      simp only [htake, ge_iff_le, le_refl, if_true, load_block_octet _ _ hmode,
        Nat.mod_eq_of_lt (show c + 1 < 65536 by omega), send_data, sendto]
      have := ih (file.drop options.blocksize) (c + 1) f src
        (s ++ [⟨src, serialize_packet_struct_data
          { block_number := c + 1, data := (file.drop options.blocksize).take options.blocksize }
          ((file.drop options.blocksize).take options.blocksize).length, 0⟩]) 
        (serialize_packet_struct_data
          { block_number := c + 1, data := (file.drop options.blocksize).take options.blocksize }
          ((file.drop options.blocksize).take options.blocksize).length)
        hm2 (by omega) (by omega)
      simp only [ack_datagrams] at this
      rw [this, data_sends_succ]
      simp

end Tftp

namespace Tftp

theorem chunks_flatten (B : Nat) (hB : 1 ≤ B) :
    ∀ (m : Nat) (file : List Nat), file.length / B = m →
      ((List.range (m + 1)).map fun k => (file.drop (k * B)).take B).flatten = file := by
  intro m
  induction m with
  | zero =>
      intro file hm
      have hlen : file.length < B := (Nat.div_eq_zero_iff (by omega)).mp hm
      simp [List.range_succ, List.take_of_length_le (Nat.le_of_lt hlen)]
  | succ m ih =>
      intro file hm
      have hlen : B ≤ file.length := by
        by_contra h
        have : file.length / B = 0 := Nat.div_eq_of_lt (by omega)
        omega
      have hm2 : (file.drop B).length / B = m := by
        rw [List.length_drop]
        have := Nat.sub_mul_div file.length B 1 (by simpa using hlen)
        simp only [Nat.mul_one] at this
        omega
      rw [List.range_succ_eq_map, List.map_cons, List.map_map, List.flatten_cons]
      have h2 : (List.map ((fun k => List.take B (List.drop (k * B) file)) ∘ Nat.succ)
          (List.range (m + 1))) =
          (List.range (m + 1)).map fun k => ((file.drop B).drop (k * B)).take B := by
        apply List.map_congr_left
        intro k _
        simp only [Function.comp, List.drop_drop]
        rw [show B + k * B = k.succ * B by simp [Nat.succ_mul]; omega]
      rw [h2, ih _ hm2]
      simp

/-- C9. Sender block structure in octet mode: for a source of length `L` and a block size
`B ≥ 1` with `L / B + 1 ≤ 65535`, when the peer acknowledges the blocks 1, 2, ... in turn,
`read_from_file` returns 0 having sent exactly the `L / B + 1` packets DATA(1), DATA(2), ...
in order, the `k`-th carrying the bytes `k * B ..` of the source; every packet but the last
carries `B` bytes, the last `L % B`, and the payloads concatenated are the source. -/
theorem read_from_file_octet_blocks (options : option_info_t) (tid : Int) (peer : Endpoint)
    (rest : List NetEvent) (s : List Sent) (file : List Nat)
    (hacc : ((peer.port : Nat) : Int) = tid ∨ tid = TID_NOT_SET_YET)
    (hB : 1 ≤ options.blocksize)
    (hblocks : file.length / options.blocksize + 1 ≤ 65535) :
    read_from_file
        ⟨peer, ack_datagrams peer 1 (file.length / options.blocksize + 1) ++ rest, s⟩
        file options MODE_OCTET tid =
      some (0, ⟨peer, rest,
        s ++ data_sends peer options.blocksize file 1 (file.length / options.blocksize + 1)⟩) ∧
    (data_sends peer options.blocksize file 1 (file.length / options.blocksize + 1)).length =
      file.length / options.blocksize + 1 ∧
    (∀ k, k < file.length / options.blocksize →
      ((file.drop (k * options.blocksize)).take options.blocksize).length =
        options.blocksize) ∧
    ((file.drop (file.length / options.blocksize * options.blocksize)).take
      options.blocksize).length = file.length % options.blocksize ∧
    ((List.range (file.length / options.blocksize + 1)).map fun k =>
      (file.drop (k * options.blocksize)).take options.blocksize).flatten = file := by
  have hmode : MODE_OCTET ≠ MODE_NETASCII := by decide
  refine ⟨?_, by simp [data_sends], ?_, ?_, chunks_flatten _ hB _ _ rfl⟩
  · unfold read_from_file
    simp only [load_block_octet _ _ hmode, send_data, sendto]
    rw [read_from_file_loop_octet options MODE_OCTET tid peer rest hmode hacc hB
      (file.length / options.blocksize) file 1 _ peer _ _ rfl (by omega)
      (by simp [ack_datagrams]; omega)]
    rw [data_sends_succ]
    simp
  · intro k hk
    have h1 : (k + 1) * options.blocksize ≤ file.length :=
      le_trans (Nat.mul_le_mul_right _ hk) (Nat.div_mul_le_self _ _)
    rw [List.length_take, List.length_drop]
    have : (k + 1) * options.blocksize = k * options.blocksize + options.blocksize := by ring
    omega
  · rw [List.length_take, List.length_drop]
    have h1 := Nat.div_add_mod file.length options.blocksize
    have h2 := Nat.mod_lt file.length (show 0 < options.blocksize by omega)
    have h3 : file.length / options.blocksize * options.blocksize
        = options.blocksize * (file.length / options.blocksize) := Nat.mul_comm _ _
    omega

end Tftp

namespace Tftp

/-- Full-size blocks followed by a silent line: every block is written and acknowledged,
then the wait for the next block runs out of retransmissions and the transfer fails. -/
theorem write_to_file_loop_full_blocks (options : option_info_t) (mode : List Nat) (tid : Int)
    (beyond : List Nat) (src : Endpoint) (hmode : mode ≠ MODE_NETASCII)
    (hacc : ((src.port : Nat) : Int) = tid ∨ tid = TID_NOT_SET_YET) :
    ∀ (qs : List (List Nat)) (c fuel : Nat) (a : Endpoint) (s : List Sent) (fw pkt : List Nat),
      (∀ q ∈ qs, q.length = options.blocksize) → 1 ≤ c → c + qs.length ≤ 65536 →
      qs.length + 1 ≤ fuel →
      ∃ conn, write_to_file_loop options mode tid beyond fuel
          ⟨a, data_datagrams src c qs, s⟩ fw pkt c =
        some (PROG_RET_CODE_ERR, conn, fw ++ qs.flatten) := by
  intro qs
  induction qs with
  | nil =>
      intro c fuel a s fw pkt _ _ _ hfuel
      obtain ⟨f, rfl⟩ : ∃ f, fuel = f + 1 := ⟨fuel - 1, by omega⟩
      refine ⟨(recvfrom_retransmit ⟨a, [], s⟩ options.blocksize
        (List.replicate (options.blocksize + DATA_PACKET_OFFSET) 0) pkt tid).2.1, ?_⟩
      rw [write_to_file_loop]
      simp [data_datagrams, recvfrom_retransmit, recvfrom_retransmit_loop]
  | cons q qs ih =>
      intro c fuel a s fw pkt hfull hc1 hc2 hfuel
      obtain ⟨f, rfl⟩ : ∃ f, fuel = f + 1 := ⟨fuel - 1, by omega⟩
      have hq : q.length = options.blocksize := hfull q (by simp)
      have hqs : ∀ p ∈ qs, p.length = options.blocksize := fun p hp => hfull p (by simp [hp])
      simp only [List.length_cons] at hc2 hfuel
      obtain ⟨conn, hconn⟩ := ih (c + 1) f src
        (s ++ [⟨src, serialize_packet_struct_ack { block_number := c }, 0⟩]) (fw ++ q)
        (serialize_packet_struct_ack { block_number := c }) hqs (by omega) (by omega) (by omega)
      refine ⟨conn, ?_⟩
      simp only [data_datagrams, List.length_cons, List.range'_succ, List.zipWith_cons_cons]
      rw [write_to_file_loop_octet options mode tid beyond f a src q _ s fw pkt c hmode
        hacc hc1 (by omega) (by omega), if_neg (by omega)]
      simp only [data_datagrams] at hconn
      rw [hconn]
      simp

/-- C10. Receiver in-order behaviour in octet mode: when DATA(1), ..., DATA(k) arrive in
order from the peer, the first `k - 1` (`ps`) with exactly `blocksize` payload bytes and
the last with fewer, and the line is quiet afterwards, `write_to_file` started with
expected block 1 returns success, has written exactly the payloads one after the other
and has sent exactly ACK(1), ..., ACK(k) in that order; it does not end on a full-size
block: stopped after any number `j` of the full-size blocks it does not return success. -/
theorem write_to_file_in_order (options : option_info_t) (tid : Int) (beyond : List Nat)
    (a peer : Endpoint) (ps : List (List Nat)) (last : List Nat) (tail : List NetEvent)
    (s : List Sent) (fw pkt : List Nat)
    (hacc : ((peer.port : Nat) : Int) = tid ∨ tid = TID_NOT_SET_YET)
    (hfull : ∀ p ∈ ps, p.length = options.blocksize)
    (hlast : last.length < options.blocksize)
    (hk : ps.length + 1 ≤ 65535)
    (htail : tail = [] ∨ ∃ r, tail = NetEvent.timeout :: r) :
    write_to_file ⟨a, data_datagrams peer 1 (ps ++ [last]) ++ tail, s⟩ options fw pkt
        MODE_OCTET tid 1 beyond =
      some (PROG_RET_CODE_OK, ⟨peer, tail.tail, s ++ ack_sends peer 1 (ps.length + 1)⟩,
        fw ++ (ps ++ [last]).flatten) ∧
    ∀ j, j ≤ ps.length →
      ∃ conn, write_to_file ⟨a, data_datagrams peer 1 (ps.take j), s⟩ options fw pkt
          MODE_OCTET tid 1 beyond =
        some (PROG_RET_CODE_ERR, conn, fw ++ (ps.take j).flatten) := by
  have hmode : MODE_OCTET ≠ MODE_NETASCII := by decide
  constructor
  · unfold write_to_file
    exact write_to_file_loop_in_order options MODE_OCTET tid beyond peer last tail hmode hacc
      hlast htail ps 1 _ a s fw pkt hfull (le_refl 1) (by omega)
      (by simp [data_datagrams]; omega)
  · intro j hj
    unfold write_to_file
    exact write_to_file_loop_full_blocks options MODE_OCTET tid beyond peer hmode hacc
      (ps.take j) 1 _ a s fw pkt (fun p hp => hfull p (List.mem_of_mem_take hp)) (le_refl 1)
      (by simp; omega) (by simp [data_datagrams])

theorem write_to_file_in_order_witness :
    write_to_file
        ⟨⟨1, 5000⟩, data_datagrams ⟨1, 5000⟩ 1 ([[1, 2, 3, 4, 5, 6, 7, 8]] ++ [[9]]) ++ [], []⟩
        { blocksize := 8 } [] [0, 4, 0, 0] MODE_OCTET 5000 1 [] =
      some (PROG_RET_CODE_OK,
        ⟨⟨1, 5000⟩, ([] : List NetEvent).tail,
          [] ++ ack_sends ⟨1, 5000⟩ 1 ([[1, 2, 3, 4, 5, 6, 7, 8]].length + 1)⟩,
        [] ++ ([[1, 2, 3, 4, 5, 6, 7, 8]] ++ [[9]]).flatten) ∧
    ∀ j, j ≤ [[1, 2, 3, 4, 5, 6, 7, 8]].length →
      ∃ conn, write_to_file
          ⟨⟨1, 5000⟩, data_datagrams ⟨1, 5000⟩ 1 ([[1, 2, 3, 4, 5, 6, 7, 8]].take j), []⟩
          { blocksize := 8 } [] [0, 4, 0, 0] MODE_OCTET 5000 1 [] =
        some (PROG_RET_CODE_ERR, conn, [] ++ ([[1, 2, 3, 4, 5, 6, 7, 8]].take j).flatten) :=
  write_to_file_in_order { blocksize := 8 } 5000 [] ⟨1, 5000⟩ ⟨1, 5000⟩
    [[1, 2, 3, 4, 5, 6, 7, 8]] [9] [] [] [] [0, 4, 0, 0] (Or.inl rfl) (by decide) (by decide)
    (by decide) (Or.inl rfl)

theorem read_from_file_octet_blocks_witness :
    read_from_file
        ⟨⟨1, 5000⟩,
          ack_datagrams ⟨1, 5000⟩ 1
            ([1, 2, 3, 4, 5, 6, 7, 8, 9].length / (8 : Nat) + 1) ++ [], []⟩
        [1, 2, 3, 4, 5, 6, 7, 8, 9] { blocksize := 8 } MODE_OCTET 5000 =
      some (0, ⟨⟨1, 5000⟩, [],
        [] ++ data_sends ⟨1, 5000⟩ 8 [1, 2, 3, 4, 5, 6, 7, 8, 9] 1
          ([1, 2, 3, 4, 5, 6, 7, 8, 9].length / (8 : Nat) + 1)⟩) ∧
    (data_sends ⟨1, 5000⟩ 8 [1, 2, 3, 4, 5, 6, 7, 8, 9] 1
      ([1, 2, 3, 4, 5, 6, 7, 8, 9].length / (8 : Nat) + 1)).length =
      [1, 2, 3, 4, 5, 6, 7, 8, 9].length / (8 : Nat) + 1 ∧
    (∀ k, k < [1, 2, 3, 4, 5, 6, 7, 8, 9].length / (8 : Nat) →
      (([1, 2, 3, 4, 5, 6, 7, 8, 9].drop (k * 8)).take 8).length = 8) ∧
    (([1, 2, 3, 4, 5, 6, 7, 8, 9].drop ([1, 2, 3, 4, 5, 6, 7, 8, 9].length / (8 : Nat) * 8)).take
      8).length = [1, 2, 3, 4, 5, 6, 7, 8, 9].length % 8 ∧
    ((List.range ([1, 2, 3, 4, 5, 6, 7, 8, 9].length / (8 : Nat) + 1)).map fun k =>
      ([1, 2, 3, 4, 5, 6, 7, 8, 9].drop (k * 8)).take 8).flatten =
        [1, 2, 3, 4, 5, 6, 7, 8, 9] :=
  read_from_file_octet_blocks { blocksize := 8 } 5000 ⟨1, 5000⟩ [] []
    [1, 2, 3, 4, 5, 6, 7, 8, 9] (Or.inl rfl) (by decide) (by decide)

end Tftp

namespace Tftp

/-- C1. NETASCII round trip with a pair split across two blocks: with block size 8 the
source `aaaaaaa` CR is sent as DATA(1) = `aaaaaaa` CR and DATA(2) = NUL; whatever lies in
memory behind the receive buffer, `write_to_file` returns success on these two packets
but the bytes written end in NUL and are not the source, because block 2 is decoded on
its own: `aaaaaaa` NUL when a NUL lies behind the buffer, `aaaaaaa` CR NUL when the letter
`A` does. In the same way the source `aaaaaaa` LF, sent as `aaaaaaa` CR and LF, is written
as `aaaaaaa` CR LF when `A` lies behind the buffer. -/
theorem netascii_split_cr_nul_not_restored (beyond : List Nat) :
    read_from_file
        ⟨⟨1, 5000⟩, [.datagram ⟨1, 5000⟩ [0, 4, 0, 1], .datagram ⟨1, 5000⟩ [0, 4, 0, 2]], []⟩
        [97, 97, 97, 97, 97, 97, 97, 13] { blocksize := 8 } MODE_NETASCII 5000 =
      some (0, ⟨⟨1, 5000⟩, [],
        [⟨⟨1, 5000⟩, [0, 3, 0, 1, 97, 97, 97, 97, 97, 97, 97, 13], 0⟩,
         ⟨⟨1, 5000⟩, [0, 3, 0, 2, 0], 0⟩]⟩) ∧
    (∃ conn written,
      write_to_file
          ⟨⟨1, 5000⟩,
            [.datagram ⟨1, 5000⟩ [0, 3, 0, 1, 97, 97, 97, 97, 97, 97, 97, 13],
             .datagram ⟨1, 5000⟩ [0, 3, 0, 2, 0]], []⟩
          { blocksize := 8 } [] [0, 4, 0, 0] MODE_NETASCII 5000 1 beyond =
        some (PROG_RET_CODE_OK, conn, written) ∧
      written.getLast? = some 0 ∧
      written ≠ [97, 97, 97, 97, 97, 97, 97, 13]) ∧
    (write_to_file
        ⟨⟨1, 5000⟩,
          [.datagram ⟨1, 5000⟩ [0, 3, 0, 1, 97, 97, 97, 97, 97, 97, 97, 13],
           .datagram ⟨1, 5000⟩ [0, 3, 0, 2, 0]], []⟩
        { blocksize := 8 } [] [0, 4, 0, 0] MODE_NETASCII 5000 1 [0, 0, 0, 0]).map
      (fun res => res.2.2) = some [97, 97, 97, 97, 97, 97, 97, 0] ∧
    (write_to_file
        ⟨⟨1, 5000⟩,
          [.datagram ⟨1, 5000⟩ [0, 3, 0, 1, 97, 97, 97, 97, 97, 97, 97, 13],
           .datagram ⟨1, 5000⟩ [0, 3, 0, 2, 0]], []⟩
        { blocksize := 8 } [] [0, 4, 0, 0] MODE_NETASCII 5000 1 [65, 0, 0, 0]).map
      (fun res => res.2.2) = some [97, 97, 97, 97, 97, 97, 97, 13, 0] ∧
    (read_from_file
        ⟨⟨1, 5000⟩, [.datagram ⟨1, 5000⟩ [0, 4, 0, 1], .datagram ⟨1, 5000⟩ [0, 4, 0, 2]], []⟩
        [97, 97, 97, 97, 97, 97, 97, 10] { blocksize := 8 } MODE_NETASCII 5000).map
      (fun res => res.2.sent.map (fun x => x.bytes)) =
        some [[0, 3, 0, 1, 97, 97, 97, 97, 97, 97, 97, 13], [0, 3, 0, 2, 10]] ∧
    (write_to_file
        ⟨⟨1, 5000⟩,
          [.datagram ⟨1, 5000⟩ [0, 3, 0, 1, 97, 97, 97, 97, 97, 97, 97, 13],
           .datagram ⟨1, 5000⟩ [0, 3, 0, 2, 10]], []⟩
        { blocksize := 8 } [] [0, 4, 0, 0] MODE_NETASCII 5000 1 [65, 0, 0, 0]).map
      (fun res => res.2.2) = some [97, 97, 97, 97, 97, 97, 97, 13, 10] := by
  refine ⟨by decide, ?_, by decide, by decide, by decide, by decide⟩
  have hacc : (((⟨1, 5000⟩ : Endpoint).port : Nat) : Int) = 5000 ∨
      (5000 : Int) = TID_NOT_SET_YET := Or.inl rfl
  have r1 := receive_data_expected
    ⟨⟨1, 5000⟩, [.datagram ⟨1, 5000⟩ [0, 3, 0, 2, 0]], []⟩
    [97, 97, 97, 97, 97, 97, 97, 13] [] beyond [] MODE_NETASCII 1 12 (by decide) (by decide)
  have r2 := fun fw => receive_data_expected
    ⟨⟨1, 5000⟩, [], [⟨⟨1, 5000⟩, [0, 4, 0, 1], 0⟩]⟩
    [0] [0, 0, 0, 0, 0, 0, 0] beyond fw MODE_NETASCII 2 5 (by decide) (by decide)
  have hw2 : (netascii_to_linux_loop 5 ([0] ++ [0, 0, 0, 0, 0, 0, 0] ++ beyond) 5 0) =
      ([0] ++ [0, 0, 0, 0, 0, 0, 0] ++ beyond, 5) := by
    simp [netascii_to_linux_loop, charAt, DATA_PACKET_OFFSET, CR_VALUE]
  simp only [hw2, if_true] at r2
  obtain ⟨W1, h1⟩ : ∃ W1, receive_data
      ⟨⟨1, 5000⟩, [.datagram ⟨1, 5000⟩ [0, 3, 0, 2, 0]], []⟩
      (store (List.replicate (8 + 4) 0) [0, 3, 0, 1, 97, 97, 97, 97, 97, 97, 97, 13] (8 + 4))
      beyond (min [0, 3, 0, 1, 97, 97, 97, 97, 97, 97, 97, 13].length (8 + 4)) []
      MODE_NETASCII 1 =
        (PACKET_OK_CODE, ⟨⟨1, 5000⟩, [.datagram ⟨1, 5000⟩ [0, 3, 0, 2, 0]], []⟩, W1) :=
    ⟨_, r1⟩
  have h2 : receive_data ⟨⟨1, 5000⟩, [], [⟨⟨1, 5000⟩, [0, 4, 0, 1], 0⟩]⟩
      (store (List.replicate (8 + 4) 0) [0, 3, 0, 2, 0] (8 + 4))
      beyond (min [0, 3, 0, 2, 0].length (8 + 4)) W1 MODE_NETASCII 2 =
        (PACKET_OK_CODE, ⟨⟨1, 5000⟩, [], [⟨⟨1, 5000⟩, [0, 4, 0, 1], 0⟩]⟩, W1 ++ [0]) :=
    r2 W1
  have s1 := write_to_file_loop_accept { blocksize := 8 } MODE_NETASCII 5000 beyond 2
    ⟨1, 5000⟩ ⟨1, 5000⟩ [0, 3, 0, 1, 97, 97, 97, 97, 97, 97, 97, 13]
    [.datagram ⟨1, 5000⟩ [0, 3, 0, 2, 0]] [] [] W1 [0, 4, 0, 0] 1 hacc (by decide) h1
  have s2 := write_to_file_loop_accept { blocksize := 8 } MODE_NETASCII 5000 beyond 1
    ⟨1, 5000⟩ ⟨1, 5000⟩ [0, 3, 0, 2, 0] [] [⟨⟨1, 5000⟩, [0, 4, 0, 1], 0⟩] W1 (W1 ++ [0])
    [0, 4, 0, 1] 2 hacc (by decide) h2
  rw [if_neg (by decide)] at s1
  rw [if_pos (by decide)] at s2
  have hne : W1 ++ [0] ≠ [97, 97, 97, 97, 97, 97, 97, 13] := by
    intro h
    have := congrArg List.getLast? h
    simp at this
  exact ⟨_, W1 ++ [0], s1.trans s2, by simp, hne⟩

end Tftp

namespace Tftp

/-- C8. No Sorcerer's Apprentice: in `read_from_file` with current block `c`, an ACK with a
smaller block number `b` from the peer (or from anyone while no TID is set) is handed over
by the wait, at whatever retry index it arrives, without anything being sent; the sender
then sends nothing either and waits again with the same pending packet and the same
block number: the loop goes on from the connection as the wait left it. -/
theorem duplicate_ack_ignored (options : option_info_t) (mode : List Nat) (tid : Int)
    (fuel : Nat) (a src : Endpoint) (rest : List NetEvent) (s : List Sent) (r : reader_t)
    (pkt : List Nat) (c b : Nat)
    (hacc : ((src.port : Nat) : Int) = tid ∨ tid = TID_NOT_SET_YET)
    (hb : b < c) (hc : c < 65536) :
    read_from_file_loop options mode tid (fuel + 1)
        ⟨a, .datagram src (serialize_packet_struct_ack { block_number := b }) :: rest, s⟩ r
        pkt c =
      read_from_file_loop options mode tid fuel ⟨src, rest, s⟩ r pkt c ∧
    (∀ (i : Nat) (buffer : List Nat), i < MAX_RETRANSMIT_ATTEMPTS →
      recvfrom_retransmit_loop options.blocksize pkt tid
          (.datagram src (serialize_packet_struct_ack { block_number := b }) :: rest) i a s
          buffer =
        (4, ⟨src, rest, s⟩,
          store buffer (serialize_packet_struct_ack { block_number := b })
            (options.blocksize + 4))) ∧
    (∀ (conn : Net),
      0 ≤ (recvfrom_retransmit conn options.blocksize
        (List.replicate (options.blocksize + DATA_PACKET_OFFSET) 0) pkt tid).1 →
      deserialize_packet_struct_ack (recvfrom_retransmit conn options.blocksize
        (List.replicate (options.blocksize + DATA_PACKET_OFFSET) 0) pkt tid).2.2 =
          { opcode := 4, block_number := b } →
      read_from_file_loop options mode tid (fuel + 1) conn r pkt c =
        read_from_file_loop options mode tid fuel
          (recvfrom_retransmit conn options.blocksize
            (List.replicate (options.blocksize + DATA_PACKET_OFFSET) 0) pkt tid).2.1
          r pkt c) := by
  have hgen : ∀ (conn : Net),
      0 ≤ (recvfrom_retransmit conn options.blocksize
        (List.replicate (options.blocksize + DATA_PACKET_OFFSET) 0) pkt tid).1 →
      deserialize_packet_struct_ack (recvfrom_retransmit conn options.blocksize
        (List.replicate (options.blocksize + DATA_PACKET_OFFSET) 0) pkt tid).2.2 =
          { opcode := 4, block_number := b } →
      read_from_file_loop options mode tid (fuel + 1) conn r pkt c =
        read_from_file_loop options mode tid fuel
          (recvfrom_retransmit conn options.blocksize
            (List.replicate (options.blocksize + DATA_PACKET_OFFSET) 0) pkt tid).2.1
          r pkt c := by
    intro conn h0 hack
    have hop : chars_to_short
        (charAt (recvfrom_retransmit conn options.blocksize
          (List.replicate (options.blocksize + DATA_PACKET_OFFSET) 0) pkt tid).2.2 0)
        (charAt (recvfrom_retransmit conn options.blocksize
          (List.replicate (options.blocksize + DATA_PACKET_OFFSET) 0) pkt tid).2.2 1) = 4 := by
      have := congrArg tftp_ack_packet_t.opcode hack
      simpa [deserialize_packet_struct_ack] using this
    have hra : receive_ack
        (recvfrom_retransmit conn options.blocksize
          (List.replicate (options.blocksize + DATA_PACKET_OFFSET) 0) pkt tid).2.1
        (recvfrom_retransmit conn options.blocksize
          (List.replicate (options.blocksize + DATA_PACKET_OFFSET) 0) pkt tid).2.2 c =
        (DUPLICATED_PACKET, (recvfrom_retransmit conn options.blocksize
          (List.replicate (options.blocksize + DATA_PACKET_OFFSET) 0) pkt tid).2.1) := by
      unfold receive_ack
      simp only [hack, Nat.mod_eq_of_lt hc]
      have h1 : ¬ (b > c) := by omega
      simp [check_packet_content_ack, ACK_OPCODE, h1, hb, DUPLICATED_PACKET,
        ERR_CODE_ILLEGAL_OPERATION]
    rw [read_from_file_loop]
    simp only [hra, hop, if_neg (not_lt.mpr h0)]
    simp [ERROR_OPCODE, DUPLICATED_PACKET, ERR_CODE_ILLEGAL_OPERATION, PACKET_OK_CODE]
  have hA : serialize_packet_struct_ack { block_number := b } =
      [0, 4, b / 256 % 256, b % 256] := by
    simp [serialize_packet_struct_ack, short_to_chars_eq, ACK_OPCODE]
  have hwait := recvfrom_retransmit_datagram a src
    (serialize_packet_struct_ack { block_number := b }) rest s options.blocksize
    (List.replicate (options.blocksize + DATA_PACKET_OFFSET) 0) pkt tid hacc
  refine ⟨?_, ?_, hgen⟩
  · have h := hgen ⟨a, .datagram src (serialize_packet_struct_ack { block_number := b }) :: rest, s⟩
    rw [hwait] at h
    apply h
    · exact Int.ofNat_nonneg _
    · show deserialize_packet_struct_ack (store (List.replicate (options.blocksize + 4) 0)
        (serialize_packet_struct_ack { block_number := b }) (options.blocksize + 4)) = _
      rw [store_zeroes _ _ (by rw [hA]; simp), hA]
      simp only [deserialize_packet_struct_ack, charAt, List.cons_append, List.getD_cons_zero,
        List.getD_cons_succ, chars_to_short_short_to_chars b (by omega),
        tftp_ack_packet_t.mk.injEq, and_true]
      decide
  · intro i buffer hi
    have h1 : ¬ (i = MAX_RETRANSMIT_ATTEMPTS) := by omega
    have h3 : ¬ (((src.port : Nat) : Int) ≠ tid ∧ tid ≠ TID_NOT_SET_YET) := by
      rcases hacc with h | h
      · exact fun hh => hh.1 h
      · exact fun hh => hh.2 h
    rw [recvfrom_retransmit_loop]
    simp [h1, recv_outcome, h3, hA, ERR_CODE_TIMEOUT]

theorem duplicate_ack_ignored_witness :
    read_from_file_loop { blocksize := 8 } MODE_OCTET 5000 (1 + 1)
        ⟨⟨1, 5000⟩,
          .datagram ⟨1, 5000⟩ (serialize_packet_struct_ack { block_number := 2 }) ::
            [.datagram ⟨1, 5000⟩ [0, 4, 0, 3]], []⟩
        ⟨[], [7], false, false⟩ [0, 3, 0, 3, 7] 3 =
      read_from_file_loop { blocksize := 8 } MODE_OCTET 5000 1
        ⟨⟨1, 5000⟩, [.datagram ⟨1, 5000⟩ [0, 4, 0, 3]], []⟩ ⟨[], [7], false, false⟩
        [0, 3, 0, 3, 7] 3 ∧
    (∀ (i : Nat) (buffer : List Nat), i < MAX_RETRANSMIT_ATTEMPTS →
      recvfrom_retransmit_loop (8 : Nat) [0, 3, 0, 3, 7] 5000
          (.datagram ⟨1, 5000⟩ (serialize_packet_struct_ack { block_number := 2 }) ::
            [.datagram ⟨1, 5000⟩ [0, 4, 0, 3]]) i ⟨1, 5000⟩ [] buffer =
        (4, ⟨⟨1, 5000⟩, [.datagram ⟨1, 5000⟩ [0, 4, 0, 3]], []⟩,
          store buffer (serialize_packet_struct_ack { block_number := 2 }) (8 + 4))) ∧
    (∀ (conn : Net),
      0 ≤ (recvfrom_retransmit conn (8 : Nat)
        (List.replicate (8 + DATA_PACKET_OFFSET) 0) [0, 3, 0, 3, 7] 5000).1 →
      deserialize_packet_struct_ack (recvfrom_retransmit conn (8 : Nat)
        (List.replicate (8 + DATA_PACKET_OFFSET) 0) [0, 3, 0, 3, 7] 5000).2.2 =
          { opcode := 4, block_number := 2 } →
      read_from_file_loop { blocksize := 8 } MODE_OCTET 5000 (1 + 1) conn
          ⟨[], [7], false, false⟩ [0, 3, 0, 3, 7] 3 =
        read_from_file_loop { blocksize := 8 } MODE_OCTET 5000 1
          (recvfrom_retransmit conn (8 : Nat)
            (List.replicate (8 + DATA_PACKET_OFFSET) 0) [0, 3, 0, 3, 7] 5000).2.1
          ⟨[], [7], false, false⟩ [0, 3, 0, 3, 7] 3) :=
  duplicate_ack_ignored { blocksize := 8 } MODE_OCTET 5000 1 ⟨1, 5000⟩ ⟨1, 5000⟩
    [.datagram ⟨1, 5000⟩ [0, 4, 0, 3]] [] ⟨[], [7], false, false⟩ [0, 3, 0, 3, 7] 3 2
    (Or.inl rfl) (by decide) (by decide)

end Tftp

namespace Tftp

/-! ## The retransmission budget -/

/-- One call of `recvfrom_retransmit`, started at index `i`: of the packets counted by `P`
(which does not count the answer to strangers) at most `MAX_RETRANSMIT_ATTEMPTS - i` are
sent, and only copies of the pending packet; the call fails or hands over the first
datagram of the trace that passes the TID check, stored in the buffer. -/
theorem recvfrom_retransmit_loop_spec (B : Nat) (pkt : List Nat) (tid : Int)
    (P : List Nat → Bool) (hP : P unknown_tid_packet = false) :
    ∀ (events : List NetEvent) (i : Nat) (address : Endpoint) (sent : List Sent)
      (buffer : List Nat), i ≤ MAX_RETRANSMIT_ATTEMPTS →
      ((recvfrom_retransmit_loop B pkt tid events i address sent buffer).2.1.sent.countP
          (fun x => P x.bytes) ≤
        sent.countP (fun x => P x.bytes) +
          (if P pkt then MAX_RETRANSMIT_ATTEMPTS - i else 0)) ∧
      ((recvfrom_retransmit_loop B pkt tid events i address sent buffer).1 < 0 ∨
        ∃ bytes buf2,
          accepted_datagrams tid events = bytes ::
            accepted_datagrams tid
              (recvfrom_retransmit_loop B pkt tid events i address sent buffer).2.1.events ∧
          (recvfrom_retransmit_loop B pkt tid events i address sent buffer).2.2 =
            store buf2 bytes (B + 4) ∧
          (recvfrom_retransmit_loop B pkt tid events i address sent buffer).1 =
            ((min bytes.length (B + 4) : Nat) : Int) ∧
          (recvfrom_retransmit_loop B pkt tid events i address sent buffer).2.1.events.length <
            events.length) := by
  intro events
  induction events with
  | nil =>
      intro i address sent buffer _
      simp only [recvfrom_retransmit_loop, List.countP_append, List.countP_replicate]
      refine ⟨?_, Or.inl (by decide)⟩
      split <;> simp
  | cons e events ih =>
      intro i address sent buffer hi
      rw [recvfrom_retransmit_loop]
      by_cases hmax : i = MAX_RETRANSMIT_ATTEMPTS
      · simp only [hmax, if_true]
        exact ⟨by omega, Or.inl (by decide)⟩
      · simp only [hmax, if_false]
        cases e with
        | timeout =>
            simp only [recv_outcome, if_true]
            obtain ⟨h1, h2⟩ := ih (i + 1) address (sent ++ [⟨address, pkt, 0⟩]) buffer (by omega)
            refine ⟨?_, ?_⟩
            · refine le_trans h1 ?_
              simp only [List.countP_append, List.countP_cons, List.countP_nil]
              split
              all_goals simp
              all_goals omega
            · rcases h2 with h2 | ⟨bytes, buf2, e1, e2, e3, e4⟩
              · exact Or.inl h2
              · exact Or.inr ⟨bytes, buf2, by simpa [accepted_datagrams] using e1, e2, e3,
                  by simp; omega⟩
        | selectError => simp [recv_outcome, ERR_CODE_SELECT, ERR_CODE_TIMEOUT]
        | recvError => simp [recv_outcome, ERR_CODE_TIMEOUT]
        | datagram src bytes =>
            have h1 : ¬ (((min bytes.length (B + 4) : Nat) : Int) = ERR_CODE_TIMEOUT) := by
              unfold ERR_CODE_TIMEOUT; omega
            have h2 : ¬ (((min bytes.length (B + 4) : Nat) : Int) < 0) := by omega
            simp only [recv_outcome, h1, h2, if_false]
            by_cases hs : ((src.port : Nat) : Int) ≠ tid ∧ tid ≠ TID_NOT_SET_YET
            · rw [if_pos hs]
              obtain ⟨g1, g2⟩ := ih i src (sent ++ [⟨src, unknown_tid_packet, 0⟩])
                (store buffer bytes (B + 4)) hi
              refine ⟨?_, ?_⟩
              · refine le_trans g1 ?_
                simp [List.countP_append, List.countP_cons, hP]
              · rcases g2 with g2 | ⟨b2, buf2, e1, e2, e3, e4⟩
                · exact Or.inl g2
                · exact Or.inr ⟨b2, buf2, by simpa [accepted_datagrams, hs] using e1, e2, e3,
                    by simp; omega⟩
            · rw [if_neg hs]
              exact ⟨by simp, Or.inr ⟨bytes, buffer, by simp [accepted_datagrams, hs], rfl, rfl,
                by simp⟩⟩

end Tftp

namespace Tftp

theorem header_inj (n c : Nat) (hn : n < 65536) (hc : c < 65536)
    (h : [n / 256 % 256, n % 256] = [c / 256 % 256, c % 256]) : n = c := by
  simp only [List.cons.injEq, and_true] at h
  omega

theorem has_header_data (n c k : Nat) (d : List Nat) (hn : n < 65536) (hc : c < 65536) :
    has_header 3 n (serialize_packet_struct_data { block_number := c, data := d } k) =
      decide (n = c) := by
  by_cases h : n = c
  · subst h
    simp [has_header, serialize_packet_struct_data, short_to_chars_eq, DATA_OPCODE]
  · have h2 : ¬ ([c / 256 % 256, c % 256] = [n / 256 % 256, n % 256]) :=
      fun hh => h (header_inj n c hn hc hh.symm)
    simp only [List.cons.injEq, and_true] at h2
    simp [has_header, serialize_packet_struct_data, short_to_chars_eq, DATA_OPCODE, h]
    exact fun h3 h4 => h2 ⟨h3, h4⟩

theorem has_header_ack (n c : Nat) (hn : n < 65536) (hc : c < 65536) :
    has_header 4 n (serialize_packet_struct_ack { block_number := c }) = decide (n = c) := by
  by_cases h : n = c
  · subst h
    simp [has_header, serialize_packet_struct_ack, short_to_chars_eq, ACK_OPCODE]
  · have h2 : ¬ ([c / 256 % 256, c % 256] = [n / 256 % 256, n % 256]) :=
      fun hh => h (header_inj n c hn hc hh.symm)
    simp only [List.cons.injEq, and_true] at h2
    simp [has_header, serialize_packet_struct_ack, short_to_chars_eq, ACK_OPCODE, h]
    exact fun h3 h4 => h2 ⟨h3, h4⟩

theorem has_header_unknown_tid (op n : Nat) (hop : op = 3 ∨ op = 4) :
    has_header op n unknown_tid_packet = false := by
  have h : unknown_tid_packet.take 4 = [0, 5, 0, 5] := by decide
  rcases hop with rfl | rfl <;> simp [has_header, h, short_to_chars_eq]

theorem transmissions_append_singleton (op n : Nat) (s : List Sent) (x : Sent) :
    transmissions op n (s ++ [x]) =
      transmissions op n s + (if has_header op n x.bytes then 1 else 0) := by
  simp [transmissions, List.countP_append, List.countP_cons]

/-- One wait adds at most three transmissions of the pending packet and none of any other
DATA or ACK packet. -/
theorem recvfrom_retransmit_transmissions (conn : Net) (B : Nat) (buffer pkt : List Nat)
    (tid : Int) (op n : Nat) (hop : op = 3 ∨ op = 4) :
    transmissions op n (recvfrom_retransmit conn B buffer pkt tid).2.1.sent ≤
      transmissions op n conn.sent + (if has_header op n pkt then 3 else 0) :=
  (recvfrom_retransmit_loop_spec B pkt tid (has_header op n)
    (has_header_unknown_tid op n hop) conn.events 0 conn.address conn.sent buffer
    (Nat.zero_le _)).1

/-- A wait that does not fail hands over the first datagram that passes the TID check. -/
theorem recvfrom_retransmit_accepts (conn : Net) (B : Nat) (buffer pkt : List Nat)
    (tid : Int) (h : ¬ (recvfrom_retransmit conn B buffer pkt tid).1 < 0) :
    ∃ bytes buf2,
      accepted_datagrams tid conn.events = bytes ::
        accepted_datagrams tid (recvfrom_retransmit conn B buffer pkt tid).2.1.events ∧
      (recvfrom_retransmit conn B buffer pkt tid).2.2 = store buf2 bytes (B + 4) ∧
      (recvfrom_retransmit conn B buffer pkt tid).1 = ((min bytes.length (B + 4) : Nat) : Int) ∧
      (recvfrom_retransmit conn B buffer pkt tid).2.1.events.length < conn.events.length := by
  rcases (recvfrom_retransmit_loop_spec B pkt tid (fun _ => false) rfl conn.events 0
    conn.address conn.sent buffer (Nat.zero_le _)).2 with h2 | h2
  · exact absurd h2 h
  · exact h2

end Tftp

namespace Tftp

/-- One round of `read_from_file` when the wait hands over the ACK of the current block. -/
theorem read_from_file_loop_step (options : option_info_t) (mode : List Nat) (tid : Int)
    (fuel : Nat) (conn : Net) (r : reader_t) (pkt pad : List Nat) (c : Nat) (hc : c < 65536)
    (h0 : ¬ (recvfrom_retransmit conn options.blocksize
      (List.replicate (options.blocksize + DATA_PACKET_OFFSET) 0) pkt tid).1 < 0)
    (hbuf : (recvfrom_retransmit conn options.blocksize
      (List.replicate (options.blocksize + DATA_PACKET_OFFSET) 0) pkt tid).2.2 =
        [0, 4, c / 256 % 256, c % 256] ++ pad) :
    read_from_file_loop options mode tid (fuel + 1) conn r pkt c =
      if r.data_block.length ≥ options.blocksize then
        read_from_file_loop options mode tid fuel
          (send_data (recvfrom_retransmit conn options.blocksize
              (List.replicate (options.blocksize + DATA_PACKET_OFFSET) 0) pkt tid).2.1
            ((c + 1) % 65536) (load_block options.blocksize mode r).data_block
            (load_block options.blocksize mode r).data_block.length).2
          (load_block options.blocksize mode r)
          (send_data (recvfrom_retransmit conn options.blocksize
              (List.replicate (options.blocksize + DATA_PACKET_OFFSET) 0) pkt tid).2.1
            ((c + 1) % 65536) (load_block options.blocksize mode r).data_block
            (load_block options.blocksize mode r).data_block.length).1
          ((c + 1) % 65536)
      else some (0, (recvfrom_retransmit conn options.blocksize
        (List.replicate (options.blocksize + DATA_PACKET_OFFSET) 0) pkt tid).2.1) := by
  have hop : chars_to_short 0 4 ≠ ERROR_OPCODE := by decide
  rw [read_from_file_loop]
  simp only [h0, if_false, hbuf, receive_ack_expected _ _ c hc]
  simp [charAt, hop, PACKET_OK_CODE, ERR_CODE_ILLEGAL_OPERATION]

/-- The retransmission budget of `read_from_file` from any block `c` on, when the
datagrams that pass the TID check are ACK(c), ACK(c + 1), ... in order. -/
theorem read_from_file_loop_bound (options : option_info_t) (mode : List Nat) (tid : Int)
    (bound : Nat → Nat) :
    ∀ (fuel : Nat) (conn : Net) (r : reader_t) (pkt : List Nat) (c m : Nat),
      conn.events.length < fuel →
      accepted_datagrams tid conn.events =
        (List.range' c m).map (fun b => serialize_packet_struct_ack { block_number := b }) →
      c + m ≤ 65535 →
      (∀ n, n < 65536 →
        transmissions 3 n conn.sent + (if has_header 3 n pkt then 3 else 0) ≤ bound n) →
      (∀ n, n < 65536 → c < n →
        transmissions 3 n conn.sent + 4 ≤ bound n ∧ has_header 3 n pkt = false) →
      ∃ res, read_from_file_loop options mode tid fuel conn r pkt c = some res ∧
        ∀ n, n < 65536 → transmissions 3 n res.2.sent ≤ bound n := by
  intro fuel
  induction fuel with
  | zero => intro conn r pkt c m h; omega
  | succ fuel ih =>
      intro conn r pkt c m hfuel hacc hcm h1 h2
      have hw := fun n => recvfrom_retransmit_transmissions conn options.blocksize
        (List.replicate (options.blocksize + DATA_PACKET_OFFSET) 0) pkt tid 3 n (Or.inl rfl)
      by_cases hneg : (recvfrom_retransmit conn options.blocksize
          (List.replicate (options.blocksize + DATA_PACKET_OFFSET) 0) pkt tid).1 < 0
      · refine ⟨(1, (recvfrom_retransmit conn options.blocksize
          (List.replicate (options.blocksize + DATA_PACKET_OFFSET) 0) pkt tid).2.1), ?_, ?_⟩
        · rw [read_from_file_loop]; simp [hneg]
        · intro n hn
          exact le_trans (hw n) (h1 n hn)
      · obtain ⟨bytes, buf2, e1, e2, _, e4⟩ := recvfrom_retransmit_accepts conn
          options.blocksize _ pkt tid hneg
        rw [hacc] at e1
        cases m with
        | zero => simp at e1
        | succ m =>
            rw [List.range'_succ, List.map_cons, List.cons.injEq] at e1
            obtain ⟨hb, hrest⟩ := e1
            have hA : serialize_packet_struct_ack { block_number := c } =
                [0, 4, c / 256 % 256, c % 256] := by
              simp [serialize_packet_struct_ack, short_to_chars_eq, ACK_OPCODE]
            have hbuf : (recvfrom_retransmit conn options.blocksize
                (List.replicate (options.blocksize + DATA_PACKET_OFFSET) 0) pkt tid).2.2 =
                  [0, 4, c / 256 % 256, c % 256] ++
                    buf2.drop (min 4 (options.blocksize + 4)) := by
              rw [e2, ← hb, hA]
              simp [store]
            rw [read_from_file_loop_step options mode tid fuel conn r pkt _ c (by omega) hneg
              hbuf]
            have hafter : ∀ n, n < 65536 →
                transmissions 3 n (recvfrom_retransmit conn options.blocksize
                  (List.replicate (options.blocksize + DATA_PACKET_OFFSET) 0) pkt tid).2.1.sent
                  ≤ bound n := fun n hn => le_trans (hw n) (h1 n hn)
            split
            · rw [Nat.mod_eq_of_lt (show c + 1 < 65536 by omega)]
              apply ih _ _ _ (c + 1) m
              · simp only [send_data, sendto]; omega
              · simp only [send_data, sendto]; exact hrest.symm
              · omega
              · intro n hn
                simp only [send_data, sendto, transmissions_append_singleton,
                  Nat.mod_eq_of_lt (show c + 1 < 65536 by omega),
                  has_header_data n (c + 1) _ _ hn (show c + 1 < 65536 by omega)]
                by_cases hnc : n = c + 1
                · have := h2 n hn (by omega)
                  have hw2 := hw n
                  simp only [this.2] at hw2
                  simp [hnc] at *
                  omega
                · have := hafter n hn
                  simp [hnc]
                  omega
              · intro n hn hlt
                simp only [send_data, sendto, transmissions_append_singleton,
                  Nat.mod_eq_of_lt (show c + 1 < 65536 by omega),
                  has_header_data n (c + 1) _ _ hn (show c + 1 < 65536 by omega)]
                have := h2 n hn (by omega)
                have hw2 := hw n
                simp [this.2] at hw2
                have hne : n ≠ c + 1 := by omega
                simp [hne]
                omega
            · exact ⟨_, rfl, hafter⟩

end Tftp

namespace Tftp

/-- One round of `write_to_file` when the wait hands over a packet `receive_data` accepts. -/
theorem write_to_file_loop_step (options : option_info_t) (mode : List Nat) (tid : Int)
    (beyond : List Nat) (fuel : Nat) (conn : Net) (fw fw2 pkt : List Nat) (e : Nat)
    (h0 : ¬ (recvfrom_retransmit conn options.blocksize
      (List.replicate (options.blocksize + DATA_PACKET_OFFSET) 0) pkt tid).1 < 0)
    (hop : chars_to_short
        (charAt (recvfrom_retransmit conn options.blocksize
          (List.replicate (options.blocksize + DATA_PACKET_OFFSET) 0) pkt tid).2.2 0)
        (charAt (recvfrom_retransmit conn options.blocksize
          (List.replicate (options.blocksize + DATA_PACKET_OFFSET) 0) pkt tid).2.2 1)
        ≠ ERROR_OPCODE)
    (hrd : receive_data
        (recvfrom_retransmit conn options.blocksize
          (List.replicate (options.blocksize + DATA_PACKET_OFFSET) 0) pkt tid).2.1
        (recvfrom_retransmit conn options.blocksize
          (List.replicate (options.blocksize + DATA_PACKET_OFFSET) 0) pkt tid).2.2 beyond
        (recvfrom_retransmit conn options.blocksize
          (List.replicate (options.blocksize + DATA_PACKET_OFFSET) 0) pkt tid).1.toNat
        fw mode e =
      (PACKET_OK_CODE, (recvfrom_retransmit conn options.blocksize
          (List.replicate (options.blocksize + DATA_PACKET_OFFSET) 0) pkt tid).2.1, fw2)) :
    write_to_file_loop options mode tid beyond (fuel + 1) conn fw pkt e =
      if (recvfrom_retransmit conn options.blocksize
          (List.replicate (options.blocksize + DATA_PACKET_OFFSET) 0) pkt tid).1 <
          ((options.blocksize + DATA_PACKET_OFFSET : Nat) : Int) then
        some (PROG_RET_CODE_OK,
          final_ack_loop options.blocksize
            (serialize_packet_struct_ack { block_number := e % 65536 })
            MAX_RETRANSMIT_ATTEMPTS 0
            (sendto (recvfrom_retransmit conn options.blocksize
              (List.replicate (options.blocksize + DATA_PACKET_OFFSET) 0) pkt tid).2.1
              (serialize_packet_struct_ack { block_number := e % 65536 }) 0)
            (recvfrom_retransmit conn options.blocksize
              (List.replicate (options.blocksize + DATA_PACKET_OFFSET) 0) pkt tid).2.2,
          fw2)
      else
        write_to_file_loop options mode tid beyond fuel
          (sendto (recvfrom_retransmit conn options.blocksize
              (List.replicate (options.blocksize + DATA_PACKET_OFFSET) 0) pkt tid).2.1
            (serialize_packet_struct_ack { block_number := e % 65536 }) 0)
          fw2 (serialize_packet_struct_ack { block_number := e % 65536 }) (e + 1) := by
  rw [write_to_file_loop]
  simp only [h0, if_false, hop, hrd]
  simp [PACKET_OK_CODE, ERR_CODE_ILLEGAL_OPERATION, send_ack]

theorem recvfrom_timeout_sent (conn : Net) (B : Nat) (buffer : List Nat) :
    (recvfrom_timeout conn B buffer).2.1.sent = conn.sent := by
  unfold recvfrom_timeout
  split <;> rfl

/-- The loop that ends `write_to_file` re-sends the last ACK at most once per round. -/
theorem final_ack_loop_count (B : Nat) (pkt : List Nat) (P : List Nat → Bool) :
    ∀ (k i : Nat) (conn : Net) (buffer : List Nat),
      (final_ack_loop B pkt k i conn buffer).sent.countP (fun x => P x.bytes) ≤
        conn.sent.countP (fun x => P x.bytes) + (if P pkt then k else 0) := by
  intro k
  induction k with
  | zero => intro i conn buffer; simp [final_ack_loop]
  | succ k ih =>
      intro i conn buffer
      rw [final_ack_loop]
      split
      · rw [recvfrom_timeout_sent]; omega
      · refine le_trans (ih _ _ _) ?_
        simp only [sendto, List.countP_append, List.countP_cons, List.countP_nil,
          recvfrom_timeout_sent]
        split
        all_goals simp
        all_goals omega

theorem data_packets_cons (c : Nat) (p : List Nat) (ps : List (List Nat)) :
    data_packets c (p :: ps) =
      serialize_packet_struct_data { block_number := c, data := p } p.length ::
        data_packets (c + 1) ps := by
  simp [data_packets, List.range'_succ]

end Tftp

namespace Tftp

/-- The retransmission budget of `write_to_file` from any expected block `c` on, when the
datagrams that pass the TID check are DATA(c), DATA(c + 1), ... in order, for the packets
counted by `P`, which counts at most one of the acknowledgements still to come. -/
theorem write_to_file_loop_bound (options : option_info_t) (mode : List Nat) (tid : Int)
    (beyond : List Nat) (P : List Nat → Bool) (hP : P unknown_tid_packet = false)
    (bound : Nat) :
    ∀ (fuel : Nat) (conn : Net) (fw pkt : List Nat) (c : Nat) (ps : List (List Nat)),
      conn.events.length < fuel →
      accepted_datagrams tid conn.events = data_packets c ps →
      1 ≤ c → c + ps.length ≤ 65536 →
      conn.sent.countP (fun x => P x.bytes) + (if P pkt then 3 else 0) ≤ bound →
      (∀ n, c ≤ n → n < c + ps.length →
        P (serialize_packet_struct_ack { block_number := n }) = true →
        conn.sent.countP (fun x => P x.bytes) + 4 ≤ bound ∧ P pkt = false ∧
        ∀ k, c ≤ k → k < c + ps.length →
          P (serialize_packet_struct_ack { block_number := k }) = true → k = n) →
      ∃ res, write_to_file_loop options mode tid beyond fuel conn fw pkt c = some res ∧
        res.2.1.sent.countP (fun x => P x.bytes) ≤ bound := by
  intro fuel
  induction fuel with
  | zero => intro conn fw pkt c ps h; omega
  | succ fuel ih =>
      intro conn fw pkt c ps hfuel hacc hc1 hc2 h1 h2
      have hw := (recvfrom_retransmit_loop_spec options.blocksize pkt tid P hP conn.events 0
        conn.address conn.sent (List.replicate (options.blocksize + DATA_PACKET_OFFSET) 0)
        (Nat.zero_le _)).1
      simp only [Nat.sub_zero, MAX_RETRANSMIT_ATTEMPTS] at hw
      change (recvfrom_retransmit conn options.blocksize
        (List.replicate (options.blocksize + DATA_PACKET_OFFSET) 0) pkt tid).2.1.sent.countP
          (fun x => P x.bytes) ≤ _ at hw
      have hafter : (recvfrom_retransmit conn options.blocksize
          (List.replicate (options.blocksize + DATA_PACKET_OFFSET) 0) pkt tid).2.1.sent.countP
            (fun x => P x.bytes) ≤ bound := le_trans hw h1
      by_cases hneg : (recvfrom_retransmit conn options.blocksize
          (List.replicate (options.blocksize + DATA_PACKET_OFFSET) 0) pkt tid).1 < 0
      · refine ⟨(PROG_RET_CODE_ERR, (recvfrom_retransmit conn options.blocksize
          (List.replicate (options.blocksize + DATA_PACKET_OFFSET) 0) pkt tid).2.1, fw), ?_, ?_⟩
        · rw [write_to_file_loop]; simp [hneg]
        · exact hafter
      · obtain ⟨bytes, buf2, e1, e2, e3, e4⟩ := recvfrom_retransmit_accepts conn
          options.blocksize _ pkt tid hneg
        rw [hacc] at e1
        cases ps with
        | nil => simp [data_packets] at e1
        | cons p ps =>
            rw [data_packets_cons, List.cons.injEq] at e1
            obtain ⟨hb, hrest⟩ := e1
            simp only [List.length_cons] at hc2 h2
            have hc : c < 65536 := by omega
            have hD : serialize_packet_struct_data { block_number := c, data := p } p.length =
                [0, 3, c / 256 % 256, c % 256] ++ p := by
              simp [serialize_packet_struct_data, short_to_chars_eq, DATA_OPCODE]
            have hbuf : (recvfrom_retransmit conn options.blocksize
                (List.replicate (options.blocksize + DATA_PACKET_OFFSET) 0) pkt tid).2.2 =
                  [0, 3, c / 256 % 256, c % 256] ++ p.take options.blocksize ++
                    buf2.drop (min (p.length + 4) (options.blocksize + 4)) := by
              rw [e2, ← hb, hD]
              simp [store, List.take_append_eq_append_take]
            have hrd := receive_data_expected
              (recvfrom_retransmit conn options.blocksize
                (List.replicate (options.blocksize + DATA_PACKET_OFFSET) 0) pkt tid).2.1
              (p.take options.blocksize)
              (buf2.drop (min (p.length + 4) (options.blocksize + 4))) beyond fw mode c
              (recvfrom_retransmit conn options.blocksize
                (List.replicate (options.blocksize + DATA_PACKET_OFFSET) 0) pkt tid).1.toNat
              hc1 hc
            rw [← hbuf] at hrd
            rw [write_to_file_loop_step options mode tid beyond fuel conn fw _ pkt c hneg
              (by rw [hbuf]; simp only [charAt, List.cons_append, List.getD_cons_zero,
                    List.getD_cons_succ]; decide) hrd]
            have hsent : (sendto (recvfrom_retransmit conn options.blocksize
                  (List.replicate (options.blocksize + DATA_PACKET_OFFSET) 0) pkt tid).2.1
                  (serialize_packet_struct_ack { block_number := c % 65536 }) 0).sent.countP
                    (fun x => P x.bytes) +
                  (if P (serialize_packet_struct_ack { block_number := c % 65536 })
                    then 3 else 0) ≤ bound := by
              simp only [sendto, List.countP_append, List.countP_cons, List.countP_nil,
                Nat.mod_eq_of_lt hc]
              by_cases hPc : P (serialize_packet_struct_ack { block_number := c }) = true
              · have := h2 c (le_refl c) (by omega) hPc
                simp [this.2.1] at hw
                simp [hPc]
                omega
              · simp [hPc]
                omega
            split
            · refine ⟨_, rfl, ?_⟩
              exact le_trans (final_ack_loop_count _ _ P _ _ _ _) hsent
            · apply ih _ _ _ (c + 1) ps
              · simp only [sendto]; omega
              · simp only [sendto]; exact hrest.symm
              · omega
              · omega
              · exact hsent
              · intro n hn1 hn2 hPn
                have hn := h2 n (by omega) (by omega) hPn
                have hPc : ¬ (P (serialize_packet_struct_ack { block_number := c }) = true) := by
                  intro hPc
                  have := hn.2.2 c (le_refl c) (by omega) hPc
                  omega
                simp [hn.2.1] at hw
                refine ⟨?_, ?_, ?_⟩
                · simp only [sendto, List.countP_append, List.countP_cons, List.countP_nil,
                    Nat.mod_eq_of_lt hc]
                  simp [hPc]
                  omega
                · rw [Nat.mod_eq_of_lt hc]; simpa using hPc
                · intro k hk1 hk2 hPk
                  exact hn.2.2 k (by omega) (by omega) hPk

end Tftp

namespace Tftp

/-- C7, amended. In every trace in which the datagrams passing the TID check are the
peer's ACK(1), ACK(2), ... in order (for `read_from_file`) or its DATA(c), DATA(c + 1), ...
in order (for `write_to_file`), however timeouts, receive failures and stranger datagrams
are interleaved, `read_from_file` returns having put each DATA block on the wire at most
1 + MAX_RETRANSMIT_ATTEMPTS = 4 times, and `write_to_file` returns having sent each ACK at
most 4 times and the packet it was handed at most 3 more times. In every trace whatever,
one call of `recvfrom_retransmit` re-sends its pending packet at most 3 times and sends no
other packet apart from the ERROR answer to strangers: the budget is per wait, so each
duplicate accepted from the peer, which starts a new wait, renews it. -/
theorem retransmit_bound_without_duplicates (options : option_info_t) (mode : List Nat)
    (tid : Int) (a : Endpoint) (events : List NetEvent) (s : List Sent) (file : List Nat)
    (m : Nat) (a2 : Endpoint) (events2 : List NetEvent) (s2 : List Sent)
    (fw pkt beyond : List Nat) (c : Nat) (ps : List (List Nat))
    (hacks : accepted_datagrams tid events =
      (List.range' 1 m).map (fun b => serialize_packet_struct_ack { block_number := b }))
    (hm : m + 1 ≤ 65535)
    (hdata : accepted_datagrams tid events2 = data_packets c ps)
    (hc1 : 1 ≤ c) (hc2 : c + ps.length ≤ 65536)
    (hpkt : ∀ n, n < 65536 → c ≤ n → has_header 4 n pkt = false) :
    (∃ res, read_from_file ⟨a, events, s⟩ file options mode tid = some res ∧
      ∀ n, n < 65536 → transmissions 3 n res.2.sent ≤ transmissions 3 n s + 4) ∧
    (∃ res, write_to_file ⟨a2, events2, s2⟩ options fw pkt mode tid c beyond = some res ∧
      (∀ n, n < 65536 → transmissions 4 n res.2.1.sent ≤
        transmissions 4 n s2 + (if has_header 4 n pkt then 3 else 4)) ∧
      (pkt ≠ unknown_tid_packet →
        res.2.1.sent.countP (fun x => x.bytes == pkt) ≤
          s2.countP (fun x => x.bytes == pkt) + 3)) ∧
    (∀ (conn : Net) (buffer packet : List Nat) (P : List Nat → Bool),
      P unknown_tid_packet = false →
      (recvfrom_retransmit conn options.blocksize buffer packet tid).2.1.sent.countP
          (fun x => P x.bytes) ≤
        conn.sent.countP (fun x => P x.bytes) + (if P packet then 3 else 0)) := by
  refine ⟨?_, ?_, ?_⟩
  · unfold read_from_file
    apply read_from_file_loop_bound options mode tid (fun n => transmissions 3 n s + 4) _ _ _ _
      1 m
    · simp [send_data, sendto]
    · simpa [send_data, sendto] using hacks
    · omega
    · intro n hn
      simp only [send_data, sendto, transmissions_append_singleton, Nat.reduceMod,
        has_header_data n 1 _ _ hn (by decide)]
      split <;> simp
    · intro n hn h1
      simp only [send_data, sendto, transmissions_append_singleton, Nat.reduceMod,
        has_header_data n 1 _ _ hn (by decide)]
      have hne : n ≠ 1 := by omega
      simp [hne]
  · have hfuel : (⟨a2, events2, s2⟩ : Net).events.length < events2.length + 1 := by simp
    obtain ⟨res, hres, _⟩ := write_to_file_loop_bound options mode tid beyond (fun _ => false)
      rfl 0 (events2.length + 1) ⟨a2, events2, s2⟩ fw pkt c ps hfuel hdata hc1 hc2 (by simp)
      (by intro n _ _ h; simp at h)
    refine ⟨res, hres, ?_, ?_⟩
    · intro n hn
      obtain ⟨res2, hres2, hb⟩ := write_to_file_loop_bound options mode tid beyond
        (has_header 4 n) (has_header_unknown_tid 4 n (Or.inr rfl))
        (transmissions 4 n s2 + (if has_header 4 n pkt then 3 else 4))
        (events2.length + 1) ⟨a2, events2, s2⟩ fw pkt c ps hfuel hdata hc1 hc2
        (by show transmissions 4 n s2 + _ ≤ _; split <;> omega)
        (by
          intro k hk1 hk2 hPk
          rw [has_header_ack n k hn (by omega)] at hPk
          have hnk : n = k := by simpa using hPk
          subst hnk
          have hf := hpkt n hn hk1
          refine ⟨?_, hf, ?_⟩
          · show transmissions 4 n s2 + 4 ≤ _
            simp [hf]
          · intro j hj1 hj2 hPj
            rw [has_header_ack n j hn (by omega)] at hPj
            have : n = j := by simpa using hPj
            omega)
      have : res2 = res := Option.some.inj (hres2.symm.trans hres)
      subst this
      exact hb
    · intro hne
      obtain ⟨res2, hres2, hb⟩ := write_to_file_loop_bound options mode tid beyond
        (fun b => b == pkt) (by simpa using hne.symm)
        (s2.countP (fun x => x.bytes == pkt) + 3)
        (events2.length + 1) ⟨a2, events2, s2⟩ fw pkt c ps hfuel hdata hc1 hc2
        (by simp)
        (by
          intro k hk1 hk2 hPk
          have hk : k < 65536 := by omega
          have h1 := hpkt k hk hk1
          have h2 : serialize_packet_struct_ack { block_number := k } = pkt := by
            simpa using hPk
          rw [← h2, has_header_ack k k hk hk] at h1
          simp at h1)
      have : res2 = res := Option.some.inj (hres2.symm.trans hres)
      subst this
      exact hb
  · intro conn buffer packet P hP
    exact (recvfrom_retransmit_loop_spec options.blocksize packet tid P hP conn.events 0
      conn.address conn.sent buffer (Nat.zero_le _)).1

end Tftp

namespace Tftp

theorem retransmit_bound_without_duplicates_witness :
    (∃ res, read_from_file
        ⟨⟨1, 5000⟩,
          [.timeout, .datagram ⟨2, 6000⟩ [0, 3, 0, 7], .datagram ⟨1, 5000⟩ [0, 4, 0, 1]], []⟩
        [1, 2, 3] { blocksize := 8 } MODE_OCTET 5000 = some res ∧
      ∀ n, n < 65536 → transmissions 3 n res.2.sent ≤ transmissions 3 n [] + 4) ∧
    (∃ res, write_to_file
        ⟨⟨1, 5000⟩, [.timeout, .datagram ⟨1, 5000⟩ [0, 3, 0, 1, 9]], []⟩
        { blocksize := 8 } [] [0, 4, 0, 0] MODE_OCTET 5000 1 [] = some res ∧
      (∀ n, n < 65536 → transmissions 4 n res.2.1.sent ≤
        transmissions 4 n [] + (if has_header 4 n [0, 4, 0, 0] then 3 else 4)) ∧
      ([0, 4, 0, 0] ≠ unknown_tid_packet →
        res.2.1.sent.countP (fun x => x.bytes == [0, 4, 0, 0]) ≤
          ([] : List Sent).countP (fun x => x.bytes == [0, 4, 0, 0]) + 3)) ∧
    (∀ (conn : Net) (buffer packet : List Nat) (P : List Nat → Bool),
      P unknown_tid_packet = false →
      (recvfrom_retransmit conn ({ blocksize := 8 } : option_info_t).blocksize buffer packet
          5000).2.1.sent.countP (fun x => P x.bytes) ≤
        conn.sent.countP (fun x => P x.bytes) + (if P packet then 3 else 0)) :=
  retransmit_bound_without_duplicates { blocksize := 8 } MODE_OCTET 5000 ⟨1, 5000⟩
    [.timeout, .datagram ⟨2, 6000⟩ [0, 3, 0, 7], .datagram ⟨1, 5000⟩ [0, 4, 0, 1]] []
    [1, 2, 3] 1 ⟨1, 5000⟩ [.timeout, .datagram ⟨1, 5000⟩ [0, 3, 0, 1, 9]] [] [] [0, 4, 0, 0]
    [] 1 [[9]] (by decide) (by decide) (by decide) (by decide) (by decide)
    (fun n hn h1 => by
      rw [show ([0, 4, 0, 0] : List Nat) = serialize_packet_struct_ack { block_number := 0 }
        from rfl, has_header_ack n 0 hn (by decide)]
      simp
      omega)

end Tftp

namespace Tftp

/-! ## Decimal strings -/

/-- The digits `to_string_aux` puts in front of `acc`: digits only, at least one, and read
back by `digits_value` they give the number. -/
theorem to_string_aux_spec :
    ∀ (n fuel : Nat) (acc : List Nat), n < fuel →
      ∃ ds, to_string_aux fuel n acc = ds ++ acc ∧ ds ≠ [] ∧
        (∀ d ∈ ds, 48 ≤ d ∧ d ≤ 57) ∧
        ∀ (rest : List Nat) (v0 : Nat),
          digits_value (ds ++ rest) v0 = digits_value rest (v0 * 10 ^ ds.length + n) := by
  intro n
  induction n using Nat.strong_induction_on with
  | _ n ih =>
      intro fuel acc hfuel
      obtain ⟨f, rfl⟩ : ∃ f, fuel = f + 1 := ⟨fuel - 1, by omega⟩
      rw [to_string_aux]
      by_cases h : n < 10
      · refine ⟨[48 + n], by simp [h], by simp, ?_, ?_⟩
        · intro d hd
          simp at hd
          omega
        · intro rest v0
          have hd : isdigit (48 + n) = true := by simp [isdigit]; omega
          simp [digits_value, hd]
      · obtain ⟨ds, h1, _, h3, h4⟩ := ih (n / 10) (by omega) f ((48 + n % 10) :: acc) (by omega)
        refine ⟨ds ++ [48 + n % 10], by simp [h, h1], by simp, ?_, ?_⟩
        · intro d hd
          rcases List.mem_append.mp hd with hd | hd
          · exact h3 d hd
          · simp at hd
            omega
        · intro rest v0
          have hd : isdigit (48 + n % 10) = true := by simp [isdigit]; omega
          rw [List.append_assoc, h4]
          simp only [List.singleton_append, digits_value, hd, if_true, List.length_append,
            List.length_singleton, Nat.add_sub_cancel_left]
          congr 1
          rw [pow_succ]
          have := Nat.div_add_mod n 10
          nlinarith [Nat.div_add_mod n 10]

theorem to_string_digits (n : Nat) :
    to_string n ≠ [] ∧ (∀ d ∈ to_string n, 48 ≤ d ∧ d ≤ 57) ∧
      digits_value (to_string n) 0 = n := by
  obtain ⟨ds, h1, h2, h3, h4⟩ := to_string_aux_spec n (n + 1) [] (by omega)
  have h : to_string n = ds := by simpa [to_string] using h1
  rw [h]
  refine ⟨h2, h3, ?_⟩
  have := h4 [] 0
  simpa [digits_value] using this

/-- The function `stoi` reads back what `to_string` wrote, as long as it fits an `int`. -/
theorem stoi_to_string (n : Nat) (hn : n ≤ 2147483647) : stoi (to_string n) = some (n : Int) := by
  obtain ⟨h1, h2, h3⟩ := to_string_digits n
  obtain ⟨c, cs, hc⟩ : ∃ c cs, to_string n = c :: cs := by
    cases h : to_string n with
    | nil => exact absurd h h1
    | cons c cs => exact ⟨c, cs, rfl⟩
  have hcd := h2 c (by rw [hc]; simp)
  have hsp : isspace c = false := by simp [isspace]; omega
  have hdg : isdigit c = true := by simp [isdigit]; omega
  have h45 : c ≠ 45 := by omega
  have h43 : c ≠ 43 := by omega
  rw [hc] at h3
  have hdw : (c :: cs).dropWhile isspace = c :: cs := by simp [List.dropWhile_cons, hsp]
  have hsig : (match c :: cs with
      | 45 :: r => (true, r)
      | 43 :: r => (false, r)
      | _ => (false, c :: cs)) = (false, c :: cs) := by
    split
    · rename_i heq; exact absurd (List.cons.inj heq).1 h45
    · rename_i heq; exact absurd (List.cons.inj heq).1 h43
    · rfl
  unfold stoi
  simp only [hc, hdw, hsig, hdg, h3, if_true]
  simp
  omega

theorem read_cstr_to_string (n : Nat) (rest : List Nat) :
    read_cstr (to_string n ++ 0 :: rest) = to_string n :=
  read_cstr_append_nul _ _ (fun c hc => by have := (to_string_digits n).2.1 c hc; omega)

end Tftp

namespace Tftp

/-! ## The option trailer -/

/-- The loop of `deserialize_option_info` only looks at the buffer from its index on. -/
theorem deserialize_option_info_loop_shift :
    ∀ (fuel : Nat) (oi : option_info_t) (seq : List Nat) (i k : Nat),
      deserialize_option_info_loop fuel oi seq i k =
        deserialize_option_info_loop fuel oi (seq.drop i) 0 k := by
  intro fuel
  induction fuel with
  | zero => intro oi seq i k; rfl
  | succ fuel ih =>
      intro oi seq i k
      have hch : charAt seq i = charAt (seq.drop i) 0 := by
        simp [charAt, List.getD_eq_getElem?_getD, List.getElem?_drop]
      rw [deserialize_option_info_loop, deserialize_option_info_loop, hch]
      simp only [List.drop_drop, List.drop_zero, Nat.zero_add, List.length_map]
      split
      · rfl
      · have e : ∀ (o : option_info_t) (j k2 : Nat),
            deserialize_option_info_loop fuel o seq (i + j) k2 =
              deserialize_option_info_loop fuel o (seq.drop i) j k2 := by
          intro o j k2
          rw [ih o seq (i + j) k2, ih o (seq.drop i) j k2, List.drop_drop]
        simp only [Nat.add_assoc, Nat.add_zero, e]

/-- One round of the loop on an option written by `serialize_option_info`: the name is
read up to its NUL, the digits up to theirs, and the value is the number written. -/
theorem deserialize_option_info_loop_round (fuel : Nat) (oi : option_info_t)
    (name rest : List Nat) (v k : Nat) (hfuel : 0 < fuel)
    (hnul : ∀ c ∈ name, c ≠ 0) (hlow : name.map tolower = name) (hne : name ≠ [])
    (hv : v ≤ 2147483647) :
    deserialize_option_info_loop fuel oi (name ++ 0 :: (to_string v ++ 0 :: rest)) 0 k =
      if name = ascii "blksize" then
        deserialize_option_info_loop (fuel - 1)
          { oi with
            option_blocksize := true
            blocksize := v
            option_order := oi.option_order.set k options.BLOCKSIZE } rest 0 (k + 1)
      else if name = ascii "timeout" then
        deserialize_option_info_loop (fuel - 1)
          { oi with
            option_timeout_interval := true
            timeout_interval := v
            option_order := oi.option_order.set k options.TIMEOUT } rest 0 (k + 1)
      else if name = ascii "tsize" then
        deserialize_option_info_loop (fuel - 1)
          { oi with
            option_transfer_size := true
            transfer_size := v
            option_order := oi.option_order.set k options.TRANSFER_SIZE } rest 0 (k + 1)
      else deserialize_option_info_loop (fuel - 1) oi rest 0 k := by
  obtain ⟨f, rfl⟩ : ∃ f, fuel = f + 1 := ⟨fuel - 1, by omega⟩
  obtain ⟨c, cs, rfl⟩ : ∃ c cs, name = c :: cs := by
    cases name with
    | nil => exact absurd rfl hne
    | cons c cs => exact ⟨c, cs, rfl⟩
  have hc0 : c ≠ 0 := hnul c (by simp)
  have h1 : read_cstr (c :: cs ++ 0 :: (to_string v ++ 0 :: rest)) = c :: cs :=
    read_cstr_append_nul _ _ hnul
  have h2 : (c :: cs ++ 0 :: (to_string v ++ 0 :: rest)).drop ((c :: cs).length + 1) =
      to_string v ++ 0 :: rest := by
    rw [← List.drop_drop, List.drop_left]
    rfl
  have h3 : (c :: cs ++ 0 :: (to_string v ++ 0 :: rest)).drop
      ((c :: cs).length + 1 + (to_string v).length + 1) = rest := by
    rw [show (c :: cs).length + 1 + (to_string v).length + 1 =
        ((c :: cs).length + 1) + ((to_string v).length + 1) by omega,
      ← List.drop_drop, h2, ← List.drop_drop, List.drop_left]
    rfl
  have hu : to_unsigned (v : Int) = v := by
    unfold to_unsigned
    omega
  have e : ∀ (o : option_info_t) (k2 : Nat),
      deserialize_option_info_loop f o (c :: cs ++ 0 :: (to_string v ++ 0 :: rest))
        ((c :: cs).length + 1 + (to_string v).length + 1) k2 =
          deserialize_option_info_loop f o rest 0 k2 := by
    intro o k2
    rw [deserialize_option_info_loop_shift, h3]
  rw [deserialize_option_info_loop]
  have hch : charAt (c :: cs ++ 0 :: (to_string v ++ 0 :: rest)) 0 = c := rfl
  simp only [hch, hc0, if_false, List.drop_zero, h1, hlow, Nat.zero_add, h2,
    read_cstr_to_string, stoi_to_string v hv, hu, e, Nat.add_sub_cancel]

theorem deserialize_option_info_loop_stop (fuel : Nat) (oi : option_info_t)
    (rest : List Nat) (k : Nat) (hfuel : 0 < fuel) :
    deserialize_option_info_loop fuel oi (0 :: rest) 0 k = oi := by
  obtain ⟨f, rfl⟩ : ∃ f, fuel = f + 1 := ⟨fuel - 1, by omega⟩
  simp [deserialize_option_info_loop, charAt]

end Tftp

namespace Tftp

/-- The fuel of the loop of `deserialize_option_info` is enough as soon as it reaches to
the end of the buffer: more fuel does not change the result. -/
theorem deserialize_option_info_loop_fuel :
    ∀ (f1 f2 : Nat) (oi : option_info_t) (seq : List Nat) (i k : Nat),
      seq.length ≤ i + f1 → seq.length ≤ i + f2 →
      deserialize_option_info_loop f1 oi seq i k =
        deserialize_option_info_loop f2 oi seq i k := by
  intro f1
  induction f1 with
  | zero =>
      intro f2 oi seq i k h1 _
      have hch : charAt seq i = 0 := by
        simp [charAt, List.getD_eq_getElem?_getD, List.getElem?_eq_none (by omega : seq.length ≤ i)]
      cases f2 with
      | zero => rfl
      | succ f2 => simp [deserialize_option_info_loop, hch]
  | succ f1 ih =>
      intro f2 oi seq i k h1 h2
      by_cases hch : charAt seq i = 0
      · cases f2 with
        | zero => simp [deserialize_option_info_loop, hch]
        | succ f2 => simp [deserialize_option_info_loop, hch]
      · have hi : i < seq.length := by
          by_contra hlt
          exact hch (by simp [charAt, List.getD_eq_getElem?_getD,
            List.getElem?_eq_none (by omega : seq.length ≤ i)])
        cases f2 with
        | zero => omega
        | succ f2 =>
            have e : ∀ (o : option_info_t) (j k2 : Nat), i + 2 ≤ j →
                deserialize_option_info_loop f1 o seq j k2 =
                  deserialize_option_info_loop f2 o seq j k2 :=
              fun o j k2 hj => ih f2 o seq j k2 (by omega) (by omega)
            have hj : i + 2 ≤ i + (List.map tolower (read_cstr (List.drop i seq))).length + 1 +
                (read_cstr (List.drop
                  (i + (List.map tolower (read_cstr (List.drop i seq))).length + 1) seq)).length
                  + 1 := by
              have : 0 < (read_cstr (List.drop i seq)).length := by
                have hd : seq.drop i = charAt seq i :: seq.drop (i + 1) := by
                  simp [charAt, List.getD_eq_getElem?_getD, List.getElem?_eq_getElem hi]
                rw [hd, read_cstr]
                simp [hch]
              simp only [List.length_map]
              omega
            rw [deserialize_option_info_loop, deserialize_option_info_loop]
            simp only [hch, if_false]
            split <;> simp only [e _ _ _ hj]

end Tftp

namespace Tftp

/-- One option of the trailer, with the fuel `deserialize_option_info` provides. -/
theorem deserialize_option_info_loop_option (oi : option_info_t) (name rest : List Nat)
    (v k : Nat) (hnul : ∀ c ∈ name, c ≠ 0) (hlow : name.map tolower = name) (hne : name ≠ [])
    (hv : v ≤ 2147483647) :
    deserialize_option_info_loop (name ++ 0 :: (to_string v ++ 0 :: rest)).length oi
        (name ++ 0 :: (to_string v ++ 0 :: rest)) 0 k =
      if name = ascii "blksize" then
        deserialize_option_info_loop rest.length
          { oi with
            option_blocksize := true
            blocksize := v
            option_order := oi.option_order.set k options.BLOCKSIZE } rest 0 (k + 1)
      else if name = ascii "timeout" then
        deserialize_option_info_loop rest.length
          { oi with
            option_timeout_interval := true
            timeout_interval := v
            option_order := oi.option_order.set k options.TIMEOUT } rest 0 (k + 1)
      else if name = ascii "tsize" then
        deserialize_option_info_loop rest.length
          { oi with
            option_transfer_size := true
            transfer_size := v
            option_order := oi.option_order.set k options.TRANSFER_SIZE } rest 0 (k + 1)
      else deserialize_option_info_loop rest.length oi rest 0 k := by
  have hlen : rest.length ≤
      0 + ((name ++ 0 :: (to_string v ++ 0 :: rest)).length - 1) := by
    simp; omega
  rw [deserialize_option_info_loop_round _ oi name rest v k (by simp) hnul hlow hne hv]
  simp only [deserialize_option_info_loop_fuel _ rest.length _ rest 0 _ hlen (by omega)]

/-- The range in which the option trailer does round-trip: when every present value fits
an `int` (at most 2147483647, which covers the validity ranges of `blksize` and
`timeout`), `deserialize_option_info` applied to the bytes of `serialize_option_info`
followed by a NUL, into a fresh `option_info`, yields the same three presence flags and
the same value for every present option. -/
theorem option_round_trip_in_int_range (oi : option_info_t) (rest : List Nat)
    (hb : oi.option_blocksize = true → oi.blocksize ≤ 2147483647)
    (ht : oi.option_timeout_interval = true → oi.timeout_interval ≤ 2147483647)
    (hs : oi.option_transfer_size = true → oi.transfer_size ≤ 2147483647) :
    (deserialize_option_info {} (serialize_option_info oi ++ 0 :: rest) 0).option_blocksize
      = oi.option_blocksize ∧
    (deserialize_option_info {} (serialize_option_info oi ++ 0 :: rest)
      0).option_timeout_interval = oi.option_timeout_interval ∧
    (deserialize_option_info {} (serialize_option_info oi ++ 0 :: rest)
      0).option_transfer_size = oi.option_transfer_size ∧
    (oi.option_blocksize = true →
      (deserialize_option_info {} (serialize_option_info oi ++ 0 :: rest) 0).blocksize
        = oi.blocksize) ∧
    (oi.option_timeout_interval = true →
      (deserialize_option_info {} (serialize_option_info oi ++ 0 :: rest) 0).timeout_interval
        = oi.timeout_interval) ∧
    (oi.option_transfer_size = true →
      (deserialize_option_info {} (serialize_option_info oi ++ 0 :: rest) 0).transfer_size
        = oi.transfer_size) := by
  have nb : ∀ c ∈ ascii "blksize", c ≠ 0 := by decide
  have nt : ∀ c ∈ ascii "timeout", c ≠ 0 := by decide
  have ns : ∀ c ∈ ascii "tsize", c ≠ 0 := by decide
  have lb : (ascii "blksize").map tolower = ascii "blksize" := by decide
  have lt : (ascii "timeout").map tolower = ascii "timeout" := by decide
  have ls : (ascii "tsize").map tolower = ascii "tsize" := by decide
  have eb : ascii "blksize" ≠ [] := by decide
  have et : ascii "timeout" ≠ [] := by decide
  have es : ascii "tsize" ≠ [] := by decide
  have d1 : ¬ (ascii "timeout" = ascii "blksize") := by decide
  have d2 : ¬ (ascii "tsize" = ascii "blksize") := by decide
  have d3 : ¬ (ascii "tsize" = ascii "timeout") := by decide
  have stop : ∀ (o : option_info_t) (k : Nat),
      deserialize_option_info_loop (0 :: rest).length o (0 :: rest) 0 k = o :=
    fun o k => deserialize_option_info_loop_stop _ o rest k (by simp)
  obtain ⟨bs, ts, ti, fb, ft, fi, ord⟩ := oi
  simp only at hb ht hs
  cases fb <;> cases ft <;> cases fi <;>
    simp only [deserialize_option_info, serialize_option_info, List.nil_append,
      List.append_assoc, List.cons_append, List.singleton_append, if_true, if_false,
      Bool.false_eq_true] <;>
    simp (disch := first | assumption | simp_all) only
      [deserialize_option_info_loop_option, stop, d1, d2, d3, if_true, if_false, nb, nt, ns,
       lb, lt, ls, eb, et, es] <;>
    simp

end Tftp

namespace Tftp

/-! ## Classification of DATA and ACK packets -/

/-- C12, counterexample. A DATA packet with block number 0 is rejected with code 4 both
when the expected block is 0 (where the claim promises acceptance) and when it is 1
(where the claim promises a duplicate). -/
theorem data_block_zero_rejected :
    (check_packet_content_data { opcode := 3, block_number := 0 } 0).1 ≠ PACKET_OK_CODE ∧
    (check_packet_content_data { opcode := 3, block_number := 0 } 0).1 =
      ERR_CODE_ILLEGAL_OPERATION ∧
    (check_packet_content_data { opcode := 3, block_number := 0 } 1).1 ≠ DUPLICATED_PACKET ∧
    (check_packet_content_data { opcode := 3, block_number := 0 } 1).1 =
      ERR_CODE_ILLEGAL_OPERATION := by
  decide

/-- C12, amended. `check_packet_content` for DATA rejects with code 4 a packet whose
opcode is not 3, whose block number is 0, or whose block number is above the expected
one; any other packet is a duplicate when its block number is below the expected one and
is accepted when the two are equal. -/
theorem data_classification (p : tftp_data_packet_t) (e : Nat) :
    (check_packet_content_data p e).1 =
      if p.opcode ≠ 3 ∨ p.block_number = 0 ∨ p.block_number > e then
        ERR_CODE_ILLEGAL_OPERATION
      else if p.block_number < e then DUPLICATED_PACKET
      else PACKET_OK_CODE := by
  unfold check_packet_content_data DATA_OPCODE
  by_cases h1 : p.opcode = 3
  · by_cases h2 : p.block_number = 0
    · simp [h1, h2]
    · by_cases h3 : p.block_number > e
      · have h4 : ¬ p.block_number < 1 := by omega
        simp [h1, h2, h3, h4]
      · have h4 : ¬ p.block_number < 1 := by omega
        have h5 : ¬ e < p.block_number := h3
        simp only [h1, h2, h4, h5, ne_eq, not_true_eq_false, if_false, false_or, gt_iff_lt]
        split <;> rfl
  · simp [h1]

/-- What `send_error_packet` adds to the log when it waits for a timeout: one to three
copies of the ERROR packet. -/
theorem send_error_packet_loop_sent (pkt : List Nat) :
    ∀ (k : Nat) (conn : Net), ∃ extra : List Sent,
      (send_error_packet_loop pkt k conn).sent = conn.sent ++ extra ∧
      extra.length ≤ k ∧ (1 ≤ k → extra.head? = some ⟨conn.address, pkt, 0⟩) ∧
      ∀ x ∈ extra, x.bytes = pkt := by
  intro k
  induction k with
  | zero => intro conn; exact ⟨[], by simp [send_error_packet_loop]⟩
  | succ k ih =>
    intro conn
    rw [send_error_packet_loop]
    have hs : (recvfrom_timeout (sendto conn pkt 0) DEFAULT_BLOCK_SIZE
        (List.replicate (DEFAULT_BLOCK_SIZE + DATA_PACKET_OFFSET) 0)).2.1.sent =
        conn.sent ++ [⟨conn.address, pkt, 0⟩] := by
      rw [recvfrom_timeout_sent]; rfl
    split
    · exact ⟨[⟨conn.address, pkt, 0⟩], hs, by simp, by simp, by simp⟩
    · obtain ⟨extra, h1, h2, _, h4⟩ := ih (recvfrom_timeout (sendto conn pkt 0)
        DEFAULT_BLOCK_SIZE (List.replicate (DEFAULT_BLOCK_SIZE + DATA_PACKET_OFFSET) 0)).2.1
      refine ⟨⟨conn.address, pkt, 0⟩ :: extra, ?_, by simp; omega, by simp, ?_⟩
      · rw [h1, hs]; simp
      · intro x hx
        rcases List.mem_cons.mp hx with h | h
        · rw [h]
        · exact h4 x h

/-- C13. `check_packet_content` for ACK returns `PACKET_OK_CODE` exactly for opcode 4 with
the expected block, `DUPLICATED_PACKET` exactly for opcode 4 with a smaller block, and
code 4 exactly for another opcode or a greater block. `receive_ack` returns that code;
in the last case it sends the ERROR packet with code 4 and the text of the check (one to
three copies, the first to the current peer), in the other two it leaves the connection
as it was. -/
theorem ack_classification (p : tftp_ack_packet_t) (n : Nat) (conn : Net) (buffer : List Nat) :
    ((check_packet_content_ack p n).1 = PACKET_OK_CODE ↔
      p.opcode = 4 ∧ p.block_number = n) ∧
    ((check_packet_content_ack p n).1 = DUPLICATED_PACKET ↔
      p.opcode = 4 ∧ p.block_number < n) ∧
    ((check_packet_content_ack p n).1 = ERR_CODE_ILLEGAL_OPERATION ↔
      p.opcode ≠ 4 ∨ p.block_number > n) ∧
    (receive_ack conn buffer n).1 =
      (check_packet_content_ack (deserialize_packet_struct_ack buffer) (n % 65536)).1 ∧
    ((receive_ack conn buffer n).1 ≠ ERR_CODE_ILLEGAL_OPERATION →
      (receive_ack conn buffer n).2 = conn) ∧
    ((receive_ack conn buffer n).1 = ERR_CODE_ILLEGAL_OPERATION →
      ∃ extra : List Sent, (receive_ack conn buffer n).2.sent = conn.sent ++ extra ∧
        1 ≤ extra.length ∧ extra.length ≤ 3 ∧
        extra.head? = some ⟨conn.address, serialize_packet_struct_error
          { error_code := 4, error_message :=
              (check_packet_content_ack (deserialize_packet_struct_ack buffer)
                (n % 65536)).2 }, 0⟩ ∧
        ∀ x ∈ extra, x.bytes = serialize_packet_struct_error
          { error_code := 4, error_message :=
              (check_packet_content_ack (deserialize_packet_struct_ack buffer)
                (n % 65536)).2 }) := by
  refine ⟨?_, ?_, ?_, ?_, ?_, ?_⟩
  · unfold check_packet_content_ack ACK_OPCODE
    by_cases h1 : p.opcode = 4
    · by_cases h2 : p.block_number > n
      · simp [h1, h2, PACKET_OK_CODE, ERR_CODE_ILLEGAL_OPERATION]
        omega
      · by_cases h3 : p.block_number < n
        · simp [h1, h2, h3, PACKET_OK_CODE, DUPLICATED_PACKET]
          omega
        · simp [h1, h2, h3]
          omega
    · simp [h1, PACKET_OK_CODE, ERR_CODE_ILLEGAL_OPERATION]
  · unfold check_packet_content_ack ACK_OPCODE
    by_cases h1 : p.opcode = 4
    · by_cases h2 : p.block_number > n
      · simp [h1, h2, DUPLICATED_PACKET, ERR_CODE_ILLEGAL_OPERATION]; omega
      · by_cases h3 : p.block_number < n
        · simp [h1, h2, h3]
        · simp [h1, h2, h3, PACKET_OK_CODE, DUPLICATED_PACKET]
    · simp [h1, DUPLICATED_PACKET, ERR_CODE_ILLEGAL_OPERATION]
  · unfold check_packet_content_ack ACK_OPCODE
    by_cases h1 : p.opcode = 4
    · by_cases h2 : p.block_number > n
      · simp [h1, h2]
      · by_cases h3 : p.block_number < n
        · simp [h1, h2, h3, DUPLICATED_PACKET, ERR_CODE_ILLEGAL_OPERATION]
        · simp [h1, h2, h3, PACKET_OK_CODE, ERR_CODE_ILLEGAL_OPERATION]
    · simp [h1]
  · unfold receive_ack
    simp only
    split <;> rfl
  · intro h
    unfold receive_ack at h ⊢
    simp only at h ⊢
    split
    · rename_i h2
      rw [if_pos h2] at h
      exact absurd h2 h
    · rfl
  · intro h
    unfold receive_ack at h ⊢
    simp only at h ⊢
    by_cases h2 : (check_packet_content_ack (deserialize_packet_struct_ack buffer)
        (n % 65536)).1 = ERR_CODE_ILLEGAL_OPERATION
    · rw [if_pos h2]
      simp only [h2, send_error_packet, if_true, MAX_RETRANSMIT_ATTEMPTS]
      have e4 : (ERR_CODE_ILLEGAL_OPERATION % 65536).toNat = 4 := by decide
      rw [e4]
      obtain ⟨extra, h3, h4, h5, h6⟩ := send_error_packet_loop_sent
        (serialize_packet_struct_error { error_code := 4, error_message :=
          (check_packet_content_ack (deserialize_packet_struct_ack buffer) (n % 65536)).2 })
        3 conn
      have h7 := h5 (by omega)
      refine ⟨extra, h3, ?_, h4, h7, h6⟩
      cases extra with
      | nil => simp at h7
      | cons x xs => simp
    · rw [if_neg h2] at h
      exact absurd h h2

end Tftp

namespace Tftp

/-! ## Duplicate DATA packets -/

end Tftp

namespace Tftp

/-! ## Option negotiation -/

/-- C15. With a server that honours `blksize` and `timeout`, `negotiate_option_server`
returns code 8 and a non-empty reason when the client listed `blksize` outside
[8, 65464] or `timeout` outside [1, 255]; otherwise it returns `PACKET_OK_CODE`, the
session block size is the client's `blksize` when listed and 512 otherwise, and the
session timeout is the client's `timeout` when listed and 5 otherwise. -/
theorem server_negotiation (R S : option_info_t) (msg : List Nat)
    (hb : S.option_blocksize = true) (ht : S.option_timeout_interval = true) :
    (((R.option_blocksize = true ∧ (R.blocksize < 8 ∨ 65464 < R.blocksize)) ∨
        (R.option_timeout_interval = true ∧
          (R.timeout_interval < 1 ∨ 255 < R.timeout_interval))) →
      (negotiate_option_server R S msg).1 = ERR_CODE_OPTIONS_FAILED ∧
      (negotiate_option_server R S msg).2.2 ≠ []) ∧
    (¬ ((R.option_blocksize = true ∧ (R.blocksize < 8 ∨ 65464 < R.blocksize)) ∨
        (R.option_timeout_interval = true ∧
          (R.timeout_interval < 1 ∨ 255 < R.timeout_interval))) →
      (negotiate_option_server R S msg).1 = PACKET_OK_CODE ∧
      (negotiate_option_server R S msg).2.1.blocksize =
        (if R.option_blocksize then R.blocksize else 512) ∧
      (negotiate_option_server R S msg).2.1.timeout_interval =
        (if R.option_timeout_interval then R.timeout_interval else 5) ∧
      (negotiate_option_server R S msg).2.2 = msg) := by
  have m1 : ascii
      "Block size - offered value is outside of range of alloved values <8, 65464>" ≠ [] := by
    decide
  have m2 : ascii
      "Timeout interval - offered value is outside of range of alloved values <1, 255>" ≠ [] := by
    decide
  obtain ⟨rbs, rts, rti, rfb, rft, rfi, rord⟩ := R
  obtain ⟨sbs, sts, sti, sfb, sft, sfi, sord⟩ := S
  simp only at hb ht
  subst hb ht
  unfold negotiate_option_server
  simp only [MIN_BLKSIZE_VALUE, MAX_BLKSIZE_VALUE, MIN_TIMEOUT_VALUE, MAX_TIMEOUT_VALUE,
    DEFAULT_BLOCK_SIZE, DEFAULT_TIMEOUT, Bool.and_true]
  by_cases c1 : rbs < 8 <;> by_cases c2 : 65464 < rbs <;> by_cases c3 : rti = 0 <;>
    by_cases c4 : 255 < rti <;> cases rfb <;> cases rfi <;>
    simp [c1, c2, c3, c4, m1, m2, ERR_CODE_OPTIONS_FAILED, PACKET_OK_CODE]

end Tftp

namespace Tftp

/-- C15 at `blksize` 4: a server that honours the options rejects the request with code 8
and a reason. -/
theorem server_negotiation_witness :
    ({ option_blocksize := true, option_timeout_interval := true,
        option_transfer_size := true } : option_info_t).option_blocksize = true ∧
    ({ option_blocksize := true, option_timeout_interval := true,
        option_transfer_size := true } : option_info_t).option_timeout_interval = true ∧
    (negotiate_option_server { option_blocksize := true, blocksize := 4 }
      { option_blocksize := true, option_timeout_interval := true,
        option_transfer_size := true } []).1 = ERR_CODE_OPTIONS_FAILED ∧
    (negotiate_option_server { option_blocksize := true, blocksize := 4 }
      { option_blocksize := true, option_timeout_interval := true,
        option_transfer_size := true } []).2.2 ≠ [] :=
  ⟨rfl, rfl,
    (server_negotiation { option_blocksize := true, blocksize := 4 }
      { option_blocksize := true, option_timeout_interval := true,
        option_transfer_size := true } [] rfl rfl).1
      (Or.inl ⟨rfl, Or.inl (by decide)⟩)⟩

/-- An option in the reply that the client did not ask for: `negotiate_option_client`
returns code 8 at its first check, before it looks at any value, and leaves the client
options and the message as they were. -/
theorem negotiate_option_client_unsolicited (X Y : option_info_t) (msg : List Nat)
    (h : (Y.option_blocksize = true ∧ X.option_blocksize = false) ∨
      (Y.option_timeout_interval = true ∧ X.option_timeout_interval = false) ∨
      (Y.option_transfer_size = true ∧ X.option_transfer_size = false)) :
    negotiate_option_client X Y msg = (ERR_CODE_OPTIONS_FAILED, X, msg) := by
  have hu : ((Y.option_blocksize && !X.option_blocksize) ||
      (Y.option_timeout_interval && !X.option_timeout_interval) ||
      (Y.option_transfer_size && !X.option_transfer_size)) = true := by
    rcases h with ⟨h1, h2⟩ | ⟨h1, h2⟩ | ⟨h1, h2⟩
    all_goals simp [h1, h2]
  unfold negotiate_option_client
  rw [if_pos hu]

/-- The checks of `negotiate_option_client` behind the first one, when the reply holds no
option the client did not ask for. -/
theorem negotiate_option_client_solicited (X Y : option_info_t) (msg : List Nat)
    (h : ¬ ((Y.option_blocksize = true ∧ X.option_blocksize = false) ∨
      (Y.option_timeout_interval = true ∧ X.option_timeout_interval = false) ∨
      (Y.option_transfer_size = true ∧ X.option_transfer_size = false))) :
    negotiate_option_client X Y msg =
      if X.option_blocksize = true ∧ Y.option_blocksize = true ∧
          (X.blocksize < Y.blocksize ∨ Y.blocksize < 8 ∨ Y.blocksize > 65464) then
        (ERR_CODE_OPTIONS_FAILED, X, ascii "Block size - offered value was not accepted")
      else if X.option_timeout_interval = true ∧ Y.option_timeout_interval = true ∧
          (X.timeout_interval ≠ Y.timeout_interval ∨ Y.timeout_interval < 1 ∨
            Y.timeout_interval > 255) then
        (ERR_CODE_OPTIONS_FAILED,
          { X with blocksize :=
              if X.option_blocksize = true ∧ Y.option_blocksize = true then Y.blocksize
              else 512 },
          ascii "Timeout interval - offered value was not accepted")
      else
        (PACKET_OK_CODE,
          { X with
            blocksize :=
              if X.option_blocksize = true ∧ Y.option_blocksize = true then Y.blocksize
              else 512
            timeout_interval :=
              if X.option_timeout_interval = true ∧ Y.option_timeout_interval = true then
                X.timeout_interval
              else 5 },
          msg) := by
  have hu : ¬ (((Y.option_blocksize && !X.option_blocksize) ||
      (Y.option_timeout_interval && !X.option_timeout_interval) ||
      (Y.option_transfer_size && !X.option_transfer_size)) = true) := by
    intro hh
    apply h
    simp only [Bool.or_eq_true, Bool.and_eq_true, Bool.not_eq_true'] at hh
    rcases hh with (hh | hh) | hh
    · exact Or.inl hh
    · exact Or.inr (Or.inl hh)
    · exact Or.inr (Or.inr hh)
  unfold negotiate_option_client
  rw [if_neg hu]
  clear hu h
  obtain ⟨xbs, xts, xti, xfb, xft, xfi, xord⟩ := X
  obtain ⟨ybs, yts, yti, yfb, yft, yfi, yord⟩ := Y
  simp only [MIN_BLKSIZE_VALUE, MAX_BLKSIZE_VALUE, MIN_TIMEOUT_VALUE, MAX_TIMEOUT_VALUE,
    DEFAULT_BLOCK_SIZE, DEFAULT_TIMEOUT]
  cases xfb <;> cases yfb <;> cases xfi <;> cases yfi <;> simp <;> split_ifs <;> simp_all

end Tftp

namespace Tftp

/-- C16, counterexample. The client offered `blksize` 512 and `timeout` 5; the reply holds
`blksize` 512, which satisfies the block size rule, and `timeout` 6:
`negotiate_option_client` returns code 8. -/
theorem client_blocksize_rule_not_sufficient :
    (512 ≤ 512 ∧ 8 ≤ 512 ∧ 512 ≤ 65464) ∧
    (negotiate_option_client
      { option_blocksize := true, blocksize := 512, option_timeout_interval := true,
        timeout_interval := 5 }
      { option_blocksize := true, blocksize := 512, option_timeout_interval := true,
        timeout_interval := 6 } []).1 = ERR_CODE_OPTIONS_FAILED := by
  decide

/-- C16, amended. When the client offered `blksize` X and the reply holds `blksize` Y,
`negotiate_option_client` returns code 8 unless `Y ≤ X` and `8 ≤ Y ≤ 65464`; it accepts
exactly when this holds and neither the check for options that were not asked for nor
the timeout rule rejects, and the session block size is then Y. When the reply omits
`blksize`, the session block size after acceptance is 512. Every rejection returns
code 8. -/
theorem client_blocksize_rule (X Y : option_info_t) (msg : List Nat) :
    (X.option_blocksize = true → Y.option_blocksize = true →
      (¬ (Y.blocksize ≤ X.blocksize ∧ 8 ≤ Y.blocksize ∧ Y.blocksize ≤ 65464) →
        (negotiate_option_client X Y msg).1 = ERR_CODE_OPTIONS_FAILED) ∧
      ((negotiate_option_client X Y msg).1 = PACKET_OK_CODE ↔
        (Y.blocksize ≤ X.blocksize ∧ 8 ≤ Y.blocksize ∧ Y.blocksize ≤ 65464) ∧
        ¬ (Y.option_timeout_interval = true ∧ X.option_timeout_interval = false) ∧
        ¬ (Y.option_transfer_size = true ∧ X.option_transfer_size = false) ∧
        (X.option_timeout_interval = true → Y.option_timeout_interval = true →
          Y.timeout_interval = X.timeout_interval ∧ 1 ≤ Y.timeout_interval ∧
            Y.timeout_interval ≤ 255)) ∧
      ((negotiate_option_client X Y msg).1 = PACKET_OK_CODE →
        (negotiate_option_client X Y msg).2.1.blocksize = Y.blocksize)) ∧
    (Y.option_blocksize = false → (negotiate_option_client X Y msg).1 = PACKET_OK_CODE →
      (negotiate_option_client X Y msg).2.1.blocksize = 512) ∧
    ((negotiate_option_client X Y msg).1 = PACKET_OK_CODE ∨
      (negotiate_option_client X Y msg).1 = ERR_CODE_OPTIONS_FAILED) := by
  by_cases hu : (Y.option_blocksize = true ∧ X.option_blocksize = false) ∨
      (Y.option_timeout_interval = true ∧ X.option_timeout_interval = false) ∨
      (Y.option_transfer_size = true ∧ X.option_transfer_size = false)
  · rw [negotiate_option_client_unsolicited X Y msg hu]
    simp only [ERR_CODE_OPTIONS_FAILED, PACKET_OK_CODE]
    refine ⟨?_, ?_, Or.inr trivial⟩
    · intro h1 h2
      refine ⟨fun _ => trivial, ⟨fun h => absurd h (by decide), ?_⟩, fun h => absurd h (by decide)⟩
      rintro ⟨_, h3, h4, _⟩
      rcases hu with ⟨_, h5⟩ | h5 | h5
      · rw [h1] at h5
        exact absurd h5 (by decide)
      · exact absurd h5 h3
      · exact absurd h5 h4
    · exact fun _ h => absurd h (by decide)
  · rw [negotiate_option_client_solicited X Y msg hu]
    have hu1 : ¬ (Y.option_timeout_interval = true ∧ X.option_timeout_interval = false) :=
      fun h => hu (Or.inr (Or.inl h))
    have hu2 : ¬ (Y.option_transfer_size = true ∧ X.option_transfer_size = false) :=
      fun h => hu (Or.inr (Or.inr h))
    have d1 : ¬ (ERR_CODE_OPTIONS_FAILED = PACKET_OK_CODE) := by decide
    split
    · rename_i hA
      refine ⟨fun _ _ => ⟨fun _ => rfl, ⟨fun h => absurd h d1, fun h => ?_⟩,
        fun h => absurd h d1⟩, fun _ h => absurd h d1, Or.inr rfl⟩
      have := hA.2.2
      omega
    · rename_i hA
      split
      · rename_i hB
        refine ⟨fun h1 h2 => ⟨fun h => ?_, ⟨fun h => absurd h d1, fun h => ?_⟩,
          fun h => absurd h d1⟩, fun _ h => absurd h d1, Or.inr rfl⟩
        · rfl
        · have := h.2.2.2 hB.1 hB.2.1
          have := hB.2.2
          omega
      · rename_i hB
        refine ⟨fun h1 h2 => ⟨fun h => ?_, ⟨fun _ => ⟨?_, hu1, hu2, fun h3 h4 => ?_⟩,
          fun _ => rfl⟩, fun _ => ?_⟩, fun h1 _ => ?_, Or.inl rfl⟩
        · exfalso
          apply hA
          exact ⟨h1, h2, by omega⟩
        · by_contra hc
          apply hA
          exact ⟨h1, h2, by omega⟩
        · by_contra hc
          apply hB
          exact ⟨h3, h4, by omega⟩
        · simp only [h1, h2, and_self, if_true]
        · simp only [h1, Bool.false_eq_true, and_false, if_false]

end Tftp

namespace Tftp

/-- C17, counterexample. The client offered `timeout` 5 and `blksize` 512; the reply
holds `timeout` 5, which satisfies the timeout rule, and `blksize` 1024:
`negotiate_option_client` returns code 8. -/
theorem client_timeout_rule_not_sufficient :
    ((5 : Nat) = 5 ∧ 1 ≤ 5 ∧ 5 ≤ 255) ∧
    (negotiate_option_client
      { option_blocksize := true, blocksize := 512, option_timeout_interval := true,
        timeout_interval := 5 }
      { option_blocksize := true, blocksize := 1024, option_timeout_interval := true,
        timeout_interval := 5 } []).1 = ERR_CODE_OPTIONS_FAILED := by
  decide

/-- C17, amended. When the client offered `timeout` X and the reply holds `timeout` Y,
`negotiate_option_client` returns code 8 unless `Y = X` and `1 ≤ Y ≤ 255`; it accepts
exactly when this holds and neither the check for options that were not asked for nor
the block size rule rejects, and the session timeout is then Y. When the reply omits
`timeout`, the session timeout after acceptance is 5. Every rejection returns code 8. -/
theorem client_timeout_rule (X Y : option_info_t) (msg : List Nat) :
    (X.option_timeout_interval = true → Y.option_timeout_interval = true →
      (¬ (Y.timeout_interval = X.timeout_interval ∧ 1 ≤ Y.timeout_interval ∧
          Y.timeout_interval ≤ 255) →
        (negotiate_option_client X Y msg).1 = ERR_CODE_OPTIONS_FAILED) ∧
      ((negotiate_option_client X Y msg).1 = PACKET_OK_CODE ↔
        (Y.timeout_interval = X.timeout_interval ∧ 1 ≤ Y.timeout_interval ∧
          Y.timeout_interval ≤ 255) ∧
        ¬ (Y.option_blocksize = true ∧ X.option_blocksize = false) ∧
        ¬ (Y.option_transfer_size = true ∧ X.option_transfer_size = false) ∧
        (X.option_blocksize = true → Y.option_blocksize = true →
          Y.blocksize ≤ X.blocksize ∧ 8 ≤ Y.blocksize ∧ Y.blocksize ≤ 65464)) ∧
      ((negotiate_option_client X Y msg).1 = PACKET_OK_CODE →
        (negotiate_option_client X Y msg).2.1.timeout_interval = Y.timeout_interval)) ∧
    (Y.option_timeout_interval = false →
      (negotiate_option_client X Y msg).1 = PACKET_OK_CODE →
      (negotiate_option_client X Y msg).2.1.timeout_interval = 5) ∧
    ((negotiate_option_client X Y msg).1 = PACKET_OK_CODE ∨
      (negotiate_option_client X Y msg).1 = ERR_CODE_OPTIONS_FAILED) := by
  by_cases hu : (Y.option_blocksize = true ∧ X.option_blocksize = false) ∨
      (Y.option_timeout_interval = true ∧ X.option_timeout_interval = false) ∨
      (Y.option_transfer_size = true ∧ X.option_transfer_size = false)
  · rw [negotiate_option_client_unsolicited X Y msg hu]
    simp only [ERR_CODE_OPTIONS_FAILED, PACKET_OK_CODE]
    refine ⟨?_, ?_, Or.inr trivial⟩
    · intro h1 h2
      refine ⟨fun _ => trivial, ⟨fun h => absurd h (by decide), ?_⟩,
        fun h => absurd h (by decide)⟩
      rintro ⟨_, h3, h4, _⟩
      rcases hu with h5 | ⟨_, h5⟩ | h5
      · exact absurd h5 h3
      · rw [h1] at h5
        exact absurd h5 (by decide)
      · exact absurd h5 h4
    · exact fun _ h => absurd h (by decide)
  · rw [negotiate_option_client_solicited X Y msg hu]
    have hu1 : ¬ (Y.option_blocksize = true ∧ X.option_blocksize = false) :=
      fun h => hu (Or.inl h)
    have hu2 : ¬ (Y.option_transfer_size = true ∧ X.option_transfer_size = false) :=
      fun h => hu (Or.inr (Or.inr h))
    have d1 : ¬ (ERR_CODE_OPTIONS_FAILED = PACKET_OK_CODE) := by decide
    split
    · rename_i hA
      refine ⟨fun _ _ => ⟨fun _ => rfl, ⟨fun h => absurd h d1, fun h => ?_⟩,
        fun h => absurd h d1⟩, fun _ h => absurd h d1, Or.inr rfl⟩
      have := h.2.2.2 hA.1 hA.2.1
      have := hA.2.2
      omega
    · rename_i hA
      split
      · rename_i hB
        refine ⟨fun h1 h2 => ⟨fun _ => rfl, ⟨fun h => absurd h d1, fun h => ?_⟩,
          fun h => absurd h d1⟩, fun _ h => absurd h d1, Or.inr rfl⟩
        have := hB.2.2
        omega
      · rename_i hB
        refine ⟨fun h1 h2 => ⟨fun h => ?_, ⟨fun _ => ⟨?_, hu1, hu2, fun h3 h4 => ?_⟩,
          fun _ => rfl⟩, fun _ => ?_⟩, fun h1 _ => ?_, Or.inl rfl⟩
        · exfalso
          apply hB
          exact ⟨h1, h2, by omega⟩
        · by_contra hc
          apply hB
          exact ⟨h1, h2, by omega⟩
        · by_contra hc
          apply hA
          exact ⟨h3, h4, by omega⟩
        · have hc : Y.timeout_interval = X.timeout_interval := by
            by_contra hc
            apply hB
            exact ⟨h1, h2, by omega⟩
          simp only [h1, h2, and_self, if_true, hc]
        · simp only [h1, Bool.false_eq_true, and_false, if_false]

/-- C18. If the reply holds `blksize`, `timeout` or `tsize` and the client did not ask for
it, `negotiate_option_client` returns code 8 whatever the values are, at its first check:
the client options and the message stay as they were. When every option of the reply was
asked for, the function rejects only through the block size rule or the timeout rule, and
the message then names the rule. -/
theorem unsolicited_option_rejection (X Y : option_info_t) (msg : List Nat) :
    (((Y.option_blocksize = true ∧ X.option_blocksize = false) ∨
        (Y.option_timeout_interval = true ∧ X.option_timeout_interval = false) ∨
        (Y.option_transfer_size = true ∧ X.option_transfer_size = false)) →
      negotiate_option_client X Y msg = (ERR_CODE_OPTIONS_FAILED, X, msg)) ∧
    (¬ ((Y.option_blocksize = true ∧ X.option_blocksize = false) ∨
        (Y.option_timeout_interval = true ∧ X.option_timeout_interval = false) ∨
        (Y.option_transfer_size = true ∧ X.option_transfer_size = false)) →
      ((negotiate_option_client X Y msg).1 = ERR_CODE_OPTIONS_FAILED ↔
        (X.option_blocksize = true ∧ Y.option_blocksize = true ∧
          ¬ (Y.blocksize ≤ X.blocksize ∧ 8 ≤ Y.blocksize ∧ Y.blocksize ≤ 65464)) ∨
        (X.option_timeout_interval = true ∧ Y.option_timeout_interval = true ∧
          ¬ (Y.timeout_interval = X.timeout_interval ∧ 1 ≤ Y.timeout_interval ∧
            Y.timeout_interval ≤ 255))) ∧
      ((negotiate_option_client X Y msg).1 ≠ ERR_CODE_OPTIONS_FAILED →
        (negotiate_option_client X Y msg).1 = PACKET_OK_CODE) ∧
      ((negotiate_option_client X Y msg).1 = ERR_CODE_OPTIONS_FAILED →
        (negotiate_option_client X Y msg).2.2 =
            ascii "Block size - offered value was not accepted" ∨
          (negotiate_option_client X Y msg).2.2 =
            ascii "Timeout interval - offered value was not accepted")) := by
  refine ⟨negotiate_option_client_unsolicited X Y msg, fun hu => ?_⟩
  rw [negotiate_option_client_solicited X Y msg hu]
  have d1 : ¬ (PACKET_OK_CODE = ERR_CODE_OPTIONS_FAILED) := by decide
  split
  · rename_i hA
    refine ⟨⟨fun _ => Or.inl ⟨hA.1, hA.2.1, ?_⟩, fun _ => rfl⟩, fun h => absurd rfl h,
      fun _ => Or.inl rfl⟩
    have := hA.2.2
    omega
  · rename_i hA
    split
    · rename_i hB
      refine ⟨⟨fun _ => Or.inr ⟨hB.1, hB.2.1, ?_⟩, fun _ => rfl⟩, fun h => absurd rfl h,
        fun _ => Or.inr rfl⟩
      have := hB.2.2
      omega
    · rename_i hB
      refine ⟨⟨fun h => absurd h d1, fun h => ?_⟩, fun _ => rfl, fun h => absurd h d1⟩
      exfalso
      rcases h with ⟨h1, h2, h3⟩ | ⟨h1, h2, h3⟩
      · apply hA
        exact ⟨h1, h2, by omega⟩
      · apply hB
        exact ⟨h1, h2, by omega⟩

end Tftp

namespace Tftp

/-! ## The option trailer at any value -/

/-- The function `stoi` throws on the digits of a number that does not fit an `int`. -/
theorem stoi_to_string_big (n : Nat) (hn : 2147483647 < n) : stoi (to_string n) = none := by
  obtain ⟨h1, h2, h3⟩ := to_string_digits n
  obtain ⟨c, cs, hc⟩ : ∃ c cs, to_string n = c :: cs := by
    cases h : to_string n with
    | nil => exact absurd h h1
    | cons c cs => exact ⟨c, cs, rfl⟩
  have hcd := h2 c (by rw [hc]; simp)
  have hsp : isspace c = false := by simp [isspace]; omega
  have hdg : isdigit c = true := by simp [isdigit]; omega
  have h45 : c ≠ 45 := by omega
  have h43 : c ≠ 43 := by omega
  rw [hc] at h3
  have hdw : (c :: cs).dropWhile isspace = c :: cs := by simp [List.dropWhile_cons, hsp]
  have hsig : (match c :: cs with
      | 45 :: r => (true, r)
      | 43 :: r => (false, r)
      | _ => (false, c :: cs)) = (false, c :: cs) := by
    split
    · rename_i heq; exact absurd (List.cons.inj heq).1 h45
    · rename_i heq; exact absurd (List.cons.inj heq).1 h43
    · rfl
  unfold stoi
  simp only [hc, hdw, hsig, hdg, h3, if_true]
  simp
  omega

/-- One round of the loop on an option whose value does not fit an `int`: the option is
skipped. -/
theorem deserialize_option_info_loop_skip (oi : option_info_t) (name rest : List Nat)
    (v k : Nat) (hnul : ∀ c ∈ name, c ≠ 0) (hne : name ≠ [])
    (hv : 2147483647 < v) :
    deserialize_option_info_loop (name ++ 0 :: (to_string v ++ 0 :: rest)).length oi
        (name ++ 0 :: (to_string v ++ 0 :: rest)) 0 k =
      deserialize_option_info_loop rest.length oi rest 0 k := by
  obtain ⟨c, cs, rfl⟩ : ∃ c cs, name = c :: cs := by
    cases name with
    | nil => exact absurd rfl hne
    | cons c cs => exact ⟨c, cs, rfl⟩
  have hc0 : c ≠ 0 := hnul c (by simp)
  have h1 : read_cstr (c :: cs ++ 0 :: (to_string v ++ 0 :: rest)) = c :: cs :=
    read_cstr_append_nul _ _ hnul
  have h2 : (c :: cs ++ 0 :: (to_string v ++ 0 :: rest)).drop ((c :: cs).length + 1) =
      to_string v ++ 0 :: rest := by
    rw [← List.drop_drop, List.drop_left]
    rfl
  have h3 : (c :: cs ++ 0 :: (to_string v ++ 0 :: rest)).drop
      ((c :: cs).length + 1 + (to_string v).length + 1) = rest := by
    rw [show (c :: cs).length + 1 + (to_string v).length + 1 =
        ((c :: cs).length + 1) + ((to_string v).length + 1) by omega,
      ← List.drop_drop, h2, ← List.drop_drop, List.drop_left]
    rfl
  have hlen : (c :: cs ++ 0 :: (to_string v ++ 0 :: rest)).length =
      ((c :: cs).length + (to_string v).length + rest.length + 1) + 1 := by
    simp; omega
  have e : ∀ (o : option_info_t) (k2 : Nat),
      deserialize_option_info_loop
        ((c :: cs).length + (to_string v).length + rest.length + 1) o
        (c :: cs ++ 0 :: (to_string v ++ 0 :: rest))
        ((c :: cs).length + 1 + (to_string v).length + 1) k2 =
          deserialize_option_info_loop rest.length o rest 0 k2 := by
    intro o k2
    rw [deserialize_option_info_loop_shift, h3]
    exact deserialize_option_info_loop_fuel _ _ _ _ _ _ (by omega) (by omega)
  rw [hlen, deserialize_option_info_loop]
  have hch : charAt (c :: cs ++ 0 :: (to_string v ++ 0 :: rest)) 0 = c := rfl
  simp only [hch, hc0, if_false, List.drop_zero, h1, List.length_map, Nat.zero_add, h2,
    read_cstr_to_string, stoi_to_string_big v hv, e]

end Tftp

namespace Tftp

/-! ## The options of an OACK -/

/-- One optional group `name NUL digits NUL` of the trailer: the loop gets past it, and
the only presence flag it can change is the one of `name`, and only when the group is
there. -/
theorem deserialize_option_info_loop_group (oi : option_info_t) (name rest : List Nat)
    (present : Bool) (v k : Nat) (hnul : ∀ c ∈ name, c ≠ 0)
    (hlow : name.map tolower = name) (hne : name ≠ []) :
    ∃ (o : option_info_t) (k2 : Nat),
      deserialize_option_info_loop
          ((if present then name ++ 0 :: (to_string v ++ [0]) else []) ++ rest).length oi
          ((if present then name ++ 0 :: (to_string v ++ [0]) else []) ++ rest) 0 k =
        deserialize_option_info_loop rest.length o rest 0 k2 ∧
      (name ≠ ascii "blksize" ∨ present = false → o.option_blocksize = oi.option_blocksize) ∧
      (name ≠ ascii "timeout" ∨ present = false →
        o.option_timeout_interval = oi.option_timeout_interval) ∧
      (name ≠ ascii "tsize" ∨ present = false →
        o.option_transfer_size = oi.option_transfer_size) := by
  cases present with
  | false => exact ⟨oi, k, by simp, fun _ => rfl, fun _ => rfl, fun _ => rfl⟩
  | true =>
    have e : (if true = true then name ++ 0 :: (to_string v ++ [0]) else []) ++ rest =
        name ++ 0 :: (to_string v ++ 0 :: rest) := by simp
    rw [e]
    rcases Nat.lt_or_ge 2147483647 v with hv | hv
    · rw [deserialize_option_info_loop_skip oi name rest v k hnul hne hv]
      exact ⟨oi, k, rfl, fun _ => rfl, fun _ => rfl, fun _ => rfl⟩
    · rw [deserialize_option_info_loop_option oi name rest v k hnul hlow hne hv]
      by_cases h1 : name = ascii "blksize"
      · rw [if_pos h1]
        refine ⟨_, _, rfl, ?_, fun _ => rfl, fun _ => rfl⟩
        intro h
        rcases h with h | h
        · exact absurd h1 h
        · exact absurd h (by decide)
      · rw [if_neg h1]
        by_cases h2 : name = ascii "timeout"
        · rw [if_pos h2]
          refine ⟨_, _, rfl, fun _ => rfl, ?_, fun _ => rfl⟩
          intro h
          rcases h with h | h
          · exact absurd h2 h
          · exact absurd h (by decide)
        · rw [if_neg h2]
          by_cases h3 : name = ascii "tsize"
          · rw [if_pos h3]
            refine ⟨_, _, rfl, fun _ => rfl, fun _ => rfl, ?_⟩
            intro h
            rcases h with h | h
            · exact absurd h3 h
            · exact absurd h (by decide)
          · rw [if_neg h3]
            exact ⟨oi, k, rfl, fun _ => rfl, fun _ => rfl, fun _ => rfl⟩

/-- What `deserialize_option_info` reads, into a fresh structure, from the trailer
`serialize_option_info` writes: an option is present after decoding only if it was
present before encoding. -/
theorem deserialize_serialize_option_flags (oi : option_info_t) (rest : List Nat) :
    ((deserialize_option_info {} (serialize_option_info oi ++ 0 :: rest) 0).option_blocksize
        = true → oi.option_blocksize = true) ∧
    ((deserialize_option_info {} (serialize_option_info oi ++ 0 :: rest)
        0).option_timeout_interval = true → oi.option_timeout_interval = true) ∧
    ((deserialize_option_info {} (serialize_option_info oi ++ 0 :: rest)
        0).option_transfer_size = true → oi.option_transfer_size = true) := by
  have nb : ∀ c ∈ ascii "blksize", c ≠ 0 := by decide
  have nt : ∀ c ∈ ascii "timeout", c ≠ 0 := by decide
  have ns : ∀ c ∈ ascii "tsize", c ≠ 0 := by decide
  have lb : (ascii "blksize").map tolower = ascii "blksize" := by decide
  have lt : (ascii "timeout").map tolower = ascii "timeout" := by decide
  have ls : (ascii "tsize").map tolower = ascii "tsize" := by decide
  have eb : ascii "blksize" ≠ [] := by decide
  have et : ascii "timeout" ≠ [] := by decide
  have es : ascii "tsize" ≠ [] := by decide
  have d1 : ascii "timeout" ≠ ascii "blksize" := by decide
  have d2 : ascii "tsize" ≠ ascii "blksize" := by decide
  have d3 : ascii "tsize" ≠ ascii "timeout" := by decide
  have hser : serialize_option_info oi ++ 0 :: rest =
      (if oi.option_transfer_size then
          ascii "tsize" ++ 0 :: (to_string oi.transfer_size ++ [0]) else []) ++
        ((if oi.option_timeout_interval then
            ascii "timeout" ++ 0 :: (to_string oi.timeout_interval ++ [0]) else []) ++
          ((if oi.option_blocksize then
              ascii "blksize" ++ 0 :: (to_string oi.blocksize ++ [0]) else []) ++
            0 :: rest)) := by
    unfold serialize_option_info
    cases oi.option_transfer_size <;> cases oi.option_timeout_interval <;>
      cases oi.option_blocksize <;> simp
  unfold deserialize_option_info
  rw [hser]
  obtain ⟨o1, k1, e1, b1, t1, s1⟩ := deserialize_option_info_loop_group {} (ascii "tsize")
    ((if oi.option_timeout_interval then
        ascii "timeout" ++ 0 :: (to_string oi.timeout_interval ++ [0]) else []) ++
      ((if oi.option_blocksize then
          ascii "blksize" ++ 0 :: (to_string oi.blocksize ++ [0]) else []) ++ 0 :: rest))
    oi.option_transfer_size oi.transfer_size 0 ns ls es
  obtain ⟨o2, k2, e2, b2, t2, s2⟩ := deserialize_option_info_loop_group o1 (ascii "timeout")
    ((if oi.option_blocksize then
          ascii "blksize" ++ 0 :: (to_string oi.blocksize ++ [0]) else []) ++ 0 :: rest)
    oi.option_timeout_interval oi.timeout_interval k1 nt lt et
  obtain ⟨o3, k3, e3, b3, t3, s3⟩ := deserialize_option_info_loop_group o2 (ascii "blksize")
    (0 :: rest) oi.option_blocksize oi.blocksize k2 nb lb eb
  rw [e1, e2, e3, deserialize_option_info_loop_stop _ o3 rest k3 (by simp)]
  have z1 : ({} : option_info_t).option_blocksize = false := rfl
  have z2 : ({} : option_info_t).option_timeout_interval = false := rfl
  have z3 : ({} : option_info_t).option_transfer_size = false := rfl
  refine ⟨?_, ?_, ?_⟩
  · intro h
    by_contra hc
    have hc2 : oi.option_blocksize = false := by simpa using hc
    rw [b3 (Or.inr hc2), b2 (Or.inl d1), b1 (Or.inl d2), z1] at h
    exact absurd h (by decide)
  · intro h
    by_contra hc
    have hc2 : oi.option_timeout_interval = false := by simpa using hc
    rw [t3 (Or.inl d1.symm), t2 (Or.inr hc2), t1 (Or.inl d3), z2] at h
    exact absurd h (by decide)
  · intro h
    by_contra hc
    have hc2 : oi.option_transfer_size = false := by simpa using hc
    rw [s3 (Or.inl d2.symm), s2 (Or.inl d3.symm), s1 (Or.inr hc2), z3] at h
    exact absurd h (by decide)

/-- C14. The OACK that `send_oack` builds and sends holds an option only if the server
state holds it and the request held it; decoded by the client's
`deserialize_packet_struct` into a fresh structure it therefore shows no option that the
request did not hold. When the request holds no option the packet is the bare opcode
with an empty trailer. -/
theorem oack_options_subset (conn : Net) (R S : option_info_t) (file_size : Nat)
    (is_rrq : Bool) (pad : List Nat) :
    (send_oack conn R S file_size is_rrq).1 =
      short_to_chars OACK_OPCODE ++
        serialize_option_info (send_oack conn R S file_size is_rrq).2.2 ∧
    (send_oack conn R S file_size is_rrq).2.1 =
      sendto conn (send_oack conn R S file_size is_rrq).1 0 ∧
    (send_oack conn R S file_size is_rrq).2.2.option_blocksize =
      (S.option_blocksize && R.option_blocksize) ∧
    (send_oack conn R S file_size is_rrq).2.2.option_timeout_interval =
      (S.option_timeout_interval && R.option_timeout_interval) ∧
    (send_oack conn R S file_size is_rrq).2.2.option_transfer_size =
      (S.option_transfer_size && R.option_transfer_size) ∧
    ((deserialize_packet_struct_oack {}
        ((send_oack conn R S file_size is_rrq).1 ++ 0 :: pad)).options.option_blocksize
          = true → R.option_blocksize = true) ∧
    ((deserialize_packet_struct_oack {}
        ((send_oack conn R S file_size is_rrq).1 ++ 0 :: pad)).options.option_timeout_interval
          = true → R.option_timeout_interval = true) ∧
    ((deserialize_packet_struct_oack {}
        ((send_oack conn R S file_size is_rrq).1 ++ 0 :: pad)).options.option_transfer_size
          = true → R.option_transfer_size = true) ∧
    (R.option_blocksize = false → R.option_timeout_interval = false →
      R.option_transfer_size = false →
      (send_oack conn R S file_size is_rrq).1 = [0, 6] ∧
      serialize_option_info (send_oack conn R S file_size is_rrq).2.2 = []) := by
  have hf1 : (send_oack conn R S file_size is_rrq).2.2.option_blocksize =
      (S.option_blocksize && R.option_blocksize) := by
    unfold send_oack
    cases h1 : R.option_blocksize <;> cases h2 : R.option_timeout_interval <;>
      cases h3 : R.option_transfer_size <;> simp
  have hf2 : (send_oack conn R S file_size is_rrq).2.2.option_timeout_interval =
      (S.option_timeout_interval && R.option_timeout_interval) := by
    unfold send_oack
    cases h1 : R.option_blocksize <;> cases h2 : R.option_timeout_interval <;>
      cases h3 : R.option_transfer_size <;> simp
  have hf3 : (send_oack conn R S file_size is_rrq).2.2.option_transfer_size =
      (S.option_transfer_size && R.option_transfer_size) := by
    unfold send_oack
    cases h1 : R.option_blocksize <;> cases h2 : R.option_timeout_interval <;>
      cases h3 : R.option_transfer_size <;> simp
  have hp : (send_oack conn R S file_size is_rrq).1 =
      short_to_chars OACK_OPCODE ++
        serialize_option_info (send_oack conn R S file_size is_rrq).2.2 := rfl
  have hd : (deserialize_packet_struct_oack {}
      ((send_oack conn R S file_size is_rrq).1 ++ 0 :: pad)).options =
      deserialize_option_info {}
        (serialize_option_info (send_oack conn R S file_size is_rrq).2.2 ++ 0 :: pad) 0 := by
    rw [hp]
    unfold deserialize_packet_struct_oack deserialize_option_info
    simp only [short_to_chars_eq, List.cons_append, List.nil_append, List.length_cons]
    rw [deserialize_option_info_loop_shift]
    simp only [List.drop_succ_cons, List.drop_zero]
    exact deserialize_option_info_loop_fuel _ _ _ _ _ _ (by omega) (by omega)
  obtain ⟨g1, g2, g3⟩ := deserialize_serialize_option_flags
    (send_oack conn R S file_size is_rrq).2.2 pad
  refine ⟨hp, rfl, hf1, hf2, hf3, ?_, ?_, ?_, ?_⟩
  · intro h
    rw [hd] at h
    have := g1 h
    rw [hf1] at this
    simp only [Bool.and_eq_true] at this
    exact this.2
  · intro h
    rw [hd] at h
    have := g2 h
    rw [hf2] at this
    simp only [Bool.and_eq_true] at this
    exact this.2
  · intro h
    rw [hd] at h
    have := g3 h
    rw [hf3] at this
    simp only [Bool.and_eq_true] at this
    exact this.2
  · intro h1 h2 h3
    have e : serialize_option_info (send_oack conn R S file_size is_rrq).2.2 = [] := by
      unfold serialize_option_info
      simp [hf1, hf2, hf3, h1, h2, h3]
    refine ⟨?_, e⟩
    rw [hp, e]
    decide

end Tftp

namespace Tftp

/-! ## Options listed more than once -/

/-- One round of the loop of `deserialize_option_info` on any group `name NUL value NUL`
of a trailer. -/
theorem deserialize_option_info_loop_entry (oi : option_info_t) (name val rest : List Nat)
    (k : Nat) (hne : name ≠ []) (hnul : ∀ c ∈ name, c ≠ 0) (hval : ∀ c ∈ val, c ≠ 0) :
    deserialize_option_info_loop (name ++ 0 :: (val ++ 0 :: rest)).length oi
        (name ++ 0 :: (val ++ 0 :: rest)) 0 k =
      match stoi val with
      | none => deserialize_option_info_loop rest.length oi rest 0 k
      | some value_int =>
          if name.map tolower = ascii "blksize" then
            deserialize_option_info_loop rest.length
              { oi with
                option_blocksize := true
                blocksize := to_unsigned value_int
                option_order := oi.option_order.set k options.BLOCKSIZE } rest 0 (k + 1)
          else if name.map tolower = ascii "timeout" then
            deserialize_option_info_loop rest.length
              { oi with
                option_timeout_interval := true
                timeout_interval := to_unsigned value_int
                option_order := oi.option_order.set k options.TIMEOUT } rest 0 (k + 1)
          else if name.map tolower = ascii "tsize" then
            deserialize_option_info_loop rest.length
              { oi with
                option_transfer_size := true
                transfer_size := to_unsigned value_int
                option_order := oi.option_order.set k options.TRANSFER_SIZE } rest 0 (k + 1)
          else deserialize_option_info_loop rest.length oi rest 0 k := by
  obtain ⟨c, cs, rfl⟩ : ∃ c cs, name = c :: cs := by
    cases name with
    | nil => exact absurd rfl hne
    | cons c cs => exact ⟨c, cs, rfl⟩
  have hc0 : c ≠ 0 := hnul c (by simp)
  have h1 : read_cstr (c :: cs ++ 0 :: (val ++ 0 :: rest)) = c :: cs :=
    read_cstr_append_nul _ _ hnul
  have h2 : (c :: cs ++ 0 :: (val ++ 0 :: rest)).drop ((c :: cs).length + 1) =
      val ++ 0 :: rest := by
    rw [← List.drop_drop, List.drop_left]
    rfl
  have h3 : (c :: cs ++ 0 :: (val ++ 0 :: rest)).drop
      ((c :: cs).length + 1 + val.length + 1) = rest := by
    rw [show (c :: cs).length + 1 + val.length + 1 =
        ((c :: cs).length + 1) + (val.length + 1) by omega,
      ← List.drop_drop, h2, ← List.drop_drop, List.drop_left]
    rfl
  have h4 : read_cstr (val ++ 0 :: rest) = val := read_cstr_append_nul _ _ hval
  have hlen : (c :: cs ++ 0 :: (val ++ 0 :: rest)).length =
      ((c :: cs).length + val.length + rest.length + 1) + 1 := by
    simp; omega
  have e : ∀ (o : option_info_t) (k2 : Nat),
      deserialize_option_info_loop
        ((c :: cs).length + val.length + rest.length + 1) o
        (c :: cs ++ 0 :: (val ++ 0 :: rest))
        ((c :: cs).length + 1 + val.length + 1) k2 =
          deserialize_option_info_loop rest.length o rest 0 k2 := by
    intro o k2
    rw [deserialize_option_info_loop_shift, h3]
    exact deserialize_option_info_loop_fuel _ _ _ _ _ _ (by omega) (by omega)
  rw [hlen, deserialize_option_info_loop]
  have hch : charAt (c :: cs ++ 0 :: (val ++ 0 :: rest)) 0 = c := rfl
  cases hs : stoi val with
  | none =>
    simp only [hch, hc0, if_false, List.drop_zero, h1, List.length_map, Nat.zero_add, h2,
      h4, hs, e]
  | some n =>
    simp only [hch, hc0, if_false, List.drop_zero, h1, List.length_map, Nat.zero_add, h2,
      h4, hs, e]

/-- The last value of an option in a list of options, entry by entry. -/
theorem last_value_cons (o : options) (x : options × Nat) (l : List (options × Nat)) :
    (last_value o (x :: l)).isSome = (decide (x.1 = o) || (last_value o l).isSome) ∧
    ∀ d : Nat, (last_value o (x :: l)).getD d =
      (last_value o l).getD (if x.1 = o then x.2 else d) := by
  unfold last_value
  by_cases h : x.1 = o
  · simp [List.filter_cons, h, List.getLast?_cons]
  · simp [List.filter_cons, h]

end Tftp

namespace Tftp

/-- What `deserialize_option_info` leaves after a whole trailer, from any starting state:
for each option the value of the last group that names it with a value `stoi` accepts,
and in `option_order` one write per such group. -/
theorem deserialize_option_info_loop_trailer (pad : List Nat) :
    ∀ (es : List (List Nat × List Nat)),
      (∀ e ∈ es, e.1 ≠ [] ∧ (∀ c ∈ e.1, c ≠ 0) ∧ ∀ c ∈ e.2, c ≠ 0) →
      ∀ (oi : option_info_t) (k : Nat),
        (deserialize_option_info_loop (option_trailer es ++ 0 :: pad).length oi
            (option_trailer es ++ 0 :: pad) 0 k).option_blocksize =
          (oi.option_blocksize ||
            (last_value options.BLOCKSIZE (es.filterMap option_of_group)).isSome) ∧
        (deserialize_option_info_loop (option_trailer es ++ 0 :: pad).length oi
            (option_trailer es ++ 0 :: pad) 0 k).blocksize =
          (last_value options.BLOCKSIZE (es.filterMap option_of_group)).getD oi.blocksize ∧
        (deserialize_option_info_loop (option_trailer es ++ 0 :: pad).length oi
            (option_trailer es ++ 0 :: pad) 0 k).option_timeout_interval =
          (oi.option_timeout_interval ||
            (last_value options.TIMEOUT (es.filterMap option_of_group)).isSome) ∧
        (deserialize_option_info_loop (option_trailer es ++ 0 :: pad).length oi
            (option_trailer es ++ 0 :: pad) 0 k).timeout_interval =
          (last_value options.TIMEOUT (es.filterMap option_of_group)).getD
            oi.timeout_interval ∧
        (deserialize_option_info_loop (option_trailer es ++ 0 :: pad).length oi
            (option_trailer es ++ 0 :: pad) 0 k).option_transfer_size =
          (oi.option_transfer_size ||
            (last_value options.TRANSFER_SIZE (es.filterMap option_of_group)).isSome) ∧
        (deserialize_option_info_loop (option_trailer es ++ 0 :: pad).length oi
            (option_trailer es ++ 0 :: pad) 0 k).transfer_size =
          (last_value options.TRANSFER_SIZE (es.filterMap option_of_group)).getD
            oi.transfer_size ∧
        (deserialize_option_info_loop (option_trailer es ++ 0 :: pad).length oi
            (option_trailer es ++ 0 :: pad) 0 k).option_order =
          (((es.filterMap option_of_group).map Prod.fst).foldl
            (fun acc o => (acc.1.set acc.2 o, acc.2 + 1)) (oi.option_order, k)).1 := by
  have d1 : ¬ (ascii "timeout" = ascii "blksize") := by decide
  have d2 : ¬ (ascii "tsize" = ascii "blksize") := by decide
  have d3 : ¬ (ascii "tsize" = ascii "timeout") := by decide
  intro es
  induction es with
  | nil =>
    intro _ oi k
    have h : deserialize_option_info_loop (option_trailer [] ++ 0 :: pad).length oi
        (option_trailer [] ++ 0 :: pad) 0 k = oi :=
      deserialize_option_info_loop_stop _ oi pad k (by simp [option_trailer])
    rw [h]
    simp [last_value]
  | cons e es ih =>
    intro hes oi k
    have he := hes e (by simp)
    have ih2 := ih (fun x hx => hes x (by simp [hx]))
    have ht : option_trailer (e :: es) ++ 0 :: pad =
        e.1 ++ 0 :: (e.2 ++ 0 :: (option_trailer es ++ 0 :: pad)) := by
      simp [option_trailer]
    rw [ht, deserialize_option_info_loop_entry oi e.1 e.2 _ k he.1 he.2.1 he.2.2]
    cases hs : stoi e.2 with
    | none =>
      have hg : option_of_group e = none := by simp [option_of_group, hs]
      simp only [List.filterMap_cons, hg]
      exact ih2 oi k
    | some n =>
      by_cases h1 : e.1.map tolower = ascii "blksize"
      · have hg : option_of_group e = some (options.BLOCKSIZE, to_unsigned n) := by
          simp [option_of_group, hs, h1]
        have l1 := last_value_cons options.BLOCKSIZE (options.BLOCKSIZE, to_unsigned n)
          (es.filterMap option_of_group)
        have l2 := last_value_cons options.TIMEOUT (options.BLOCKSIZE, to_unsigned n)
          (es.filterMap option_of_group)
        have l3 := last_value_cons options.TRANSFER_SIZE (options.BLOCKSIZE, to_unsigned n)
          (es.filterMap option_of_group)
        simp only [List.filterMap_cons, hg, h1, if_true, List.map_cons, List.foldl_cons,
          l1.1, l1.2, l2.1, l2.2, l3.1, l3.2]
        have := ih2 { oi with
          option_blocksize := true
          blocksize := to_unsigned n
          option_order := oi.option_order.set k options.BLOCKSIZE } (k + 1)
        simpa using this
      · by_cases h2 : e.1.map tolower = ascii "timeout"
        · have hg : option_of_group e = some (options.TIMEOUT, to_unsigned n) := by
            simp [option_of_group, hs, h2, d1]
          have l1 := last_value_cons options.BLOCKSIZE (options.TIMEOUT, to_unsigned n)
            (es.filterMap option_of_group)
          have l2 := last_value_cons options.TIMEOUT (options.TIMEOUT, to_unsigned n)
            (es.filterMap option_of_group)
          have l3 := last_value_cons options.TRANSFER_SIZE (options.TIMEOUT, to_unsigned n)
            (es.filterMap option_of_group)
          simp only [List.filterMap_cons, hg, h1, h2, if_true, if_false, List.map_cons,
            List.foldl_cons, l1.1, l1.2, l2.1, l2.2, l3.1, l3.2]
          have := ih2 { oi with
            option_timeout_interval := true
            timeout_interval := to_unsigned n
            option_order := oi.option_order.set k options.TIMEOUT } (k + 1)
          simpa using this
        · by_cases h3 : e.1.map tolower = ascii "tsize"
          · have hg : option_of_group e = some (options.TRANSFER_SIZE, to_unsigned n) := by
              simp [option_of_group, hs, h3, d2, d3]
            have l1 := last_value_cons options.BLOCKSIZE
              (options.TRANSFER_SIZE, to_unsigned n) (es.filterMap option_of_group)
            have l2 := last_value_cons options.TIMEOUT
              (options.TRANSFER_SIZE, to_unsigned n) (es.filterMap option_of_group)
            have l3 := last_value_cons options.TRANSFER_SIZE
              (options.TRANSFER_SIZE, to_unsigned n) (es.filterMap option_of_group)
            simp only [List.filterMap_cons, hg, h1, h2, h3, if_true, if_false, List.map_cons,
              List.foldl_cons, l1.1, l1.2, l2.1, l2.2, l3.1, l3.2]
            have := ih2 { oi with
              option_transfer_size := true
              transfer_size := to_unsigned n
              option_order := oi.option_order.set k options.TRANSFER_SIZE } (k + 1)
            simpa using this
          · have hg : option_of_group e = none := by
              simp [option_of_group, hs, h1, h2, h3]
            simp only [List.filterMap_cons, hg, h1, h2, h3, if_false]
            exact ih2 oi k

/-- The writes into a fresh `option_order`, as long as there are at most three. -/
theorem option_order_writes (l : List options) (h : l.length ≤ 3) :
    (l.foldl (fun (acc : List options × Nat) o => (acc.1.set acc.2 o, acc.2 + 1))
      ([options.NONE, options.NONE, options.NONE], 0)).1 =
      l ++ List.replicate (3 - l.length) options.NONE := by
  match l, h with
  | [], _ => rfl
  | [_], _ => rfl
  | [_, _], _ => rfl
  | [_, _, _], _ => rfl
  | _ :: _ :: _ :: _ :: _, h => simp at h

end Tftp

namespace Tftp

/-- C19, counterexample. The trailer `blksize 1024, blksize 512`:
`deserialize_option_info` records 512, the value of the second occurrence, not 1024, the
value of the first one, and `option_order` lists `blksize` twice. -/
theorem duplicate_option_first_value_overwritten :
    first_value options.BLOCKSIZE
        ([(ascii "blksize", ascii "1024"), (ascii "blksize", ascii "512")].filterMap
          option_of_group) = some 1024 ∧
    (deserialize_option_info {}
        (option_trailer [(ascii "blksize", ascii "1024"), (ascii "blksize", ascii "512")]
          ++ [0]) 0).blocksize = 512 ∧
    (deserialize_option_info {}
        (option_trailer [(ascii "blksize", ascii "1024"), (ascii "blksize", ascii "512")]
          ++ [0]) 0).option_order =
      [options.BLOCKSIZE, options.BLOCKSIZE, options.NONE] := by
  decide

/-- C19, amended. For every option trailer made of groups `name NUL value NUL`,
`deserialize_option_info` records for each supported option the value of the last group
that names it with a value `stoi` accepts (the option is present exactly when there is
such a group), and `option_order` lists these groups one by one in the order seen, an
option once per occurrence, as long as there are at most three of them. -/
theorem duplicate_options_keep_last (es : List (List Nat × List Nat)) (pad : List Nat)
    (hes : ∀ e ∈ es, e.1 ≠ [] ∧ (∀ c ∈ e.1, c ≠ 0) ∧ ∀ c ∈ e.2, c ≠ 0) :
    (deserialize_option_info {} (option_trailer es ++ 0 :: pad) 0).option_blocksize =
      (last_value options.BLOCKSIZE (es.filterMap option_of_group)).isSome ∧
    (∀ v, last_value options.BLOCKSIZE (es.filterMap option_of_group) = some v →
      (deserialize_option_info {} (option_trailer es ++ 0 :: pad) 0).blocksize = v) ∧
    (deserialize_option_info {} (option_trailer es ++ 0 :: pad) 0).option_timeout_interval =
      (last_value options.TIMEOUT (es.filterMap option_of_group)).isSome ∧
    (∀ v, last_value options.TIMEOUT (es.filterMap option_of_group) = some v →
      (deserialize_option_info {} (option_trailer es ++ 0 :: pad) 0).timeout_interval = v) ∧
    (deserialize_option_info {} (option_trailer es ++ 0 :: pad) 0).option_transfer_size =
      (last_value options.TRANSFER_SIZE (es.filterMap option_of_group)).isSome ∧
    (∀ v, last_value options.TRANSFER_SIZE (es.filterMap option_of_group) = some v →
      (deserialize_option_info {} (option_trailer es ++ 0 :: pad) 0).transfer_size = v) ∧
    ((es.filterMap option_of_group).length ≤ 3 →
      (deserialize_option_info {} (option_trailer es ++ 0 :: pad) 0).option_order =
        (es.filterMap option_of_group).map Prod.fst ++
          List.replicate (3 - (es.filterMap option_of_group).length) options.NONE) := by
  obtain ⟨h1, h2, h3, h4, h5, h6, h7⟩ :=
    deserialize_option_info_loop_trailer pad es hes {} 0
  unfold deserialize_option_info
  refine ⟨?_, ?_, ?_, ?_, ?_, ?_, ?_⟩
  · rw [h1]; rfl
  · intro v hv
    rw [h2, hv]; rfl
  · rw [h3]; rfl
  · intro v hv
    rw [h4, hv]; rfl
  · rw [h5]; rfl
  · intro v hv
    rw [h6, hv]; rfl
  · intro hl
    rw [h7]
    have := option_order_writes ((es.filterMap option_of_group).map Prod.fst)
      (by simpa using hl)
    simpa using this

/-- C19 on the trailer `blksize 1024, blksize 512`: the block size recorded is 512 and
`option_order` lists `blksize` twice. -/
theorem duplicate_options_keep_last_witness :
    (∀ e ∈ [(ascii "blksize", ascii "1024"), (ascii "blksize", ascii "512")],
      e.1 ≠ [] ∧ (∀ c ∈ e.1, c ≠ 0) ∧ ∀ c ∈ e.2, c ≠ 0) ∧
    (deserialize_option_info {}
        (option_trailer [(ascii "blksize", ascii "1024"), (ascii "blksize", ascii "512")]
          ++ 0 :: []) 0).blocksize = 512 ∧
    (deserialize_option_info {}
        (option_trailer [(ascii "blksize", ascii "1024"), (ascii "blksize", ascii "512")]
          ++ 0 :: []) 0).option_order =
      [options.BLOCKSIZE, options.BLOCKSIZE, options.NONE] :=
  ⟨by decide,
    (duplicate_options_keep_last
      [(ascii "blksize", ascii "1024"), (ascii "blksize", ascii "512")] [] (by decide)).2.1
      512 (by decide),
    ((duplicate_options_keep_last
      [(ascii "blksize", ascii "1024"), (ascii "blksize", ascii "512")] [] (by decide)
      ).2.2.2.2.2.2 (by decide)).trans (by decide)⟩

end Tftp

namespace Tftp

/-! ## Block numbers on the wire -/

/-- What one call of `recvfrom_retransmit` adds to the log: copies of the pending packet
and answers to strangers. -/
theorem recvfrom_retransmit_loop_extra (B : Nat) (pkt : List Nat) (tid : Int) :
    ∀ (events : List NetEvent) (i : Nat) (address : Endpoint) (sent : List Sent)
      (buffer : List Nat),
      ∃ extra : List Sent,
        (recvfrom_retransmit_loop B pkt tid events i address sent buffer).2.1.sent =
          sent ++ extra ∧
        ∀ x ∈ extra, x.bytes = pkt ∨ x.bytes = unknown_tid_packet := by
  intro events
  induction events with
  | nil =>
      intro i address sent buffer
      refine ⟨List.replicate (MAX_RETRANSMIT_ATTEMPTS - i) ⟨address, pkt, 0⟩, rfl, ?_⟩
      intro x hx
      rw [List.eq_of_mem_replicate hx]
      exact Or.inl rfl
  | cons e events ih =>
      intro i address sent buffer
      rw [recvfrom_retransmit_loop]
      by_cases hmax : i = MAX_RETRANSMIT_ATTEMPTS
      · simp only [hmax, if_true]
        exact ⟨[], by simp, by simp⟩
      · simp only [hmax, if_false]
        by_cases h1 : (recv_outcome B e address buffer).1 = ERR_CODE_TIMEOUT
        · rw [if_pos h1]
          obtain ⟨extra, g1, g2⟩ := ih (i + 1) address (sent ++ [⟨address, pkt, 0⟩]) buffer
          refine ⟨⟨address, pkt, 0⟩ :: extra, by rw [g1]; simp, ?_⟩
          intro x hx
          rcases List.mem_cons.mp hx with h | h
          · rw [h]; exact Or.inl rfl
          · exact g2 x h
        · rw [if_neg h1]
          by_cases h2 : (recv_outcome B e address buffer).1 < 0
          · rw [if_pos h2]
            exact ⟨[], by simp, by simp⟩
          · rw [if_neg h2]
            split
            · obtain ⟨extra, g1, g2⟩ := ih i (recv_outcome B e address buffer).2.1
                (sent ++ [⟨(recv_outcome B e address buffer).2.1, unknown_tid_packet, 0⟩])
                (recv_outcome B e address buffer).2.2
              refine ⟨⟨(recv_outcome B e address buffer).2.1, unknown_tid_packet, 0⟩ :: extra,
                by rw [g1]; simp, ?_⟩
              intro x hx
              rcases List.mem_cons.mp hx with h | h
              · rw [h]; exact Or.inr rfl
              · exact g2 x h
            · exact ⟨[], by simp, by simp⟩

/-- What the loop that ends `write_to_file` adds to the log: copies of the last ACK. -/
theorem final_ack_loop_extra (B : Nat) (pkt : List Nat) :
    ∀ (k i : Nat) (conn : Net) (buffer : List Nat),
      ∃ extra : List Sent,
        (final_ack_loop B pkt k i conn buffer).sent = conn.sent ++ extra ∧
        ∀ x ∈ extra, x.bytes = pkt := by
  intro k
  induction k with
  | zero => intro i conn buffer; exact ⟨[], by simp [final_ack_loop], by simp⟩
  | succ k ih =>
      intro i conn buffer
      rw [final_ack_loop]
      split
      · exact ⟨[], by rw [recvfrom_timeout_sent]; simp, by simp⟩
      · obtain ⟨extra, g1, g2⟩ := ih (i + 1)
          (sendto (recvfrom_timeout conn B buffer).2.1 pkt i) (recvfrom_timeout conn B buffer).2.2
        refine ⟨⟨(recvfrom_timeout conn B buffer).2.1.address, pkt, i⟩ :: extra, ?_, ?_⟩
        · rw [g1]
          simp [sendto, recvfrom_timeout_sent]
        · intro x hx
          rcases List.mem_cons.mp hx with h | h
          · rw [h]
          · exact g2 x h

theorem block_numbers_append (op : Nat) (a b : List Sent) :
    block_numbers op (a ++ b) = block_numbers op a ++ block_numbers op b := by
  simp [block_numbers, List.filterMap_append]

/-- A property of the block numbers of a log, from a property of its packets. -/
theorem block_numbers_forall (op : Nat) (T : Nat → Prop) (l : List Sent)
    (h : ∀ x ∈ l, x.bytes.take 2 = short_to_chars op →
      T (chars_to_short (charAt x.bytes 2) (charAt x.bytes 3))) :
    ∀ n ∈ block_numbers op l, T n := by
  intro n hn
  simp only [block_numbers, List.mem_filterMap] at hn
  obtain ⟨x, hx, hxn⟩ := hn
  by_cases hop : x.bytes.take 2 = short_to_chars op
  · rw [if_pos hop] at hxn
    cases hxn
    exact h x hx hop
  · rw [if_neg hop] at hxn
    cases hxn

/-- ERROR packets carry no block number of a DATA or ACK packet. -/
theorem block_numbers_error (op : Nat) (hop : op = 3 ∨ op = 4) (l : List Sent)
    (h : ∀ x ∈ l, ∃ p : tftp_error_packet_t, p.opcode = ERROR_OPCODE ∧
      x.bytes = serialize_packet_struct_error p) :
    block_numbers op l = [] := by
  apply List.eq_nil_iff_forall_not_mem.mpr
  intro n hn
  refine block_numbers_forall op (fun _ => False) l ?_ n hn
  intro x hx htake
  obtain ⟨p, hp, hb⟩ := h x hx
  rw [hb, serialize_packet_struct_error, hp, short_to_chars_eq, short_to_chars_eq] at htake
  rcases hop with rfl | rfl
  · simp [ERROR_OPCODE] at htake
    exact absurd htake (by decide)
  · simp [ERROR_OPCODE] at htake
    exact absurd htake (by decide)

end Tftp

namespace Tftp

/-- What `send_error_packet` adds to the log carries no DATA or ACK block number. -/
theorem send_error_packet_block_numbers (conn : Net) (code : Int) (msg : List Nat)
    (op : Nat) (hop : op = 3 ∨ op = 4) :
    ∃ extra : List Sent,
      (send_error_packet conn code msg true).sent = conn.sent ++ extra ∧
      block_numbers op extra = [] := by
  obtain ⟨extra, h1, _, _, h4⟩ := send_error_packet_loop_sent
    (serialize_packet_struct_error
      { error_code := (code % 65536).toNat, error_message := msg })
    MAX_RETRANSMIT_ATTEMPTS conn
  refine ⟨extra, by simpa [send_error_packet] using h1, ?_⟩
  exact block_numbers_error op hop extra (fun x hx => ⟨_, rfl, h4 x hx⟩)

/-- The three outcomes of `receive_data`. -/
theorem receive_data_cases (conn : Net) (buffer beyond : List Nat) (n : Nat)
    (fw mode : List Nat) (e : Nat) :
    ((receive_data conn buffer beyond n fw mode e).1 = ERR_CODE_ILLEGAL_OPERATION ∧
      ∃ extra : List Sent,
        (receive_data conn buffer beyond n fw mode e).2.1.sent = conn.sent ++ extra ∧
        block_numbers 4 extra = []) ∨
    ((receive_data conn buffer beyond n fw mode e).1 = DUPLICATED_PACKET ∧
      (receive_data conn buffer beyond n fw mode e).2.1 = conn) ∨
    ((receive_data conn buffer beyond n fw mode e).1 = PACKET_OK_CODE ∧
      (receive_data conn buffer beyond n fw mode e).2.1 = conn ∧ 1 ≤ e % 65536) := by
  unfold receive_data
  simp only
  by_cases h1 : (check_packet_content_data (deserialize_packet_struct_data (buffer ++ beyond))
      (e % 65536)).1 = ERR_CODE_ILLEGAL_OPERATION
  · rw [if_pos h1]
    exact Or.inl ⟨h1, send_error_packet_block_numbers conn _ _ 4 (Or.inr rfl)⟩
  · rw [if_neg h1]
    by_cases h2 : (check_packet_content_data
        (deserialize_packet_struct_data (buffer ++ beyond)) (e % 65536)).1 = DUPLICATED_PACKET
    · rw [if_pos h2]
      exact Or.inr (Or.inl ⟨h2, rfl⟩)
    · rw [if_neg h2]
      refine Or.inr (Or.inr ⟨rfl, rfl, ?_⟩)
      unfold check_packet_content_data at h1 h2
      by_contra hlt
      have hz : e % 65536 = 0 := by omega
      rw [hz] at h1 h2
      split at h1
      · exact h1 rfl
      · split at h1
        · exact h1 rfl
        · split at h1
          · exact h1 rfl
          · omega

/-- The three outcomes of `receive_ack`. -/
theorem receive_ack_cases (conn : Net) (buffer : List Nat) (c : Nat) :
    ((receive_ack conn buffer c).1 = ERR_CODE_ILLEGAL_OPERATION ∧
      ∃ extra : List Sent,
        (receive_ack conn buffer c).2.sent = conn.sent ++ extra ∧
        block_numbers 3 extra = []) ∨
    ((receive_ack conn buffer c).1 = DUPLICATED_PACKET ∧ (receive_ack conn buffer c).2 = conn) ∨
    ((receive_ack conn buffer c).1 = PACKET_OK_CODE ∧ (receive_ack conn buffer c).2 = conn) := by
  unfold receive_ack
  simp only
  by_cases h1 : (check_packet_content_ack (deserialize_packet_struct_ack buffer)
      (c % 65536)).1 = ERR_CODE_ILLEGAL_OPERATION
  · rw [if_pos h1]
    exact Or.inl ⟨h1, send_error_packet_block_numbers conn _ _ 3 (Or.inl rfl)⟩
  · rw [if_neg h1]
    unfold check_packet_content_ack at h1 ⊢
    split at h1
    · exact absurd rfl h1
    · split at h1
      · exact absurd rfl h1
      · rename_i g1 g2
        rw [if_neg g1, if_neg g2]
        split
        · exact Or.inr (Or.inl ⟨rfl, rfl⟩)
        · exact Or.inr (Or.inr ⟨rfl, rfl⟩)

/-- Joining a run of equal numbers to a chain that starts with the same number or its
successor. -/
theorem chain_join (nx : Nat → Nat) (v : Nat) (B : List Nat)
    (hB : List.Chain' (fun a b => b = a ∨ b = nx a) B)
    (hh : ∀ y ∈ B.head?, y = v ∨ y = nx v) :
    ∀ (A : List Nat), (∀ x ∈ A, x = v) →
      List.Chain' (fun a b => b = a ∨ b = nx a) (A ++ B) ∧
      ∀ y ∈ (A ++ B).head?, y = v ∨ y = nx v := by
  intro A
  induction A with
  | nil => intro _; exact ⟨hB, hh⟩
  | cons a A ih =>
      intro hA
      obtain ⟨g1, g2⟩ := ih (fun x hx => hA x (by simp [hx]))
      have ha : a = v := hA a (by simp)
      subst ha
      refine ⟨?_, ?_⟩
      · rw [List.cons_append, List.chain'_cons']
        exact ⟨g2, g1⟩
      · intro y hy
        simp at hy
        exact Or.inl hy.symm

end Tftp

namespace Tftp

/-- The block numbers of the packets one wait of `write_to_file` or `read_from_file`
adds to the log, when the pending packet carries the number `v` if it carries one. -/
theorem recvfrom_retransmit_block_numbers (conn : Net) (B : Nat) (buffer pkt : List Nat)
    (tid : Int) (op v : Nat) (hop : op = 3 ∨ op = 4)
    (hpkt : pkt.take 2 = short_to_chars op →
      chars_to_short (charAt pkt 2) (charAt pkt 3) = v) :
    ∃ extra : List Sent,
      (recvfrom_retransmit conn B buffer pkt tid).2.1.sent = conn.sent ++ extra ∧
      ∀ x ∈ block_numbers op extra, x = v := by
  obtain ⟨extra, h1, h2⟩ := recvfrom_retransmit_loop_extra B pkt tid conn.events 0
    conn.address conn.sent buffer
  refine ⟨extra, h1, block_numbers_forall op (fun n => n = v) extra ?_⟩
  intro x hx htake
  rcases h2 x hx with h | h
  · rw [h] at htake ⊢
    exact hpkt htake
  · rw [h] at htake
    rcases hop with rfl | rfl
    · exact absurd htake (by decide)
    · exact absurd htake (by decide)

/-- The acknowledgements of `write_to_file` from any round on: the run ends, and the
block numbers of the ACK packets it sends form a chain in which each number is the one
before or one more, starting with the pending number or the expected one. -/
theorem write_to_file_loop_ack_numbers (options : option_info_t) (mode : List Nat)
    (tid : Int) (beyond : List Nat) :
    ∀ (fuel : Nat) (conn : Net) (fw pkt : List Nat) (e : Nat),
      conn.events.length < fuel → 1 ≤ e → e ≤ 65536 →
      (pkt.take 2 = short_to_chars 4 →
        chars_to_short (charAt pkt 2) (charAt pkt 3) = e - 1) →
      ∃ (res : Int × Net × List Nat) (more : List Sent),
        write_to_file_loop options mode tid beyond fuel conn fw pkt e = some res ∧
        res.2.1.sent = conn.sent ++ more ∧
        List.Chain' (fun a b => b = a ∨ b = a + 1) (block_numbers 4 more) ∧
        ∀ y ∈ (block_numbers 4 more).head?, y = e - 1 ∨ y = e - 1 + 1 := by
  intro fuel
  induction fuel with
  | zero => intro conn fw pkt e h; omega
  | succ fuel ih =>
    intro conn fw pkt e hfuel he1 he2 hpkt
    obtain ⟨ex1, hs1, hb1⟩ := recvfrom_retransmit_block_numbers conn options.blocksize
      (List.replicate (options.blocksize + DATA_PACKET_OFFSET) 0) pkt tid 4 (e - 1)
      (Or.inr rfl) hpkt
    have hacc := recvfrom_retransmit_accepts conn options.blocksize
      (List.replicate (options.blocksize + DATA_PACKET_OFFSET) 0) pkt tid
    have hcases := receive_data_cases
      (recvfrom_retransmit conn options.blocksize
        (List.replicate (options.blocksize + DATA_PACKET_OFFSET) 0) pkt tid).2.1
      (recvfrom_retransmit conn options.blocksize
        (List.replicate (options.blocksize + DATA_PACKET_OFFSET) 0) pkt tid).2.2 beyond
      (recvfrom_retransmit conn options.blocksize
        (List.replicate (options.blocksize + DATA_PACKET_OFFSET) 0) pkt tid).1.toNat
      fw mode e
    rw [write_to_file_loop]
    simp only
    generalize recvfrom_retransmit conn options.blocksize
      (List.replicate (options.blocksize + DATA_PACKET_OFFSET) 0) pkt tid = rx at *
    generalize receive_data rx.2.1 rx.2.2 beyond rx.1.toNat fw mode e = rd at *
    have hnil : List.Chain' (fun a b => b = a ∨ b = a + 1) ([] : List Nat) := List.chain'_nil
    have stop1 : List.Chain' (fun a b => b = a ∨ b = a + 1) (block_numbers 4 ex1) ∧
        ∀ y ∈ (block_numbers 4 ex1).head?, y = e - 1 ∨ y = e - 1 + 1 := by
      have := chain_join (fun a => a + 1) (e - 1) [] hnil (by simp) (block_numbers 4 ex1) hb1
      simpa using this
    by_cases hneg : rx.1 < 0
    · rw [if_pos hneg]
      exact ⟨_, ex1, rfl, hs1, stop1.1, stop1.2⟩
    · rw [if_neg hneg]
      by_cases herr : chars_to_short (charAt rx.2.2 0) (charAt rx.2.2 1) = ERROR_OPCODE
      · rw [if_pos herr]
        exact ⟨_, ex1, rfl, hs1, stop1.1, stop1.2⟩
      · rw [if_neg herr]
        obtain ⟨_, _, _, _, _, hev⟩ := hacc hneg
        rcases hcases with ⟨c1, extra, c2, c3⟩ | ⟨c1, c2⟩ | ⟨c1, c2, c3⟩
        · rw [if_pos c1]
          refine ⟨_, ex1 ++ extra, rfl, ?_, ?_, ?_⟩
          · simp only [c2, hs1, List.append_assoc]
          · rw [block_numbers_append, c3, List.append_nil]; exact stop1.1
          · rw [block_numbers_append, c3, List.append_nil]; exact stop1.2
        · have n1 : ¬ (rd.1 = ERR_CODE_ILLEGAL_OPERATION) := by rw [c1]; decide
          have n2 : ¬ (rd.1 = PACKET_OK_CODE) := by rw [c1]; decide
          have n3 : rd.1 ≠ PACKET_OK_CODE ∧ rd.1 ≠ 0 := by rw [c1]; decide
          rw [if_neg n1, if_pos n3, if_neg n2, c2]
          obtain ⟨res, more, g1, g2, g3, g4⟩ := ih (sendto rx.2.1 pkt 0) rd.2.2 pkt e
            (by simp only [sendto]; omega) he1 he2 hpkt
          refine ⟨res, ex1 ++ (⟨rx.2.1.address, pkt, 0⟩ :: more), g1, ?_, ?_⟩
          · rw [g2]
            simp only [sendto, hs1, List.append_assoc, List.singleton_append]
          · have hb2 : ∀ x ∈ block_numbers 4 (ex1 ++ [⟨rx.2.1.address, pkt, 0⟩]), x = e - 1 := by
              rw [block_numbers_append]
              intro x hx
              rcases List.mem_append.mp hx with h | h
              · exact hb1 x h
              · exact block_numbers_forall 4 (fun n => n = e - 1) _
                  (fun y hy ht => by
                    simp only [List.mem_singleton] at hy
                    rw [hy] at ht ⊢
                    exact hpkt ht) x h
            have := chain_join (fun a => a + 1) (e - 1) _ g3 g4 _ hb2
            rw [← block_numbers_append] at this
            simpa using this
        · have n1 : ¬ (rd.1 = ERR_CODE_ILLEGAL_OPERATION) := by rw [c1]; decide
          have n3 : ¬ (rd.1 ≠ PACKET_OK_CODE ∧ rd.1 ≠ 0) := fun h => h.1 c1
          have he3 : e < 65536 := by omega
          have hmod : e % 65536 = e := Nat.mod_eq_of_lt he3
          have hA : serialize_packet_struct_ack { block_number := e } =
              [0, 4, e / 256 % 256, e % 256] := by
            simp [serialize_packet_struct_ack, short_to_chars_eq, ACK_OPCODE]
          have hnum : ∀ (d : Endpoint) (f : Nat),
              block_numbers 4 [⟨d, serialize_packet_struct_ack { block_number := e }, f⟩] =
                [e] := by
            intro d f
            have h4 : short_to_chars 4 = [0, 4] := by decide
            simp [block_numbers, hA, h4, charAt, chars_to_short_short_to_chars e he3]
          have hpk2 : (serialize_packet_struct_ack { block_number := e }).take 2 =
              short_to_chars 4 →
              chars_to_short (charAt (serialize_packet_struct_ack { block_number := e }) 2)
                (charAt (serialize_packet_struct_ack { block_number := e }) 3) = e + 1 - 1 := by
            intro _
            rw [hA]
            simpa [charAt] using chars_to_short_short_to_chars e he3
          rw [if_neg n1, if_neg n3, if_pos c1, c2]
          simp only [send_ack, hmod]
          split
          · obtain ⟨exf, f1, f2⟩ := final_ack_loop_extra options.blocksize
              (serialize_packet_struct_ack { block_number := e }) MAX_RETRANSMIT_ATTEMPTS 0
              (sendto rx.2.1 (serialize_packet_struct_ack { block_number := e }) 0) rx.2.2
            have hbf : ∀ x ∈ block_numbers 4 exf, x = e :=
              block_numbers_forall 4 (fun n => n = e) exf (fun y hy _ => by
                rw [f2 y hy, hA]
                simpa [charAt] using chars_to_short_short_to_chars e he3)
            refine ⟨_, ex1 ++ (⟨rx.2.1.address,
              serialize_packet_struct_ack { block_number := e }, 0⟩ :: exf), rfl, ?_, ?_⟩
            · rw [f1]
              simp only [sendto, hs1, List.append_assoc, List.singleton_append]
            · have hB := chain_join (fun a => a + 1) e [] hnil (by simp)
                (block_numbers 4 (⟨rx.2.1.address,
                  serialize_packet_struct_ack { block_number := e }, 0⟩ :: exf))
                (by
                  intro x hx
                  rw [← List.singleton_append, block_numbers_append, hnum] at hx
                  rcases List.mem_append.mp hx with h | h
                  · simpa using h
                  · exact hbf x h)
              simp only [List.append_nil] at hB
              have hhead : ∀ y ∈ (block_numbers 4 (⟨rx.2.1.address,
                  serialize_packet_struct_ack { block_number := e }, 0⟩ :: exf)).head?,
                  y = e - 1 ∨ y = e - 1 + 1 := by
                intro y hy
                rw [← List.singleton_append, block_numbers_append, hnum] at hy
                simp at hy
                right; omega
              have := chain_join (fun a => a + 1) (e - 1) _ hB.1 hhead _ hb1
              rw [← block_numbers_append] at this
              exact this
          · obtain ⟨res, more, g1, g2, g3, g4⟩ := ih
              (sendto rx.2.1 (serialize_packet_struct_ack { block_number := e }) 0) rd.2.2
              (serialize_packet_struct_ack { block_number := e }) (e + 1)
              (by simp only [sendto]; omega) (by omega) (by omega) hpk2
            refine ⟨res, ex1 ++ (⟨rx.2.1.address,
              serialize_packet_struct_ack { block_number := e }, 0⟩ :: more), g1, ?_, ?_⟩
            · rw [g2]
              simp only [sendto, hs1, List.append_assoc, List.singleton_append]
            · have hB := chain_join (fun a => a + 1) e _ g3 (by simpa using g4)
                [e] (by simp)
              have hB2 : List.Chain' (fun a b => b = a ∨ b = a + 1)
                  (block_numbers 4 (⟨rx.2.1.address,
                    serialize_packet_struct_ack { block_number := e }, 0⟩ :: more)) := by
                rw [← List.singleton_append, block_numbers_append, hnum]
                exact hB.1
              have hhead : ∀ y ∈ (block_numbers 4 (⟨rx.2.1.address,
                  serialize_packet_struct_ack { block_number := e }, 0⟩ :: more)).head?,
                  y = e - 1 ∨ y = e - 1 + 1 := by
                intro y hy
                rw [← List.singleton_append, block_numbers_append, hnum] at hy
                simp at hy
                right; omega
              have := chain_join (fun a => a + 1) (e - 1) _ hB2 hhead _ hb1
              rw [← block_numbers_append] at this
              exact this

end Tftp

namespace Tftp

/-- The block number a DATA packet built by `send_data` shows in the log. -/
theorem block_numbers_data (d : Endpoint) (f c n : Nat) (data : List Nat) (hc : c < 65536) :
    block_numbers 3
      [⟨d, serialize_packet_struct_data { block_number := c, data := data } n, f⟩] = [c] ∧
    ((serialize_packet_struct_data { block_number := c, data := data } n).take 2 =
        short_to_chars 3 →
      chars_to_short
        (charAt (serialize_packet_struct_data { block_number := c, data := data } n) 2)
        (charAt (serialize_packet_struct_data { block_number := c, data := data } n) 3) = c) := by
  have h3 : short_to_chars 3 = [0, 3] := by decide
  have hD : serialize_packet_struct_data { block_number := c, data := data } n =
      [0, 3, c / 256 % 256, c % 256] ++ data.take n := by
    simp [serialize_packet_struct_data, short_to_chars_eq, DATA_OPCODE]
  have hn : chars_to_short (charAt ([0, 3, c / 256 % 256, c % 256] ++ data.take n) 2)
      (charAt ([0, 3, c / 256 % 256, c % 256] ++ data.take n) 3) = c := by
    simpa [charAt] using chars_to_short_short_to_chars c hc
  refine ⟨?_, ?_⟩
  · simp only [block_numbers, hD, h3, List.filterMap_cons, List.filterMap_nil, hn]
    simp
  · intro _
    rw [hD]
    exact hn

/-- The DATA packets of `read_from_file` from any round on: the run ends, and the block
numbers of the DATA packets it sends form a chain in which each number is the one before
or its successor modulo 65536, starting with the pending number or its successor. -/
theorem read_from_file_loop_data_numbers (options : option_info_t) (mode : List Nat)
    (tid : Int) :
    ∀ (fuel : Nat) (conn : Net) (r : reader_t) (pkt : List Nat) (c : Nat),
      conn.events.length < fuel → c < 65536 →
      (pkt.take 2 = short_to_chars 3 →
        chars_to_short (charAt pkt 2) (charAt pkt 3) = c) →
      ∃ (res : Int × Net) (more : List Sent),
        read_from_file_loop options mode tid fuel conn r pkt c = some res ∧
        res.2.sent = conn.sent ++ more ∧
        List.Chain' (fun a b => b = a ∨ b = (a + 1) % 65536) (block_numbers 3 more) ∧
        ∀ y ∈ (block_numbers 3 more).head?, y = c ∨ y = (c + 1) % 65536 := by
  intro fuel
  induction fuel with
  | zero => intro conn r pkt c h; omega
  | succ fuel ih =>
    intro conn r pkt c hfuel hc hpkt
    obtain ⟨ex1, hs1, hb1⟩ := recvfrom_retransmit_block_numbers conn options.blocksize
      (List.replicate (options.blocksize + DATA_PACKET_OFFSET) 0) pkt tid 3 c
      (Or.inl rfl) hpkt
    have hacc := recvfrom_retransmit_accepts conn options.blocksize
      (List.replicate (options.blocksize + DATA_PACKET_OFFSET) 0) pkt tid
    have hcases := receive_ack_cases
      (recvfrom_retransmit conn options.blocksize
        (List.replicate (options.blocksize + DATA_PACKET_OFFSET) 0) pkt tid).2.1
      (recvfrom_retransmit conn options.blocksize
        (List.replicate (options.blocksize + DATA_PACKET_OFFSET) 0) pkt tid).2.2 c
    rw [read_from_file_loop]
    simp only
    generalize recvfrom_retransmit conn options.blocksize
      (List.replicate (options.blocksize + DATA_PACKET_OFFSET) 0) pkt tid = rx at *
    generalize receive_ack rx.2.1 rx.2.2 c = ra at *
    have hnil : List.Chain' (fun a b => b = a ∨ b = (a + 1) % 65536) ([] : List Nat) :=
      List.chain'_nil
    have stop1 : List.Chain' (fun a b => b = a ∨ b = (a + 1) % 65536) (block_numbers 3 ex1) ∧
        ∀ y ∈ (block_numbers 3 ex1).head?, y = c ∨ y = (c + 1) % 65536 := by
      have := chain_join (fun a => (a + 1) % 65536) c [] hnil (by simp)
        (block_numbers 3 ex1) hb1
      simpa using this
    by_cases hneg : rx.1 < 0
    · rw [if_pos hneg]
      exact ⟨_, ex1, rfl, hs1, stop1.1, stop1.2⟩
    · rw [if_neg hneg]
      by_cases herr : chars_to_short (charAt rx.2.2 0) (charAt rx.2.2 1) = ERROR_OPCODE
      · rw [if_pos herr]
        exact ⟨_, ex1, rfl, hs1, stop1.1, stop1.2⟩
      · rw [if_neg herr]
        obtain ⟨_, _, _, _, _, hev⟩ := hacc hneg
        rcases hcases with ⟨c1, extra, c2, c3⟩ | ⟨c1, c2⟩ | ⟨c1, c2⟩
        · rw [if_pos c1]
          refine ⟨_, ex1 ++ extra, rfl, ?_, ?_, ?_⟩
          · simp only [c2, hs1, List.append_assoc]
          · rw [block_numbers_append, c3, List.append_nil]; exact stop1.1
          · rw [block_numbers_append, c3, List.append_nil]; exact stop1.2
        · have n1 : ¬ (ra.1 = ERR_CODE_ILLEGAL_OPERATION) := by rw [c1]; decide
          have n3 : ra.1 ≠ PACKET_OK_CODE ∧ ra.1 = DUPLICATED_PACKET := by rw [c1]; decide
          rw [if_neg n1, if_pos n3, c2]
          obtain ⟨res, more, g1, g2, g3, g4⟩ := ih rx.2.1 r pkt c (by omega) hc hpkt
          refine ⟨res, ex1 ++ more, g1, ?_, ?_⟩
          · rw [g2, hs1, List.append_assoc]
          · have := chain_join (fun a => (a + 1) % 65536) c _ g3 g4 _ hb1
            rw [← block_numbers_append] at this
            exact this
        · have n1 : ¬ (ra.1 = ERR_CODE_ILLEGAL_OPERATION) := by rw [c1]; decide
          have n3 : ¬ (ra.1 ≠ PACKET_OK_CODE ∧ ra.1 = DUPLICATED_PACKET) := fun h => h.1 c1
          have hc2 : (c + 1) % 65536 < 65536 := Nat.mod_lt _ (by decide)
          rw [if_neg n1, if_neg n3, c2]
          split
          · simp only [send_data, Nat.mod_mod]
            obtain ⟨hnum, hpk2⟩ := block_numbers_data rx.2.1.address 0 ((c + 1) % 65536)
              (load_block options.blocksize mode r).data_block.length
              (load_block options.blocksize mode r).data_block hc2
            obtain ⟨res, more, g1, g2, g3, g4⟩ := ih
              (sendto rx.2.1 (serialize_packet_struct_data
                { block_number := (c + 1) % 65536,
                  data := (load_block options.blocksize mode r).data_block }
                (load_block options.blocksize mode r).data_block.length) 0)
              (load_block options.blocksize mode r)
              (serialize_packet_struct_data
                { block_number := (c + 1) % 65536,
                  data := (load_block options.blocksize mode r).data_block }
                (load_block options.blocksize mode r).data_block.length)
              ((c + 1) % 65536) (by simp only [sendto]; omega) hc2 hpk2
            refine ⟨res, ex1 ++ (⟨rx.2.1.address, serialize_packet_struct_data
                { block_number := (c + 1) % 65536,
                  data := (load_block options.blocksize mode r).data_block }
                (load_block options.blocksize mode r).data_block.length, 0⟩ :: more), g1, ?_, ?_⟩
            · rw [g2]
              simp only [sendto, hs1, List.append_assoc, List.singleton_append]
            · have hB := chain_join (fun a => (a + 1) % 65536) ((c + 1) % 65536) _ g3 g4
                [(c + 1) % 65536] (by simp)
              have hB2 : List.Chain' (fun a b => b = a ∨ b = (a + 1) % 65536)
                  (block_numbers 3 (⟨rx.2.1.address, serialize_packet_struct_data
                    { block_number := (c + 1) % 65536,
                      data := (load_block options.blocksize mode r).data_block }
                    (load_block options.blocksize mode r).data_block.length, 0⟩ :: more)) := by
                rw [← List.singleton_append, block_numbers_append, hnum]
                exact hB.1
              have hhead : ∀ y ∈ (block_numbers 3 (⟨rx.2.1.address,
                  serialize_packet_struct_data
                    { block_number := (c + 1) % 65536,
                      data := (load_block options.blocksize mode r).data_block }
                    (load_block options.blocksize mode r).data_block.length, 0⟩ :: more)).head?,
                  y = c ∨ y = (c + 1) % 65536 := by
                intro y hy
                rw [← List.singleton_append, block_numbers_append, hnum] at hy
                simp at hy
                exact Or.inr hy.symm
              have := chain_join (fun a => (a + 1) % 65536) c _ hB2 hhead _ hb1
              rw [← block_numbers_append] at this
              exact this
          · exact ⟨_, ex1, rfl, hs1, stop1.1, stop1.2⟩

end Tftp

namespace Tftp

/-- Octet-mode sending from any block `c` on, once DATA(c) has been sent, while full
blocks are acknowledged in order: `m` acknowledgements release the next `m` blocks. -/
theorem read_from_file_loop_octet_full (options : option_info_t) (mode : List Nat)
    (tid : Int) (src : Endpoint) (rest : List NetEvent) (hmode : mode ≠ MODE_NETASCII)
    (hacc : ((src.port : Nat) : Int) = tid ∨ tid = TID_NOT_SET_YET) :
    ∀ (m : Nat) (file : List Nat) (c : Nat) (a : Endpoint) (s : List Sent) (pkt : List Nat),
      (m + 1) * options.blocksize ≤ file.length → c + m < 65536 →
      ∃ (a2 : Endpoint) (pkt2 : List Nat), ∀ fuel : Nat,
        read_from_file_loop options mode tid (fuel + m)
            ⟨a, ack_datagrams src c m ++ rest, s⟩
            ⟨file.drop options.blocksize, file.take options.blocksize, false, false⟩ pkt c =
          read_from_file_loop options mode tid fuel
            ⟨a2, rest, s ++ data_sends src options.blocksize (file.drop options.blocksize)
              (c + 1) m⟩
            ⟨(file.drop (m * options.blocksize)).drop options.blocksize,
              (file.drop (m * options.blocksize)).take options.blocksize, false, false⟩
            pkt2 (c + m) := by
  intro m
  induction m with
  | zero =>
      intro file c a s pkt _ _
      exact ⟨a, pkt, fun fuel => by simp [ack_datagrams, data_sends]⟩
  | succ m ih =>
      intro file c a s pkt hlen hc
      have hlen1 : options.blocksize ≤ file.length := by
        have : (m + 1 + 1) * options.blocksize =
            (m + 1) * options.blocksize + options.blocksize := by ring
        omega
      have hlen2 : (m + 1) * options.blocksize ≤ (file.drop options.blocksize).length := by
        rw [List.length_drop]
        have : (m + 1 + 1) * options.blocksize =
            (m + 1) * options.blocksize + options.blocksize := by ring
        omega
      have htake : (file.take options.blocksize).length = options.blocksize := by
        simp [List.length_take, hlen1]
      obtain ⟨a2, pkt2, h⟩ := ih (file.drop options.blocksize) (c + 1) src
        (s ++ [⟨src, serialize_packet_struct_data
          { block_number := c + 1, data := (file.drop options.blocksize).take options.blocksize }
          ((file.drop options.blocksize).take options.blocksize).length, 0⟩])
        (serialize_packet_struct_data
          { block_number := c + 1, data := (file.drop options.blocksize).take options.blocksize }
          ((file.drop options.blocksize).take options.blocksize).length)
        hlen2 (by omega)
      refine ⟨a2, pkt2, fun fuel => ?_⟩
      have hd : (file.drop options.blocksize).drop (m * options.blocksize) =
          file.drop ((m + 1) * options.blocksize) := by
        rw [List.drop_drop]
        congr 1
        ring
      rw [show fuel + (m + 1) = (fuel + m) + 1 by omega]
      simp only [ack_datagrams, List.range'_succ c, List.map_cons, List.cons_append]
      rw [read_from_file_loop_ack options mode tid (fuel + m) a src _ s _ pkt c hacc (by omega)]
      simp only [htake, ge_iff_le, le_refl, if_true, load_block_octet _ _ hmode,
        Nat.mod_eq_of_lt (show c + 1 < 65536 by omega), send_data, sendto]
      have h2 := h fuel
      simp only [ack_datagrams] at h2
      rw [h2, data_sends_succ, hd]
      simp only [List.append_assoc, List.singleton_append,
        show c + 1 + m = c + (m + 1) by omega]

end Tftp

namespace Tftp

/-- A file of exactly `m + 1` full blocks, `m + 1 = 65535`, sent in octet mode to a peer
that acknowledges every block: after ACK(65535) the sender numbers the next, empty block
0, and ACK(0) ends the transfer. -/
theorem read_from_file_past_65535 (options : option_info_t) (mode : List Nat) (tid : Int)
    (src a : Endpoint) (s : List Sent) (file : List Nat) (m : Nat)
    (hmode : mode ≠ MODE_NETASCII)
    (hacc : ((src.port : Nat) : Int) = tid ∨ tid = TID_NOT_SET_YET)
    (hB : 1 ≤ options.blocksize) (hlen : file.length = (m + 1) * options.blocksize)
    (hm : 1 + m = 65535) :
    read_from_file
        ⟨a, ack_datagrams src 1 m ++
          [.datagram src (serialize_packet_struct_ack { block_number := 65535 }),
            .datagram src (serialize_packet_struct_ack { block_number := 0 })], s⟩
        file options mode tid =
      some (0, ⟨src, [],
        s ++ [⟨a, serialize_packet_struct_data
            { block_number := 1, data := file.take options.blocksize }
            (file.take options.blocksize).length, 0⟩] ++
          data_sends src options.blocksize (file.drop options.blocksize) 2 m ++
          [⟨src, [0, 3, 0, 0], 0⟩]⟩) := by
  have hf : (ack_datagrams src 1 m ++
      [NetEvent.datagram src (serialize_packet_struct_ack { block_number := 65535 }),
        NetEvent.datagram src (serialize_packet_struct_ack { block_number := 0 })]).length + 1
      = 3 + m := by
    simp [ack_datagrams]
    omega
  obtain ⟨a2, pkt2, h⟩ := read_from_file_loop_octet_full options mode tid src
    [NetEvent.datagram src (serialize_packet_struct_ack { block_number := 65535 }),
      NetEvent.datagram src (serialize_packet_struct_ack { block_number := 0 })]
    hmode hacc m file 1 a
    (s ++ [⟨a, serialize_packet_struct_data
      { block_number := 1, data := file.take options.blocksize }
      (file.take options.blocksize).length, 0⟩])
    (serialize_packet_struct_data
      { block_number := 1, data := file.take options.blocksize }
      (file.take options.blocksize).length)
    (by omega) (by omega)
  have hfull : ((file.drop (m * options.blocksize)).take options.blocksize).length =
      options.blocksize := by
    rw [List.length_take, List.length_drop, hlen]
    have : (m + 1) * options.blocksize = m * options.blocksize + options.blocksize := by ring
    omega
  have hend : (file.drop (m * options.blocksize)).drop options.blocksize = [] := by
    rw [List.drop_drop]
    apply List.drop_eq_nil_of_le
    rw [hlen]
    have : (m + 1) * options.blocksize = m * options.blocksize + options.blocksize := by ring
    omega
  have hzero : serialize_packet_struct_data { block_number := 0, data := [] } 0 =
      [0, 3, 0, 0] := by decide
  unfold read_from_file
  simp only [load_block_octet _ _ hmode, send_data, sendto, hf, Nat.mod_eq_of_lt
    (show 1 < 65536 by decide)]
  rw [h 3, hm]
  rw [read_from_file_loop_ack options mode tid 2 a2 src _ _ _ pkt2 65535 hacc (by decide)]
  simp only [hfull, ge_iff_le, le_refl, if_true, load_block_octet _ _ hmode, hend,
    List.drop_nil, List.take_nil, send_data, sendto, List.length_nil]
  rw [read_from_file_loop_ack options mode tid 1 src src _ _ _ _ 0 hacc (by decide)]
  have hB2 : ¬ (([] : List Nat).length ≥ options.blocksize) := by simp; omega
  simp only [hB2, if_false]
  simp [hzero]

/-- C20, counterexample. A file of 65535 blocks of 8 bytes, sent in octet mode to a peer
that acknowledges blocks 1 to 65535 and then block 0: the transfer ends with code 0, and
the last two packets sent are DATA(65535) with the last 8 bytes and the empty DATA(0).
And the receiver started with ACK(0) pending and expected block 1 on a silent line: the
acknowledgements `write_to_file` sends are three copies of ACK(0), so their block numbers
start at 0. -/
theorem sender_block_number_wraps :
    (∃ sent0 : List Sent,
      read_from_file
          ⟨⟨1, 5000⟩, ack_datagrams ⟨1, 5000⟩ 1 65534 ++
            [.datagram ⟨1, 5000⟩ (serialize_packet_struct_ack { block_number := 65535 }),
              .datagram ⟨1, 5000⟩ (serialize_packet_struct_ack { block_number := 0 })], []⟩
          (List.replicate (65535 * 8) 7) { blocksize := 8 } MODE_OCTET 5000 =
        some (0, ⟨⟨1, 5000⟩, [],
          sent0 ++ [⟨⟨1, 5000⟩, [0, 3, 255, 255, 7, 7, 7, 7, 7, 7, 7, 7], 0⟩,
            ⟨⟨1, 5000⟩, [0, 3, 0, 0], 0⟩]⟩) ∧
      block_numbers 3 [⟨⟨1, 5000⟩, [0, 3, 255, 255, 7, 7, 7, 7, 7, 7, 7, 7], 0⟩,
        ⟨⟨1, 5000⟩, [0, 3, 0, 0], 0⟩] = [65535, 0]) ∧
    write_to_file ⟨⟨1, 5000⟩, [], []⟩ { blocksize := 8 } []
        (serialize_packet_struct_ack { block_number := 0 }) MODE_OCTET 5000 1 [] =
      some (PROG_RET_CODE_ERR,
        ⟨⟨1, 5000⟩, [], List.replicate 3 ⟨⟨1, 5000⟩, [0, 4, 0, 0], 0⟩⟩, []) ∧
    block_numbers 4 (List.replicate 3 ⟨⟨1, 5000⟩, [0, 4, 0, 0], 0⟩) = [0, 0, 0] := by
  refine ⟨?_, by decide, by decide⟩
  have h := read_from_file_past_65535 { blocksize := 8 } MODE_OCTET 5000 ⟨1, 5000⟩ ⟨1, 5000⟩
    [] (List.replicate (65535 * 8) 7) 65534 (by decide) (Or.inl rfl) (by decide)
    (List.length_replicate _ _) rfl
  have hlast : data_sends ⟨1, 5000⟩ 8 ((List.replicate (65535 * 8) 7).drop 8) 2 65534 =
      data_sends ⟨1, 5000⟩ 8 ((List.replicate (65535 * 8) 7).drop 8) 2 65533 ++
        [⟨⟨1, 5000⟩, [0, 3, 255, 255, 7, 7, 7, 7, 7, 7, 7, 7], 0⟩] := by
    have e1 : ((List.replicate (65535 * 8) 7).drop 8).drop (65533 * 8) =
        List.replicate 8 7 := by
      rw [List.drop_drop, List.drop_replicate]
    have e2 : (List.replicate 8 7 : List Nat).take 8 = [7, 7, 7, 7, 7, 7, 7, 7] := by decide
    have e3 : serialize_packet_struct_data
        { block_number := 2 + 65533, data := [7, 7, 7, 7, 7, 7, 7, 7] }
        ([7, 7, 7, 7, 7, 7, 7, 7] : List Nat).length =
          [0, 3, 255, 255, 7, 7, 7, 7, 7, 7, 7, 7] := by decide
    unfold data_sends
    rw [show (65534 : Nat) = 65533 + 1 from rfl, List.range_succ, List.map_append]
    simp only [List.map_cons, List.map_nil, e1, e2, e3]
  refine ⟨[⟨⟨1, 5000⟩, serialize_packet_struct_data
      { block_number := 1, data := (List.replicate (65535 * 8) 7).take 8 }
      ((List.replicate (65535 * 8) 7).take 8).length, 0⟩] ++
    data_sends ⟨1, 5000⟩ 8 ((List.replicate (65535 * 8) 7).drop 8) 2 65533, ?_, by decide⟩
  rw [h, hlast]
  simp only [List.nil_append, List.append_assoc, List.singleton_append, List.cons_append]

end Tftp

namespace Tftp

/-- C20, amended. Over any sequence of outcomes of the waits on the socket, the block
numbers of the DATA packets that `read_from_file` sends start at 1 and each is the one
before or its successor modulo 65536: the sequence is non-decreasing up to 65535, after
which the sender goes on with 0. The block numbers of the ACK packets that
`write_to_file` sends, started with expected block `e`, `1 ≤ e ≤ 65536`, and a pending
packet that is ACK(e - 1) or no ACK, start at `e - 1` (a copy of the pending ACK) or at
`e` and each is the one before or one more: the sequence never decreases and never goes
from 65535 back to 0. The packets sent are read from the log of the run, which the model
produces for every list of outcomes followed by silence. -/
theorem block_numbers_of_a_run (conn : Net) (options : option_info_t) (mode : List Nat)
    (tid : Int) (file fw pkt beyond : List Nat) (e : Nat) :
    (∃ (res : Int × Net) (more : List Sent),
      read_from_file conn file options mode tid = some res ∧
      res.2.sent = conn.sent ++ more ∧
      (block_numbers 3 more).head? = some 1 ∧
      List.Chain' (fun a b => b = a ∨ b = (a + 1) % 65536) (block_numbers 3 more)) ∧
    (1 ≤ e → e ≤ 65536 →
      (pkt.take 2 = short_to_chars 4 →
        chars_to_short (charAt pkt 2) (charAt pkt 3) = e - 1) →
      ∃ (res : Int × Net × List Nat) (more : List Sent),
        write_to_file conn options fw pkt mode tid e beyond = some res ∧
        res.2.1.sent = conn.sent ++ more ∧
        (∀ y ∈ (block_numbers 4 more).head?, y = e - 1 ∨ y = e) ∧
        List.Chain' (fun a b => a ≤ b ∧ b ≤ a + 1) (block_numbers 4 more)) := by
  refine ⟨?_, ?_⟩
  · unfold read_from_file
    simp only [send_data, Nat.mod_eq_of_lt (show 1 < 65536 by decide)]
    obtain ⟨hnum, hpk⟩ := block_numbers_data conn.address 0 1
      (load_block options.blocksize mode { file := file }).data_block.length
      (load_block options.blocksize mode { file := file }).data_block (by decide)
    obtain ⟨res, more, g1, g2, g3, g4⟩ := read_from_file_loop_data_numbers options mode tid
      (conn.events.length + 1)
      (sendto conn (serialize_packet_struct_data
        { block_number := 1,
          data := (load_block options.blocksize mode { file := file }).data_block }
        (load_block options.blocksize mode { file := file }).data_block.length) 0)
      (load_block options.blocksize mode { file := file })
      (serialize_packet_struct_data
        { block_number := 1,
          data := (load_block options.blocksize mode { file := file }).data_block }
        (load_block options.blocksize mode { file := file }).data_block.length)
      1 (by simp [sendto]) (by decide) hpk
    refine ⟨res, ⟨conn.address, serialize_packet_struct_data
        { block_number := 1,
          data := (load_block options.blocksize mode { file := file }).data_block }
        (load_block options.blocksize mode { file := file }).data_block.length, 0⟩ :: more,
      g1, ?_, ?_, ?_⟩
    · rw [g2]
      simp [sendto]
    · rw [← List.singleton_append, block_numbers_append, hnum]
      rfl
    · rw [← List.singleton_append, block_numbers_append, hnum]
      exact (chain_join (fun a => (a + 1) % 65536) 1 _ g3 g4 [1] (by simp)).1
  · intro he1 he2 hpkt
    obtain ⟨res, more, g1, g2, g3, g4⟩ := write_to_file_loop_ack_numbers options mode tid
      beyond (conn.events.length + 1) conn fw pkt e (by omega) he1 he2 hpkt
    refine ⟨res, more, g1, g2, ?_, ?_⟩
    · intro y hy
      rcases g4 y hy with h | h
      · exact Or.inl h
      · exact Or.inr (by omega)
    · refine List.Chain'.imp ?_ g3
      intro a b h
      omega

end Tftp

namespace Tftp

/-! ## Unknown options -/

/-- The function `deserialize_option_info` started at an index only looks at the buffer
from that index on. -/
theorem deserialize_option_info_at (oi : option_info_t) (pre t : List Nat) :
    deserialize_option_info oi (pre ++ t) pre.length = deserialize_option_info oi t 0 := by
  unfold deserialize_option_info
  rw [deserialize_option_info_loop_shift, List.drop_left]
  exact deserialize_option_info_loop_fuel _ _ _ _ _ _ (by simp) (by simp)

/-- Two trailers whose groups mean the same options to `deserialize_option_info` are
decoded to the same structure, from any starting structure. -/
theorem deserialize_option_info_trailer_congr (oi : option_info_t) (pad : List Nat)
    (es1 es2 : List (List Nat × List Nat))
    (h1 : ∀ e ∈ es1, e.1 ≠ [] ∧ (∀ c ∈ e.1, c ≠ 0) ∧ ∀ c ∈ e.2, c ≠ 0)
    (h2 : ∀ e ∈ es2, e.1 ≠ [] ∧ (∀ c ∈ e.1, c ≠ 0) ∧ ∀ c ∈ e.2, c ≠ 0)
    (h : es1.filterMap option_of_group = es2.filterMap option_of_group) :
    deserialize_option_info oi (option_trailer es1 ++ 0 :: pad) 0 =
      deserialize_option_info oi (option_trailer es2 ++ 0 :: pad) 0 := by
  obtain ⟨a1, a2, a3, a4, a5, a6, a7⟩ := deserialize_option_info_loop_trailer pad es1 h1 oi 0
  obtain ⟨b1, b2, b3, b4, b5, b6, b7⟩ := deserialize_option_info_loop_trailer pad es2 h2 oi 0
  rw [h] at a1 a2 a3 a4 a5 a6 a7
  unfold deserialize_option_info
  generalize deserialize_option_info_loop (option_trailer es1 ++ 0 :: pad).length oi
    (option_trailer es1 ++ 0 :: pad) 0 0 = r1 at *
  generalize deserialize_option_info_loop (option_trailer es2 ++ 0 :: pad).length oi
    (option_trailer es2 ++ 0 :: pad) 0 0 = r2 at *
  cases r1
  cases r2
  simp only [option_info_t.mk.injEq]
  simp only at a1 a2 a3 a4 a5 a6 a7 b1 b2 b3 b4 b5 b6 b7
  exact ⟨a2.trans b2.symm, a6.trans b6.symm, a4.trans b4.symm, a1.trans b1.symm,
    a5.trans b5.symm, a3.trans b3.symm, a7.trans b7.symm⟩

/-- C30. In an option trailer made of groups `name NUL value NUL`, a group put between
two groups (or in front of the first, or behind the last) whose name is not empty, holds
no NUL and is none of `blksize`, `timeout`, `tsize` in any letter case leaves the result
of `deserialize_option_info` as it is without the group, whatever its value: the same
presence flags, values and recorded order, from any starting structure and at any place
of the trailer in the packet. -/
theorem unknown_option_skipped (oi : option_info_t) (pre pad name value : List Nat)
    (es1 es2 : List (List Nat × List Nat))
    (h1 : ∀ e ∈ es1, e.1 ≠ [] ∧ (∀ c ∈ e.1, c ≠ 0) ∧ ∀ c ∈ e.2, c ≠ 0)
    (h2 : ∀ e ∈ es2, e.1 ≠ [] ∧ (∀ c ∈ e.1, c ≠ 0) ∧ ∀ c ∈ e.2, c ≠ 0)
    (hne : name ≠ []) (hname : ∀ c ∈ name, c ≠ 0) (hvalue : ∀ c ∈ value, c ≠ 0)
    (hb : name.map tolower ≠ ascii "blksize") (ht : name.map tolower ≠ ascii "timeout")
    (hs : name.map tolower ≠ ascii "tsize") :
    deserialize_option_info oi
        (pre ++ (option_trailer (es1 ++ (name, value) :: es2) ++ 0 :: pad)) pre.length =
      deserialize_option_info oi (pre ++ (option_trailer (es1 ++ es2) ++ 0 :: pad))
        pre.length := by
  rw [deserialize_option_info_at, deserialize_option_info_at]
  apply deserialize_option_info_trailer_congr
  · intro e he
    rcases List.mem_append.mp he with h | h
    · exact h1 e h
    · rcases List.mem_cons.mp h with h | h
      · rw [h]
        exact ⟨hne, hname, hvalue⟩
      · exact h2 e h
  · intro e he
    rcases List.mem_append.mp he with h | h
    · exact h1 e h
    · exact h2 e h
  · have hg : option_of_group (name, value) = none := by
      unfold option_of_group
      cases stoi value with
      | none => rfl
      | some n => simp [hb, ht, hs]
    simp [List.filterMap_append, List.filterMap_cons, hg]

/-- C30 on a request trailer: `blksize 1024`, then the unknown option `windowsize 16`,
then `timeout 5`, decoded as if `windowsize` were not there. -/
theorem unknown_option_skipped_witness :
    (∀ e ∈ [(ascii "blksize", ascii "1024")], e.1 ≠ [] ∧ (∀ c ∈ e.1, c ≠ 0) ∧ ∀ c ∈ e.2, c ≠ 0) ∧
    (∀ e ∈ [(ascii "timeout", ascii "5")], e.1 ≠ [] ∧ (∀ c ∈ e.1, c ≠ 0) ∧ ∀ c ∈ e.2, c ≠ 0) ∧
    ascii "windowsize" ≠ [] ∧ (∀ c ∈ ascii "windowsize", c ≠ 0) ∧ (∀ c ∈ ascii "16", c ≠ 0) ∧
    (ascii "windowsize").map tolower ≠ ascii "blksize" ∧
    (ascii "windowsize").map tolower ≠ ascii "timeout" ∧
    (ascii "windowsize").map tolower ≠ ascii "tsize" ∧
    deserialize_option_info {}
        ([0, 1, 97, 0] ++ ascii "octet" ++ [0] ++
          (option_trailer ([(ascii "blksize", ascii "1024")] ++
            (ascii "windowsize", ascii "16") :: [(ascii "timeout", ascii "5")]) ++ 0 :: []))
        ([0, 1, 97, 0] ++ ascii "octet" ++ [0]).length =
      { blocksize := 1024, timeout_interval := 5, option_blocksize := true,
        option_timeout_interval := true,
        option_order := [options.BLOCKSIZE, options.TIMEOUT, options.NONE] } :=
  ⟨by decide, by decide, by decide, by decide, by decide, by decide, by decide, by decide,
    (unknown_option_skipped {} ([0, 1, 97, 0] ++ ascii "octet" ++ [0]) [] (ascii "windowsize")
      (ascii "16") [(ascii "blksize", ascii "1024")] [(ascii "timeout", ascii "5")]
      (by decide) (by decide) (by decide) (by decide) (by decide) (by decide) (by decide)
      (by decide)).trans (by decide)⟩

end Tftp

namespace Tftp

/-! ## Requests -/

/-- The fields `deserialize_packet_struct` reads from a request datagram
`opcode filename NUL mode NUL ...`. -/
theorem deserialize_packet_struct_rrq_wrq_fields (q : tftp_rrq_wrq_packet_t)
    (hi lo : Nat) (filename mode rest : List Nat)
    (hhi : hi < 256) (hlo : lo < 256)
    (hf : ∀ c ∈ filename, c ≠ 0) (hm : ∀ c ∈ mode, c ≠ 0) :
    (deserialize_packet_struct_rrq_wrq q
        ([hi, lo] ++ filename ++ [0] ++ mode ++ 0 :: rest)).opcode = hi * 256 + lo ∧
    (deserialize_packet_struct_rrq_wrq q
        ([hi, lo] ++ filename ++ [0] ++ mode ++ 0 :: rest)).filename = filename ∧
    (deserialize_packet_struct_rrq_wrq q
        ([hi, lo] ++ filename ++ [0] ++ mode ++ 0 :: rest)).mode = mode.map tolower := by
  have e1 : ([hi, lo] ++ filename ++ [0] ++ mode ++ 0 :: rest).drop 2 =
      filename ++ 0 :: (mode ++ 0 :: rest) := by simp
  have e2 : ([hi, lo] ++ filename ++ [0] ++ mode ++ 0 :: rest).drop
      (2 + filename.length + 1) = mode ++ 0 :: rest := by
    rw [show 2 + filename.length + 1 = 2 + (filename.length + 1) by omega, ← List.drop_drop,
      e1, ← List.drop_drop, List.drop_left]
    rfl
  unfold deserialize_packet_struct_rrq_wrq
  simp only [e1, read_cstr_append_nul _ _ hf, e2, read_cstr_append_nul _ _ hm]
  refine ⟨?_, trivial, trivial⟩
  simpa [charAt] using chars_to_short_of_bytes hi lo hhi hlo

/-- C29. A request datagram `opcode filename NUL mode NUL ...` is decoded with its mode in
lower case, and `check_packet_content` returns `PACKET_OK_CODE` exactly when the opcode is
1 or 2 and the mode is `octet` or `netascii` up to letter case; in every other case, any
other mode string and any other opcode, it returns code 4. -/
theorem mode_validation (q : tftp_rrq_wrq_packet_t) (hi lo : Nat)
    (filename mode rest : List Nat) (hhi : hi < 256) (hlo : lo < 256)
    (hf : ∀ c ∈ filename, c ≠ 0) (hm : ∀ c ∈ mode, c ≠ 0) :
    (deserialize_packet_struct_rrq_wrq q
        ([hi, lo] ++ filename ++ [0] ++ mode ++ 0 :: rest)).mode = mode.map tolower ∧
    ((hi * 256 + lo = 1 ∨ hi * 256 + lo = 2) →
      (mode.map tolower = ascii "octet" ∨ mode.map tolower = ascii "netascii") →
      (check_packet_content_rrq_wrq (deserialize_packet_struct_rrq_wrq q
        ([hi, lo] ++ filename ++ [0] ++ mode ++ 0 :: rest))).1 = PACKET_OK_CODE) ∧
    (¬ (mode.map tolower = ascii "octet" ∨ mode.map tolower = ascii "netascii") →
      (check_packet_content_rrq_wrq (deserialize_packet_struct_rrq_wrq q
        ([hi, lo] ++ filename ++ [0] ++ mode ++ 0 :: rest))).1 =
          ERR_CODE_ILLEGAL_OPERATION) ∧
    (¬ (hi * 256 + lo = 1 ∨ hi * 256 + lo = 2) →
      (check_packet_content_rrq_wrq (deserialize_packet_struct_rrq_wrq q
        ([hi, lo] ++ filename ++ [0] ++ mode ++ 0 :: rest))).1 =
          ERR_CODE_ILLEGAL_OPERATION) := by
  obtain ⟨h1, _, h3⟩ := deserialize_packet_struct_rrq_wrq_fields q hi lo filename mode rest
    hhi hlo hf hm
  refine ⟨h3, ?_, ?_, ?_⟩
  · intro ho hmo
    unfold check_packet_content_rrq_wrq
    rw [h1, h3]
    have n1 : ¬ (hi * 256 + lo ≠ RRQ_OPCODE ∧ hi * 256 + lo ≠ WRQ_OPCODE) := by
      unfold RRQ_OPCODE WRQ_OPCODE
      omega
    have n2 : ¬ (mode.map tolower ≠ ascii "octet" ∧ mode.map tolower ≠ ascii "netascii") := by
      rcases hmo with h | h
      · exact fun hh => hh.1 h
      · exact fun hh => hh.2 h
    rw [if_neg n1, if_neg n2]
  · intro hmo
    unfold check_packet_content_rrq_wrq
    rw [h1, h3]
    split
    · rfl
    · have n2 : mode.map tolower ≠ ascii "octet" ∧ mode.map tolower ≠ ascii "netascii" :=
        ⟨fun h => hmo (Or.inl h), fun h => hmo (Or.inr h)⟩
      rw [if_pos n2]
  · intro ho
    unfold check_packet_content_rrq_wrq
    rw [h1]
    have n1 : hi * 256 + lo ≠ RRQ_OPCODE ∧ hi * 256 + lo ≠ WRQ_OPCODE := by
      unfold RRQ_OPCODE WRQ_OPCODE
      omega
    rw [if_pos n1]

/-- C29 on requests for the file `a`: a read request with mode `NetAscii` is accepted with
mode `netascii`; with mode `mail` or an empty mode it is rejected with code 4, and so is
an ACK-numbered packet (opcode 4) with mode `octet`. -/
theorem mode_validation_witness :
    ((0 : Nat) < 256 ∧ (1 : Nat) < 256 ∧ (∀ c ∈ [97], c ≠ 0) ∧
      (∀ c ∈ [78, 101, 116, 65, 115, 99, 105, 105], c ≠ 0)) ∧
    (deserialize_packet_struct_rrq_wrq {}
        ([0, 1] ++ [97] ++ [0] ++ [78, 101, 116, 65, 115, 99, 105, 105] ++ 0 :: [])).mode =
      ascii "netascii" ∧
    (check_packet_content_rrq_wrq (deserialize_packet_struct_rrq_wrq {}
        ([0, 1] ++ [97] ++ [0] ++ [78, 101, 116, 65, 115, 99, 105, 105] ++ 0 :: []))).1 =
      PACKET_OK_CODE ∧
    (check_packet_content_rrq_wrq (deserialize_packet_struct_rrq_wrq {}
        ([0, 1] ++ [97] ++ [0] ++ ascii "mail" ++ 0 :: []))).1 = ERR_CODE_ILLEGAL_OPERATION ∧
    (check_packet_content_rrq_wrq (deserialize_packet_struct_rrq_wrq {}
        ([0, 1] ++ [97] ++ [0] ++ [] ++ 0 :: []))).1 = ERR_CODE_ILLEGAL_OPERATION ∧
    (check_packet_content_rrq_wrq (deserialize_packet_struct_rrq_wrq {}
        ([0, 4] ++ [97] ++ [0] ++ ascii "octet" ++ 0 :: []))).1 = ERR_CODE_ILLEGAL_OPERATION :=
  ⟨⟨by decide, by decide, by decide, by decide⟩,
    (mode_validation {} 0 1 [97] [78, 101, 116, 65, 115, 99, 105, 105] [] (by decide)
      (by decide) (by decide) (by decide)).1.trans (by decide),
    (mode_validation {} 0 1 [97] [78, 101, 116, 65, 115, 99, 105, 105] [] (by decide)
      (by decide) (by decide) (by decide)).2.1 (by decide) (by decide),
    (mode_validation {} 0 1 [97] (ascii "mail") [] (by decide) (by decide) (by decide)
      (by decide)).2.2.1 (by decide),
    (mode_validation {} 0 1 [97] [] [] (by decide) (by decide) (by decide)
      (by decide)).2.2.1 (by decide),
    (mode_validation {} 0 4 [97] (ascii "octet") [] (by decide) (by decide) (by decide)
      (by decide)).2.2.2 (by decide)⟩

end Tftp

namespace Tftp

/-! ## ERROR packets from the peer -/

/-- An ERROR packet handed over by `recvfrom_retransmit`. In the loops of `write_to_file`
and of `read_from_file` that wait for a DATA or an ACK packet, a datagram with opcode 5
from the peer, whatever bytes follow the opcode, ends the function with the failure
code: the connection is left as the datagram found it (nothing is sent) and the file is
left as it was. The same holds at any place of a trace: whenever the wait hands over a datagram
with opcode 5, the function returns the failure code with the connection as the wait
left it. -/
theorem peer_error_aborts (options : option_info_t) (mode : List Nat) (tid : Int)
    (beyond : List Nat) (fuel : Nat) (a src : Endpoint) (tail : List Nat)
    (rest : List NetEvent) (s : List Sent) (fw pkt : List Nat) (r : reader_t) (e c : Nat)
    (conn : Net)
    (hacc : ((src.port : Nat) : Int) = tid ∨ tid = TID_NOT_SET_YET) :
    write_to_file_loop options mode tid beyond (fuel + 1)
        ⟨a, .datagram src (0 :: 5 :: tail) :: rest, s⟩ fw pkt e =
      some (PROG_RET_CODE_ERR, ⟨src, rest, s⟩, fw) ∧
    read_from_file_loop options mode tid (fuel + 1)
        ⟨a, .datagram src (0 :: 5 :: tail) :: rest, s⟩ r pkt c =
      some (1, ⟨src, rest, s⟩) ∧
    (¬ (recvfrom_retransmit conn options.blocksize
        (List.replicate (options.blocksize + DATA_PACKET_OFFSET) 0) pkt tid).1 < 0 →
      chars_to_short
        (charAt (recvfrom_retransmit conn options.blocksize
          (List.replicate (options.blocksize + DATA_PACKET_OFFSET) 0) pkt tid).2.2 0)
        (charAt (recvfrom_retransmit conn options.blocksize
          (List.replicate (options.blocksize + DATA_PACKET_OFFSET) 0) pkt tid).2.2 1) =
        ERROR_OPCODE →
      write_to_file_loop options mode tid beyond (fuel + 1) conn fw pkt e =
        some (PROG_RET_CODE_ERR, (recvfrom_retransmit conn options.blocksize
          (List.replicate (options.blocksize + DATA_PACKET_OFFSET) 0) pkt tid).2.1, fw) ∧
      read_from_file_loop options mode tid (fuel + 1) conn r pkt c =
        some (1, (recvfrom_retransmit conn options.blocksize
          (List.replicate (options.blocksize + DATA_PACKET_OFFSET) 0) pkt tid).2.1)) := by
  have hgen : ∀ conn : Net,
      ¬ (recvfrom_retransmit conn options.blocksize
        (List.replicate (options.blocksize + DATA_PACKET_OFFSET) 0) pkt tid).1 < 0 →
      chars_to_short
        (charAt (recvfrom_retransmit conn options.blocksize
          (List.replicate (options.blocksize + DATA_PACKET_OFFSET) 0) pkt tid).2.2 0)
        (charAt (recvfrom_retransmit conn options.blocksize
          (List.replicate (options.blocksize + DATA_PACKET_OFFSET) 0) pkt tid).2.2 1) =
        ERROR_OPCODE →
      write_to_file_loop options mode tid beyond (fuel + 1) conn fw pkt e =
        some (PROG_RET_CODE_ERR, (recvfrom_retransmit conn options.blocksize
          (List.replicate (options.blocksize + DATA_PACKET_OFFSET) 0) pkt tid).2.1, fw) ∧
      read_from_file_loop options mode tid (fuel + 1) conn r pkt c =
        some (1, (recvfrom_retransmit conn options.blocksize
          (List.replicate (options.blocksize + DATA_PACKET_OFFSET) 0) pkt tid).2.1) := by
    intro conn h0 hop
    constructor
    · rw [write_to_file_loop]
      simp only [h0, if_false, hop, if_true]
    · rw [read_from_file_loop]
      simp only [h0, if_false, hop, if_true]
  have hrx := recvfrom_retransmit_datagram a src (0 :: 5 :: tail) rest s options.blocksize
    (List.replicate (options.blocksize + DATA_PACKET_OFFSET) 0) pkt tid hacc
  have h0 : ¬ (recvfrom_retransmit ⟨a, .datagram src (0 :: 5 :: tail) :: rest, s⟩
      options.blocksize (List.replicate (options.blocksize + DATA_PACKET_OFFSET) 0) pkt
      tid).1 < 0 := by
    rw [hrx]
    simp only
    omega
  have hop : chars_to_short
      (charAt (recvfrom_retransmit ⟨a, .datagram src (0 :: 5 :: tail) :: rest, s⟩
        options.blocksize (List.replicate (options.blocksize + DATA_PACKET_OFFSET) 0) pkt
        tid).2.2 0)
      (charAt (recvfrom_retransmit ⟨a, .datagram src (0 :: 5 :: tail) :: rest, s⟩
        options.blocksize (List.replicate (options.blocksize + DATA_PACKET_OFFSET) 0) pkt
        tid).2.2 1) = ERROR_OPCODE := by
    rw [hrx]
    simp only [store, List.take_succ_cons, List.cons_append, charAt, List.getD_cons_zero,
      List.getD_cons_succ]
    decide
  obtain ⟨g1, g2⟩ := hgen _ h0 hop
  rw [hrx] at g1 g2
  exact ⟨g1, g2, hgen conn⟩

/-- A concrete run: the receiver expects block 2 and the sender has sent block 2;
an ERROR packet (code 3, text `x`) arrives. Both end with the failure code, nothing is
sent and the file keeps its two bytes. -/
theorem peer_error_aborts_witness :
    (((5000 : Nat) : Int) = 5000 ∨ (5000 : Int) = TID_NOT_SET_YET) ∧
    write_to_file_loop { blocksize := 8 } MODE_OCTET 5000 [] (0 + 1)
        ⟨⟨1, 5000⟩, .datagram ⟨1, 5000⟩ (0 :: 5 :: [0, 3, 120, 0]) :: [], []⟩ [1, 2]
        [0, 4, 0, 1] 2 =
      some (PROG_RET_CODE_ERR, ⟨⟨1, 5000⟩, [], []⟩, [1, 2]) ∧
    read_from_file_loop { blocksize := 8 } MODE_OCTET 5000 (0 + 1)
        ⟨⟨1, 5000⟩, .datagram ⟨1, 5000⟩ (0 :: 5 :: [0, 3, 120, 0]) :: [], []⟩
        ⟨[9], [1, 2, 3, 4, 5, 6, 7, 8], false, false⟩ [0, 4, 0, 1] 2 =
      some (1, ⟨⟨1, 5000⟩, [], []⟩) :=
  ⟨Or.inl rfl,
    (peer_error_aborts { blocksize := 8 } MODE_OCTET 5000 [] 0 ⟨1, 5000⟩ ⟨1, 5000⟩
      [0, 3, 120, 0] [] [] [1, 2] [0, 4, 0, 1] ⟨[9], [1, 2, 3, 4, 5, 6, 7, 8], false, false⟩
      2 2 ⟨⟨1, 5000⟩, [], []⟩ (Or.inl rfl)).1,
    (peer_error_aborts { blocksize := 8 } MODE_OCTET 5000 [] 0 ⟨1, 5000⟩ ⟨1, 5000⟩
      [0, 3, 120, 0] [] [] [1, 2] [0, 4, 0, 1] ⟨[9], [1, 2, 3, 4, 5, 6, 7, 8], false, false⟩
      2 2 ⟨⟨1, 5000⟩, [], []⟩ (Or.inl rfl)).2.1⟩

end Tftp

namespace Tftp

/-! ## Datagrams from strangers -/

/-- Datagrams from other ports than the expected one inside a call of
`recvfrom_retransmit`: each is answered with the unknown-TID packet, sent to its source,
and the loop goes on with the datagrams behind them at the same index. -/
theorem recvfrom_retransmit_loop_strangers (B : Nat) (pkt : List Nat) (tid : Int)
    (rest : List NetEvent) (i : Nat) (htid : tid ≠ TID_NOT_SET_YET)
    (hi : i ≠ MAX_RETRANSMIT_ATTEMPTS) :
    ∀ (ds : List (Endpoint × List Nat)) (a : Endpoint) (s : List Sent) (buffer : List Nat),
      (∀ d ∈ ds, ((d.1.port : Nat) : Int) ≠ tid) →
      recvfrom_retransmit_loop B pkt tid
          (ds.map (fun d => NetEvent.datagram d.1 d.2) ++ rest) i a s buffer =
        recvfrom_retransmit_loop B pkt tid rest i (ds.foldl (fun _ d => d.1) a)
          (s ++ ds.map (fun d => ⟨d.1, unknown_tid_packet, 0⟩))
          (ds.foldl (fun b d => store b d.2 (B + 4)) buffer) := by
  intro ds
  induction ds with
  | nil => intro a s buffer _; simp
  | cons d ds ih =>
      intro a s buffer hds
      have hd : ((d.1.port : Nat) : Int) ≠ tid := hds d (by simp)
      have h1 : ¬ (((min d.2.length (B + 4) : Nat) : Int) = ERR_CODE_TIMEOUT) := by
        unfold ERR_CODE_TIMEOUT; omega
      have h2 : ¬ (((min d.2.length (B + 4) : Nat) : Int) < 0) := by omega
      simp only [List.map_cons, List.cons_append]
      rw [recvfrom_retransmit_loop]
      simp only [hi, if_false, recv_outcome, h1, h2]
      rw [if_pos ⟨hd, htid⟩, ih d.1 _ _ (fun x hx => hds x (by simp [hx]))]
      simp

/-- C22. In `recvfrom_retransmit` with an expected TID, datagrams from other ports are
each answered with exactly one ERROR packet with code 5, sent to the source of the
datagram; they are not returned, and the call goes on with what follows as if it had
just started: when the line is silent after them the pending packet is re-sent exactly
three times (to the address the socket then holds, the source of the last datagram) and
the call fails, and a datagram from the expected port that follows them is returned.
With `TID_NOT_SET_YET` a datagram from any source is returned at once. -/
theorem stranger_datagrams_answered (B : Nat) (pkt buffer : List Nat) (tid : Int)
    (ds : List (Endpoint × List Nat)) (rest : List NetEvent) (a src : Endpoint)
    (bytes : List Nat) (s : List Sent)
    (htid : tid ≠ TID_NOT_SET_YET) (hds : ∀ d ∈ ds, ((d.1.port : Nat) : Int) ≠ tid)
    (hsrc : ((src.port : Nat) : Int) = tid) :
    recvfrom_retransmit ⟨a, ds.map (fun d => NetEvent.datagram d.1 d.2) ++ rest, s⟩ B buffer
        pkt tid =
      recvfrom_retransmit
        ⟨ds.foldl (fun _ d => d.1) a, rest,
          s ++ ds.map (fun d => ⟨d.1, unknown_tid_packet, 0⟩)⟩ B
        (ds.foldl (fun b d => store b d.2 (B + 4)) buffer) pkt tid ∧
    recvfrom_retransmit ⟨a, ds.map (fun d => NetEvent.datagram d.1 d.2), s⟩ B buffer pkt tid =
      (-1, ⟨ds.foldl (fun _ d => d.1) a, [],
          s ++ ds.map (fun d => ⟨d.1, unknown_tid_packet, 0⟩) ++
            List.replicate MAX_RETRANSMIT_ATTEMPTS ⟨ds.foldl (fun _ d => d.1) a, pkt, 0⟩⟩,
        ds.foldl (fun b d => store b d.2 (B + 4)) buffer) ∧
    recvfrom_retransmit
        ⟨a, ds.map (fun d => NetEvent.datagram d.1 d.2) ++ NetEvent.datagram src bytes :: rest,
          s⟩ B buffer pkt tid =
      (((min bytes.length (B + 4) : Nat) : Int),
        ⟨src, rest, s ++ ds.map (fun d => ⟨d.1, unknown_tid_packet, 0⟩)⟩,
        store (ds.foldl (fun b d => store b d.2 (B + 4)) buffer) bytes (B + 4)) ∧
    ((deserialize_packet_struct_error unknown_tid_packet).opcode = ERROR_OPCODE ∧
      (deserialize_packet_struct_error unknown_tid_packet).error_code = 5) ∧
    recvfrom_retransmit ⟨a, NetEvent.datagram src bytes :: rest, s⟩ B buffer pkt
        TID_NOT_SET_YET =
      (((min bytes.length (B + 4) : Nat) : Int), ⟨src, rest, s⟩,
        store buffer bytes (B + 4)) := by
  have hi : (0 : Nat) ≠ MAX_RETRANSMIT_ATTEMPTS := by decide
  have hloop := recvfrom_retransmit_loop_strangers B pkt tid
  refine ⟨?_, ?_, ?_, by decide, ?_⟩
  · unfold recvfrom_retransmit
    exact hloop rest 0 htid hi ds a s buffer hds
  · unfold recvfrom_retransmit
    have := hloop [] 0 htid hi ds a s buffer hds
    simp only [List.append_nil] at this
    rw [this]
    rfl
  · have := hloop (NetEvent.datagram src bytes :: rest) 0 htid hi ds a s buffer hds
    unfold recvfrom_retransmit
    simp only at this ⊢
    rw [this]
    exact recvfrom_retransmit_datagram _ src bytes rest _ B _ pkt tid (Or.inl hsrc)
  · exact recvfrom_retransmit_datagram a src bytes rest s B buffer pkt TID_NOT_SET_YET
      (Or.inr rfl)

/-- C22 on a concrete call: the peer is 1:5000, the pending packet ACK(1); datagrams
arrive from 2:6000 and 3:7000, then the line is silent. Each stranger gets the
unknown-TID packet, ACK(1) is re-sent three times, and the call fails. -/
theorem stranger_datagrams_answered_witness :
    ((5000 : Int) ≠ TID_NOT_SET_YET ∧
      (∀ d ∈ [((⟨2, 6000⟩ : Endpoint), [0, 3, 0, 7]), (⟨3, 7000⟩, [0, 4, 0, 1])],
        ((d.1.port : Nat) : Int) ≠ 5000) ∧
      (((⟨1, 5000⟩ : Endpoint).port : Nat) : Int) = 5000) ∧
    (recvfrom_retransmit
        ⟨⟨1, 5000⟩, [.datagram ⟨2, 6000⟩ [0, 3, 0, 7], .datagram ⟨3, 7000⟩ [0, 4, 0, 1]], []⟩
        8 (List.replicate 12 0) [0, 4, 0, 1] 5000).1 = -1 ∧
    (recvfrom_retransmit
        ⟨⟨1, 5000⟩, [.datagram ⟨2, 6000⟩ [0, 3, 0, 7], .datagram ⟨3, 7000⟩ [0, 4, 0, 1]], []⟩
        8 (List.replicate 12 0) [0, 4, 0, 1] 5000).2.1.sent =
      [⟨⟨2, 6000⟩, unknown_tid_packet, 0⟩, ⟨⟨3, 7000⟩, unknown_tid_packet, 0⟩,
        ⟨⟨3, 7000⟩, [0, 4, 0, 1], 0⟩, ⟨⟨3, 7000⟩, [0, 4, 0, 1], 0⟩,
        ⟨⟨3, 7000⟩, [0, 4, 0, 1], 0⟩] :=
  ⟨⟨by decide, by decide, by decide⟩,
    (congrArg (fun x => x.1) (stranger_datagrams_answered 8 [0, 4, 0, 1] (List.replicate 12 0)
      5000 [(⟨2, 6000⟩, [0, 3, 0, 7]), (⟨3, 7000⟩, [0, 4, 0, 1])] [] ⟨1, 5000⟩ ⟨1, 5000⟩ []
      [] (by decide) (by decide) (by decide)).2.1),
    (congrArg (fun x => x.2.1.sent) (stranger_datagrams_answered 8 [0, 4, 0, 1]
      (List.replicate 12 0) 5000 [(⟨2, 6000⟩, [0, 3, 0, 7]), (⟨3, 7000⟩, [0, 4, 0, 1])] []
      ⟨1, 5000⟩ ⟨1, 5000⟩ [] [] (by decide) (by decide) (by decide)).2.1)⟩

end Tftp

namespace Tftp

/-! ## The waits of the timed receiver -/

/-- C23. Three deadlines pass in a call of `recvfrom_retransmit` and the pending packet is
re-sent after each; then a datagram arrives. The call has returned -1 right after the
third re-send: the datagram is still in the socket, unread, whatever it is and whoever
sent it. With a silent line the call makes exactly three re-sends and returns -1. A
datagram from the expected port (or from anyone while no TID is set) that arrives after
the first or the second re-send is returned. -/
theorem third_resend_not_awaited (B : Nat) (pkt buffer : List Nat) (tid : Int)
    (a src : Endpoint) (bytes : List Nat) (rest : List NetEvent) (s : List Sent) :
    recvfrom_retransmit
        ⟨a, [.timeout, .timeout, .timeout, .datagram src bytes] ++ rest, s⟩ B buffer pkt tid =
      (-1, ⟨a, .datagram src bytes :: rest,
        s ++ [⟨a, pkt, 0⟩, ⟨a, pkt, 0⟩, ⟨a, pkt, 0⟩]⟩, buffer) ∧
    recvfrom_retransmit ⟨a, [], s⟩ B buffer pkt tid =
      (-1, ⟨a, [], s ++ [⟨a, pkt, 0⟩, ⟨a, pkt, 0⟩, ⟨a, pkt, 0⟩]⟩, buffer) ∧
    (((src.port : Nat) : Int) = tid ∨ tid = TID_NOT_SET_YET →
      recvfrom_retransmit ⟨a, [.timeout, .datagram src bytes] ++ rest, s⟩ B buffer pkt tid =
        (((min bytes.length (B + 4) : Nat) : Int), ⟨src, rest, s ++ [⟨a, pkt, 0⟩]⟩,
          store buffer bytes (B + 4)) ∧
      recvfrom_retransmit ⟨a, [.timeout, .timeout, .datagram src bytes] ++ rest, s⟩ B buffer
          pkt tid =
        (((min bytes.length (B + 4) : Nat) : Int),
          ⟨src, rest, s ++ [⟨a, pkt, 0⟩, ⟨a, pkt, 0⟩]⟩, store buffer bytes (B + 4))) := by
  have step : ∀ (events : List NetEvent) (i : Nat) (s2 : List Sent),
      i ≠ MAX_RETRANSMIT_ATTEMPTS →
      recvfrom_retransmit_loop B pkt tid (.timeout :: events) i a s2 buffer =
        recvfrom_retransmit_loop B pkt tid events (i + 1) a (s2 ++ [⟨a, pkt, 0⟩]) buffer := by
    intro events i s2 hi
    rw [recvfrom_retransmit_loop]
    simp [hi, recv_outcome]
  have h0 : (0 : Nat) ≠ MAX_RETRANSMIT_ATTEMPTS := by decide
  have h1 : (0 + 1 : Nat) ≠ MAX_RETRANSMIT_ATTEMPTS := by decide
  have h2 : (0 + 1 + 1 : Nat) ≠ MAX_RETRANSMIT_ATTEMPTS := by decide
  refine ⟨?_, ?_, ?_⟩
  · unfold recvfrom_retransmit
    simp only [List.cons_append, List.nil_append]
    rw [step _ 0 _ h0, step _ _ _ h1, step _ _ _ h2, recvfrom_retransmit_loop]
    simp [MAX_RETRANSMIT_ATTEMPTS]
  · simp [recvfrom_retransmit, recvfrom_retransmit_loop, MAX_RETRANSMIT_ATTEMPTS,
      List.replicate]
  · intro hacc
    have hd : ∀ (i : Nat) (s2 : List Sent), i ≠ MAX_RETRANSMIT_ATTEMPTS →
        recvfrom_retransmit_loop B pkt tid (.datagram src bytes :: rest) i a s2 buffer =
          (((min bytes.length (B + 4) : Nat) : Int), ⟨src, rest, s2⟩,
            store buffer bytes (B + 4)) := by
      intro i s2 hi
      have e1 : ¬ (((min bytes.length (B + 4) : Nat) : Int) = ERR_CODE_TIMEOUT) := by
        unfold ERR_CODE_TIMEOUT; omega
      have e2 : ¬ (((min bytes.length (B + 4) : Nat) : Int) < 0) := by omega
      have e3 : ¬ (((src.port : Nat) : Int) ≠ tid ∧ tid ≠ TID_NOT_SET_YET) := by
        rcases hacc with h | h
        · exact fun hh => hh.1 h
        · exact fun hh => hh.2 h
      rw [recvfrom_retransmit_loop]
      simp only [hi, if_false, recv_outcome, e1, e2, e3]
    constructor
    · unfold recvfrom_retransmit
      simp only [List.cons_append, List.nil_append]
      rw [step _ 0 _ h0, hd _ _ h1]
    · unfold recvfrom_retransmit
      simp only [List.cons_append, List.nil_append]
      rw [step _ 0 _ h0, step _ _ _ h1, hd _ _ h2]
      simp

end Tftp

namespace Tftp

/-! ## The wait after the last block -/

/-- The loop that ends `write_to_file`, with `k` rounds left, when `n` datagrams from the
peer are followed by a silent line: each of the first `k` datagrams is answered with one
copy of the last ACK, the others stay in the socket. -/
theorem final_ack_loop_datagrams (B : Nat) (pkt : List Nat) (peer : Endpoint) (D : List Nat)
    (tail : List NetEvent) (htail : tail = [] ∨ ∃ r, tail = NetEvent.timeout :: r) :
    ∀ (k n i : Nat) (s : List Sent) (buffer : List Nat),
      (final_ack_loop B pkt k i
          ⟨peer, List.replicate n (NetEvent.datagram peer D) ++ tail, s⟩ buffer) =
        ⟨peer,
          if n < k then tail.tail
          else List.replicate (n - k) (NetEvent.datagram peer D) ++ tail,
          s ++ (List.range (min n k)).map (fun j => ⟨peer, pkt, i + j⟩)⟩ := by
  intro k
  induction k with
  | zero => intro n i s buffer; simp [final_ack_loop]
  | succ k ih =>
      intro n i s buffer
      cases n with
      | zero =>
          simp only [List.replicate_zero, List.nil_append, Nat.zero_lt_succ, if_true,
            Nat.zero_min, List.range_zero, List.map_nil, List.append_nil]
          exact final_ack_loop_quiet B pkt buffer k i peer s tail htail
      | succ n =>
          have h1 : ¬ (((min D.length (B + 4) : Nat) : Int) = ERR_CODE_TIMEOUT) := by
            unfold ERR_CODE_TIMEOUT; omega
          rw [final_ack_loop]
          simp only [List.replicate_succ, List.cons_append, recvfrom_timeout, recv_outcome, h1,
            if_false, sendto]
          rw [ih n (i + 1) _ _]
          have hmin : min (n + 1) (k + 1) = min n k + 1 := by omega
          rw [hmin, List.range_succ_eq_map]
          simp only [Nat.add_lt_add_iff_right, Nat.add_sub_add_right, List.map_cons,
            List.map_map, Nat.add_zero, List.append_assoc, List.singleton_append]
          congr 2
          congr 1
          apply List.map_congr_left
          intro j _
          simp only [Function.comp]
          congr 1
          omega

end Tftp

namespace Tftp

/-- The calls of `sendto` after the last block. The last DATA packet of a transfer (a
block shorter than the block size, octet mode) is received by `write_to_file`,
acknowledged, and then retransmitted `n` times by the peer before the line goes silent.
The transfer ends with success and the file has the block, and after the acknowledgement
`sendto` is called for exactly `min n 3` further copies of it, each addressed to the
peer: one call for each of the first three retransmissions, none with no traffic. A
fourth and later retransmission is left unread in the socket. The flags of the calls,
on which it depends whether a copy is sent, are not fixed here. -/
theorem final_ack_repeated (options : option_info_t) (mode : List Nat) (tid : Int)
    (beyond : List Nat) (a peer : Endpoint) (payload : List Nat) (n : Nat)
    (tail : List NetEvent) (s : List Sent) (fw pkt : List Nat) (e : Nat)
    (hmode : mode ≠ MODE_NETASCII)
    (hacc : ((peer.port : Nat) : Int) = tid ∨ tid = TID_NOT_SET_YET)
    (he1 : 1 ≤ e) (he2 : e < 65536) (hlen : payload.length < options.blocksize)
    (htail : tail = [] ∨ ∃ r, tail = NetEvent.timeout :: r) :
    ∃ copies : List Sent,
      write_to_file
          ⟨a, .datagram peer (serialize_packet_struct_data
              { block_number := e, data := payload } payload.length) ::
            (List.replicate n (.datagram peer (serialize_packet_struct_data
              { block_number := e, data := payload } payload.length)) ++ tail), s⟩
          options fw pkt mode tid e beyond =
        some (PROG_RET_CODE_OK,
          ⟨peer,
            if n < 3 then tail.tail
            else List.replicate (n - 3) (.datagram peer (serialize_packet_struct_data
              { block_number := e, data := payload } payload.length)) ++ tail,
            s ++ [⟨peer, serialize_packet_struct_ack { block_number := e }, 0⟩] ++ copies⟩,
          fw ++ payload) ∧
      copies.length = min n 3 ∧
      ∀ x ∈ copies, x.dest = peer ∧
        x.bytes = serialize_packet_struct_ack { block_number := e } := by
  refine ⟨(List.range (min n 3)).map
    (fun j => ⟨peer, serialize_packet_struct_ack { block_number := e }, 0 + j⟩), ?_, ?_, ?_⟩
  · unfold write_to_file
    rw [write_to_file_loop_octet options mode tid beyond _ a peer payload _ s fw pkt e hmode
      hacc he1 he2 (Nat.le_of_lt hlen), if_pos hlen,
      final_ack_loop_datagrams options.blocksize _ peer _ tail htail]
    rfl
  · simp
  · intro x hx
    rw [List.mem_map] at hx
    obtain ⟨j, _, rfl⟩ := hx
    exact ⟨rfl, rfl⟩

theorem final_ack_repeated_witness :
    ∃ copies : List Sent,
      write_to_file
          ⟨⟨1, 69⟩, .datagram ⟨1, 5000⟩ (serialize_packet_struct_data
              { block_number := 1, data := [9] } [9].length) ::
            (List.replicate 2 (.datagram ⟨1, 5000⟩ (serialize_packet_struct_data
              { block_number := 1, data := [9] } [9].length)) ++ []), []⟩
          { blocksize := 8 } [] [0, 4, 0, 0] MODE_OCTET 5000 1 [] =
        some (PROG_RET_CODE_OK,
          ⟨⟨1, 5000⟩,
            if 2 < 3 then ([] : List NetEvent).tail
            else List.replicate (2 - 3) (.datagram ⟨1, 5000⟩ (serialize_packet_struct_data
              { block_number := 1, data := [9] } [9].length)) ++ [],
            [] ++ [⟨⟨1, 5000⟩, serialize_packet_struct_ack { block_number := 1 }, 0⟩] ++
              copies⟩,
          [] ++ [9]) ∧
      copies.length = min 2 3 ∧
      ∀ x ∈ copies, x.dest = ⟨1, 5000⟩ ∧
        x.bytes = serialize_packet_struct_ack { block_number := 1 } :=
  final_ack_repeated { blocksize := 8 } MODE_OCTET 5000 [] ⟨1, 69⟩ ⟨1, 5000⟩ [9] 2 [] []
    [] [0, 4, 0, 0] 1 (by decide) (Or.inl (by decide)) (by decide) (by decide) (by decide)
    (Or.inl rfl)

/-- Four retransmissions of the last DATA packet: after its acknowledgement `sendto` is
called for only three more copies of the ACK, and the fourth retransmission stays in the
socket. -/
theorem fourth_retransmission_unanswered :
    ¬ ∃ copies : List Sent,
      copies.length = 4 ∧
      (write_to_file
          ⟨⟨1, 69⟩, List.replicate 5 (.datagram ⟨1, 5000⟩ [0, 3, 0, 1, 9]), []⟩
          { blocksize := 8 } [] [0, 4, 0, 0] MODE_OCTET 5000 1 []).map (fun r => r.2.1.sent) =
        some ([⟨⟨1, 5000⟩, [0, 4, 0, 1], 0⟩] ++ copies) := by
  have h : (write_to_file
      ⟨⟨1, 69⟩, List.replicate 5 (.datagram ⟨1, 5000⟩ [0, 3, 0, 1, 9]), []⟩
      { blocksize := 8 } [] [0, 4, 0, 0] MODE_OCTET 5000 1 []) =
      some (PROG_RET_CODE_OK, ⟨⟨1, 5000⟩, [.datagram ⟨1, 5000⟩ [0, 3, 0, 1, 9]],
        [⟨⟨1, 5000⟩, [0, 4, 0, 1], 0⟩, ⟨⟨1, 5000⟩, [0, 4, 0, 1], 0⟩,
          ⟨⟨1, 5000⟩, [0, 4, 0, 1], 1⟩, ⟨⟨1, 5000⟩, [0, 4, 0, 1], 2⟩]⟩, [9]) := by
    decide
  rintro ⟨copies, hl, hc⟩
  rw [h] at hc
  simp only [Option.map_some', Option.some.injEq, List.singleton_append,
    List.cons.injEq, true_and] at hc
  rw [← hc] at hl
  exact absurd hl (by decide)

end Tftp

namespace Tftp

/-! ## The deadlines of the timed receiver -/

end Tftp

namespace Tftp

/-! ## The main socket of the server -/

end Tftp

namespace Tftp

/-! ## Datagrams that end too early -/

/-- A datagram that is shorter than a zeroed buffer of `cap` bytes is followed there by a
NUL byte. -/
theorem store_zeroes_short (bytes : List Nat) (cap : Nat) (h : bytes.length < cap) :
    store (List.replicate cap 0) bytes cap =
      bytes ++ 0 :: List.replicate (cap - bytes.length - 1) 0 := by
  rw [store_zeroes bytes cap (Nat.le_of_lt h)]
  obtain ⟨k, hk⟩ : ∃ k, cap - bytes.length = k + 1 := ⟨cap - bytes.length - 1, by omega⟩
  rw [hk, List.replicate_succ]
  simp

/-- Datagrams shorter than their buffer. For a datagram received into a zeroed buffer that
is longer than the datagram, a string without its closing NUL is read up to the last byte
of the datagram:
a request whose mode is not closed is decoded with that mode, a request whose filename is
not closed is decoded with that filename and an empty mode, an ERROR packet whose message
is not closed is decoded with that message. A datagram of two bytes is decoded as DATA,
ACK or ERROR with the number 0 in the second field. -/
theorem unterminated_packets_decoded (cap hi lo c2 c3 : Nat) (filename mode msg : List Nat)
    (hhi : hi < 256) (hlo : lo < 256)
    (hf : ∀ c ∈ filename, c ≠ 0) (hm : ∀ c ∈ mode, c ≠ 0) (hmsg : ∀ c ∈ msg, c ≠ 0)
    (hcap1 : ([hi, lo] ++ filename ++ [0] ++ mode).length < cap)
    (hcap2 : ([hi, lo, c2, c3] ++ msg).length < cap) :
    (deserialize_packet_struct_rrq_wrq {}
        (store (List.replicate cap 0) ([hi, lo] ++ filename ++ [0] ++ mode) cap)).opcode =
      hi * 256 + lo ∧
    (deserialize_packet_struct_rrq_wrq {}
        (store (List.replicate cap 0) ([hi, lo] ++ filename ++ [0] ++ mode) cap)).filename =
      filename ∧
    (deserialize_packet_struct_rrq_wrq {}
        (store (List.replicate cap 0) ([hi, lo] ++ filename ++ [0] ++ mode) cap)).mode =
      mode.map tolower ∧
    (deserialize_packet_struct_rrq_wrq {}
        (store (List.replicate cap 0) ([hi, lo] ++ filename) cap)).filename = filename ∧
    (deserialize_packet_struct_rrq_wrq {}
        (store (List.replicate cap 0) ([hi, lo] ++ filename) cap)).mode = [] ∧
    (deserialize_packet_struct_error
        (store (List.replicate cap 0) ([hi, lo, c2, c3] ++ msg) cap)).error_message = msg ∧
    deserialize_packet_struct_ack (store (List.replicate cap 0) [hi, lo] cap) =
      { opcode := hi * 256 + lo, block_number := 0 } ∧
    deserialize_packet_struct_data (store (List.replicate cap 0) [hi, lo] cap) =
      { opcode := hi * 256 + lo, block_number := 0, data := List.replicate (cap - 4) 0 } ∧
    deserialize_packet_struct_error (store (List.replicate cap 0) [hi, lo] cap) =
      { opcode := hi * 256 + lo, error_code := 0, error_message := [] } := by
  have hop := chars_to_short_of_bytes hi lo hhi hlo
  have hz : chars_to_short 0 0 = 0 := by decide
  have l1 : ([hi, lo] ++ filename ++ [0] ++ mode).length = filename.length + mode.length + 3 := by
    simp; omega
  have l2 : ([hi, lo] ++ filename).length = filename.length + 2 := by simp
  have l3 : ([hi, lo, c2, c3] ++ msg).length = msg.length + 4 := by simp
  have hcapf : ([hi, lo] ++ filename).length < cap := by omega
  have h2 : ([hi, lo] : List Nat).length < cap := by simp at hcap2 ⊢; omega
  have f1 := deserialize_packet_struct_rrq_wrq_fields {} hi lo filename mode
    (List.replicate (cap - ([hi, lo] ++ filename ++ [0] ++ mode).length - 1) 0) hhi hlo hf hm
  rw [store_zeroes_short _ cap hcap1, store_zeroes_short _ cap hcapf,
    store_zeroes_short _ cap hcap2, store_zeroes_short _ cap h2]
  refine ⟨f1.1, f1.2.1, f1.2.2, ?_, ?_, ?_, ?_, ?_, ?_⟩
  · have e : (([hi, lo] ++ filename ++
        0 :: List.replicate (cap - ([hi, lo] ++ filename).length - 1) 0)).drop 2 =
        filename ++ 0 :: List.replicate (cap - ([hi, lo] ++ filename).length - 1) 0 := by
      simp
    simp only [deserialize_packet_struct_rrq_wrq, e, read_cstr_append_nul _ _ hf]
  · have e : (([hi, lo] ++ filename ++
        0 :: List.replicate (cap - ([hi, lo] ++ filename).length - 1) 0)).drop 2 =
        filename ++ 0 :: List.replicate (cap - ([hi, lo] ++ filename).length - 1) 0 := by
      simp
    have e2 : (([hi, lo] ++ filename ++
        0 :: List.replicate (cap - ([hi, lo] ++ filename).length - 1) 0)).drop
          (2 + filename.length + 1) =
        List.replicate (cap - ([hi, lo] ++ filename).length - 1) 0 := by
      have : 2 + filename.length + 1 = ([hi, lo] ++ filename ++ [0]).length := by
        simp; omega
      rw [this, ← List.drop_left ([hi, lo] ++ filename ++ [0])
        (List.replicate (cap - ([hi, lo] ++ filename).length - 1) 0)]
      simp
    have e3 : ∀ k, read_cstr (List.replicate k 0) = [] := by
      intro k
      cases k <;> simp [List.replicate, read_cstr]
    simp only [deserialize_packet_struct_rrq_wrq, e, read_cstr_append_nul _ _ hf, e2, e3,
      List.map_nil]
  · have e : (([hi, lo, c2, c3] ++ msg ++
        0 :: List.replicate (cap - ([hi, lo, c2, c3] ++ msg).length - 1) 0)).drop 4 =
        msg ++ 0 :: List.replicate (cap - ([hi, lo, c2, c3] ++ msg).length - 1) 0 := by
      simp
    simp only [deserialize_packet_struct_error, e, read_cstr_append_nul _ _ hmsg]
  · obtain ⟨k, rfl⟩ : ∃ k, cap = k + 5 := ⟨cap - 5, by omega⟩
    have hk : k + 5 - [hi, lo].length - 1 = k + 1 + 1 := by simp
    rw [hk]
    simp [deserialize_packet_struct_ack, charAt, hop, hz, List.replicate_succ]
  · obtain ⟨k, rfl⟩ : ∃ k, cap = k + 5 := ⟨cap - 5, by omega⟩
    have hk : k + 5 - [hi, lo].length - 1 = k + 1 + 1 := by simp
    rw [hk]
    simp [deserialize_packet_struct_data, charAt, hop, hz, List.replicate_succ,
      DATA_PACKET_OFFSET]
  · obtain ⟨k, rfl⟩ : ∃ k, cap = k + 5 := ⟨cap - 5, by omega⟩
    have hk : k + 5 - [hi, lo].length - 1 = k + 1 + 1 := by simp
    rw [hk]
    simp [deserialize_packet_struct_error, charAt, hop, hz, List.replicate_succ, read_cstr]

end Tftp

namespace Tftp

theorem unterminated_packets_decoded_witness :
    (deserialize_packet_struct_rrq_wrq {}
        (store (List.replicate 516 0) ([0, 1] ++ [97] ++ [0] ++ ascii "octet") 516)).opcode =
      0 * 256 + 1 ∧
    (deserialize_packet_struct_rrq_wrq {}
        (store (List.replicate 516 0) ([0, 1] ++ [97] ++ [0] ++ ascii "octet") 516)).filename =
      [97] ∧
    (deserialize_packet_struct_rrq_wrq {}
        (store (List.replicate 516 0) ([0, 1] ++ [97] ++ [0] ++ ascii "octet") 516)).mode =
      (ascii "octet").map tolower ∧
    (deserialize_packet_struct_rrq_wrq {}
        (store (List.replicate 516 0) ([0, 1] ++ [97]) 516)).filename = [97] ∧
    (deserialize_packet_struct_rrq_wrq {}
        (store (List.replicate 516 0) ([0, 1] ++ [97]) 516)).mode = [] ∧
    (deserialize_packet_struct_error
        (store (List.replicate 516 0) ([0, 1, 0, 2] ++ ascii "no")
          516)).error_message = ascii "no" ∧
    deserialize_packet_struct_ack (store (List.replicate 516 0) [0, 1] 516) =
      { opcode := 0 * 256 + 1, block_number := 0 } ∧
    deserialize_packet_struct_data (store (List.replicate 516 0) [0, 1] 516) =
      { opcode := 0 * 256 + 1, block_number := 0, data := List.replicate (516 - 4) 0 } ∧
    deserialize_packet_struct_error (store (List.replicate 516 0) [0, 1] 516) =
      { opcode := 0 * 256 + 1, error_code := 0, error_message := [] } :=
  unterminated_packets_decoded 516 0 1 0 2 [97] (ascii "octet") (ascii "no") (by decide)
    (by decide) (by decide) (by decide) (by decide) (by decide) (by decide)

end Tftp

namespace Tftp

/-! ## Sending in NETASCII mode -/

theorem to_netascii_append (a b : List Nat) :
    to_netascii (a ++ b) = to_netascii a ++ to_netascii b := by
  induction a with
  | nil => rfl
  | cons c a ih =>
      by_cases h1 : c = LF_VALUE
      · simp [to_netascii, h1, ih]
      · by_cases h2 : c = CR_VALUE
        · have h3 : ¬ CR_VALUE = LF_VALUE := by decide
          simp [to_netascii, h2, h3, ih]
        · simp [to_netascii, h1, h2, ih]

/-- The loop that fills a block does nothing on a block that is already full. -/
theorem load_block_loop_full (B : Nat) (mode : List Nat) (file db : List Nat) (lf nul : Bool)
    (h : B ≤ db.length) :
    load_block_loop B mode file db lf nul = ⟨file, db, lf, nul⟩ := by
  cases file with
  | nil => simp [load_block_loop]
  | cons c file =>
      rw [load_block_loop]
      simp [Nat.not_lt.mpr h]

/-- The loop that fills a block in NETASCII mode: the block, the carried byte and the
translation of the rest of the file are together the bytes already in the block and the
translation of the file; the block stays within `B` bytes, and when it is shorter nothing
is left. -/
theorem load_block_loop_netascii (B : Nat) :
    ∀ (file db : List Nat), db.length ≤ B →
      (load_block_loop B MODE_NETASCII file db false false).data_block ++
          carried_byte (load_block_loop B MODE_NETASCII file db false false) ++
          to_netascii (load_block_loop B MODE_NETASCII file db false false).file =
        db ++ to_netascii file ∧
      (load_block_loop B MODE_NETASCII file db false false).data_block.length ≤ B ∧
      ((load_block_loop B MODE_NETASCII file db false false).data_block.length < B →
        carried_byte (load_block_loop B MODE_NETASCII file db false false) ++
          to_netascii (load_block_loop B MODE_NETASCII file db false false).file = []) ∧
      ¬ ((load_block_loop B MODE_NETASCII file db false false).lf_on_new = true ∧
        (load_block_loop B MODE_NETASCII file db false false).null_on_new = true) := by
  intro file
  induction file with
  | nil =>
      intro db hdb
      simp [load_block_loop, carried_byte, to_netascii, hdb]
  | cons c file ih =>
      intro db hdb
      rw [load_block_loop]
      by_cases hlt : db.length < B
      · simp only [hlt, if_true, and_true]
        by_cases hlf : c = LF_VALUE
        · simp only [hlf, if_true]
          by_cases hfull : (db ++ [CR_VALUE]).length = B
          · simp only [hfull, if_true]
            rw [load_block_loop_full B _ file _ _ _ (by omega)]
            simp [carried_byte, to_netascii, hfull]
          · simp only [hfull, if_false]
            have h2 : (db ++ [CR_VALUE] ++ [LF_VALUE]).length ≤ B := by
              simp at hfull ⊢; omega
            have := ih _ h2
            simpa [to_netascii] using this
        · have hne : LF_VALUE ≠ CR_VALUE := by decide
          simp only [hlf, if_false]
          by_cases hcr : c = CR_VALUE
          · simp only [hcr, if_true]
            by_cases hfull : (db ++ [CR_VALUE]).length = B
            · simp only [hfull, if_true]
              rw [load_block_loop_full B _ file _ _ _ (by omega)]
              simp [carried_byte, to_netascii, hfull, hne.symm]
            · simp only [hfull, if_false]
              have h2 : (db ++ [CR_VALUE] ++ [0]).length ≤ B := by
                simp at hfull ⊢; omega
              have := ih _ h2
              simpa [to_netascii, hne.symm] using this
          · simp only [hcr, if_false]
            have h2 : (db ++ [c]).length ≤ B := by simp; omega
            have := ih _ h2
            simpa [to_netascii, hlf, hcr] using this
      · simp only [hlt, if_false]
        simp [carried_byte]
        omega

end Tftp

namespace Tftp

theorem take_drop_of_append (B : Nat) (D X S : List Nat) (h : D ++ X = S)
    (hlen : D.length ≤ B) (hshort : D.length < B → X = []) :
    D = S.take B ∧ X = S.drop B := by
  subst h
  by_cases hlt : D.length < B
  · rw [hshort hlt]
    simp [List.take_of_length_le hlen, List.drop_of_length_le hlen]
  · have he : D.length = B := by omega
    subst he
    simp

/-- The part of `read_from_file` that fills a block, in NETASCII mode: the block is the
first `B` bytes of what is still to be sent (the carried byte, then the translation of
the rest of the file), and the other bytes are still to be sent afterwards. -/
theorem load_block_netascii (B : Nat) (hB : 1 ≤ B) (r : reader_t)
    (hv : ¬ (r.lf_on_new = true ∧ r.null_on_new = true)) :
    (load_block B MODE_NETASCII r).data_block =
      (carried_byte r ++ to_netascii r.file).take B ∧
    carried_byte (load_block B MODE_NETASCII r) ++
        to_netascii (load_block B MODE_NETASCII r).file =
      (carried_byte r ++ to_netascii r.file).drop B ∧
    ¬ ((load_block B MODE_NETASCII r).lf_on_new = true ∧
      (load_block B MODE_NETASCII r).null_on_new = true) := by
  have hl : load_block B MODE_NETASCII r =
      load_block_loop B MODE_NETASCII r.file (carried_byte r) false false := by
    obtain ⟨file, db, lf, nul⟩ := r
    cases lf <;> cases nul <;> simp_all [load_block, carried_byte]
  have hc : (carried_byte r).length ≤ B := by
    unfold carried_byte
    split
    · simpa using hB
    · split
      · simpa using hB
      · simp
  rw [hl]
  obtain ⟨h1, h2, h3, h4⟩ := load_block_loop_netascii B r.file (carried_byte r) hc
  rw [List.append_assoc] at h1
  obtain ⟨t1, t2⟩ := take_drop_of_append B _ _ _ h1 h2 h3
  exact ⟨t1, t2, h4⟩

/-- NETASCII sending from any block `c` on, once DATA(c) has been sent with the first `B`
bytes of the stream `T`: every acknowledgement releases the next `B` bytes of the stream
until a block shorter than the block size. -/
theorem read_from_file_loop_netascii (options : option_info_t) (tid : Int)
    (src : Endpoint) (rest : List NetEvent)
    (hacc : ((src.port : Nat) : Int) = tid ∨ tid = TID_NOT_SET_YET)
    (hB : 1 ≤ options.blocksize) :
    ∀ (m : Nat) (T : List Nat) (r : reader_t) (c fuel : Nat) (a : Endpoint) (s : List Sent)
      (pkt : List Nat),
      r.data_block = T.take options.blocksize →
      carried_byte r ++ to_netascii r.file = T.drop options.blocksize →
      ¬ (r.lf_on_new = true ∧ r.null_on_new = true) →
      T.length / options.blocksize = m → c + m < 65536 → m + 1 ≤ fuel →
      read_from_file_loop options MODE_NETASCII tid fuel
          ⟨a, ack_datagrams src c (m + 1) ++ rest, s⟩ r pkt c =
        some (0, ⟨src, rest,
          s ++ data_sends src options.blocksize (T.drop options.blocksize) (c + 1) m⟩) := by
  intro m
  induction m with
  | zero =>
      intro T r c fuel a s pkt hdb hst hv hm hc hfuel
      obtain ⟨f, rfl⟩ : ∃ f, fuel = f + 1 := ⟨fuel - 1, by omega⟩
      have hlen : T.length < options.blocksize := by
        exact (Nat.div_eq_zero_iff (by omega)).mp hm
      simp only [ack_datagrams, Nat.zero_add, List.range'_one, List.map_cons, List.map_nil,
        List.cons_append, List.nil_append]
      rw [read_from_file_loop_ack options MODE_NETASCII tid f a src rest s _ pkt c hacc
        (by omega)]
      simp [data_sends, hdb, List.length_take, hlen]
  | succ m ih =>
      intro T r c fuel a s pkt hdb hst hv hm hc hfuel
      obtain ⟨f, rfl⟩ : ∃ f, fuel = f + 1 := ⟨fuel - 1, by omega⟩
      have hlen : options.blocksize ≤ T.length := by
        by_contra h
        have : T.length / options.blocksize = 0 := Nat.div_eq_of_lt (by omega)
        omega
      have hm2 : (T.drop options.blocksize).length / options.blocksize = m := by
        rw [List.length_drop]
        have := Nat.sub_mul_div T.length options.blocksize 1 (by simpa using hlen)
        simp only [Nat.mul_one] at this
        omega
      simp only [ack_datagrams, List.range'_succ c, List.map_cons, List.cons_append]
      rw [read_from_file_loop_ack options MODE_NETASCII tid f a src _ s _ pkt c hacc
        (by omega)]
      have htake : r.data_block.length = options.blocksize := by
        rw [hdb]; simp [List.length_take, hlen]
      obtain ⟨l1, l2, l3⟩ := load_block_netascii options.blocksize hB r hv
      rw [hst] at l1 l2
      simp only [htake, ge_iff_le, le_refl, if_true,
        Nat.mod_eq_of_lt (show c + 1 < 65536 by omega), send_data, sendto]
      have := ih (T.drop options.blocksize) (load_block options.blocksize MODE_NETASCII r)
        (c + 1) f src
        (s ++ [⟨src, serialize_packet_struct_data
          { block_number := c + 1,
            data := (load_block options.blocksize MODE_NETASCII r).data_block }
          (load_block options.blocksize MODE_NETASCII r).data_block.length, 0⟩])
        (serialize_packet_struct_data
          { block_number := c + 1,
            data := (load_block options.blocksize MODE_NETASCII r).data_block }
          (load_block options.blocksize MODE_NETASCII r).data_block.length)
        l1 l2 l3 hm2 (by omega) (by omega)
      simp only [ack_datagrams] at this
      rw [this, data_sends_succ, l1]
      simp

end Tftp

namespace Tftp

/-- A pair of bytes whose first byte is the last byte of block `k` of a stream: the block
ends with the first byte and the next block starts with the second. -/
theorem pair_at_block_end (B k : Nat) (hB : 1 ≤ B) (P Q : List Nat) (x y : Nat)
    (h : P.length + 1 = (k + 1) * B) :
    (((P ++ x :: y :: Q).drop (k * B)).take B).getLast? = some x ∧
    (((P ++ x :: y :: Q).drop ((k + 1) * B)).take B).head? = some y := by
  have hk : k * B ≤ P.length := by
    have : (k + 1) * B = k * B + B := by ring
    omega
  constructor
  · rw [List.drop_append_of_le_length hk]
    have hl : (P.drop (k * B)).length + 1 = B := by
      rw [List.length_drop]
      have : (k + 1) * B = k * B + B := by ring
      omega
    have ht : ∀ X : List Nat, X.length + 1 = B →
        ((X ++ x :: y :: Q).take B).getLast? = some x := by
      intro X hX
      rw [← hX, List.take_append]
      simp
    exact ht _ hl
  · have e : P ++ x :: y :: Q = (P ++ [x]) ++ y :: Q := by simp
    have hl : (k + 1) * B = (P ++ [x]).length := by simp; omega
    rw [e, hl, List.drop_left]
    obtain ⟨b, rfl⟩ : ∃ b, B = b + 1 := ⟨B - 1, by omega⟩
    simp

/-- NETASCII encoding across blocks, up to 65535 blocks: `T` is the translation of the file
in which LF becomes CR LF, CR becomes CR NUL and every other byte stays. For `B ≥ 1` with
`T.length / B + 1 ≤ 65535`, when the peer acknowledges the blocks 1, 2, ... in turn,
`read_from_file` in NETASCII mode returns 0 having sent exactly the packets DATA(1),
DATA(2), ..., the `k`-th carrying the bytes `k * B ..` of `T`: every payload but the last
has `B` bytes and the payloads concatenated are `T`. When the CR of a pair is the last
byte of a block, the second byte of the pair (LF or NUL) is the first byte of the next
block. -/
theorem read_from_file_netascii_blocks (options : option_info_t) (tid : Int)
    (peer : Endpoint) (rest : List NetEvent) (s : List Sent) (file : List Nat)
    (hacc : ((peer.port : Nat) : Int) = tid ∨ tid = TID_NOT_SET_YET)
    (hB : 1 ≤ options.blocksize)
    (hblocks : (to_netascii file).length / options.blocksize + 1 ≤ 65535) :
    read_from_file
        ⟨peer, ack_datagrams peer 1 ((to_netascii file).length / options.blocksize + 1) ++
          rest, s⟩
        file options MODE_NETASCII tid =
      some (0, ⟨peer, rest,
        s ++ data_sends peer options.blocksize (to_netascii file) 1
          ((to_netascii file).length / options.blocksize + 1)⟩) ∧
    (∀ k, k < (to_netascii file).length / options.blocksize →
      (((to_netascii file).drop (k * options.blocksize)).take options.blocksize).length =
        options.blocksize) ∧
    ((List.range ((to_netascii file).length / options.blocksize + 1)).map fun k =>
      ((to_netascii file).drop (k * options.blocksize)).take options.blocksize).flatten =
        to_netascii file ∧
    (∀ (pre post : List Nat) (k : Nat), file = pre ++ LF_VALUE :: post →
      (to_netascii pre).length + 1 = (k + 1) * options.blocksize →
      (((to_netascii file).drop (k * options.blocksize)).take
          options.blocksize).getLast? = some CR_VALUE ∧
      (((to_netascii file).drop ((k + 1) * options.blocksize)).take
          options.blocksize).head? = some LF_VALUE) ∧
    (∀ (pre post : List Nat) (k : Nat), file = pre ++ CR_VALUE :: post →
      (to_netascii pre).length + 1 = (k + 1) * options.blocksize →
      (((to_netascii file).drop (k * options.blocksize)).take
          options.blocksize).getLast? = some CR_VALUE ∧
      (((to_netascii file).drop ((k + 1) * options.blocksize)).take
          options.blocksize).head? = some 0) := by
  refine ⟨?_, ?_, chunks_flatten _ hB _ _ rfl, ?_, ?_⟩
  · have hv : ¬ (({ file := file } : reader_t).lf_on_new = true ∧
        ({ file := file } : reader_t).null_on_new = true) := by simp
    obtain ⟨l1, l2, l3⟩ := load_block_netascii options.blocksize hB { file := file } hv
    have hc : carried_byte { file := file } = [] := rfl
    rw [hc, List.nil_append] at l1 l2
    unfold read_from_file
    simp only [send_data, sendto]
    rw [read_from_file_loop_netascii options tid peer rest hacc hB
      ((to_netascii file).length / options.blocksize) (to_netascii file) _ 1 _ peer _ _
      l1 l2 l3 rfl (by omega) (by simp [ack_datagrams]; omega)]
    rw [data_sends_succ, l1]
    simp
  · intro k hk
    have h1 : (k + 1) * options.blocksize ≤ (to_netascii file).length :=
      le_trans (Nat.mul_le_mul_right _ hk) (Nat.div_mul_le_self _ _)
    rw [List.length_take, List.length_drop]
    have : (k + 1) * options.blocksize = k * options.blocksize + options.blocksize := by ring
    omega
  · intro pre post k hfile hpos
    have hT : to_netascii file =
        to_netascii pre ++ CR_VALUE :: LF_VALUE :: to_netascii post := by
      rw [hfile, to_netascii_append]
      simp [to_netascii]
    rw [hT]
    exact pair_at_block_end _ k hB _ _ _ _ hpos
  · intro pre post k hfile hpos
    have hne : ¬ CR_VALUE = LF_VALUE := by decide
    have hT : to_netascii file =
        to_netascii pre ++ CR_VALUE :: 0 :: to_netascii post := by
      rw [hfile, to_netascii_append]
      simp [to_netascii, hne]
    rw [hT]
    exact pair_at_block_end _ k hB _ _ _ _ hpos

end Tftp

namespace Tftp

theorem read_from_file_netascii_blocks_witness :
    read_from_file
        ⟨⟨1, 5000⟩,
          ack_datagrams ⟨1, 5000⟩ 1
            ((to_netascii [1, 2, 3, 4, 5, 6, 7, 10, 9]).length / (8 : Nat) + 1) ++ [], []⟩
        [1, 2, 3, 4, 5, 6, 7, 10, 9] { blocksize := 8 } MODE_NETASCII 5000 =
      some (0, ⟨⟨1, 5000⟩, [],
        [] ++ data_sends ⟨1, 5000⟩ 8 (to_netascii [1, 2, 3, 4, 5, 6, 7, 10, 9]) 1
          ((to_netascii [1, 2, 3, 4, 5, 6, 7, 10, 9]).length / (8 : Nat) + 1)⟩) ∧
    (∀ k, k < (to_netascii [1, 2, 3, 4, 5, 6, 7, 10, 9]).length / (8 : Nat) →
      (((to_netascii [1, 2, 3, 4, 5, 6, 7, 10, 9]).drop (k * 8)).take 8).length = 8) ∧
    ((List.range ((to_netascii [1, 2, 3, 4, 5, 6, 7, 10, 9]).length / (8 : Nat) + 1)).map fun k =>
      ((to_netascii [1, 2, 3, 4, 5, 6, 7, 10, 9]).drop (k * 8)).take 8).flatten =
        (to_netascii [1, 2, 3, 4, 5, 6, 7, 10, 9]) ∧
    (∀ (pre post : List Nat) (k : Nat), [1, 2, 3, 4, 5, 6, 7, 10, 9] = pre ++ LF_VALUE :: post →
      (to_netascii pre).length + 1 = (k + 1) * 8 →
      (((to_netascii [1, 2, 3, 4, 5, 6, 7, 10, 9]).drop (k * 8)).take 8).getLast? =
        some CR_VALUE ∧
      (((to_netascii [1, 2, 3, 4, 5, 6, 7, 10, 9]).drop ((k + 1) * 8)).take 8).head? =
        some LF_VALUE) ∧
    (∀ (pre post : List Nat) (k : Nat), [1, 2, 3, 4, 5, 6, 7, 10, 9] = pre ++ CR_VALUE :: post →
      (to_netascii pre).length + 1 = (k + 1) * 8 →
      (((to_netascii [1, 2, 3, 4, 5, 6, 7, 10, 9]).drop (k * 8)).take 8).getLast? =
        some CR_VALUE ∧
      (((to_netascii [1, 2, 3, 4, 5, 6, 7, 10, 9]).drop ((k + 1) * 8)).take 8).head? = some 0) :=
  read_from_file_netascii_blocks { blocksize := 8 } 5000 ⟨1, 5000⟩ [] []
    [1, 2, 3, 4, 5, 6, 7, 10, 9] (Or.inl rfl) (by decide) (by decide)

end Tftp

namespace Tftp

/-! ## The numbers `stoi` reads -/

/-- The function `stoi` on a string whose first character is neither white space nor a
sign: the value of the leading digits when there is one and it fits an `int`. -/
theorem stoi_sign_free (c : Nat) (cs : List Nat) (hsp : isspace c = false)
    (h45 : c ≠ 45) (h43 : c ≠ 43) :
    stoi (c :: cs) =
      if isdigit c then
        if digits_value (c :: cs) 0 ≤ 2147483647 then
          some ((digits_value (c :: cs) 0 : Nat) : Int)
        else none
      else none := by
  unfold stoi
  simp only [List.dropWhile_cons, hsp, Bool.false_eq_true, if_false]
  split
  · rename_i heq
    split at heq
    · rename_i h2; exact absurd (List.cons.inj h2).1 h45
    · rename_i h2; exact absurd (List.cons.inj h2).1 h43
    · simp at heq
  · rename_i d tail heq
    split at heq
    · rename_i h2; exact absurd (List.cons.inj h2).1 h45
    · rename_i h2; exact absurd (List.cons.inj h2).1 h43
    · simp only at heq
      obtain ⟨rfl, rfl⟩ := List.cons.inj heq
      simp only [Bool.false_eq_true, if_false]
      by_cases hd : isdigit c = true
      · simp only [hd, if_true]
        by_cases hb : digits_value (c :: cs) 0 ≤ 2147483647
        · have : (-2147483648 : Int) ≤ ((digits_value (c :: cs) 0 : Nat) : Int) ∧
              ((digits_value (c :: cs) 0 : Nat) : Int) ≤ 2147483647 := by omega
          simp only [this, and_self, if_true, hb]
        · have : ¬ ((-2147483648 : Int) ≤ ((digits_value (c :: cs) 0 : Nat) : Int) ∧
              ((digits_value (c :: cs) 0 : Nat) : Int) ≤ 2147483647) := by omega
          simp only [this, if_false, hb]
      · simp only [hd, Bool.false_eq_true, if_false]

end Tftp

namespace Tftp

/-! ## Groups of an option trailer that are skipped or respelled -/

/-- A group that means no supported option with a parsable value can be put into a
trailer or taken out of it without a change of the result. -/
theorem deserialize_option_info_group_dropped (oi : option_info_t)
    (pre pad name value : List Nat) (es1 es2 : List (List Nat × List Nat))
    (h1 : ∀ e ∈ es1, e.1 ≠ [] ∧ (∀ c ∈ e.1, c ≠ 0) ∧ ∀ c ∈ e.2, c ≠ 0)
    (h2 : ∀ e ∈ es2, e.1 ≠ [] ∧ (∀ c ∈ e.1, c ≠ 0) ∧ ∀ c ∈ e.2, c ≠ 0)
    (hne : name ≠ []) (hname : ∀ c ∈ name, c ≠ 0) (hvalue : ∀ c ∈ value, c ≠ 0)
    (hg : option_of_group (name, value) = none) :
    deserialize_option_info oi
        (pre ++ (option_trailer (es1 ++ (name, value) :: es2) ++ 0 :: pad)) pre.length =
      deserialize_option_info oi (pre ++ (option_trailer (es1 ++ es2) ++ 0 :: pad))
        pre.length := by
  rw [deserialize_option_info_at, deserialize_option_info_at]
  apply deserialize_option_info_trailer_congr
  · intro e he
    rcases List.mem_append.mp he with h | h
    · exact h1 e h
    · rcases List.mem_cons.mp h with h | h
      · rw [h]
        exact ⟨hne, hname, hvalue⟩
      · exact h2 e h
  · intro e he
    rcases List.mem_append.mp he with h | h
    · exact h1 e h
    · exact h2 e h
  · simp [List.filterMap_append, List.filterMap_cons, hg]

/-- C31. A group of an option trailer whose value makes `stoi` throw is skipped: the
trailer is decoded by `deserialize_option_info` exactly as the trailer without the group,
wherever the group stands and whatever its name is, also one of `blksize`, `timeout`,
`tsize`; a trailer that holds only this group leaves the option structure as it was. The
function has no other outcome than the structure, so there is no error to report. `stoi`
throws on the empty string, on a string that starts with a character that is neither
white space, a sign nor a digit, and on digits whose value is above 2147483647. -/
theorem unparsable_value_skipped (oi : option_info_t) (pre pad name value : List Nat)
    (es1 es2 : List (List Nat × List Nat))
    (h1 : ∀ e ∈ es1, e.1 ≠ [] ∧ (∀ c ∈ e.1, c ≠ 0) ∧ ∀ c ∈ e.2, c ≠ 0)
    (h2 : ∀ e ∈ es2, e.1 ≠ [] ∧ (∀ c ∈ e.1, c ≠ 0) ∧ ∀ c ∈ e.2, c ≠ 0)
    (hne : name ≠ []) (hname : ∀ c ∈ name, c ≠ 0) (hvalue : ∀ c ∈ value, c ≠ 0)
    (hstoi : stoi value = none) :
    deserialize_option_info oi
        (pre ++ (option_trailer (es1 ++ (name, value) :: es2) ++ 0 :: pad)) pre.length =
      deserialize_option_info oi (pre ++ (option_trailer (es1 ++ es2) ++ 0 :: pad))
        pre.length ∧
    deserialize_option_info oi (pre ++ (option_trailer [(name, value)] ++ 0 :: pad))
      pre.length = oi ∧
    stoi [] = none ∧
    (∀ (c : Nat) (rest : List Nat), isspace c = false → c ≠ 45 → c ≠ 43 →
      isdigit c = false → stoi (c :: rest) = none) ∧
    (∀ (c : Nat) (ds : List Nat), isdigit c = true →
      2147483647 < digits_value (c :: ds) 0 → stoi (c :: ds) = none) := by
  have hg : option_of_group (name, value) = none := by
    unfold option_of_group
    simp only [hstoi]
  refine ⟨deserialize_option_info_group_dropped oi pre pad name value es1 es2 h1 h2 hne hname
    hvalue hg, ?_, by decide, ?_, ?_⟩
  · have h := deserialize_option_info_group_dropped oi pre pad name value [] []
      (by simp) (by simp) hne hname hvalue hg
    simp only [List.nil_append] at h
    rw [h, deserialize_option_info_at]
    simp [option_trailer, deserialize_option_info, deserialize_option_info_loop, charAt]
  · intro c rest hsp h45 h43 hd
    rw [stoi_sign_free c rest hsp h45 h43]
    simp [hd]
  · intro c ds hd hbig
    have hc2 : 48 ≤ c ∧ c ≤ 57 := by simpa [isdigit] using hd
    have hsp : isspace c = false := by
      simp [isspace]; omega
    rw [stoi_sign_free c ds hsp (by omega) (by omega)]
    simp only [hd, if_true]
    rw [if_neg (by omega)]

theorem unparsable_value_skipped_witness :
    deserialize_option_info {}
        ([0, 1, 97, 0] ++ ascii "octet" ++ [0] ++
          (option_trailer ([(ascii "blksize", ascii "1024")] ++
            (ascii "timeout", ascii "soon") :: [(ascii "tsize", ascii "0")]) ++ 0 :: []))
        ([0, 1, 97, 0] ++ ascii "octet" ++ [0]).length =
      deserialize_option_info {}
        ([0, 1, 97, 0] ++ ascii "octet" ++ [0] ++
          (option_trailer ([(ascii "blksize", ascii "1024")] ++
            [(ascii "tsize", ascii "0")]) ++ 0 :: []))
        ([0, 1, 97, 0] ++ ascii "octet" ++ [0]).length ∧
    deserialize_option_info {}
        ([0, 1, 97, 0] ++ ascii "octet" ++ [0] ++
          (option_trailer [(ascii "timeout", ascii "soon")] ++ 0 :: []))
        ([0, 1, 97, 0] ++ ascii "octet" ++ [0]).length = {} ∧
    stoi [] = none ∧
    (∀ (c : Nat) (rest : List Nat), isspace c = false → c ≠ 45 → c ≠ 43 →
      isdigit c = false → stoi (c :: rest) = none) ∧
    (∀ (c : Nat) (ds : List Nat), isdigit c = true →
      2147483647 < digits_value (c :: ds) 0 → stoi (c :: ds) = none) :=
  unparsable_value_skipped {} ([0, 1, 97, 0] ++ ascii "octet" ++ [0]) [] (ascii "timeout")
    (ascii "soon") [(ascii "blksize", ascii "1024")] [(ascii "tsize", ascii "0")]
    (by decide) (by decide) (by decide) (by decide) (by decide) (by decide)

end Tftp

namespace Tftp

theorem same_letter_tolower (c d : Nat) (h : same_letter c d = true) :
    tolower c = tolower d ∧ (c ≠ 0 → d ≠ 0) := by
  simp only [same_letter, Bool.or_eq_true, Bool.and_eq_true, beq_iff_eq,
    decide_eq_true_eq] at h
  unfold tolower
  constructor
  · split <;> split <;> omega
  · omega

theorem same_letters_tolower :
    ∀ (a b : List Nat), same_letters a b = true →
      a.map tolower = b.map tolower ∧ (a ≠ [] → b ≠ []) ∧
      ((∀ c ∈ a, c ≠ 0) → ∀ c ∈ b, c ≠ 0)
  | [], [], _ => by simp
  | [], _ :: _, h => by simp [same_letters] at h
  | _ :: _, [], h => by simp [same_letters] at h
  | c :: cs, d :: ds, h => by
      simp only [same_letters, Bool.and_eq_true] at h
      obtain ⟨h1, h2⟩ := same_letter_tolower c d h.1
      obtain ⟨i1, _, i3⟩ := same_letters_tolower cs ds h.2
      refine ⟨by simp [h1, i1], by simp, ?_⟩
      intro hz x hx
      rcases List.mem_cons.mp hx with rfl | hx
      · exact h2 (hz c (by simp))
      · exact i3 (fun y hy => hz y (by simp [hy])) x hx

theorem same_groups_mean_the_same :
    ∀ (es fs : List (List Nat × List Nat)), same_groups es fs = true →
      (∀ e ∈ es, e.1 ≠ [] ∧ (∀ c ∈ e.1, c ≠ 0) ∧ ∀ c ∈ e.2, c ≠ 0) →
      (∀ e ∈ fs, e.1 ≠ [] ∧ (∀ c ∈ e.1, c ≠ 0) ∧ ∀ c ∈ e.2, c ≠ 0) ∧
      es.filterMap option_of_group = fs.filterMap option_of_group
  | [], [], _, _ => by simp
  | [], _ :: _, h, _ => by simp [same_groups] at h
  | _ :: _, [], h, _ => by simp [same_groups] at h
  | e :: es, f :: fs, h, hw => by
      simp only [same_groups, Bool.and_eq_true, beq_iff_eq] at h
      obtain ⟨⟨hn, hv⟩, hr⟩ := h
      obtain ⟨t1, t2, t3⟩ := same_letters_tolower e.1 f.1 hn
      obtain ⟨i1, i2⟩ := same_groups_mean_the_same es fs hr
        (fun x hx => hw x (by simp [hx]))
      obtain ⟨w1, w2, w3⟩ := hw e (by simp)
      have hg : option_of_group e = option_of_group f := by
        unfold option_of_group
        rw [t1, hv]
      constructor
      · intro x hx
        rcases List.mem_cons.mp hx with rfl | hx
        · exact ⟨t2 w1, t3 w2, by rw [← hv]; exact w3⟩
        · exact i1 x hx
      · simp only [List.filterMap_cons, hg, i2]

/-- C32. Two option trailers with the same values whose names differ at most in the case
of ASCII letters, group by group, are decoded by `deserialize_option_info` to the same
structure: the same presence flags, values and recorded order, from any starting
structure and at any place of the trailer in the packet. -/
theorem option_names_case_insensitive (oi : option_info_t) (pre pad : List Nat)
    (es fs : List (List Nat × List Nat))
    (hw : ∀ e ∈ es, e.1 ≠ [] ∧ (∀ c ∈ e.1, c ≠ 0) ∧ ∀ c ∈ e.2, c ≠ 0)
    (hcase : same_groups es fs = true) :
    deserialize_option_info oi (pre ++ (option_trailer es ++ 0 :: pad)) pre.length =
      deserialize_option_info oi (pre ++ (option_trailer fs ++ 0 :: pad)) pre.length := by
  obtain ⟨h2, h3⟩ := same_groups_mean_the_same es fs hcase hw
  rw [deserialize_option_info_at, deserialize_option_info_at]
  exact deserialize_option_info_trailer_congr oi pad es fs hw h2 h3

/-- C32 on a request trailer: `BlkSize 1024` and `TIMEOUT 5` are decoded as `blksize 1024`
and `timeout 5`. -/
theorem option_names_case_insensitive_witness :
    deserialize_option_info {}
        ([0, 1, 97, 0] ++ ascii "octet" ++ [0] ++
          (option_trailer [(ascii "BlkSize", ascii "1024"), (ascii "TIMEOUT", ascii "5")] ++
            0 :: []))
        ([0, 1, 97, 0] ++ ascii "octet" ++ [0]).length =
      { blocksize := 1024, timeout_interval := 5, option_blocksize := true,
        option_timeout_interval := true,
        option_order := [options.BLOCKSIZE, options.TIMEOUT, options.NONE] } :=
  (option_names_case_insensitive {} ([0, 1, 97, 0] ++ ascii "octet" ++ [0]) []
    [(ascii "BlkSize", ascii "1024"), (ascii "TIMEOUT", ascii "5")]
    [(ascii "blksize", ascii "1024"), (ascii "timeout", ascii "5")]
    (by decide) (by decide)).trans (by decide)

end Tftp

namespace Tftp

/-! ## The layout of DATA and ACK packets -/

/-- C33. Big-endian wire layout: for a block number `b` below 65536 the serialised ACK is
the four bytes 0, 4, `b / 256`, `b % 256`, and the serialised DATA with `n` payload bytes
is 0, 3, `b / 256`, `b % 256` followed by the first `n` bytes of the payload, `n` of them
when the payload has that many; `chars_to_short` on the two bytes that `short_to_chars`
writes for `v` below 65536 returns `v`. -/
theorem big_endian_wire_layout (b n v : Nat) (data : List Nat) (hb : b < 65536)
    (hv : v < 65536) :
    serialize_packet_struct_ack { block_number := b } = [0, 4, b / 256, b % 256] ∧
    serialize_packet_struct_data { block_number := b, data := data } n =
      [0, 3, b / 256, b % 256] ++ data.take n ∧
    (n ≤ data.length →
      (serialize_packet_struct_data { block_number := b, data := data } n).length = 4 + n) ∧
    short_to_chars v = [v / 256, v % 256] ∧
    chars_to_short (charAt (short_to_chars v) 0) (charAt (short_to_chars v) 1) = v := by
  have hb2 : b / 256 % 256 = b / 256 := Nat.mod_eq_of_lt (by omega)
  have hv2 : v / 256 % 256 = v / 256 := Nat.mod_eq_of_lt (by omega)
  have hA : serialize_packet_struct_ack { block_number := b } = [0, 4, b / 256, b % 256] := by
    simp [serialize_packet_struct_ack, short_to_chars_eq, ACK_OPCODE, hb2]
  have hD : serialize_packet_struct_data { block_number := b, data := data } n =
      [0, 3, b / 256, b % 256] ++ data.take n := by
    simp [serialize_packet_struct_data, short_to_chars_eq, DATA_OPCODE, hb2]
  refine ⟨hA, hD, ?_, ?_, ?_⟩
  · intro hn
    rw [hD]
    simp [List.length_take, Nat.min_eq_left hn]
    omega
  · rw [short_to_chars_eq, hv2]
  · rw [short_to_chars_eq]
    simp only [charAt, List.getD_cons_zero, List.getD_cons_succ]
    exact chars_to_short_short_to_chars v hv

theorem big_endian_wire_layout_witness :
    serialize_packet_struct_ack { block_number := 258 } = [0, 4, 258 / 256, 258 % 256] ∧
    serialize_packet_struct_data { block_number := 258, data := [7, 8, 9] } 2 =
      [0, 3, 258 / 256, 258 % 256] ++ [7, 8, 9].take 2 ∧
    (2 ≤ [7, 8, 9].length →
      (serialize_packet_struct_data { block_number := 258, data := [7, 8, 9] } 2).length =
        4 + 2) ∧
    short_to_chars 65535 = [65535 / 256, 65535 % 256] ∧
    chars_to_short (charAt (short_to_chars 65535) 0) (charAt (short_to_chars 65535) 1) =
      65535 :=
  big_endian_wire_layout 258 2 65535 [7, 8, 9] (by decide) (by decide)

end Tftp

namespace Tftp

/-! ## Option values as numbers -/

end Tftp

namespace Tftp

end Tftp

namespace Tftp

end Tftp

namespace Tftp

/-! ## The transfer size in the OACK -/

/-- The trailer of an option set that lists the transfer size starts with the `tsize`
group; the rest is the trailer of the other options. -/
theorem serialize_option_info_tsize (o : option_info_t) (v : Nat)
    (h : o.option_transfer_size = true) (hv : o.transfer_size = v) :
    serialize_option_info o =
      ascii "tsize" ++ [0] ++ to_string v ++ [0] ++
        serialize_option_info { o with option_transfer_size := false } := by
  subst hv
  simp [serialize_option_info, h]
  split <;> split <;> simp

/-- The trailer of an option set that does not list the transfer size holds at most a
`timeout` group and a `blksize` group. -/
theorem serialize_option_info_no_tsize (o : option_info_t)
    (h : o.option_transfer_size = false) :
    serialize_option_info o =
      (if o.option_timeout_interval then
        ascii "timeout" ++ [0] ++ to_string o.timeout_interval ++ [0] else []) ++
      (if o.option_blocksize then
        ascii "blksize" ++ [0] ++ to_string o.blocksize ++ [0] else []) := by
  simp [serialize_option_info, h]
  split <;> split <;> simp

/-- C34. The OACK that `send_oack` builds on a server that has the `tsize` option enabled.
For a request that lists `tsize` the trailer starts with the group `tsize`, whose value
is, for a read, the size of the file converted to `unsigned int` (the size modulo
4294967296, so the size itself below that), and for a write the value of the request;
the rest of the trailer holds no `tsize` group. For a request that does not list `tsize`
the trailer holds no `tsize` group at all. -/
theorem tsize_in_oack (conn : Net) (R S : option_info_t) (file_size : Nat)
    (hS : S.option_transfer_size = true) :
    (R.option_transfer_size = true →
      (send_oack conn R S file_size true).1 =
        [0, 6] ++ (ascii "tsize" ++ [0] ++ to_string (file_size % 4294967296) ++ [0]) ++
          serialize_option_info
            { (send_oack conn R S file_size true).2.2 with option_transfer_size := false } ∧
      (file_size < 4294967296 →
        (send_oack conn R S file_size true).1 =
          [0, 6] ++ (ascii "tsize" ++ [0] ++ to_string file_size ++ [0]) ++
            serialize_option_info
              { (send_oack conn R S file_size true).2.2 with
                option_transfer_size := false }) ∧
      (send_oack conn R S file_size false).1 =
        [0, 6] ++ (ascii "tsize" ++ [0] ++ to_string R.transfer_size ++ [0]) ++
          serialize_option_info
            { (send_oack conn R S file_size false).2.2 with option_transfer_size := false }) ∧
    (R.option_transfer_size = false → ∀ is_rrq : Bool,
      (send_oack conn R S file_size is_rrq).1 =
        [0, 6] ++ serialize_option_info
          { (send_oack conn R S file_size is_rrq).2.2 with option_transfer_size := false }) ∧
    (∀ o : option_info_t,
      serialize_option_info { o with option_transfer_size := false } =
        (if o.option_timeout_interval then
          ascii "timeout" ++ [0] ++ to_string o.timeout_interval ++ [0] else []) ++
        (if o.option_blocksize then
          ascii "blksize" ++ [0] ++ to_string o.blocksize ++ [0] else [])) := by
  have h6 : short_to_chars OACK_OPCODE = [0, 6] := by decide
  have hp : ∀ is_rrq : Bool, (send_oack conn R S file_size is_rrq).1 =
      [0, 6] ++ serialize_option_info (send_oack conn R S file_size is_rrq).2.2 := by
    intro is_rrq
    simp only [send_oack, serialize_packet_struct_oack, h6]
  have hf : R.option_transfer_size = true → ∀ is_rrq : Bool,
      (send_oack conn R S file_size is_rrq).2.2.option_transfer_size = true ∧
      (send_oack conn R S file_size is_rrq).2.2.transfer_size =
        if is_rrq then file_size % 4294967296 else R.transfer_size := by
    intro hR is_rrq
    simp only [send_oack, hR, Bool.not_true, Bool.false_eq_true, if_false]
    split <;> split <;> simp [hS]
  have hn : R.option_transfer_size = false → ∀ is_rrq : Bool,
      (send_oack conn R S file_size is_rrq).2.2.option_transfer_size = false := by
    intro hR is_rrq
    simp only [send_oack, hR, Bool.not_false, if_true]
  refine ⟨?_, ?_, ?_⟩
  · intro hR
    have e1 : (send_oack conn R S file_size true).1 =
        [0, 6] ++ (ascii "tsize" ++ [0] ++ to_string (file_size % 4294967296) ++ [0]) ++
          serialize_option_info
            { (send_oack conn R S file_size true).2.2 with
              option_transfer_size := false } := by
      obtain ⟨f1, f2⟩ := hf hR true
      rw [hp true, serialize_option_info_tsize _ _ f1 f2]
      simp
    refine ⟨e1, ?_, ?_⟩
    · intro hlt
      rw [e1, Nat.mod_eq_of_lt hlt]
    · obtain ⟨f1, f2⟩ := hf hR false
      rw [hp false, serialize_option_info_tsize _ _ f1 f2]
      simp
  · intro hR is_rrq
    have := hn hR is_rrq
    rw [hp is_rrq]
    congr 2
    generalize (send_oack conn R S file_size is_rrq).2.2 = o at this
    cases o
    simp only at this
    simp [this]
  · intro o
    exact serialize_option_info_no_tsize _ rfl

theorem tsize_in_oack_witness :
    (send_oack ⟨⟨1, 5000⟩, [], []⟩
        { option_transfer_size := true, option_blocksize := true, blocksize := 1024 }
        { option_blocksize := true, option_transfer_size := true,
          option_timeout_interval := true, blocksize := 1024, timeout_interval := 5 }
        1024 true).1 =
      [0, 6] ++ ascii "tsize" ++ [0] ++ ascii "1024" ++ [0] ++
        ascii "blksize" ++ [0] ++ ascii "1024" ++ [0] :=
  (((tsize_in_oack ⟨⟨1, 5000⟩, [], []⟩
      { option_transfer_size := true, option_blocksize := true, blocksize := 1024 }
      { option_blocksize := true, option_transfer_size := true,
        option_timeout_interval := true, blocksize := 1024, timeout_interval := 5 }
      1024 rfl).1 rfl).2.1 (by decide)).trans (by decide)

/-- A file of 4294967301 bytes: the OACK of a read request that lists `tsize` carries the
value 5. -/
theorem tsize_of_large_file_truncated :
    ¬ (send_oack ⟨⟨1, 5000⟩, [], []⟩ { option_transfer_size := true }
        { option_blocksize := true, option_transfer_size := true,
          option_timeout_interval := true }
        4294967301 true).1 =
      [0, 6] ++ ascii "tsize" ++ [0] ++ ascii "4294967301" ++ [0] := by
  decide

end Tftp

namespace Tftp

/-! ## Strangers during the wait after the last block -/

/-- C36. A transfer with TID 5000 and block size 8: the peer `1:5000` sends the last block
DATA(1), which is acknowledged, and then a datagram arrives from `2:6000`, with any
content. In the wait after the last block the datagram is answered with a copy of ACK(1),
sent to `2:6000`, and `2:6000` is the address the connection holds when `write_to_file`
returns. A datagram from `2:6000` in front of DATA(1) is answered with an ERROR packet
with code 5 and with no ACK. -/
theorem stranger_acknowledged_after_final_block (bytes beyond : List Nat) :
    write_to_file
        ⟨⟨1, 5000⟩, [.datagram ⟨1, 5000⟩ [0, 3, 0, 1, 9], .datagram ⟨2, 6000⟩ bytes], []⟩
        { blocksize := 8 } [] [0, 4, 0, 0] MODE_OCTET 5000 1 beyond =
      some (PROG_RET_CODE_OK,
        ⟨⟨2, 6000⟩, [],
          [⟨⟨1, 5000⟩, [0, 4, 0, 1], 0⟩, ⟨⟨2, 6000⟩, [0, 4, 0, 1], 0⟩]⟩, [9]) ∧
    write_to_file
        ⟨⟨1, 5000⟩,
          [.datagram ⟨2, 6000⟩ [0, 3, 0, 1, 9], .datagram ⟨1, 5000⟩ [0, 3, 0, 1, 9]], []⟩
        { blocksize := 8 } [] [0, 4, 0, 0] MODE_OCTET 5000 1 [] =
      some (PROG_RET_CODE_OK,
        ⟨⟨1, 5000⟩, [],
          [⟨⟨2, 6000⟩, unknown_tid_packet, 0⟩, ⟨⟨1, 5000⟩, [0, 4, 0, 1], 0⟩]⟩, [9]) := by
  have hD : serialize_packet_struct_data { block_number := 1, data := [9] } [9].length =
      [0, 3, 0, 1, 9] := by decide
  have hA : serialize_packet_struct_ack { block_number := 1 } = [0, 4, 0, 1] := by decide
  have hmode : MODE_OCTET ≠ MODE_NETASCII := by decide
  have hl : ([9] : List Nat).length < ({ blocksize := 8 } : option_info_t).blocksize := by
    decide
  have hto : ∀ n : Nat, ¬ ((n : Int) = ERR_CODE_TIMEOUT) := by
    intro n; unfold ERR_CODE_TIMEOUT; omega
  constructor
  · have h := write_to_file_loop_octet { blocksize := 8 } MODE_OCTET 5000 beyond 2 ⟨1, 5000⟩
      ⟨1, 5000⟩ [9] [.datagram ⟨2, 6000⟩ bytes] [] [] [0, 4, 0, 0] 1 hmode (Or.inl rfl)
      (by decide) (by decide) (Nat.le_of_lt hl)
    rw [if_pos hl, hD, hA] at h
    unfold write_to_file
    refine h.trans ?_
    have h3 : MAX_RETRANSMIT_ATTEMPTS = 2 + 1 := rfl
    rw [h3, final_ack_loop]
    simp only [recvfrom_timeout, recv_outcome, hto, if_false, sendto, List.nil_append]
    rw [final_ack_loop_quiet _ _ _ 1 1 ⟨2, 6000⟩ _ [] (Or.inl rfl)]
    rfl
  · decide

end Tftp

namespace Tftp

/-! ## The receive buffer of the main socket -/

set_option maxRecDepth 20000 in
/-- C38. The request `RRQ "b" octet` without options, received on the main socket of the
server. Into the zeroed buffer it is decoded without options. Received after the longer
request `RRQ "a" octet blksize 1024` of another client it is decoded with the option
`blksize 1024`: `start_listen` zeroes its buffer once, before its loop, and the bytes the
earlier datagram left behind the later one are read as the option trailer. -/
theorem stale_bytes_decoded_as_options :
    (start_listen_request ⟨⟨0, 69⟩, [], []⟩ (List.replicate 516 0) ⟨1, 5000⟩
        ([0, 1, 98, 0] ++ ascii "octet" ++ [0])).2.2 =
      some { opcode := 1, filename := [98], mode := ascii "octet", options := {} } ∧
    (start_listen_request
        (start_listen_request ⟨⟨0, 69⟩, [], []⟩ (List.replicate 516 0) ⟨2, 6000⟩
          ([0, 1, 97, 0] ++ ascii "octet" ++ [0] ++ ascii "blksize" ++ [0] ++ ascii "1024" ++
            [0])).1
        (start_listen_request ⟨⟨0, 69⟩, [], []⟩ (List.replicate 516 0) ⟨2, 6000⟩
          ([0, 1, 97, 0] ++ ascii "octet" ++ [0] ++ ascii "blksize" ++ [0] ++ ascii "1024" ++
            [0])).2.1
        ⟨1, 5000⟩ ([0, 1, 98, 0] ++ ascii "octet" ++ [0])).2.2 =
      some { opcode := 1, filename := [98], mode := ascii "octet",
             options := { blocksize := 1024, option_blocksize := true,
                          option_order := [options.BLOCKSIZE, options.NONE, options.NONE] } } := by
  decide

end Tftp

namespace Tftp

/-! ## The end of a receiving transfer -/

/-- The code that `write_to_file` returns is `PROG_RET_CODE_ERR` or `PROG_RET_CODE_OK`. -/
theorem write_to_file_loop_code (options : option_info_t) (mode : List Nat) (tid : Int)
    (beyond : List Nat) :
    ∀ (fuel : Nat) (conn : Net) (fw pkt : List Nat) (e : Nat) (res : Int × Net × List Nat),
      write_to_file_loop options mode tid beyond fuel conn fw pkt e = some res →
      res.1 = PROG_RET_CODE_ERR ∨ res.1 = PROG_RET_CODE_OK := by
  intro fuel
  induction fuel with
  | zero => intro conn fw pkt e res h; simp [write_to_file_loop] at h
  | succ fuel ih =>
      intro conn fw pkt e res h
      rw [write_to_file_loop] at h
      simp only at h
      split_ifs at h
      · simp only [Option.some.injEq] at h; subst h; exact Or.inl rfl
      · simp only [Option.some.injEq] at h; subst h; exact Or.inl rfl
      · simp only [Option.some.injEq] at h; subst h; exact Or.inl rfl
      all_goals first
        | exact ih _ _ _ _ _ h
        | (simp only [Option.some.injEq] at h; subst h; exact Or.inr rfl)

/-- A run of `write_to_file` that starts with the expected block 1 or 2 and with a pending
packet that is the ACK of the block before, or no ACK at all, returns. -/
theorem write_to_file_returns (conn : Net) (options : option_info_t) (fw pkt mode : List Nat)
    (tid : Int) (e : Nat) (beyond : List Nat) (he1 : 1 ≤ e) (he2 : e ≤ 65536)
    (hpkt : pkt.take 2 = short_to_chars 4 →
      chars_to_short (charAt pkt 2) (charAt pkt 3) = e - 1) :
    ∃ res, write_to_file conn options fw pkt mode tid e beyond = some res ∧
      (res.1 = PROG_RET_CODE_ERR ∨ res.1 = PROG_RET_CODE_OK) := by
  obtain ⟨res, more, h, _⟩ := write_to_file_loop_ack_numbers options mode tid beyond
    (conn.events.length + 1) conn fw pkt e (by omega) he1 he2 hpkt
  exact ⟨res, h, write_to_file_loop_code options mode tid beyond _ _ _ _ _ _ h⟩

end Tftp

namespace Tftp

theorem option_map_returns {α β : Type} (f : α → β) (w : Option α) (Q : α → Prop)
    (P : β → Prop) (hw : ∃ res, w = some res ∧ Q res) (hP : ∀ res, Q res → P (f res)) :
    ∃ r, w.map f = some r ∧ P r := by
  obtain ⟨res, h1, h2⟩ := hw
  exact ⟨f res, by rw [h1]; rfl, hP res h2⟩

theorem send_ack_pending (conn : Net) (b : Nat) (hb : b < 65536) :
    (send_ack conn b).1.take 2 = short_to_chars 4 →
      chars_to_short (charAt (send_ack conn b).1 2) (charAt (send_ack conn b).1 3) =
        b + 1 - 1 := by
  intro _
  have h : (send_ack conn b).1 = [0, 4, b / 256 % 256, b % 256] := by
    simp [send_ack, serialize_packet_struct_ack, short_to_chars_eq, ACK_OPCODE,
      Nat.mod_eq_of_lt hb]
  rw [h]
  simp only [charAt, List.getD_cons_zero, List.getD_cons_succ]
  rw [chars_to_short_short_to_chars b hb]
  omega

theorem send_oack_pending (conn : Net) (R S : option_info_t) (file_size : Nat)
    (is_rrq : Bool) (v : Nat) :
    (send_oack conn R S file_size is_rrq).1.take 2 = short_to_chars 4 →
      chars_to_short (charAt (send_oack conn R S file_size is_rrq).1 2)
        (charAt (send_oack conn R S file_size is_rrq).1 3) = v := by
  intro h
  have h6 : short_to_chars OACK_OPCODE = [0, 6] := by decide
  have h4 : short_to_chars 4 = [0, 4] := by decide
  simp [send_oack, serialize_packet_struct_oack, h6, h4] at h

end Tftp

namespace Tftp

/-- C35. Cleanup on abort, over the files of the host. The constructor of the `ofstream`
puts the destination on disk, empty, as soon as the first reply (client) or the request
(server) is in, when the open succeeds. The read of the client (`execute_transfer`) and
the write of the server (`start_listen`) always return. When they end by a failure after
that line (an ERROR packet of the peer, a rejected OACK or a full disk on the client,
rejected options on the server, a rejected first DATA packet, or `write_to_file`
returning `PROG_RET_CODE_ERR`, which it does on a peer ERROR, on an illegal packet and
when the retransmissions run out), the destination path does not exist afterwards: the
file that was made is removed. When they end before that line the files are as before,
and the destination does not exist either unless it existed from the start, which ends
the transfer at once. When the transfer ends well the destination exists exactly when the
open had succeeded. No other path is touched. -/
theorem cleanup_on_abort (conn : Net) (files : Files)
    (communication_information : communication_info_t)
    (option_information : option_info_t) (available : Nat) (opens : Bool)
    (beyond : List Nat)
    (root_dirpath : List Nat) (init_communication_packet : tftp_rrq_wrq_packet_t)
    (server_options : option_info_t) (tid_client : Int) :
    (∃ r, execute_transfer_rrq conn files communication_information option_information
        available opens beyond = some r ∧
      (r.1 ≠ .file_exists → r.1 ≠ .single_block → r.1 ≠ .engine PROG_RET_CODE_OK →
        r.2.2 communication_information.file_path_dest = none) ∧
      (r.1 = .peer_error ∨ r.1 = .oack_rejected ∨ r.1 = .data_rejected ∨
          r.1 = .engine PROG_RET_CODE_ERR →
        r.2.2 communication_information.file_path_dest = none) ∧
      (r.1 = .file_exists ∨ r.1 = .no_reply → r.2.2 = files) ∧
      (r.1 = .single_block ∨ r.1 = .engine PROG_RET_CODE_OK →
        (r.2.2 communication_information.file_path_dest).isSome = opens) ∧
      (∀ c, r.1 = .engine c → c = PROG_RET_CODE_ERR ∨ c = PROG_RET_CODE_OK) ∧
      (∀ p, p ≠ communication_information.file_path_dest → r.2.2 p = files p)) ∧
    (∃ r, start_listen_wrq conn files root_dirpath init_communication_packet server_options
        available opens tid_client beyond = some r ∧
      (r.1 ≠ .file_exists → r.1 ≠ .engine PROG_RET_CODE_OK →
        r.2.2 (root_dirpath ++ ascii "/" ++ init_communication_packet.filename) = none) ∧
      (r.1 = .options_rejected ∨ r.1 = .engine PROG_RET_CODE_ERR →
        r.2.2 (root_dirpath ++ ascii "/" ++ init_communication_packet.filename) = none) ∧
      (r.1 = .file_exists ∨ r.1 = .disk_full → r.2.2 = files) ∧
      (r.1 = .engine PROG_RET_CODE_OK →
        (r.2.2 (root_dirpath ++ ascii "/" ++ init_communication_packet.filename)).isSome =
          opens) ∧
      (∀ c, r.1 = .engine c → c = PROG_RET_CODE_ERR ∨ c = PROG_RET_CODE_OK) ∧
      (∀ p, p ≠ root_dirpath ++ ascii "/" ++ init_communication_packet.filename →
        r.2.2 p = files p)) := by
  have hne : PROG_RET_CODE_OK ≠ PROG_RET_CODE_ERR := by decide
  have hnone : ∀ o : Option (List Nat), ¬ o.isSome = true → o = none := by
    intro o ho; cases o <;> simp_all
  constructor
  · unfold execute_transfer_rrq
    simp only
    split_ifs
    · exact ⟨_, rfl, by simp⟩
    · rename_i hex _
      have hd := hnone _ hex
      exact ⟨_, rfl, by simp; exact hd⟩
    · rename_i hex _ _
      have hd := hnone _ hex
      exact ⟨_, rfl, by cases opens <;> (simp [close_remove_file, remove, close_file, open_file, hd]; try (intro p hp; simp [hp]))⟩
    · rename_i hex _ _ _ _
      have hd := hnone _ hex
      exact ⟨_, rfl, by cases opens <;> (simp [close_remove_file, remove, close_file, open_file, hd]; try (intro p hp; simp [hp]))⟩
    · rename_i hex _ _ _ _
      have hd := hnone _ hex
      refine option_map_returns _ _
        (fun res => res.1 = PROG_RET_CODE_ERR ∨ res.1 = PROG_RET_CODE_OK) _
        (write_to_file_returns _ _ _ _ _ _ 1 _ (by decide) (by decide)
          (send_ack_pending _ 0 (by decide))) ?_
      intro res hres
      rcases hres with h | h
      · cases opens <;>
          (simp [h, remove, close_file, open_file, hne.symm, hd]; try (intro p hp; simp [hp]))
      · cases opens <;>
          (simp [h, remove, close_file, open_file, hne, hd]; try (intro p hp; simp [hp]))
    · rename_i hex _ _ _ _
      have hd := hnone _ hex
      exact ⟨_, rfl, by cases opens <;> (simp [close_remove_file, remove, close_file, open_file, hd]; try (intro p hp; simp [hp]))⟩
    · rename_i hex _ _ _ _ _
      have hd := hnone _ hex
      exact ⟨_, rfl, by cases opens <;> (simp [close_remove_file, remove, close_file, open_file, hd]; try (intro p hp; simp [hp]))⟩
    · rename_i hex _ _ _ _ _
      have hd := hnone _ hex
      refine option_map_returns _ _
        (fun res => res.1 = PROG_RET_CODE_ERR ∨ res.1 = PROG_RET_CODE_OK) _
        (write_to_file_returns _ _ _ _ _ _ 2 _ (by decide) (by decide)
          (send_ack_pending _ 1 (by decide))) ?_
      intro res hres
      rcases hres with h | h
      · cases opens <;>
          (simp [h, remove, close_file, open_file, hne.symm, hd]; try (intro p hp; simp [hp]))
      · cases opens <;>
          (simp [h, remove, close_file, open_file, hne, hd]; try (intro p hp; simp [hp]))
  · unfold start_listen_wrq
    simp only
    split_ifs
    · exact ⟨_, rfl, by simp⟩
    · rename_i hex _
      have hd := hnone _ hex
      exact ⟨_, rfl, by simp; rw [← List.append_assoc]; exact hd⟩
    · rename_i hex _ _ _
      have hd := hnone _ hex
      rw [List.append_assoc] at hd
      exact ⟨_, rfl, by cases opens <;> (simp [close_remove_file, remove, close_file, open_file, hd]; try (intro p hp; simp [hp]))⟩
    · rename_i hex _ _ _
      have hd := hnone _ hex
      rw [List.append_assoc] at hd
      refine option_map_returns _ _
        (fun res => res.1 = PROG_RET_CODE_ERR ∨ res.1 = PROG_RET_CODE_OK) _
        (write_to_file_returns _ _ _ _ _ _ 1 _ (by decide) (by decide)
          (send_oack_pending _ _ _ _ _ _)) ?_
      intro res hres
      rcases hres with h | h
      · cases opens <;>
          (simp [h, remove, close_file, open_file, hne.symm, hd]; try (intro p hp; simp [hp]))
      · cases opens <;>
          (simp [h, remove, close_file, open_file, hne, hd]; try (intro p hp; simp [hp]))
    · rename_i hex _ _
      have hd := hnone _ hex
      rw [List.append_assoc] at hd
      refine option_map_returns _ _
        (fun res => res.1 = PROG_RET_CODE_ERR ∨ res.1 = PROG_RET_CODE_OK) _
        (write_to_file_returns _ _ _ _ _ _ 1 _ (by decide) (by decide)
          (send_ack_pending _ 0 (by decide))) ?_
      intro res hres
      rcases hres with h | h
      · cases opens <;>
          (simp [h, remove, close_file, open_file, hne.symm, hd]; try (intro p hp; simp [hp]))
      · cases opens <;>
          (simp [h, remove, close_file, open_file, hne, hd]; try (intro p hp; simp [hp]))

end Tftp

namespace Tftp

/-! ## The first block of a read without options -/

set_option maxRecDepth 20000 in
/-- C37. A client reads the file `a` into `b` without options. The server `1:5000` answers
with DATA(1) carrying one byte, the last block, and sends it once more. The client
acknowledges the first copy and returns at once: the second copy is still in the socket,
unread, and only one ACK(1) was sent. With the option `blksize 8`, where the server
answers with an OACK first and the same two DATA(1) packets are received by
`write_to_file`, the second copy is answered with a second ACK(1). This is so whether or
not the destination file could be opened. -/
theorem first_short_block_not_awaited (opens : Bool) :
    (execute_transfer_rrq
        ⟨⟨1, 69⟩, [.datagram ⟨1, 5000⟩ [0, 3, 0, 1, 9], .datagram ⟨1, 5000⟩ [0, 3, 0, 1, 9]],
          []⟩
        (fun _ => none)
        { path_was_given := true, file_path_source := ascii "a", file_path_dest := ascii "b" }
        { blocksize := 512, timeout_interval := 2 } 1000 opens []).map (fun r => (r.1, r.2.1)) =
      some (.single_block,
        ⟨⟨1, 5000⟩, [.datagram ⟨1, 5000⟩ [0, 3, 0, 1, 9]],
          [⟨⟨1, 69⟩, [0, 1, 97, 0] ++ ascii "octet" ++ [0], 0⟩,
           ⟨⟨1, 5000⟩, [0, 4, 0, 1], 0⟩]⟩) ∧
    (execute_transfer_rrq
        ⟨⟨1, 69⟩,
          [.datagram ⟨1, 5000⟩ ([0, 6] ++ ascii "blksize" ++ [0] ++ ascii "8" ++ [0]),
           .datagram ⟨1, 5000⟩ [0, 3, 0, 1, 9], .datagram ⟨1, 5000⟩ [0, 3, 0, 1, 9]], []⟩
        (fun _ => none)
        { path_was_given := true, file_path_source := ascii "a", file_path_dest := ascii "b" }
        { blocksize := 8, timeout_interval := 2, option_blocksize := true } 1000 opens
          []).map
          (fun r => (r.1, r.2.1)) =
      some (.engine PROG_RET_CODE_OK,
        ⟨⟨1, 5000⟩, [],
          [⟨⟨1, 69⟩, [0, 1, 97, 0] ++ ascii "octet" ++ [0] ++ ascii "blksize" ++ [0] ++
              ascii "8" ++ [0], 0⟩,
           ⟨⟨1, 5000⟩, [0, 4, 0, 0], 0⟩, ⟨⟨1, 5000⟩, [0, 4, 0, 1], 0⟩,
           ⟨⟨1, 5000⟩, [0, 4, 0, 1], 0⟩]⟩) := by
  cases opens <;> decide

end Tftp

namespace Tftp

/-! ## Sending more than 65535 blocks -/

theorem short_to_chars_mod (n : Nat) : short_to_chars (n % 65536) = short_to_chars n := by
  rw [short_to_chars_eq, short_to_chars_eq]
  have h1 : n % 65536 / 256 % 256 = n / 256 % 256 := by omega
  have h2 : n % 65536 % 256 = n % 256 := by omega
  rw [h1, h2]

/-- One round of `read_from_file` on the ACK whose block number is the current one
modulo 65536. -/
theorem read_from_file_loop_ack_mod (options : option_info_t) (mode : List Nat) (tid : Int)
    (fuel : Nat) (a src : Endpoint) (rest : List NetEvent) (s : List Sent) (r : reader_t)
    (pkt : List Nat) (c : Nat)
    (hacc : ((src.port : Nat) : Int) = tid ∨ tid = TID_NOT_SET_YET) :
    read_from_file_loop options mode tid (fuel + 1)
        ⟨a, .datagram src (serialize_packet_struct_ack { block_number := c }) :: rest, s⟩ r
        pkt (c % 65536) =
      if r.data_block.length ≥ options.blocksize then
        read_from_file_loop options mode tid fuel
          ⟨src, rest, s ++ [⟨src, serialize_packet_struct_data
            { block_number := c + 1, data := (load_block options.blocksize mode r).data_block }
            (load_block options.blocksize mode r).data_block.length, 0⟩]⟩
          (load_block options.blocksize mode r)
          (serialize_packet_struct_data
            { block_number := c + 1, data := (load_block options.blocksize mode r).data_block }
            (load_block options.blocksize mode r).data_block.length)
          ((c + 1) % 65536)
      else some (0, ⟨src, rest, s⟩) := by
  have hA : serialize_packet_struct_ack { block_number := c } =
      serialize_packet_struct_ack { block_number := c % 65536 } := by
    simp only [serialize_packet_struct_ack, short_to_chars_mod]
  have hD : ∀ (d : List Nat) (k : Nat),
      serialize_packet_struct_data { block_number := (c + 1) % 65536 % 65536, data := d } k =
        serialize_packet_struct_data { block_number := c + 1, data := d } k := by
    intro d k
    simp only [serialize_packet_struct_data, Nat.mod_mod, short_to_chars_mod]
  have hs : (c % 65536 + 1) % 65536 = (c + 1) % 65536 := by omega
  rw [hA, read_from_file_loop_ack options mode tid fuel a src rest s r pkt (c % 65536) hacc
    (Nat.mod_lt _ (by decide))]
  simp only [hs, send_data, sendto, hD]

/-- NETASCII sending from any block on, once the block with the first `B` bytes of the
stream `T` has been sent, for any number of blocks: every acknowledgement releases the
next `B` bytes of the stream until a block shorter than the block size; the block number
on the wire is the count of the blocks modulo 65536. -/
theorem read_from_file_loop_netascii_mod (options : option_info_t) (tid : Int)
    (src : Endpoint) (rest : List NetEvent)
    (hacc : ((src.port : Nat) : Int) = tid ∨ tid = TID_NOT_SET_YET)
    (hB : 1 ≤ options.blocksize) :
    ∀ (m : Nat) (T : List Nat) (r : reader_t) (c fuel : Nat) (a : Endpoint) (s : List Sent)
      (pkt : List Nat),
      r.data_block = T.take options.blocksize →
      carried_byte r ++ to_netascii r.file = T.drop options.blocksize →
      ¬ (r.lf_on_new = true ∧ r.null_on_new = true) →
      T.length / options.blocksize = m → m + 1 ≤ fuel →
      read_from_file_loop options MODE_NETASCII tid fuel
          ⟨a, ack_datagrams src c (m + 1) ++ rest, s⟩ r pkt (c % 65536) =
        some (0, ⟨src, rest,
          s ++ data_sends src options.blocksize (T.drop options.blocksize) (c + 1) m⟩) := by
  intro m
  induction m with
  | zero =>
      intro T r c fuel a s pkt hdb hst hv hm hfuel
      obtain ⟨f, rfl⟩ : ∃ f, fuel = f + 1 := ⟨fuel - 1, by omega⟩
      have hlen : T.length < options.blocksize := by
        exact (Nat.div_eq_zero_iff (by omega)).mp hm
      simp only [ack_datagrams, Nat.zero_add, List.range'_one, List.map_cons, List.map_nil,
        List.cons_append, List.nil_append]
      rw [read_from_file_loop_ack_mod options MODE_NETASCII tid f a src rest s _ pkt c hacc]
      simp [data_sends, hdb, List.length_take, hlen]
  | succ m ih =>
      intro T r c fuel a s pkt hdb hst hv hm hfuel
      obtain ⟨f, rfl⟩ : ∃ f, fuel = f + 1 := ⟨fuel - 1, by omega⟩
      have hlen : options.blocksize ≤ T.length := by
        by_contra h
        have : T.length / options.blocksize = 0 := Nat.div_eq_of_lt (by omega)
        omega
      have hm2 : (T.drop options.blocksize).length / options.blocksize = m := by
        rw [List.length_drop]
        have := Nat.sub_mul_div T.length options.blocksize 1 (by simpa using hlen)
        simp only [Nat.mul_one] at this
        omega
      simp only [ack_datagrams, List.range'_succ c, List.map_cons, List.cons_append]
      rw [read_from_file_loop_ack_mod options MODE_NETASCII tid f a src _ s _ pkt c hacc]
      have htake : r.data_block.length = options.blocksize := by
        rw [hdb]; simp [List.length_take, hlen]
      obtain ⟨l1, l2, l3⟩ := load_block_netascii options.blocksize hB r hv
      rw [hst] at l1 l2
      simp only [htake, ge_iff_le, le_refl, if_true]
      have := ih (T.drop options.blocksize) (load_block options.blocksize MODE_NETASCII r)
        (c + 1) f src
        (s ++ [⟨src, serialize_packet_struct_data
          { block_number := c + 1,
            data := (load_block options.blocksize MODE_NETASCII r).data_block }
          (load_block options.blocksize MODE_NETASCII r).data_block.length, 0⟩])
        (serialize_packet_struct_data
          { block_number := c + 1,
            data := (load_block options.blocksize MODE_NETASCII r).data_block }
          (load_block options.blocksize MODE_NETASCII r).data_block.length)
        l1 l2 l3 hm2 (by omega)
      simp only [ack_datagrams] at this
      rw [this, data_sends_succ, l1]
      simp

/-- C21. NETASCII encoding across blocks, for a file of any length: `T` is the translation
of the file in which LF becomes CR LF, CR becomes CR NUL and every other byte stays. For a
block size `B ≥ 1`, when the peer acknowledges the blocks in turn (the block numbers on
the wire are the count of the blocks modulo 65536, in the DATA packets and in the
acknowledgements alike), `read_from_file` in NETASCII mode returns 0 having sent exactly
`T.length / B + 1` DATA packets, the `k`-th carrying the bytes `k * B ..` of `T`: every
payload but the last has `B` bytes and the payloads concatenated are `T`. When the CR of a
pair is the last byte of a block, the second byte of the pair (LF or NUL) is the first
byte of the next block. -/
theorem read_from_file_netascii_stream (options : option_info_t) (tid : Int)
    (peer : Endpoint) (rest : List NetEvent) (s : List Sent) (file : List Nat)
    (hacc : ((peer.port : Nat) : Int) = tid ∨ tid = TID_NOT_SET_YET)
    (hB : 1 ≤ options.blocksize) :
    read_from_file
        ⟨peer, ack_datagrams peer 1 ((to_netascii file).length / options.blocksize + 1) ++
          rest, s⟩
        file options MODE_NETASCII tid =
      some (0, ⟨peer, rest,
        s ++ data_sends peer options.blocksize (to_netascii file) 1
          ((to_netascii file).length / options.blocksize + 1)⟩) ∧
    (∀ k, k < (to_netascii file).length / options.blocksize →
      (((to_netascii file).drop (k * options.blocksize)).take options.blocksize).length =
        options.blocksize) ∧
    ((List.range ((to_netascii file).length / options.blocksize + 1)).map fun k =>
      ((to_netascii file).drop (k * options.blocksize)).take options.blocksize).flatten =
        to_netascii file ∧
    (∀ (pre post : List Nat) (k : Nat), file = pre ++ LF_VALUE :: post →
      (to_netascii pre).length + 1 = (k + 1) * options.blocksize →
      (((to_netascii file).drop (k * options.blocksize)).take
          options.blocksize).getLast? = some CR_VALUE ∧
      (((to_netascii file).drop ((k + 1) * options.blocksize)).take
          options.blocksize).head? = some LF_VALUE) ∧
    (∀ (pre post : List Nat) (k : Nat), file = pre ++ CR_VALUE :: post →
      (to_netascii pre).length + 1 = (k + 1) * options.blocksize →
      (((to_netascii file).drop (k * options.blocksize)).take
          options.blocksize).getLast? = some CR_VALUE ∧
      (((to_netascii file).drop ((k + 1) * options.blocksize)).take
          options.blocksize).head? = some 0) := by
  refine ⟨?_, ?_, chunks_flatten _ hB _ _ rfl, ?_, ?_⟩
  · have hv : ¬ (({ file := file } : reader_t).lf_on_new = true ∧
        ({ file := file } : reader_t).null_on_new = true) := by simp
    obtain ⟨l1, l2, l3⟩ := load_block_netascii options.blocksize hB { file := file } hv
    have hc : carried_byte { file := file } = [] := rfl
    rw [hc, List.nil_append] at l1 l2
    unfold read_from_file
    simp only [send_data, sendto]
    have h1 : (1 : Nat) = 1 % 65536 := rfl
    rw [h1, read_from_file_loop_netascii_mod options tid peer rest hacc hB
      ((to_netascii file).length / options.blocksize) (to_netascii file) _ 1 _ peer _ _
      l1 l2 l3 rfl (by simp [ack_datagrams]; omega)]
    rw [data_sends_succ, l1]
    simp
  · intro k hk
    have h1 : (k + 1) * options.blocksize ≤ (to_netascii file).length :=
      le_trans (Nat.mul_le_mul_right _ hk) (Nat.div_mul_le_self _ _)
    rw [List.length_take, List.length_drop]
    have : (k + 1) * options.blocksize = k * options.blocksize + options.blocksize := by ring
    omega
  · intro pre post k hfile hpos
    have hT : to_netascii file =
        to_netascii pre ++ CR_VALUE :: LF_VALUE :: to_netascii post := by
      rw [hfile, to_netascii_append]
      simp [to_netascii]
    rw [hT]
    exact pair_at_block_end _ k hB _ _ _ _ hpos
  · intro pre post k hfile hpos
    have hne : ¬ CR_VALUE = LF_VALUE := by decide
    have hT : to_netascii file =
        to_netascii pre ++ CR_VALUE :: 0 :: to_netascii post := by
      rw [hfile, to_netascii_append]
      simp [to_netascii, hne]
    rw [hT]
    exact pair_at_block_end _ k hB _ _ _ _ hpos

end Tftp

namespace Tftp

theorem read_from_file_netascii_stream_witness :
    read_from_file
        ⟨⟨1, 5000⟩,
          ack_datagrams ⟨1, 5000⟩ 1
            ((to_netascii [1, 2, 3, 4, 5, 6, 7, 13, 9]).length / (8 : Nat) + 1) ++ [], []⟩
        [1, 2, 3, 4, 5, 6, 7, 13, 9] { blocksize := 8 } MODE_NETASCII 5000 =
      some (0, ⟨⟨1, 5000⟩, [],
        [] ++ data_sends ⟨1, 5000⟩ 8 (to_netascii [1, 2, 3, 4, 5, 6, 7, 13, 9]) 1
          ((to_netascii [1, 2, 3, 4, 5, 6, 7, 13, 9]).length / (8 : Nat) + 1)⟩) ∧
    (∀ k, k < (to_netascii [1, 2, 3, 4, 5, 6, 7, 13, 9]).length / (8 : Nat) →
      (((to_netascii [1, 2, 3, 4, 5, 6, 7, 13, 9]).drop (k * 8)).take 8).length = 8) ∧
    ((List.range ((to_netascii [1, 2, 3, 4, 5, 6, 7, 13, 9]).length / (8 : Nat) + 1)).map fun k =>
      ((to_netascii [1, 2, 3, 4, 5, 6, 7, 13, 9]).drop (k * 8)).take 8).flatten =
        (to_netascii [1, 2, 3, 4, 5, 6, 7, 13, 9]) ∧
    (∀ (pre post : List Nat) (k : Nat), [1, 2, 3, 4, 5, 6, 7, 13, 9] = pre ++ LF_VALUE :: post →
      (to_netascii pre).length + 1 = (k + 1) * 8 →
      (((to_netascii [1, 2, 3, 4, 5, 6, 7, 13, 9]).drop (k * 8)).take 8).getLast? =
        some CR_VALUE ∧
      (((to_netascii [1, 2, 3, 4, 5, 6, 7, 13, 9]).drop ((k + 1) * 8)).take 8).head? =
        some LF_VALUE) ∧
    (∀ (pre post : List Nat) (k : Nat), [1, 2, 3, 4, 5, 6, 7, 13, 9] = pre ++ CR_VALUE :: post →
      (to_netascii pre).length + 1 = (k + 1) * 8 →
      (((to_netascii [1, 2, 3, 4, 5, 6, 7, 13, 9]).drop (k * 8)).take 8).getLast? =
        some CR_VALUE ∧
      (((to_netascii [1, 2, 3, 4, 5, 6, 7, 13, 9]).drop ((k + 1) * 8)).take 8).head? = some 0) :=
  read_from_file_netascii_stream { blocksize := 8 } 5000 ⟨1, 5000⟩ [] []
    [1, 2, 3, 4, 5, 6, 7, 13, 9] (Or.inl rfl) (by decide)

end Tftp

namespace Tftp

/-! ## The flags of the copies of the last ACK -/

/-- C25. A transfer with block size 8 in octet mode: the peer sends the last block DATA(1)
and, its acknowledgement lost, sends it twice more before the line goes silent.
`write_to_file` returns success and has called `sendto` for a copy of ACK(1) once for
each retransmission, but it passes the index of its loop as the flags: the first copy
goes out with the flags 0, the second with the flags 1, which is `MSG_OOB`, and a UDP
socket refuses that call. Of the two copies only one is sent: ACK(1) reaches the wire
twice, not three times. With one retransmission the one copy is sent. -/
theorem final_ack_copy_refused :
    write_to_file
        ⟨⟨1, 5000⟩, List.replicate 3 (.datagram ⟨1, 5000⟩ [0, 3, 0, 1, 9]), []⟩
        { blocksize := 8 } [] [0, 4, 0, 0] MODE_OCTET 5000 1 [] =
      some (PROG_RET_CODE_OK,
        ⟨⟨1, 5000⟩, [],
          [⟨⟨1, 5000⟩, [0, 4, 0, 1], 0⟩, ⟨⟨1, 5000⟩, [0, 4, 0, 1], 0⟩,
           ⟨⟨1, 5000⟩, [0, 4, 0, 1], 1⟩]⟩, [9]) ∧
    udp_carries_out 1 = false ∧
    packets_sent
        [⟨⟨1, 5000⟩, [0, 4, 0, 1], 0⟩, ⟨⟨1, 5000⟩, [0, 4, 0, 1], 0⟩,
         ⟨⟨1, 5000⟩, [0, 4, 0, 1], 1⟩] =
      [⟨⟨1, 5000⟩, [0, 4, 0, 1], 0⟩, ⟨⟨1, 5000⟩, [0, 4, 0, 1], 0⟩] ∧
    (write_to_file
        ⟨⟨1, 5000⟩, List.replicate 2 (.datagram ⟨1, 5000⟩ [0, 3, 0, 1, 9]), []⟩
        { blocksize := 8 } [] [0, 4, 0, 0] MODE_OCTET 5000 1 []).map
          (fun r => packets_sent r.2.1.sent) =
      some [⟨⟨1, 5000⟩, [0, 4, 0, 1], 0⟩, ⟨⟨1, 5000⟩, [0, 4, 0, 1], 0⟩] := by
  decide

/-! ## An ERROR packet during the wait after the last block -/

/-- C26. A transfer with block size 8 in octet mode: the peer `1:5000` sends the last
block DATA(1), which is acknowledged, and then an ERROR packet, with any code and
message. In the wait after the last block the opcode is not looked at: the ERROR packet
is answered with a copy of ACK(1) and `write_to_file` returns success, with the block in
the file. An ERROR packet that arrives in place of DATA(1) ends `write_to_file` with
`PROG_RET_CODE_ERR` and nothing sent. -/
theorem peer_error_acknowledged_after_final_block (tail beyond : List Nat) :
    write_to_file
        ⟨⟨1, 5000⟩, [.datagram ⟨1, 5000⟩ [0, 3, 0, 1, 9], .datagram ⟨1, 5000⟩ (0 :: 5 :: tail)],
          []⟩
        { blocksize := 8 } [] [0, 4, 0, 0] MODE_OCTET 5000 1 beyond =
      some (PROG_RET_CODE_OK,
        ⟨⟨1, 5000⟩, [],
          [⟨⟨1, 5000⟩, [0, 4, 0, 1], 0⟩, ⟨⟨1, 5000⟩, [0, 4, 0, 1], 0⟩]⟩, [9]) ∧
    write_to_file
        ⟨⟨1, 5000⟩, [.datagram ⟨1, 5000⟩ [0, 5, 0, 1, 110, 111, 0]], []⟩
        { blocksize := 8 } [] [0, 4, 0, 0] MODE_OCTET 5000 1 [] =
      some (PROG_RET_CODE_ERR, ⟨⟨1, 5000⟩, [], []⟩, []) := by
  have hD : serialize_packet_struct_data { block_number := 1, data := [9] } [9].length =
      [0, 3, 0, 1, 9] := by decide
  have hA : serialize_packet_struct_ack { block_number := 1 } = [0, 4, 0, 1] := by decide
  have hmode : MODE_OCTET ≠ MODE_NETASCII := by decide
  have hl : ([9] : List Nat).length < ({ blocksize := 8 } : option_info_t).blocksize := by
    decide
  have hto : ∀ n : Nat, ¬ ((n : Int) = ERR_CODE_TIMEOUT) := by
    intro n; unfold ERR_CODE_TIMEOUT; omega
  constructor
  · have h := write_to_file_loop_octet { blocksize := 8 } MODE_OCTET 5000 beyond 2 ⟨1, 5000⟩
      ⟨1, 5000⟩ [9] [.datagram ⟨1, 5000⟩ (0 :: 5 :: tail)] [] [] [0, 4, 0, 0] 1 hmode
      (Or.inl rfl) (by decide) (by decide) (Nat.le_of_lt hl)
    rw [if_pos hl, hD, hA] at h
    unfold write_to_file
    refine h.trans ?_
    have h3 : MAX_RETRANSMIT_ATTEMPTS = 2 + 1 := rfl
    rw [h3, final_ack_loop]
    simp only [recvfrom_timeout, recv_outcome, hto, if_false, sendto, List.nil_append]
    rw [final_ack_loop_quiet _ _ _ 1 1 ⟨1, 5000⟩ _ [] (Or.inl rfl)]
    rfl
  · decide

end Tftp

namespace Tftp

/-! ## Datagrams that fill the buffer -/

end Tftp
